import Mathlib

/-!
The STM32H7 OTG_HS device driver of libusb_dev_cpp, and its configuration
descriptor.

A shallow embedding of `src/driver/stm32/stm32_h7xx_otghs2.cpp` (namespace
`stm32_h7xx_otghs2`) and of `src/descriptor/Configuration_descriptor.cpp`
(namespace `Configuration_descriptor`).

* The memory-mapped registers are a record of naturals (`Regs`); a register
  read returns the last value written ("a register bank that stores what is
  written").  Per-endpoint register blocks and the `DIEPTXF[]` array are
  functions from the index to the register value.  The one exception is
  `GINTSTS`, whose bits are cleared by writing 1 to them (`write_GINTSTS`):
  `ep_read` reads the register again after `poll` has acknowledged bits in it.
* `Sys` puts the driver in its surroundings: the further registers of the
  interrupt path, the receive FIFO as the list of words the core hands out,
  the transmit FIFOs as the lists of words written, the buffer pools, and the
  calls of the upper-layer callback as a list of events.  A call through a
  null buffer pointer is the result `none`.
* Loops run for their exact trip count; the `uint8_t` counter of the
  unconfigure loop of `handle_reset_done` takes `MAX_NUM_EP < 255`.
* `uint32_t` values are naturals; the CMSIS field macros mask with a 32-bit
  mask, so every value written to a register is below `2^32`.
* The class constants `MAX_NUM_EP`, `RX_FIFO_SIZE` and `MAX_FIFO_LEN_U8` are
  declared in the driver's header, which is not among the sources; they are
  parameters of the functions that use them.
* Logging calls have no effect on the driver and are left out.
-/

namespace stm32_h7xx_otghs2

/-! ## CMSIS field macros and `Register_util` -/

/-- CMSIS `_VAL2FLD(field, value)`: `((uint32_t)(value) << field_Pos) & field_Msk`.
The mask is a 32-bit constant, so the 32-bit truncation of the shift is
subsumed by the mask. -/
def VAL2FLD (pos msk value : Nat) : Nat := (value <<< pos) &&& msk

/-- CMSIS `_FLD2VAL(field, value)`: `((uint32_t)(value) & field_Msk) >> field_Pos`. -/
def FLD2VAL (pos msk value : Nat) : Nat := (value &&& msk) >>> pos

/-- The 32-bit complement `~bits` of a `uint32_t`. -/
def not32 (bits : Nat) : Nat := 0xFFFFFFFF ^^^ (bits % 2 ^ 32)

/-- The function `Register_util::set_bits(reg, bits)`: `*reg |= bits`. -/
def set_bits (reg bits : Nat) : Nat := reg ||| bits

/-- The function `Register_util::clear_bits(reg, bits)`: `*reg &= ~bits`. -/
def clear_bits (reg bits : Nat) : Nat := reg &&& not32 bits

/-- The function `Register_util::mask_set_bits(reg, mask, val)`:
`*reg = (*reg & ~mask) | val`. -/
def mask_set_bits (reg mask val : Nat) : Nat := (reg &&& not32 mask) ||| val

/-- Write `v` at index `i` of a register array. -/
def setReg (f : Nat → Nat) (i v : Nat) : Nat → Nat := fun j => if j = i then v else f j

/-! ### Bit positions and masks (STM32H7 CMSIS device header) -/

def USB_OTG_TX0FSA_Pos : Nat := 0
def USB_OTG_TX0FSA_Msk : Nat := 0x0000FFFF
def USB_OTG_TX0FD_Pos : Nat := 16
def USB_OTG_TX0FD_Msk : Nat := 0xFFFF0000
def USB_OTG_DIEPTXF_INEPTXSA_Pos : Nat := 0
def USB_OTG_DIEPTXF_INEPTXSA_Msk : Nat := 0x0000FFFF
def USB_OTG_DIEPTXF_INEPTXFD_Pos : Nat := 16
def USB_OTG_DIEPTXF_INEPTXFD_Msk : Nat := 0xFFFF0000

def USB_OTG_DIEPCTL_MPSIZ_Pos : Nat := 0
def USB_OTG_DIEPCTL_MPSIZ_Msk : Nat := 0x000007FF
def USB_OTG_DIEPCTL_USBAEP : Nat := 0x00008000
def USB_OTG_DIEPCTL_EPTYP_Pos : Nat := 18
def USB_OTG_DIEPCTL_EPTYP_Msk : Nat := 0x000C0000
def USB_OTG_DIEPCTL_STALL : Nat := 0x00200000
def USB_OTG_DIEPCTL_TXFNUM_Pos : Nat := 22
def USB_OTG_DIEPCTL_TXFNUM_Msk : Nat := 0x03C00000
def USB_OTG_DIEPCTL_CNAK : Nat := 0x04000000
def USB_OTG_DIEPCTL_SNAK : Nat := 0x08000000
def USB_OTG_DIEPCTL_SD0PID_SEVNFRM : Nat := 0x10000000
def USB_OTG_DIEPCTL_EPDIS : Nat := 0x40000000
def USB_OTG_DIEPCTL_EPENA : Nat := 0x80000000

def USB_OTG_DOEPCTL_MPSIZ_Pos : Nat := 0
def USB_OTG_DOEPCTL_MPSIZ_Msk : Nat := 0x000007FF
def USB_OTG_DOEPCTL_USBAEP : Nat := 0x00008000
def USB_OTG_DOEPCTL_EPTYP_Pos : Nat := 18
def USB_OTG_DOEPCTL_EPTYP_Msk : Nat := 0x000C0000
def USB_OTG_DOEPCTL_STALL : Nat := 0x00200000
def USB_OTG_DOEPCTL_CNAK : Nat := 0x04000000
def USB_OTG_DOEPCTL_SNAK : Nat := 0x08000000
def USB_OTG_DOEPCTL_SD0PID_SEVNFRM : Nat := 0x10000000
def USB_OTG_DOEPCTL_EPDIS : Nat := 0x40000000
def USB_OTG_DOEPCTL_EPENA : Nat := 0x80000000

def USB_OTG_DIEPTSIZ_XFRSIZ_Pos : Nat := 0
def USB_OTG_DIEPTSIZ_XFRSIZ_Msk : Nat := 0x0007FFFF
def USB_OTG_DIEPTSIZ_PKTCNT_Pos : Nat := 19
def USB_OTG_DIEPTSIZ_PKTCNT_Msk : Nat := 0x1FF80000
def USB_OTG_DOEPTSIZ_XFRSIZ_Pos : Nat := 0
def USB_OTG_DOEPTSIZ_XFRSIZ_Msk : Nat := 0x0007FFFF
def USB_OTG_DOEPTSIZ_PKTCNT : Nat := 0x1FF80000
def USB_OTG_DOEPTSIZ_STUPCNT_Pos : Nat := 29
def USB_OTG_DOEPTSIZ_STUPCNT_Msk : Nat := 0x60000000

def USB_OTG_DAINTMSK_IEPM_Pos : Nat := 0
def USB_OTG_DAINTMSK_IEPM_Msk : Nat := 0x0000FFFF
def USB_OTG_DAINTMSK_OEPM_Pos : Nat := 16
def USB_OTG_DAINTMSK_OEPM_Msk : Nat := 0xFFFF0000

def USB_OTG_GRSTCTL_TXFFLSH : Nat := 0x00000020
def USB_OTG_GRSTCTL_TXFNUM_Pos : Nat := 6
def USB_OTG_GRSTCTL_TXFNUM_Msk : Nat := 0x000007C0

/-! ## Driver state -/

/-- The registers of the OTG_HS core the modelled functions touch: the global
block (`OTG->`), the device block (`OTGD->`) and the per-endpoint IN and OUT
blocks (`get_ep_in(ep)->`, `get_ep_out(ep)->`), indexed by endpoint address.
The core has sixteen blocks per direction; `get_ep_in(16 + k)` is the address
of `get_ep_out(k)`, so entry `k` of an IN table stands for a register of its
own for `k < 16` only.  The stall functions, which take any address, go
through `read_EPCTL` and `write_EPCTL`. -/
structure Regs where
  GINTSTS : Nat
  GINTMSK : Nat
  GRSTCTL : Nat
  DIEPTXF0_HNPTXFSIZ : Nat
  DIEPTXF : Nat → Nat
  DAINTMSK : Nat
  DIEPCTL : Nat → Nat
  DIEPINT : Nat → Nat
  DIEPTSIZ : Nat → Nat
  DOEPCTL : Nat → Nat
  DOEPINT : Nat → Nat
  DOEPTSIZ : Nat → Nat

/-- The enumeration `usb_driver_base::EP_TYPE`. -/
inductive EP_TYPE where
  | UNCONF
  | CONTROL
  | ISOCHRONUS
  | BULK
  | INTERRUPT
  deriving DecidableEq, Repr

/-- The record `usb_driver_base::ep_cfg`: endpoint number (with direction bit),
max packet size and type. -/
structure ep_cfg where
  num : Nat
  size : Nat
  type : EP_TYPE
  deriving DecidableEq, Repr

/-- The driver object: the hardware registers together with the recorded
endpoint configurations `m_ep0_cfg`, `m_rx_ep_cfg`, `m_tx_ep_cfg`. -/
structure Driver where
  regs : Regs
  m_ep0_cfg : ep_cfg
  m_rx_ep_cfg : Nat → ep_cfg
  m_tx_ep_cfg : Nat → ep_cfg

/-- Modelled from the spec: `USB_common::get_ep_addr` (usb_common.hpp is not
among the sources).  An endpoint is "identified by a direction bit and a 0..N
address"; the address is the endpoint number without the direction bit 0x80. -/
def get_ep_addr (ep : Nat) : Nat := ep &&& 0x7F

/-- Modelled from the spec: `USB_common::is_in_ep` (usb_common.hpp is not among
the sources).  The direction bit 0x80 marks an IN endpoint. -/
def is_in_ep (ep : Nat) : Bool := (ep &&& 0x80) != 0

/-! ## The transmit FIFO allocator -/

/-- The loop `for(size_t i = 1; i <= ep; i++)` of `config_ep_tx_fifo`, with `n`
iterations left, loop counter `i` and running offset `fsa`.  Returns `false`
with the registers as they are when the capacity check fails. -/
def config_ep_tx_fifo_loop (MAX_FIFO_LEN_U8 ep fifo_len : Nat) :
    Nat → Nat → Nat → Regs → Bool × Regs
  | 0, _, _, r => (true, r)
  | n + 1, i, fsa, r =>
    if i = ep then
      let len32 := (fifo_len + 3) / 4
      let fsa := if fsa % 4 ≠ 0 then fsa + (4 - fsa % 4) else fsa
      if fsa + len32 * 4 > MAX_FIFO_LEN_U8 then
        (false, r)
      else
        let v := VAL2FLD USB_OTG_DIEPTXF_INEPTXFD_Pos USB_OTG_DIEPTXF_INEPTXFD_Msk len32 |||
          VAL2FLD USB_OTG_DIEPTXF_INEPTXSA_Pos USB_OTG_DIEPTXF_INEPTXSA_Msk fsa
        config_ep_tx_fifo_loop MAX_FIFO_LEN_U8 ep fifo_len n (i + 1) fsa
          { r with DIEPTXF := setReg r.DIEPTXF (i - 1) v }
    else
      let DIEPTXF := r.DIEPTXF (i - 1)
      let i_fsa := FLD2VAL USB_OTG_DIEPTXF_INEPTXSA_Pos USB_OTG_DIEPTXF_INEPTXSA_Msk DIEPTXF
      let i_fd := FLD2VAL USB_OTG_DIEPTXF_INEPTXFD_Pos USB_OTG_DIEPTXF_INEPTXFD_Msk DIEPTXF
      config_ep_tx_fifo_loop MAX_FIFO_LEN_U8 ep fifo_len n (i + 1) (i_fd + i_fsa) r

/-- The method `stm32_h7xx_otghs2::config_ep_tx_fifo(ep, len)`.  The result is
the returned flag and the registers after the call.  In the endpoint-0 branch
`fsa` is a `uint32_t` initialised from the class constant `RX_FIFO_SIZE`, and
the sums are 32-bit; in the other branch `fsa` is a sum of two 16-bit fields
and `len <= 2048`, so no sum reaches `2^32`. -/
def config_ep_tx_fifo (MAX_NUM_EP RX_FIFO_SIZE MAX_FIFO_LEN_U8 : Nat)
    (ep len : Nat) (r : Regs) : Bool × Regs :=
  if ep ≠ 0 then
    if ep > MAX_NUM_EP then
      (false, r)
    else
      let fifo_len := if len < 64 then 64 else len
      if len > 2048 then
        (false, r)
      else
        let ep0_fsa := FLD2VAL USB_OTG_TX0FSA_Pos USB_OTG_TX0FSA_Msk r.DIEPTXF0_HNPTXFSIZ
        let ep0_fd := FLD2VAL USB_OTG_TX0FD_Pos USB_OTG_TX0FD_Msk r.DIEPTXF0_HNPTXFSIZ
        config_ep_tx_fifo_loop MAX_FIFO_LEN_U8 ep fifo_len ep 1 (ep0_fsa + ep0_fd) r
  else
    if len < 64 ∨ len > 1024 then
      (false, r)
    else
      let len32 := (len + 3) / 4
      let fsa := RX_FIFO_SIZE % 2 ^ 32
      let fsa := if fsa % 4 ≠ 0 then (fsa + (4 - fsa % 4)) % 2 ^ 32 else fsa
      if (fsa + len32 * 4) % 2 ^ 32 > MAX_FIFO_LEN_U8 then
        (false, r)
      else
        let v := VAL2FLD USB_OTG_TX0FD_Pos USB_OTG_TX0FD_Msk len32 |||
          VAL2FLD USB_OTG_TX0FSA_Pos USB_OTG_TX0FSA_Msk fsa
        (true, { r with DIEPTXF0_HNPTXFSIZ := v })

/-- The transmit window of endpoint `i` as recorded in its window register:
`DIEPTXF0_HNPTXFSIZ` for endpoint 0, `DIEPTXF[i-1]` otherwise. -/
def window_reg (r : Regs) (i : Nat) : Nat :=
  if i = 0 then r.DIEPTXF0_HNPTXFSIZ else r.DIEPTXF (i - 1)

/-- Start offset (low 16 bits) of the window of endpoint `i`. -/
def window_start (r : Regs) (i : Nat) : Nat :=
  FLD2VAL USB_OTG_DIEPTXF_INEPTXSA_Pos USB_OTG_DIEPTXF_INEPTXSA_Msk (window_reg r i)

/-- Depth in words (high 16 bits) of the window of endpoint `i`. -/
def window_depth (r : Regs) (i : Nat) : Nat :=
  FLD2VAL USB_OTG_DIEPTXF_INEPTXFD_Pos USB_OTG_DIEPTXF_INEPTXFD_Msk (window_reg r i)

/-- Configure the transmit windows of endpoints `0, 1, ..., k` in increasing
order with requested sizes `len 0, ..., len k`, stopping at the first call that
fails.  The flag tells whether every call returned `true`. -/
def config_in_order (MAX_NUM_EP RX_FIFO_SIZE MAX_FIFO_LEN_U8 : Nat) (len : Nat → Nat) :
    Nat → Regs → Bool × Regs
  | 0, r => config_ep_tx_fifo MAX_NUM_EP RX_FIFO_SIZE MAX_FIFO_LEN_U8 0 (len 0) r
  | k + 1, r =>
    let prev := config_in_order MAX_NUM_EP RX_FIFO_SIZE MAX_FIFO_LEN_U8 len k r
    if prev.1 then
      config_ep_tx_fifo MAX_NUM_EP RX_FIFO_SIZE MAX_FIFO_LEN_U8 (k + 1) (len (k + 1)) prev.2
    else
      prev

/-- A register bank with every register zero. -/
def zeroRegs : Regs :=
  { GINTSTS := 0, GINTMSK := 0, GRSTCTL := 0, DIEPTXF0_HNPTXFSIZ := 0,
    DIEPTXF := fun _ => 0, DAINTMSK := 0, DIEPCTL := fun _ => 0, DIEPINT := fun _ => 0,
    DIEPTSIZ := fun _ => 0, DOEPCTL := fun _ => 0, DOEPINT := fun _ => 0,
    DOEPTSIZ := fun _ => 0 }

/-! ## Endpoint configuration -/

/-- The size tier and the `MPSIZ` code `ep_config` picks for control endpoint 0
from the requested size (the `if / else if` chain on `ep.size`). -/
def ep0_tier (size : Nat) : Nat × Nat :=
  if size ≤ 8 then (8, 3)
  else if size ≤ 16 then (16, 2)
  else if size ≤ 32 then (32, 1)
  else (64, 0)

/-- The value `ep_config` writes to `DIEPCTL` of a non-zero IN endpoint, or
`none` for the `default:` case of the `switch(ep.type)`. -/
def diepctl_value (ep_addr : Nat) (ep : ep_cfg) : Option Nat :=
  match ep.type with
  | EP_TYPE.ISOCHRONUS => some (
      USB_OTG_DIEPCTL_SNAK |||
      VAL2FLD USB_OTG_DIEPCTL_TXFNUM_Pos USB_OTG_DIEPCTL_TXFNUM_Msk ep_addr |||
      VAL2FLD USB_OTG_DIEPCTL_EPTYP_Pos USB_OTG_DIEPCTL_EPTYP_Msk 0x01 |||
      USB_OTG_DIEPCTL_USBAEP |||
      VAL2FLD USB_OTG_DIEPCTL_MPSIZ_Pos USB_OTG_DIEPCTL_MPSIZ_Msk ep.size)
  | EP_TYPE.INTERRUPT => some (
      USB_OTG_DIEPCTL_SD0PID_SEVNFRM |||
      USB_OTG_DIEPCTL_SNAK |||
      VAL2FLD USB_OTG_DIEPCTL_TXFNUM_Pos USB_OTG_DIEPCTL_TXFNUM_Msk ep_addr |||
      VAL2FLD USB_OTG_DIEPCTL_EPTYP_Pos USB_OTG_DIEPCTL_EPTYP_Msk 0x03 |||
      USB_OTG_DIEPCTL_USBAEP |||
      VAL2FLD USB_OTG_DIEPCTL_MPSIZ_Pos USB_OTG_DIEPCTL_MPSIZ_Msk ep.size)
  | EP_TYPE.BULK => some (
      USB_OTG_DIEPCTL_SD0PID_SEVNFRM |||
      USB_OTG_DIEPCTL_SNAK |||
      VAL2FLD USB_OTG_DIEPCTL_TXFNUM_Pos USB_OTG_DIEPCTL_TXFNUM_Msk ep_addr |||
      VAL2FLD USB_OTG_DIEPCTL_EPTYP_Pos USB_OTG_DIEPCTL_EPTYP_Msk 0x02 |||
      USB_OTG_DIEPCTL_USBAEP |||
      VAL2FLD USB_OTG_DIEPCTL_MPSIZ_Pos USB_OTG_DIEPCTL_MPSIZ_Msk ep.size)
  | _ => none

/-- The value `ep_config` writes to `DOEPCTL` of a non-zero OUT endpoint, or
`none` for the `default:` case of the `switch(ep.type)`.  The source mixes the
`DIEPCTL` and `DOEPCTL` names of the bits; they have the same values. -/
def doepctl_value (ep : ep_cfg) : Option Nat :=
  match ep.type with
  | EP_TYPE.ISOCHRONUS => some (
      USB_OTG_DOEPCTL_EPENA |||
      USB_OTG_DIEPCTL_CNAK |||
      VAL2FLD USB_OTG_DOEPCTL_EPTYP_Pos USB_OTG_DOEPCTL_EPTYP_Msk 0x01 |||
      USB_OTG_DIEPCTL_USBAEP |||
      VAL2FLD USB_OTG_DOEPCTL_MPSIZ_Pos USB_OTG_DOEPCTL_MPSIZ_Msk ep.size)
  | EP_TYPE.INTERRUPT => some (
      USB_OTG_DOEPCTL_EPENA |||
      USB_OTG_DIEPCTL_SD0PID_SEVNFRM |||
      USB_OTG_DIEPCTL_CNAK |||
      VAL2FLD USB_OTG_DOEPCTL_EPTYP_Pos USB_OTG_DOEPCTL_EPTYP_Msk 0x03 |||
      USB_OTG_DIEPCTL_USBAEP |||
      VAL2FLD USB_OTG_DOEPCTL_MPSIZ_Pos USB_OTG_DOEPCTL_MPSIZ_Msk ep.size)
  | EP_TYPE.BULK => some (
      USB_OTG_DOEPCTL_EPENA |||
      USB_OTG_DIEPCTL_SD0PID_SEVNFRM |||
      USB_OTG_DIEPCTL_CNAK |||
      VAL2FLD USB_OTG_DOEPCTL_EPTYP_Pos USB_OTG_DOEPCTL_EPTYP_Msk 0x02 |||
      USB_OTG_DIEPCTL_USBAEP |||
      VAL2FLD USB_OTG_DOEPCTL_MPSIZ_Pos USB_OTG_DOEPCTL_MPSIZ_Msk ep.size)
  | _ => none

/-- The method `stm32_h7xx_otghs2::ep_config(ep)`: the returned flag and the
driver after the call.  The three branches are endpoint address 0, a non-zero
IN endpoint and a non-zero OUT endpoint.  The OUT branch does not touch
`DAINTMSK` (the statement that would is commented out in the source). -/
def ep_config (MAX_NUM_EP RX_FIFO_SIZE MAX_FIFO_LEN_U8 : Nat) (ep : ep_cfg) (d : Driver) :
    Bool × Driver :=
  let ep_addr := get_ep_addr ep.num
  if ep_addr = 0 then
    if ep.type ≠ EP_TYPE.CONTROL then
      (false, d)
    else
      let tier := ep0_tier ep.size
      let m_ep0_cfg : ep_cfg := { ep with size := tier.1 }
      let mpsize := tier.2
      let r := d.regs
      let r := { r with DAINTMSK := r.DAINTMSK ||| 0x00010001 }
      let dieptsiz := VAL2FLD USB_OTG_DIEPTSIZ_PKTCNT_Pos USB_OTG_DIEPTSIZ_PKTCNT_Msk 0 |||
        VAL2FLD USB_OTG_DOEPTSIZ_XFRSIZ_Pos USB_OTG_DOEPTSIZ_XFRSIZ_Msk m_ep0_cfg.size
      let r := { r with DIEPTSIZ := setReg r.DIEPTSIZ ep_addr dieptsiz }
      let doeptsiz := VAL2FLD USB_OTG_DOEPTSIZ_STUPCNT_Pos USB_OTG_DOEPTSIZ_STUPCNT_Msk 3 |||
        USB_OTG_DOEPTSIZ_PKTCNT |||
        VAL2FLD USB_OTG_DOEPTSIZ_XFRSIZ_Pos USB_OTG_DOEPTSIZ_XFRSIZ_Msk m_ep0_cfg.size
      let r := { r with DOEPTSIZ := setReg r.DOEPTSIZ ep_addr doeptsiz }
      let diepctl := USB_OTG_DIEPCTL_SNAK |||
        VAL2FLD USB_OTG_DIEPCTL_EPTYP_Pos USB_OTG_DIEPCTL_EPTYP_Msk 0x00 |||
        USB_OTG_DIEPCTL_USBAEP |||
        VAL2FLD USB_OTG_DIEPCTL_MPSIZ_Pos USB_OTG_DIEPCTL_MPSIZ_Msk mpsize
      let r := { r with DIEPCTL := setReg r.DIEPCTL ep_addr diepctl }
      let doepctl := USB_OTG_DOEPCTL_EPENA ||| USB_OTG_DOEPCTL_CNAK
      let r := { r with DOEPCTL := setReg r.DOEPCTL ep_addr doepctl }
      (true, { d with regs := r, m_ep0_cfg := m_ep0_cfg })
  else if is_in_ep ep.num then
    let fifo := config_ep_tx_fifo MAX_NUM_EP RX_FIFO_SIZE MAX_FIFO_LEN_U8 ep_addr ep.size d.regs
    if !fifo.1 then
      (false, { d with regs := fifo.2 })
    else
      let r := fifo.2
      match diepctl_value ep_addr ep with
      | none => (false, { d with regs := r })
      | some v =>
        let r := { r with DIEPCTL := setReg r.DIEPCTL ep_addr v }
        let iepm := VAL2FLD USB_OTG_DAINTMSK_IEPM_Pos USB_OTG_DAINTMSK_IEPM_Msk (0x0001 <<< ep_addr)
        let r := { r with DAINTMSK := r.DAINTMSK ||| iepm }
        (true, { d with regs := r })
  else
    match doepctl_value ep with
    | none => (false, d)
    | some v =>
      let r := d.regs
      let r := { r with DOEPCTL := setReg r.DOEPCTL ep_addr v }
      (true, { d with regs := r })

/-- The method `stm32_h7xx_otghs2::flush_tx(ep)`.  The busy-waits on `GRSTCTL`
return once the core has cleared `TXFFLSH` (a self-clearing bit); the model
takes the core to have done so, which is the only change the core makes here. -/
def flush_tx (ep : Nat) (r : Regs) : Regs :=
  let g := clear_bits r.GRSTCTL USB_OTG_GRSTCTL_TXFFLSH
  let g := mask_set_bits g USB_OTG_GRSTCTL_TXFNUM_Msk
    (VAL2FLD USB_OTG_GRSTCTL_TXFNUM_Pos USB_OTG_GRSTCTL_TXFNUM_Msk ep ||| USB_OTG_GRSTCTL_TXFFLSH)
  let g := clear_bits g USB_OTG_GRSTCTL_TXFFLSH
  { r with GRSTCTL := g }

/-- The value `ep_unconfig` writes to `DIEPINT`: bits 13, 11 and 8 to 0. -/
def DIEPINT_CLEAR_ALL : Nat :=
  (1 <<< 13) ||| (1 <<< 11) ||| (1 <<< 8) ||| (1 <<< 7) ||| (1 <<< 6) ||| (1 <<< 5) |||
  (1 <<< 4) ||| (1 <<< 3) ||| (1 <<< 2) ||| (1 <<< 1) ||| (1 <<< 0)

/-- The value `ep_unconfig` writes to `DOEPINT`: bits 14, 13, 12 and 8 to 0. -/
def DOEPINT_CLEAR_ALL : Nat :=
  (1 <<< 14) ||| (1 <<< 13) ||| (1 <<< 12) ||| (1 <<< 8) ||| (1 <<< 7) ||| (1 <<< 6) |||
  (1 <<< 5) ||| (1 <<< 4) ||| (1 <<< 3) ||| (1 <<< 2) ||| (1 <<< 1) ||| (1 <<< 0)

/-- The method `stm32_h7xx_otghs2::ep_unconfig(ep)`; it always returns `true`,
the result is the driver after the call.  `0x00010001 << ep_addr` is taken
modulo `2^32` by the complement. -/
def ep_unconfig (ep : Nat) (d : Driver) : Driver :=
  let ep_addr := get_ep_addr ep
  let r := d.regs
  let r := { r with DAINTMSK := r.DAINTMSK &&& not32 (0x00010001 <<< ep_addr) }
  let v := clear_bits (r.DIEPCTL ep_addr) USB_OTG_DIEPCTL_USBAEP
  let r := { r with DIEPCTL := setReg r.DIEPCTL ep_addr v }
  let r := flush_tx ep_addr r
  let r :=
    if ep_addr ≠ 0 ∧ (r.DIEPCTL ep_addr &&& USB_OTG_DIEPCTL_EPENA) ≠ 0 then
      let v := set_bits (r.DIEPCTL ep_addr) USB_OTG_DIEPCTL_EPDIS
      { r with DIEPCTL := setReg r.DIEPCTL ep_addr v }
    else r
  let r := { r with DIEPINT := setReg r.DIEPINT ep_addr DIEPINT_CLEAR_ALL }
  let r :=
    if ep_addr ≠ 0 then
      let v := VAL2FLD USB_OTG_DIEPTXF_INEPTXFD_Pos USB_OTG_DIEPTXF_INEPTXFD_Msk 0x0200 |||
        VAL2FLD USB_OTG_DIEPTXF_INEPTXSA_Pos USB_OTG_DIEPTXF_INEPTXSA_Msk
          (0x0200 + 0x0200 * ep_addr)
      { r with DIEPTXF := setReg r.DIEPTXF (ep_addr - 1) v }
    else r
  let v := clear_bits (r.DOEPCTL ep_addr) USB_OTG_DOEPCTL_USBAEP
  let r := { r with DOEPCTL := setReg r.DOEPCTL ep_addr v }
  let r :=
    if (r.DOEPCTL ep_addr &&& USB_OTG_DOEPCTL_EPENA) ≠ 0 then
      let v := set_bits (r.DOEPCTL ep_addr) USB_OTG_DOEPCTL_EPDIS
      { r with DOEPCTL := setReg r.DOEPCTL ep_addr v }
    else r
  let r := { r with DOEPINT := setReg r.DOEPINT ep_addr DOEPINT_CLEAR_ALL }
  { d with regs := r }

/-! ## Stall handling -/

/-- Offset of the IN endpoint register blocks from the base of the peripheral
(STM32H7 CMSIS device header). -/
def USB_OTG_IN_ENDPOINT_BASE : Nat := 0x900

/-- Offset of the OUT endpoint register blocks from the base of the peripheral
(STM32H7 CMSIS device header). -/
def USB_OTG_OUT_ENDPOINT_BASE : Nat := 0xB00

/-- Size of one endpoint register block (STM32H7 CMSIS device header). -/
def USB_OTG_EP_REG_SIZE : Nat := 0x20

/-- The helper `get_ep_in(ep)`: the offset of the register block it points to,
`USB_OTG_IN_ENDPOINT_BASE + ep * USB_OTG_EP_REG_SIZE`. -/
def get_ep_in (ep : Nat) : Nat := USB_OTG_IN_ENDPOINT_BASE + ep * USB_OTG_EP_REG_SIZE

/-- The helper `get_ep_out(ep)`: the offset of the register block it points to,
`USB_OTG_OUT_ENDPOINT_BASE + ep * USB_OTG_EP_REG_SIZE`. -/
def get_ep_out (ep : Nat) : Nat := USB_OTG_OUT_ENDPOINT_BASE + ep * USB_OTG_EP_REG_SIZE

/-- A read of the first word of the endpoint register block at offset `a`.
`DIEPCTL` and `DOEPCTL` are the first members of `USB_OTG_INEndpointTypeDef`
and `USB_OTG_OUTEndpointTypeDef`.  The sixteen blocks below the OUT base are
the entries of `Regs.DIEPCTL`, the blocks from the OUT base on the entries of
`Regs.DOEPCTL`: the block `get_ep_in(16 + k)` is the block `get_ep_out(k)`. -/
def read_EPCTL (r : Regs) (a : Nat) : Nat :=
  if a < USB_OTG_OUT_ENDPOINT_BASE then
    r.DIEPCTL ((a - USB_OTG_IN_ENDPOINT_BASE) / USB_OTG_EP_REG_SIZE)
  else
    r.DOEPCTL ((a - USB_OTG_OUT_ENDPOINT_BASE) / USB_OTG_EP_REG_SIZE)

/-- A write of `v` to the first word of the endpoint register block at offset
`a`, see `read_EPCTL`. -/
def write_EPCTL (r : Regs) (a v : Nat) : Regs :=
  if a < USB_OTG_OUT_ENDPOINT_BASE then
    { r with DIEPCTL :=
        setReg r.DIEPCTL ((a - USB_OTG_IN_ENDPOINT_BASE) / USB_OTG_EP_REG_SIZE) v }
  else
    { r with DOEPCTL :=
        setReg r.DOEPCTL ((a - USB_OTG_OUT_ENDPOINT_BASE) / USB_OTG_EP_REG_SIZE) v }

/-- The method `stm32_h7xx_otghs2::ep_is_stalled(ep)`: the `STALL` bit of the
control register at `get_ep_in(ep_addr)` or `get_ep_out(ep_addr)`, by the
direction of `ep`, converted to `bool`.  There is no range check on `ep_addr`,
which is any value up to 127. -/
def ep_is_stalled (ep : Nat) (d : Driver) : Bool :=
  let ep_addr := get_ep_addr ep
  if is_in_ep ep then
    let epin := get_ep_in ep_addr
    (read_EPCTL d.regs epin &&& USB_OTG_DIEPCTL_STALL) != 0
  else
    let epout := get_ep_out ep_addr
    (read_EPCTL d.regs epout &&& USB_OTG_DOEPCTL_STALL) != 0

/-- The method `stm32_h7xx_otghs2::ep_stall(ep)`. -/
def ep_stall (ep : Nat) (d : Driver) : Driver :=
  let ep_addr := get_ep_addr ep
  let r := d.regs
  if is_in_ep ep then
    let epin := get_ep_in ep_addr
    let v := set_bits (read_EPCTL r epin) (USB_OTG_DIEPCTL_SD0PID_SEVNFRM ||| USB_OTG_DIEPCTL_STALL)
    { d with regs := write_EPCTL r epin v }
  else
    let epout := get_ep_out ep_addr
    let v := set_bits (read_EPCTL r epout)
      (USB_OTG_DOEPCTL_SD0PID_SEVNFRM ||| USB_OTG_DOEPCTL_STALL)
    { d with regs := write_EPCTL r epout v }

/-- The method `stm32_h7xx_otghs2::get_rx_ep_config(addr, out_ep)`: the returned
flag and the content of `*out_ep` after the call.  As in the source it reads
`m_tx_ep_cfg`; the index `addr - 1` is converted to the 32-bit `size_t`. -/
def get_rx_ep_config (MAX_NUM_EP addr : Nat) (out_ep : ep_cfg) (d : Driver) : Bool × ep_cfg :=
  if addr > MAX_NUM_EP then (false, out_ep)
  else (true, d.m_tx_ep_cfg ((addr + 2 ^ 32 - 1) % 2 ^ 32))

/-- The method `stm32_h7xx_otghs2::get_tx_ep_config(addr, out_ep)`: the returned
flag and the content of `*out_ep` after the call. -/
def get_tx_ep_config (MAX_NUM_EP addr : Nat) (out_ep : ep_cfg) (d : Driver) : Bool × ep_cfg :=
  if addr > MAX_NUM_EP then (false, out_ep)
  else (true, d.m_tx_ep_cfg ((addr + 2 ^ 32 - 1) % 2 ^ 32))

/-- The method `stm32_h7xx_otghs2::ep_unstall(ep)`.  The local `ep_cfg cfg` is
declared without a value; `cfg0` is what it holds before the lookup. -/
def ep_unstall (MAX_NUM_EP : Nat) (cfg0 : ep_cfg) (ep : Nat) (d : Driver) : Driver :=
  let ep_addr := get_ep_addr ep
  let cfg :=
    if ep = 0 then d.m_ep0_cfg
    else if is_in_ep ep then (get_tx_ep_config MAX_NUM_EP ep cfg0 d).2
    else (get_rx_ep_config MAX_NUM_EP ep cfg0 d).2
  let r := d.regs
  if is_in_ep ep then
    let epin := get_ep_in ep_addr
    let r := write_EPCTL r epin (clear_bits (read_EPCTL r epin) USB_OTG_DIEPCTL_STALL)
    let r :=
      if ep_addr ≠ 0 ∧ (cfg.type = EP_TYPE.BULK ∨ cfg.type = EP_TYPE.INTERRUPT) then
        write_EPCTL r epin (set_bits (read_EPCTL r epin) USB_OTG_DIEPCTL_SD0PID_SEVNFRM)
      else r
    { d with regs := r }
  else
    let epout := get_ep_out ep_addr
    let r := write_EPCTL r epout (clear_bits (read_EPCTL r epout) USB_OTG_DOEPCTL_STALL)
    let r :=
      if ep_addr ≠ 0 ∧ (cfg.type = EP_TYPE.BULK ∨ cfg.type = EP_TYPE.INTERRUPT) then
        write_EPCTL r epout (set_bits (read_EPCTL r epout) USB_OTG_DOEPCTL_SD0PID_SEVNFRM)
      else r
    { d with regs := r }

/-- The offset of the control register that `ep_is_stalled`, `ep_stall` and
`ep_unstall` access for `ep`: `get_ep_in(ep_addr)` for an IN endpoint,
`get_ep_out(ep_addr)` for an OUT endpoint. -/
def stall_reg (ep : Nat) : Nat :=
  if is_in_ep ep then get_ep_in (get_ep_addr ep) else get_ep_out (get_ep_addr ep)

/-- A driver over the all-zero register bank with every endpoint unconfigured,
as the constructor leaves the recorded configurations. -/
def zeroDriver : Driver :=
  { regs := zeroRegs,
    m_ep0_cfg := { num := 0, size := 0, type := EP_TYPE.UNCONF },
    m_rx_ep_cfg := fun i => { num := i, size := 0, type := EP_TYPE.UNCONF },
    m_tx_ep_cfg := fun i => { num := i, size := 0, type := EP_TYPE.UNCONF } }

/-! ## Statements of the size-tier rule -/

/-- The max-packet-size tiers of control endpoint 0. -/
def EP0_TIERS : List Nat := [8, 16, 32, 64]

/-- The tier rule as the specification words it: `v` is the largest tier that
is at most the requested size `s`. -/
def largest_tier_le (s v : Nat) : Prop :=
  v ∈ EP0_TIERS ∧ v ≤ s ∧ ∀ t ∈ EP0_TIERS, t ≤ s → t ≤ v

/-- The tier rule the code implements: `v` is the smallest tier that is at
least the requested size `s`, and 64 when `s` is above every tier. -/
def smallest_tier_ge (s v : Nat) : Prop :=
  v ∈ EP0_TIERS ∧ (s ≤ 64 → s ≤ v ∧ ∀ t ∈ EP0_TIERS, s ≤ t → v ≤ t) ∧ (64 < s → v = 64)

/-! ## Closed forms used by the proofs -/

/-- The word `config_ep_tx_fifo` writes for a window of `len32` words at `fsa`. -/
def window_word (len32 fsa : Nat) : Nat :=
  VAL2FLD USB_OTG_DIEPTXF_INEPTXFD_Pos USB_OTG_DIEPTXF_INEPTXFD_Msk len32 |||
    VAL2FLD USB_OTG_DIEPTXF_INEPTXSA_Pos USB_OTG_DIEPTXF_INEPTXSA_Msk fsa

/-- The alignment step `if((fsa % 4) != 0) fsa += 4 - (fsa % 4)`. -/
def align4 (fsa : Nat) : Nat := if fsa % 4 ≠ 0 then fsa + (4 - fsa % 4) else fsa

/-- The outcome of the last iteration (`i == ep`) of the allocator loop entered
with offset `base`. -/
def place_window (MAX_FIFO_LEN_U8 ep fifo_len base : Nat) (r : Regs) : Bool × Regs :=
  if align4 base + (fifo_len + 3) / 4 * 4 > MAX_FIFO_LEN_U8 then
    (false, r)
  else
    let v := window_word ((fifo_len + 3) / 4) (align4 base)
    (true, { r with DIEPTXF := setReg r.DIEPTXF (ep - 1) v })

/-- The start offset the endpoint-0 branch computes from `RX_FIFO_SIZE`. -/
def ep0_start (RX_FIFO_SIZE : Nat) : Nat :=
  if RX_FIFO_SIZE % 2 ^ 32 % 4 ≠ 0 then
    (RX_FIFO_SIZE % 2 ^ 32 + (4 - RX_FIFO_SIZE % 2 ^ 32 % 4)) % 2 ^ 32
  else RX_FIFO_SIZE % 2 ^ 32

/-! ## Further bit positions and masks (STM32H7 CMSIS device header) -/

def USB_OTG_GINTSTS_MMIS : Nat := 0x00000002
def USB_OTG_GINTSTS_OTGINT : Nat := 0x00000004
def USB_OTG_GINTSTS_SOF : Nat := 0x00000008
def USB_OTG_GINTSTS_RXFLVL : Nat := 0x00000010
def USB_OTG_GINTSTS_ESUSP : Nat := 0x00000400
def USB_OTG_GINTSTS_USBSUSP : Nat := 0x00000800
def USB_OTG_GINTSTS_USBRST : Nat := 0x00001000
def USB_OTG_GINTSTS_ENUMDNE : Nat := 0x00002000
def USB_OTG_GINTSTS_IEPINT : Nat := 0x00040000
def USB_OTG_GINTSTS_OEPINT : Nat := 0x00080000
def USB_OTG_GINTMSK_IEPINT : Nat := 0x00040000
def USB_OTG_GINTMSK_OEPINT : Nat := 0x00080000

def USB_OTG_GOTGINT_SEDET : Nat := 0x00000004
def USB_OTG_GOTGINT_SRSSCHG : Nat := 0x00000100
def USB_OTG_GOTGINT_HNSSCHG : Nat := 0x00000200
def USB_OTG_GOTGINT_HNGDET : Nat := 0x00020000
def USB_OTG_GOTGINT_ADTOCHG : Nat := 0x00040000
def USB_OTG_GOTGINT_DBCDNE : Nat := 0x00080000

def USB_OTG_GRXSTSP_EPNUM_Pos : Nat := 0
def USB_OTG_GRXSTSP_EPNUM_Msk : Nat := 0x0000000F
def USB_OTG_GRXSTSP_BCNT_Pos : Nat := 4
def USB_OTG_GRXSTSP_BCNT_Msk : Nat := 0x00007FF0
def USB_OTG_GRXSTSP_DPID_Pos : Nat := 15
def USB_OTG_GRXSTSP_DPID_Msk : Nat := 0x00018000
def USB_OTG_GRXSTSP_PKTSTS_Pos : Nat := 17
def USB_OTG_GRXSTSP_PKTSTS_Msk : Nat := 0x001E0000

def USB_OTG_DAINT_IEPINT_Pos : Nat := 0
def USB_OTG_DAINT_IEPINT_Msk : Nat := 0x0000FFFF
def USB_OTG_DAINT_OEPINT_Pos : Nat := 16
def USB_OTG_DAINT_OEPINT_Msk : Nat := 0xFFFF0000

def USB_OTG_DTXFSTS_INEPTFSAV_Pos : Nat := 0
def USB_OTG_DTXFSTS_INEPTFSAV_Msk : Nat := 0x0000FFFF
def USB_OTG_DIEPTSIZ_MULCNT_Pos : Nat := 29
def USB_OTG_DIEPTSIZ_MULCNT_Msk : Nat := 0x60000000

def USB_OTG_DIEPINT_XFRC : Nat := 0x00000001
def USB_OTG_DIEPINT_EPDISD : Nat := 0x00000002
def USB_OTG_DIEPINT_TOC : Nat := 0x00000008
def USB_OTG_DIEPINT_ITTXFE : Nat := 0x00000010
def USB_OTG_DIEPINT_TXFIFOUDRN : Nat := 0x00000100
def USB_OTG_DIEPINT_PKTDRPSTS : Nat := 0x00000800
def USB_OTG_DIEPINT_NAK : Nat := 0x00002000

def USB_OTG_DOEPINT_XFRC : Nat := 0x00000001
def USB_OTG_DOEPINT_EPDISD : Nat := 0x00000002
def USB_OTG_DOEPINT_STUP : Nat := 0x00000008
def USB_OTG_DOEPINT_OTEPDIS : Nat := 0x00000010
def USB_OTG_DOEPINT_OTEPSPR : Nat := 0x00000020
def USB_OTG_DOEPINT_B2BSTUP : Nat := 0x00000040
def USB_OTG_DOEPINT_NYET : Nat := 0x00004000

def USB_OTG_DOEPMSK_XFRCM : Nat := 0x00000001
def USB_OTG_DOEPMSK_STUPM : Nat := 0x00000008
def USB_OTG_DIEPMSK_XFRCM : Nat := 0x00000001
def USB_OTG_DIEPMSK_TOM : Nat := 0x00000008

def USB_OTG_GRSTCTL_RXFFLSH : Nat := 0x00000010

/-! ## Buffers, pools and the state around the driver -/

/-- Modelled from the spec: `Buffer_adapter_base` (not among the sources), "an
opaque, driver-borrowed region of memory with a current length and capacity".
`id` stands for the identity of the object and `data` for its bytes up to the
current length; the capacity is taken to suffice for every `resize`. -/
structure Buffer where
  id : Nat
  data : List Nat
  deriving DecidableEq, Repr

/-- Modelled from the spec: `Buffer_adapter_base::size`, the current length. -/
def Buffer.size (b : Buffer) : Nat := b.data.length

/-- Modelled from the spec: `Buffer_adapter_base::reset`, the length becomes 0. -/
def Buffer.reset (b : Buffer) : Buffer := { b with data := [] }

/-- Modelled from the spec: `Buffer_adapter_base::resize`, the length becomes
`n`; bytes past the old length read as 0 until they are written. -/
def Buffer.resize (b : Buffer) (n : Nat) : Buffer :=
  { b with data := (b.data ++ List.replicate n 0).take n }

/-- The memory `data()` points to: byte `i` of the buffer (0 past the end). -/
def Buffer.mem (b : Buffer) : Nat → Nat := fun i => b.data.getD i 0

/-- The buffer after its bytes were overwritten in place through `data()`:
same object, same length, bytes taken from the memory `m`. -/
def Buffer.load (b : Buffer) (m : Nat → Nat) : Buffer :=
  { b with data := (List.range b.data.length).map m }

/-- Modelled from the spec: the part of a buffer pool that belongs to one
endpoint ("per-endpoint fixed-capacity pool of reusable byte buffers"): the
buffers free to be allocated, the buffers enqueued (oldest first), the bound on
the queue length, and the current-slot accessor `get_buffer` / `set_buffer`. -/
structure EpPool where
  free : List Buffer
  queue : List Buffer
  queue_cap : Nat
  current : Option Buffer
  deriving DecidableEq, Repr

/-- Replace the part of a pool that belongs to endpoint `ep`. -/
def setPool (p : Nat → EpPool) (ep : Nat) (e : EpPool) : Nat → EpPool :=
  fun j => if j = ep then e else p j

/-- Modelled from the spec: non-blocking allocate; `none` is the null pointer
returned when the endpoint has no free buffer. -/
def poll_allocate_buffer (p : Nat → EpPool) (ep : Nat) : Option Buffer × (Nat → EpPool) :=
  match (p ep).free with
  | [] => (none, p)
  | b :: rest => (some b, setPool p ep { p ep with free := rest })

/-- Modelled from the spec: non-blocking release, the buffer is free again. -/
def release_buffer (p : Nat → EpPool) (ep : Nat) (b : Buffer) : Nat → EpPool :=
  setPool p ep { p ep with free := (p ep).free ++ [b] }

/-- Modelled from the spec: non-blocking enqueue; fails when the queue of the
endpoint is full. -/
def poll_enqueue_buffer (p : Nat → EpPool) (ep : Nat) (b : Buffer) : Bool × (Nat → EpPool) :=
  if (p ep).queue.length < (p ep).queue_cap then
    (true, setPool p ep { p ep with queue := (p ep).queue ++ [b] })
  else
    (false, p)

/-- Modelled from the spec: non-blocking dequeue of the oldest enqueued
buffer; `none` is the null pointer returned when the queue is empty. -/
def poll_dequeue_buffer (p : Nat → EpPool) (ep : Nat) : Option Buffer × (Nat → EpPool) :=
  match (p ep).queue with
  | [] => (none, p)
  | b :: rest => (some b, setPool p ep { p ep with queue := rest })

/-- Modelled from the spec: `get_buffer`, the current slot of the endpoint. -/
def get_buffer (p : Nat → EpPool) (ep : Nat) : Option Buffer := (p ep).current

/-- Modelled from the spec: `set_buffer`, overwrite the current slot. -/
def set_buffer (p : Nat → EpPool) (ep : Nat) (b : Option Buffer) : Nat → EpPool :=
  setPool p ep { p ep with current := b }

/-- Modelled from the spec: the event set `USB_common::USB_EVENTS` delivered to
the upper-layer callback (usb_common.hpp is not among the sources). -/
inductive USB_EVENTS where
  | RESET
  | ENUM_DONE
  | SOF
  | EARLY_SUSPEND
  | SUSPEND
  | CTRL_SETUP_PHASE_DONE
  | CTRL_DATA_PHASE_DONE
  | EP_TX
  | EP_RX
  | NONE
  deriving DecidableEq, Repr

/-- The interrupt-status registers whose writes are acknowledgements. -/
inductive IntReg where
  | GINTSTS
  | GOTGINT
  | DIEPINT (ep : Nat)
  | DOEPINT (ep : Nat)
  deriving DecidableEq, Repr

/-- The driver object in its surroundings.

* `d` is the driver with the registers of `Regs`; the further registers
  `GOTGINT`, `DAINT`, `DOEPMSK`, `DIEPMSK`, `DTXFSTS` follow.
* `rx_fifo` lists the words the core hands to successive reads of the receive
  FIFO (the pop register `GRXSTSP` and the data port `get_ep_fifo(0)`), next
  word first; a read of the empty list returns 0.
* `tx_fifo ep` lists the words written to the FIFO port of IN endpoint `ep`,
  oldest first.
* `int_writes` records, oldest first, every value `poll`, `handle_iepintx` and
  `handle_oepintx` write to an interrupt-status register (`GINTSTS`, `GOTGINT`,
  `DIEPINT`, `DOEPINT`) to acknowledge a condition.  The reset of `DIEPINT` and
  `DOEPINT` by `ep_unconfig` acts on `Driver` and is not part of the record.
* `m_ep0_buffer`, `m_rx_buffer`, `m_tx_buffer` are the three buffer pools and
  `m_last_setup_packet` the bytes of the setup packet slot.
* `events` records, oldest first, the calls `func(event, arg)` of the
  upper-layer callback; what the upper layer does in response is not part of
  the driver. -/
structure Sys where
  d : Driver
  GOTGINT : Nat
  DAINT : Nat
  DOEPMSK : Nat
  DIEPMSK : Nat
  DTXFSTS : Nat → Nat
  rx_fifo : List Nat
  tx_fifo : Nat → List Nat
  int_writes : List (IntReg × Nat)
  m_ep0_buffer : Nat → EpPool
  m_rx_buffer : Nat → EpPool
  m_tx_buffer : Nat → EpPool
  m_last_setup_packet : Nat → Nat
  events : List (USB_EVENTS × Nat)

/-- Replace the register bank of the driver. -/
def Sys.setRegs (s : Sys) (r : Regs) : Sys := { s with d := { s.d with regs := r } }

/-- The call `func(event, arg)` of the upper-layer callback. -/
def Sys.emit (s : Sys) (event : USB_EVENTS) (arg : Nat) : Sys :=
  { s with events := s.events ++ [(event, arg)] }

/-! ## Moving bytes through the FIFOs -/

/-- The function `Byte_util::make_u32(b3, b2, b1, b0)` of the common_util
library: the 32-bit word with `b0` as its lowest byte.  The arguments are
`uint8_t`. -/
def make_u32 (b3 b2 b1 b0 : Nat) : Nat :=
  ((b3 % 256) <<< 24) ||| ((b2 % 256) <<< 16) ||| ((b1 % 256) <<< 8) ||| (b0 % 256)

/-- The function `Byte_util::make_u16(b1, b0)` of the common_util library: the
16-bit value with `b0` as its low byte.  The arguments are `uint8_t`. -/
def make_u16 (b1 b0 : Nat) : Nat := ((b1 % 256) <<< 8) ||| (b0 % 256)

/-- The function `Byte_util::get_b0`: byte 0 (lowest) of a word. -/
def get_b0 (x : Nat) : Nat := x &&& 0xFF

/-- The function `Byte_util::get_b1`: byte 1 of a word. -/
def get_b1 (x : Nat) : Nat := (x >>> 8) &&& 0xFF

/-- The function `Byte_util::get_b2`: byte 2 of a word. -/
def get_b2 (x : Nat) : Nat := (x >>> 16) &&& 0xFF

/-- The function `Byte_util::get_b3`: byte 3 (highest) of a word. -/
def get_b3 (x : Nat) : Nat := (x >>> 24) &&& 0xFF

/-- Store byte `v` at index `i` of a memory region. -/
def setByte (buf : Nat → Nat) (i v : Nat) : Nat → Nat := fun j => if j = i then v else buf j

/-- The word one iteration of the packing loop of `ep_write` writes to the
FIFO, at loop index `i`. -/
def ep_write_word (buf : Nat → Nat) (len i : Nat) : Nat :=
  let u8_left := len - i
  if u8_left ≥ 4 then
    make_u32 (buf (i + 3)) (buf (i + 2)) (buf (i + 1)) (buf (i + 0))
  else
    match u8_left with
    | 1 => make_u32 0 0 0 (buf (i + 0))
    | 2 => make_u32 0 0 (buf (i + 1)) (buf (i + 0))
    | 3 => make_u32 0 (buf (i + 2)) (buf (i + 1)) (buf (i + 0))
    | _ => make_u32 0 0 0 0

/-- The packing loop `for(size_t i = 0; i < len; i+=4)` of `ep_write`, with `n`
iterations left and loop index `i`: the words written to the FIFO, in order.
The loop runs `(len + 3) / 4` times. -/
def ep_write_loop (buf : Nat → Nat) (len : Nat) : Nat → Nat → List Nat
  | 0, _ => []
  | n + 1, i => ep_write_word buf len i :: ep_write_loop buf len n (i + 4)

/-- The method `stm32_h7xx_otghs2::ep_write(ep, buf, len)`: the returned `int`
and the state after the call.  `len` is a `uint16_t`; `buf` is the memory the
pointer addresses. -/
def ep_write (ep : Nat) (buf : Nat → Nat) (len : Nat) (s : Sys) : Int × Sys :=
  if !is_in_ep ep then
    (-1, s)
  else
    let ep_addr := get_ep_addr ep
    let len32 := (len + 3) / 4
    let DTXFSTS := s.DTXFSTS ep_addr
    let INEPTFSAV := FLD2VAL USB_OTG_DTXFSTS_INEPTFSAV_Pos USB_OTG_DTXFSTS_INEPTFSAV_Msk DTXFSTS
    if INEPTFSAV < len32 then
      (-1, s)
    else
      let r := s.d.regs
      let words := ep_write_loop buf len ((len + 3) / 4) 0
      if ep_addr = 0 then
        let tsiz := mask_set_bits (r.DIEPTSIZ ep_addr)
          (USB_OTG_DIEPTSIZ_PKTCNT_Msk ||| USB_OTG_DIEPTSIZ_XFRSIZ_Msk)
          (VAL2FLD USB_OTG_DIEPTSIZ_PKTCNT_Pos USB_OTG_DIEPTSIZ_PKTCNT_Msk 1 |||
            VAL2FLD USB_OTG_DIEPTSIZ_XFRSIZ_Pos USB_OTG_DIEPTSIZ_XFRSIZ_Msk len)
        let r := { r with DIEPTSIZ := setReg r.DIEPTSIZ ep_addr tsiz }
        let ctl := mask_set_bits (r.DIEPCTL ep_addr) USB_OTG_DIEPCTL_SD0PID_SEVNFRM
          (USB_OTG_DIEPCTL_EPENA ||| USB_OTG_DIEPCTL_CNAK)
        let r := { r with DIEPCTL := setReg r.DIEPCTL ep_addr ctl }
        let s := s.setRegs r
        ((len : Int), { s with tx_fifo := fun j => if j = ep_addr then s.tx_fifo j ++ words
                                                    else s.tx_fifo j })
      else if (r.DIEPCTL ep_addr &&& USB_OTG_DOEPCTL_EPENA) ≠ 0 then
        (-1, s)
      else
        let tsiz := mask_set_bits (r.DIEPTSIZ ep_addr)
          (USB_OTG_DIEPTSIZ_MULCNT_Msk ||| USB_OTG_DIEPTSIZ_PKTCNT_Msk |||
            USB_OTG_DIEPTSIZ_XFRSIZ_Msk)
          (VAL2FLD USB_OTG_DIEPTSIZ_MULCNT_Pos USB_OTG_DIEPTSIZ_MULCNT_Msk 0 |||
            VAL2FLD USB_OTG_DIEPTSIZ_PKTCNT_Pos USB_OTG_DIEPTSIZ_PKTCNT_Msk 1 |||
            VAL2FLD USB_OTG_DIEPTSIZ_XFRSIZ_Pos USB_OTG_DIEPTSIZ_XFRSIZ_Msk len)
        let r := { r with DIEPTSIZ := setReg r.DIEPTSIZ ep_addr tsiz }
        let ctl := mask_set_bits (r.DIEPCTL ep_addr)
          (USB_OTG_DIEPCTL_STALL ||| USB_OTG_DIEPCTL_SD0PID_SEVNFRM)
          (USB_OTG_DIEPCTL_CNAK ||| USB_OTG_DIEPCTL_EPENA)
        let r := { r with DIEPCTL := setReg r.DIEPCTL ep_addr ctl }
        let s := s.setRegs r
        ((len : Int), { s with tx_fifo := fun j => if j = ep_addr then s.tx_fifo j ++ words
                                                    else s.tx_fifo j })

/-- What one iteration of the unpacking loop of `ep_read` stores into `buf`
from the popped word `temp`, at loop index `i`. -/
def ep_read_store (buf : Nat → Nat) (max_len i temp : Nat) : Nat → Nat :=
  let bleft := max_len - i
  if bleft ≥ 4 then
    let buf := setByte buf (i + 0) (get_b0 temp)
    let buf := setByte buf (i + 1) (get_b1 temp)
    let buf := setByte buf (i + 2) (get_b2 temp)
    setByte buf (i + 3) (get_b3 temp)
  else
    match bleft with
    | 1 => setByte buf (i + 0) (get_b0 temp)
    | 2 =>
      let buf := setByte buf (i + 0) (get_b0 temp)
      setByte buf (i + 1) (get_b1 temp)
    | 3 =>
      let buf := setByte buf (i + 0) (get_b0 temp)
      let buf := setByte buf (i + 1) (get_b1 temp)
      setByte buf (i + 2) (get_b2 temp)
    | _ => buf

/-- The unpacking loop `for(size_t i = 0; i < max_len; i += 4)` of `ep_read`,
with `n` iterations left and loop index `i`: each iteration pops one word of
the receive FIFO.  The loop runs `(max_len + 3) / 4` times. -/
def ep_read_loop (max_len : Nat) : Nat → Nat → (Nat → Nat) → List Nat → (Nat → Nat) × List Nat
  | 0, _, buf, fifo => (buf, fifo)
  | n + 1, i, buf, fifo =>
    ep_read_loop max_len n (i + 4) (ep_read_store buf max_len i (fifo.headD 0)) fifo.tail

/-- The method `stm32_h7xx_otghs2::ep_read(ep, buf, max_len)`: the returned
`int`, the memory behind `buf` after the call (`none` for a null pointer) and
the state after the call.  `max_len` is a `uint16_t`. -/
def ep_read (_ep : Nat) (buf : Option (Nat → Nat)) (max_len : Nat) (s : Sys) :
    Int × Option (Nat → Nat) × Sys :=
  if (s.d.regs.GINTSTS &&& USB_OTG_GINTSTS_RXFLVL) = 0 then
    (0, buf, s)
  else
    match buf with
    | none => (0, none, s)
    | some m =>
      let res := ep_read_loop max_len ((max_len + 3) / 4) 0 m s.rx_fifo
      ((max_len : Int), some res.1, { s with rx_fifo := res.2 })

/-! ## Interrupt handling -/

/-- The statement `OTG->GINTSTS = bits`.  The bits of `GINTSTS` are status bits
acknowledged by writing 1 to them: the write clears the bits written as 1 and
leaves the others (the source reads `GINTSTS` again in `ep_read` after such
writes and relies on it).  The value written is recorded. -/
def write_GINTSTS (bits : Nat) (s : Sys) : Sys :=
  let r := s.d.regs
  let s := s.setRegs { r with GINTSTS := r.GINTSTS &&& not32 bits }
  { s with int_writes := s.int_writes ++ [(IntReg.GINTSTS, bits)] }

/-- The statement `OTG->GOTGINT = bits`; the value written is recorded. -/
def write_GOTGINT (bits : Nat) (s : Sys) : Sys :=
  { s with GOTGINT := bits, int_writes := s.int_writes ++ [(IntReg.GOTGINT, bits)] }

/-- The statement `epin->DIEPINT = bits`; the value written is recorded. -/
def write_DIEPINT (ep bits : Nat) (s : Sys) : Sys :=
  let r := s.d.regs
  let s := s.setRegs { r with DIEPINT := setReg r.DIEPINT ep bits }
  { s with int_writes := s.int_writes ++ [(IntReg.DIEPINT ep, bits)] }

/-- The statement `epout->DOEPINT = bits`; the value written is recorded. -/
def write_DOEPINT (ep bits : Nat) (s : Sys) : Sys :=
  let r := s.d.regs
  let s := s.setRegs { r with DOEPINT := setReg r.DOEPINT ep bits }
  { s with int_writes := s.int_writes ++ [(IntReg.DOEPINT ep, bits)] }

/-- The statement `if(GOTGINT & bit) { OTG->GOTGINT = bit; }`. -/
def ack_GOTGINT (GOTGINT bit : Nat) (s : Sys) : Sys :=
  if (GOTGINT &&& bit) ≠ 0 then write_GOTGINT bit s else s

/-- The statement `if(DIEPINT & bit) { epin->DIEPINT = bit; }`. -/
def ack_DIEPINT (DIEPINT ep bit : Nat) (s : Sys) : Sys :=
  if (DIEPINT &&& bit) ≠ 0 then write_DIEPINT ep bit s else s

/-- The statement `if(DOEPINT & bit) { epout->DOEPINT = bit; }`. -/
def ack_DOEPINT (DOEPINT ep bit : Nat) (s : Sys) : Sys :=
  if (DOEPINT &&& bit) ≠ 0 then write_DOEPINT ep bit s else s

/-- The statement `get_ep_out(ep)->DOEPCTL |= bits`. -/
def or_DOEPCTL (ep bits : Nat) (s : Sys) : Sys :=
  let r := s.d.regs
  s.setRegs { r with DOEPCTL := setReg r.DOEPCTL ep (r.DOEPCTL ep ||| bits) }

/-- The statement `get_ep_in(ep)->DIEPCTL |= bits`. -/
def or_DIEPCTL (ep bits : Nat) (s : Sys) : Sys :=
  let r := s.d.regs
  s.setRegs { r with DIEPCTL := setReg r.DIEPCTL ep (r.DIEPCTL ep ||| bits) }

/-- The compiler builtin `__builtin_ctz(x)` for a non-zero 32-bit `x`: the
index of the least significant set bit. -/
def builtin_ctz (x : Nat) : Nat := ((List.range 32).find? (fun i => x.testBit i)).getD 32

/-- The conditions of `handle_iepintx` that are only acknowledged, in the
order of the source: NAK, packet dropped, FIFO underrun, token mismatch (bit 5),
ITTXFE, timeout, AHB error (bit 2), endpoint disabled. -/
def iepint_acks (DIEPINT ep_num : Nat) (s : Sys) : Sys :=
  let s := ack_DIEPINT DIEPINT ep_num USB_OTG_DIEPINT_NAK s
  let s := ack_DIEPINT DIEPINT ep_num USB_OTG_DIEPINT_PKTDRPSTS s
  let s := ack_DIEPINT DIEPINT ep_num USB_OTG_DIEPINT_TXFIFOUDRN s
  let s := ack_DIEPINT DIEPINT ep_num (1 <<< 5) s
  let s := ack_DIEPINT DIEPINT ep_num USB_OTG_DIEPINT_ITTXFE s
  let s := ack_DIEPINT DIEPINT ep_num USB_OTG_DIEPINT_TOC s
  let s := ack_DIEPINT DIEPINT ep_num (1 <<< 2) s
  ack_DIEPINT DIEPINT ep_num USB_OTG_DIEPINT_EPDISD s

/-- The block of `handle_iepintx` that releases the loaded transmit buffer of
`ep_num`, if there is one. -/
def tx_release_current (ep_num : Nat) (s : Sys) : Sys :=
  match get_buffer s.m_tx_buffer ep_num with
  | some curr_tx_buf =>
    { s with m_tx_buffer := release_buffer s.m_tx_buffer ep_num curr_tx_buf }
  | none => s

/-- The block of `handle_iepintx` that dequeues the next pending transmit
buffer of `ep_num`: load and write it, or empty the slot and set NAK. -/
def tx_load_next (ep_num : Nat) (s : Sys) : Sys :=
  let dq := poll_dequeue_buffer s.m_tx_buffer ep_num
  match dq.1 with
  | some new_tx_buf =>
    let s := { s with m_tx_buffer := set_buffer dq.2 ep_num (some new_tx_buf) }
    (ep_write (0x80 ||| ep_num) new_tx_buf.mem (new_tx_buf.size % 65536) s).2
  | none =>
    let s := { s with m_tx_buffer := set_buffer dq.2 ep_num none }
    or_DIEPCTL ep_num USB_OTG_DOEPCTL_SNAK s

/-- The body of the branch `if(DIEPINT & USB_OTG_DIEPINT_XFRC)` of
`handle_iepintx`: transfer complete on IN endpoint `ep_num`. -/
def iepint_xfrc (ep_num : Nat) (s : Sys) : Sys :=
  let s := write_DIEPINT ep_num USB_OTG_DIEPINT_XFRC s
  let s := tx_release_current ep_num s
  let s := tx_load_next ep_num s
  if ep_num = 0 then s.emit USB_EVENTS.EP_TX (0x80 ||| ep_num) else s

/-- The method `stm32_h7xx_otghs2::handle_iepintx(func)`: the returned flag and
the state after the call. -/
def handle_iepintx (s : Sys) : Bool × Sys :=
  let IEPINT := FLD2VAL USB_OTG_DAINT_IEPINT_Pos USB_OTG_DAINT_IEPINT_Msk s.DAINT
  if IEPINT = 0 then
    (true, s)
  else
    let ep_num := builtin_ctz IEPINT
    let DIEPINT := s.d.regs.DIEPINT ep_num
    let s := iepint_acks DIEPINT ep_num s
    if (DIEPINT &&& USB_OTG_DIEPINT_XFRC) ≠ 0 then
      (true, iepint_xfrc ep_num s)
    else
      (true, s)

/-- The statement `if(DOEPINT & bit) { epout->DOEPINT = bit; func(event, ep_num); }`. -/
def ack_emit_DOEPINT (DOEPINT ep bit : Nat) (event : USB_EVENTS) (s : Sys) : Sys :=
  if (DOEPINT &&& bit) ≠ 0 then (write_DOEPINT ep bit s).emit event ep else s

/-- The conditions of `handle_oepintx` before transfer complete, in the order
of the source: STPKTRX (bit 15), NYET, NAK (bit 13), babble (bit 12), packet
error (bit 8), back-to-back setup, status phase received (with its event), OUT
token while disabled, setup phase done (with its event), AHB error (bit 2),
endpoint disabled. -/
def oepint_acks (DOEPINT ep_num : Nat) (s : Sys) : Sys :=
  let s := ack_DOEPINT DOEPINT ep_num (1 <<< 15) s
  let s := ack_DOEPINT DOEPINT ep_num USB_OTG_DOEPINT_NYET s
  let s := ack_DOEPINT DOEPINT ep_num (1 <<< 13) s
  let s := ack_DOEPINT DOEPINT ep_num (1 <<< 12) s
  let s := ack_DOEPINT DOEPINT ep_num (1 <<< 8) s
  let s := ack_DOEPINT DOEPINT ep_num USB_OTG_DOEPINT_B2BSTUP s
  let s := ack_emit_DOEPINT DOEPINT ep_num USB_OTG_DOEPINT_OTEPSPR
    USB_EVENTS.CTRL_DATA_PHASE_DONE s
  let s := ack_DOEPINT DOEPINT ep_num USB_OTG_DOEPINT_OTEPDIS s
  let s := ack_emit_DOEPINT DOEPINT ep_num USB_OTG_DOEPINT_STUP
    USB_EVENTS.CTRL_SETUP_PHASE_DONE s
  let s := ack_DOEPINT DOEPINT ep_num (1 <<< 2) s
  ack_DOEPINT DOEPINT ep_num USB_OTG_DOEPINT_EPDISD s

/-- The method `stm32_h7xx_otghs2::handle_oepintx(func)`: the returned flag and
the state after the call. -/
def handle_oepintx (s : Sys) : Bool × Sys :=
  let OEPINT := FLD2VAL USB_OTG_DAINT_OEPINT_Pos USB_OTG_DAINT_OEPINT_Msk s.DAINT
  if OEPINT = 0 then
    (true, s)
  else
    let ep_num := builtin_ctz OEPINT
    let DOEPINT := s.d.regs.DOEPINT ep_num
    let s := oepint_acks DOEPINT ep_num s
    if (DOEPINT &&& USB_OTG_DOEPINT_XFRC) ≠ 0 then
      let s := write_DOEPINT ep_num USB_OTG_DOEPINT_XFRC s
      let s := if ep_num = 0 then s.emit USB_EVENTS.EP_RX ep_num else s
      (true, s)
    else
      (true, s)

/-- The method `stm32_h7xx_otghs2::flush_rx()`.  As in `flush_tx`, the wait
returns once the core has cleared the self-clearing bit `RXFFLSH`. -/
def flush_rx (r : Regs) : Regs :=
  let g := set_bits r.GRSTCTL USB_OTG_GRSTCTL_RXFFLSH
  let g := clear_bits g USB_OTG_GRSTCTL_RXFFLSH
  { r with GRSTCTL := g }

/-- The method `stm32_h7xx_otghs2::flush_all_tx()`. -/
def flush_all_tx (r : Regs) : Regs := flush_tx 0x20 r

/-- The loop `for(uint8_t i = 0; i <= MAX_NUM_EP; i++) ep_unconfig(i)` of
`handle_reset_done`, up to and including endpoint `n`. -/
def unconfig_upto : Nat → Driver → Driver
  | 0, d => ep_unconfig 0 d
  | n + 1, d => ep_unconfig (n + 1) (unconfig_upto n d)

/-- The method `stm32_h7xx_otghs2::handle_reset_done()`; it always returns
`true`, the result is the state after the call. -/
def handle_reset_done (MAX_NUM_EP : Nat) (s : Sys) : Sys :=
  let d := unconfig_upto MAX_NUM_EP s.d
  let r := flush_all_tx (flush_rx d.regs)
  let gintmsk := set_bits r.GINTMSK (USB_OTG_GINTMSK_OEPINT ||| USB_OTG_GINTMSK_IEPINT)
  let r := { r with GINTMSK := gintmsk }
  let daintmsk := VAL2FLD USB_OTG_DAINTMSK_IEPM_Pos USB_OTG_DAINTMSK_IEPM_Msk 0x0001 |||
    VAL2FLD USB_OTG_DAINTMSK_OEPM_Pos USB_OTG_DAINTMSK_OEPM_Msk 0x0001
  let r := { r with DAINTMSK := daintmsk }
  let doepmsk := USB_OTG_DOEPMSK_STUPM ||| USB_OTG_DOEPINT_OTEPSPR ||| USB_OTG_DOEPINT_STUP |||
    USB_OTG_DOEPMSK_XFRCM
  let diepmsk := USB_OTG_DIEPMSK_TOM ||| USB_OTG_DIEPMSK_XFRCM
  { s with d := { d with regs := r }, DOEPMSK := doepmsk, DIEPMSK := diepmsk }

/-- The method `stm32_h7xx_otghs2::handle_enum_done()`: it only logs. -/
def handle_enum_done (s : Sys) : Sys := s

/-- The `OUT_RECEIVED` case of `poll` for `BCNT != 0` and an endpoint other than
0.  `none` is the fault of calling `curr_buf->reset()` through the null pointer
`get_buffer` returns for an empty slot.  The buffer object is changed in place
while the slot still refers to it; the slot is overwritten before the case
ends, so only the final slot is kept. -/
def poll_out_received (ep_num BCNT : Nat) (s : Sys) : Option Sys :=
  match get_buffer s.m_rx_buffer ep_num with
  | none => none
  | some curr_buf =>
    let curr_buf := (curr_buf.reset).resize BCNT
    let rd := ep_read ep_num (some curr_buf.mem) BCNT s
    let curr_buf := match rd.2.1 with
      | some m => curr_buf.load m
      | none => curr_buf
    let s := rd.2.2
    let enq := poll_enqueue_buffer s.m_rx_buffer ep_num curr_buf
    let alloc := poll_allocate_buffer enq.2 ep_num
    match alloc.1 with
    | some new_buf =>
      let s := { s with m_rx_buffer := set_buffer alloc.2 ep_num (some new_buf.reset) }
      some (or_DOEPCTL ep_num (USB_OTG_DOEPCTL_CNAK ||| USB_OTG_DOEPCTL_EPENA) s)
    | none =>
      let s := { s with m_rx_buffer := set_buffer alloc.2 ep_num none }
      let s := or_DOEPCTL ep_num USB_OTG_DOEPCTL_SNAK s
      let r := s.d.regs
      some (s.setRegs { r with GINTMSK := clear_bits r.GINTMSK USB_OTG_GINTSTS_RXFLVL })

/-- The `OUT_RECEIVED` case of `poll` for `BCNT != 0` and endpoint 0, on the
pool `m_ep0_buffer`.  `none` is the fault of calling `curr_buf->reset()`
through a null pointer. -/
def poll_out_received_ep0 (BCNT : Nat) (s : Sys) : Option Sys :=
  match get_buffer s.m_ep0_buffer 0 with
  | none => none
  | some curr_buf =>
    let curr_buf := (curr_buf.reset).resize BCNT
    let rd := ep_read 0 (some curr_buf.mem) BCNT s
    let curr_buf := match rd.2.1 with
      | some m => curr_buf.load m
      | none => curr_buf
    let s := rd.2.2
    let enq := poll_enqueue_buffer s.m_ep0_buffer 0 curr_buf
    let alloc := poll_allocate_buffer enq.2 0
    match alloc.1 with
    | some new_buf =>
      let s := { s with m_ep0_buffer := set_buffer alloc.2 0 (some new_buf.reset) }
      some (or_DOEPCTL 0 (USB_OTG_DOEPCTL_CNAK ||| USB_OTG_DOEPCTL_EPENA) s)
    | none =>
      let s := { s with m_ep0_buffer := set_buffer alloc.2 0 none }
      some (or_DOEPCTL 0 USB_OTG_DOEPCTL_SNAK s)

/-- The branch `if(GINTSTS & USB_OTG_GINTSTS_RXFLVL)` of `poll`: pop one status
word and act on its packet status. -/
def poll_rxflvl (s : Sys) : Option Sys :=
  let GRXSTSP := s.rx_fifo.headD 0
  let s := { s with rx_fifo := s.rx_fifo.tail }
  let PKTSTS := FLD2VAL USB_OTG_GRXSTSP_PKTSTS_Pos USB_OTG_GRXSTSP_PKTSTS_Msk GRXSTSP
  let BCNT := FLD2VAL USB_OTG_GRXSTSP_BCNT_Pos USB_OTG_GRXSTSP_BCNT_Msk GRXSTSP
  let EPNUM := FLD2VAL USB_OTG_GRXSTSP_EPNUM_Pos USB_OTG_GRXSTSP_EPNUM_Msk GRXSTSP
  let ep_num := EPNUM % 256
  match PKTSTS with
  | 2 =>
    if BCNT ≠ 0 then
      if ep_num ≠ 0 then poll_out_received ep_num BCNT s
      else poll_out_received_ep0 BCNT s
    else some s
  | 3 => some s
  | 6 =>
    if BCNT ≠ 0 then
      let rd := ep_read ep_num (some s.m_last_setup_packet) BCNT s
      let s := rd.2.2
      match rd.2.1 with
      | some m => some { s with m_last_setup_packet := m }
      | none => some s
    else some s
  | 4 => some (or_DOEPCTL ep_num (USB_OTG_DOEPCTL_CNAK ||| USB_OTG_DOEPCTL_EPENA) s)
  | _ => some s

/-- The branch `if(GINTSTS & USB_OTG_GINTSTS_OTGINT)` of `poll`. -/
def poll_otgint (s : Sys) : Sys :=
  let GOTGINT := s.GOTGINT
  let s := ack_GOTGINT GOTGINT USB_OTG_GOTGINT_SEDET s
  let s := ack_GOTGINT GOTGINT USB_OTG_GOTGINT_SRSSCHG s
  let s := ack_GOTGINT GOTGINT USB_OTG_GOTGINT_HNSSCHG s
  let s := ack_GOTGINT GOTGINT USB_OTG_GOTGINT_HNGDET s
  let s := ack_GOTGINT GOTGINT USB_OTG_GOTGINT_ADTOCHG s
  ack_GOTGINT GOTGINT USB_OTG_GOTGINT_DBCDNE s

/-- The method `stm32_h7xx_otghs2::poll(func)`: the state after the call, or
`none` when the call faults on a null buffer pointer.  `GINTSTS` is read once,
on entry. -/
def poll (MAX_NUM_EP : Nat) (s : Sys) : Option Sys :=
  let GINTSTS := s.d.regs.GINTSTS
  if (GINTSTS &&& USB_OTG_GINTSTS_SOF) ≠ 0 then
    some (write_GINTSTS USB_OTG_GINTSTS_SOF s)
  else
    let s :=
      if (GINTSTS &&& USB_OTG_GINTSTS_MMIS) ≠ 0 then write_GINTSTS USB_OTG_GINTSTS_MMIS s
      else s
    let s := if (GINTSTS &&& USB_OTG_GINTSTS_OTGINT) ≠ 0 then poll_otgint s else s
    if (GINTSTS &&& USB_OTG_GINTSTS_USBRST) ≠ 0 then
      let s := write_GINTSTS USB_OTG_GINTSTS_USBRST s
      let s := handle_reset_done MAX_NUM_EP s
      some (s.emit USB_EVENTS.RESET 0)
    else
      let s :=
        if (GINTSTS &&& USB_OTG_GINTSTS_ENUMDNE) ≠ 0 then
          (handle_enum_done (write_GINTSTS USB_OTG_GINTSTS_ENUMDNE s)).emit
            USB_EVENTS.ENUM_DONE 0
        else s
      let s :=
        if (GINTSTS &&& USB_OTG_GINTSTS_SOF) ≠ 0 then
          (write_GINTSTS USB_OTG_GINTSTS_SOF s).emit USB_EVENTS.SOF 0
        else s
      let s :=
        if (GINTSTS &&& USB_OTG_GINTSTS_ESUSP) ≠ 0 then
          (write_GINTSTS USB_OTG_GINTSTS_ESUSP s).emit USB_EVENTS.EARLY_SUSPEND 0
        else s
      let s :=
        if (GINTSTS &&& USB_OTG_GINTSTS_USBSUSP) ≠ 0 then
          (write_GINTSTS USB_OTG_GINTSTS_USBSUSP s).emit USB_EVENTS.SUSPEND 0
        else s
      let s := if (GINTSTS &&& USB_OTG_GINTSTS_IEPINT) ≠ 0 then (handle_iepintx s).2 else s
      let s := if (GINTSTS &&& USB_OTG_GINTSTS_OEPINT) ≠ 0 then (handle_oepintx s).2 else s
      if (GINTSTS &&& USB_OTG_GINTSTS_RXFLVL) ≠ 0 then poll_rxflvl s else some s

/-! ## Buffer exchange with the application -/

/-- The method `stm32_h7xx_otghs2::release_rx_buffer(ep_num, buf)`.  The pool is
indexed with `ep_addr`, the control register with `ep_num`, as in the source. -/
def release_rx_buffer (ep_num : Nat) (buf : Buffer) (s : Sys) : Sys :=
  let ep_addr := get_ep_addr ep_num
  let s := { s with m_rx_buffer := release_buffer s.m_rx_buffer ep_addr buf }
  match get_buffer s.m_rx_buffer ep_addr with
  | none =>
    let alloc := poll_allocate_buffer s.m_rx_buffer ep_addr
    let s := { s with m_rx_buffer := set_buffer alloc.2 ep_addr alloc.1 }
    let s := or_DOEPCTL ep_num (USB_OTG_DOEPCTL_CNAK ||| USB_OTG_DOEPCTL_EPENA) s
    let r := s.d.regs
    s.setRegs { r with GINTMSK := set_bits r.GINTMSK USB_OTG_GINTSTS_RXFLVL }
  | some _ => s

/-- The method `stm32_h7xx_otghs2::enqueue_tx_buffer(ep_num, buf)`: the returned
flag and the state after the call.  `buf->size()` is passed to the `uint16_t`
parameter of `ep_write`, whose result is not looked at. -/
def enqueue_tx_buffer (ep_num : Nat) (buf : Buffer) (s : Sys) : Bool × Sys :=
  let ep_addr := get_ep_addr ep_num
  match get_buffer s.m_tx_buffer ep_addr with
  | none =>
    let s := { s with m_tx_buffer := set_buffer s.m_tx_buffer ep_addr (some buf) }
    (true, (ep_write ep_num buf.mem (buf.size % 65536) s).2)
  | some _ =>
    let enq := poll_enqueue_buffer s.m_tx_buffer ep_addr buf
    if !enq.1 then (false, s)
    else (true, { s with m_tx_buffer := enq.2 })

/-- A pool part with no buffer at all and room for `cap` enqueued buffers. -/
def emptyEpPool (cap : Nat) : EpPool := { free := [], queue := [], queue_cap := cap, current := none }

/-- The state around `zeroDriver` with all registers zero, empty FIFOs, empty
pools (room for 4 enqueued buffers per endpoint), nothing written and no
event delivered. -/
def zeroSys : Sys :=
  { d := zeroDriver, GOTGINT := 0, DAINT := 0, DOEPMSK := 0, DIEPMSK := 0,
    DTXFSTS := fun _ => 0, rx_fifo := [], tx_fifo := fun _ => [], int_writes := [],
    m_ep0_buffer := fun _ => emptyEpPool 4, m_rx_buffer := fun _ => emptyEpPool 4,
    m_tx_buffer := fun _ => emptyEpPool 4, m_last_setup_packet := fun _ => 0, events := [] }

/-! ## Packing in closed form -/

/-- Byte `k` of a buffer of length `len`, with indices past the end reading 0. -/
def padded_byte (buf : Nat → Nat) (len k : Nat) : Nat := if k < len then buf k else 0

/-- The little-endian value of bytes `4j .. 4j+3` of a buffer of length `len`,
zero-padded past the end: the sum of `byte(4j+i) * 256^i` over `i < 4`. -/
def le_word (buf : Nat → Nat) (len j : Nat) : Nat :=
  padded_byte buf len (4 * j) + padded_byte buf len (4 * j + 1) * 256 +
    padded_byte buf len (4 * j + 2) * 256 ^ 2 + padded_byte buf len (4 * j + 3) * 256 ^ 3

/-- The condition under which `ep_write` goes through to its packing loop. -/
def ep_write_accepts (ep len : Nat) (s : Sys) : Prop :=
  is_in_ep ep = true ∧
  ¬ FLD2VAL USB_OTG_DTXFSTS_INEPTFSAV_Pos USB_OTG_DTXFSTS_INEPTFSAV_Msk
      (s.DTXFSTS (get_ep_addr ep)) < (len + 3) / 4 ∧
  (get_ep_addr ep = 0 ∨ (s.d.regs.DIEPCTL (get_ep_addr ep) &&& USB_OTG_DOEPCTL_EPENA) = 0)

/-- The registers after a call of `ep_write` that goes through. -/
def ep_write_regs (ep_addr len : Nat) (r : Regs) : Regs :=
  if ep_addr = 0 then
    { r with
      DIEPTSIZ := setReg r.DIEPTSIZ ep_addr
                    (mask_set_bits (r.DIEPTSIZ ep_addr)
                      (USB_OTG_DIEPTSIZ_PKTCNT_Msk ||| USB_OTG_DIEPTSIZ_XFRSIZ_Msk)
                      (VAL2FLD USB_OTG_DIEPTSIZ_PKTCNT_Pos USB_OTG_DIEPTSIZ_PKTCNT_Msk 1 |||
                        VAL2FLD USB_OTG_DIEPTSIZ_XFRSIZ_Pos USB_OTG_DIEPTSIZ_XFRSIZ_Msk len)),
      DIEPCTL := setReg r.DIEPCTL ep_addr
                    (mask_set_bits (r.DIEPCTL ep_addr) USB_OTG_DIEPCTL_SD0PID_SEVNFRM
                      (USB_OTG_DIEPCTL_EPENA ||| USB_OTG_DIEPCTL_CNAK)) }
  else
    { r with
      DIEPTSIZ := setReg r.DIEPTSIZ ep_addr
                    (mask_set_bits (r.DIEPTSIZ ep_addr)
                      (USB_OTG_DIEPTSIZ_MULCNT_Msk ||| USB_OTG_DIEPTSIZ_PKTCNT_Msk |||
                        USB_OTG_DIEPTSIZ_XFRSIZ_Msk)
                      (VAL2FLD USB_OTG_DIEPTSIZ_MULCNT_Pos USB_OTG_DIEPTSIZ_MULCNT_Msk 0 |||
                        VAL2FLD USB_OTG_DIEPTSIZ_PKTCNT_Pos USB_OTG_DIEPTSIZ_PKTCNT_Msk 1 |||
                        VAL2FLD USB_OTG_DIEPTSIZ_XFRSIZ_Pos USB_OTG_DIEPTSIZ_XFRSIZ_Msk len)),
      DIEPCTL := setReg r.DIEPCTL ep_addr
                    (mask_set_bits (r.DIEPCTL ep_addr)
                      (USB_OTG_DIEPCTL_STALL ||| USB_OTG_DIEPCTL_SD0PID_SEVNFRM)
                      (USB_OTG_DIEPCTL_CNAK ||| USB_OTG_DIEPCTL_EPENA)) }

/-- The state after a call of `ep_write` that goes through. -/
def ep_write_done (ep : Nat) (buf : Nat → Nat) (len : Nat) (s : Sys) : Sys :=
  { s.setRegs (ep_write_regs (get_ep_addr ep) len s.d.regs) with
    tx_fifo := fun j => if j = get_ep_addr ep
      then s.tx_fifo j ++ ep_write_loop buf len ((len + 3) / 4) 0 else s.tx_fifo j }

/-- The words a call `ep_write(ep, buf, len)` appended to the FIFO of its
endpoint: what the FIFO holds after the call beyond what it held before. -/
def pushed_words (ep : Nat) (buf : Nat → Nat) (len : Nat) (s : Sys) : List Nat :=
  ((ep_write ep buf len s).2.tx_fifo (get_ep_addr ep)).drop (s.tx_fifo (get_ep_addr ep)).length

/-! ## The stages of `poll` -/

/-- The part of `poll` between the start-of-frame test and the bus-reset test:
the mode-mismatch and OTG branches. -/
def poll_head (s : Sys) : Sys :=
  let GINTSTS := s.d.regs.GINTSTS
  let s :=
    if (GINTSTS &&& USB_OTG_GINTSTS_MMIS) ≠ 0 then write_GINTSTS USB_OTG_GINTSTS_MMIS s
    else s
  if (GINTSTS &&& USB_OTG_GINTSTS_OTGINT) ≠ 0 then poll_otgint s else s

/-- The part of `poll` between the bus-reset test and the receive-FIFO test,
entered with the value `GINTSTS` read on entry of `poll`. -/
def poll_body (GINTSTS : Nat) (s : Sys) : Sys :=
  let s :=
    if (GINTSTS &&& USB_OTG_GINTSTS_ENUMDNE) ≠ 0 then
      (handle_enum_done (write_GINTSTS USB_OTG_GINTSTS_ENUMDNE s)).emit
        USB_EVENTS.ENUM_DONE 0
    else s
  let s :=
    if (GINTSTS &&& USB_OTG_GINTSTS_SOF) ≠ 0 then
      (write_GINTSTS USB_OTG_GINTSTS_SOF s).emit USB_EVENTS.SOF 0
    else s
  let s :=
    if (GINTSTS &&& USB_OTG_GINTSTS_ESUSP) ≠ 0 then
      (write_GINTSTS USB_OTG_GINTSTS_ESUSP s).emit USB_EVENTS.EARLY_SUSPEND 0
    else s
  let s :=
    if (GINTSTS &&& USB_OTG_GINTSTS_USBSUSP) ≠ 0 then
      (write_GINTSTS USB_OTG_GINTSTS_USBSUSP s).emit USB_EVENTS.SUSPEND 0
    else s
  let s := if (GINTSTS &&& USB_OTG_GINTSTS_IEPINT) ≠ 0 then (handle_iepintx s).2 else s
  if (GINTSTS &&& USB_OTG_GINTSTS_OEPINT) ≠ 0 then (handle_oepintx s).2 else s

/-- What the stages of `poll` before the receive-FIFO branch leave alone: the
receive pools, the receive FIFO, the setup packet slot, the OUT control
registers, `GINTMSK` and the `RXFLVL` flag. -/
def rx_frame (s s' : Sys) : Prop :=
  s'.m_rx_buffer = s.m_rx_buffer ∧ s'.m_ep0_buffer = s.m_ep0_buffer ∧
  s'.rx_fifo = s.rx_fifo ∧ s'.m_last_setup_packet = s.m_last_setup_packet ∧
  s'.d.regs.DOEPCTL = s.d.regs.DOEPCTL ∧ s'.d.regs.GINTMSK = s.d.regs.GINTMSK ∧
  (s'.d.regs.GINTSTS &&& USB_OTG_GINTSTS_RXFLVL) = (s.d.regs.GINTSTS &&& USB_OTG_GINTSTS_RXFLVL)

/-! ## Receive scenarios -/

/-- The status word the core returns from `GRXSTSP` for packet status `pktsts`,
byte count `bcnt` and endpoint number `epnum`. -/
def rx_status_word (pktsts bcnt epnum : Nat) : Nat :=
  VAL2FLD USB_OTG_GRXSTSP_PKTSTS_Pos USB_OTG_GRXSTSP_PKTSTS_Msk pktsts |||
  VAL2FLD USB_OTG_GRXSTSP_BCNT_Pos USB_OTG_GRXSTSP_BCNT_Msk bcnt |||
  VAL2FLD USB_OTG_GRXSTSP_EPNUM_Pos USB_OTG_GRXSTSP_EPNUM_Msk epnum

/-- The pool the `OUT_RECEIVED` case of `poll` uses for endpoint `E`:
`m_ep0_buffer` for endpoint 0, `m_rx_buffer` otherwise. -/
def out_pool (E : Nat) (s : Sys) : Nat → EpPool :=
  if E = 0 then s.m_ep0_buffer else s.m_rx_buffer

/-- A pool part of capacity 1 whose only buffer (empty, identity `id`) is the
armed buffer: nothing free, nothing enqueued, room for 4 enqueued buffers. -/
def armedEpPool (id : Nat) : EpPool :=
  { free := [], queue := [], queue_cap := 4, current := some { id := id, data := [] } }

/-- Two arrivals of 10 bytes on endpoint 2, as the receive FIFO hands them out:
status word, then three data words, twice.  The bytes are 1..10 and 11..20. -/
def two_arrivals_fifo : List Nat :=
  [rx_status_word 2 10 2, 0x04030201, 0x08070605, 0x00000A09,
   rx_status_word 2 10 2, 0x0E0D0C0B, 0x1211100F, 0x00001413]

/-- Endpoint 2 with a receive pool of capacity 1 (its buffer armed), the
receive interrupt pending and unmasked, and two arrivals in the FIFO. -/
def two_arrivals_start : Sys :=
  let r := zeroRegs
  let r := { r with GINTSTS := USB_OTG_GINTSTS_RXFLVL, GINTMSK := USB_OTG_GINTSTS_RXFLVL }
  { zeroSys with
    d := { zeroDriver with regs := r },
    rx_fifo := two_arrivals_fifo,
    m_rx_buffer := fun j => if j = 2 then armedEpPool 1 else emptyEpPool 4 }

/-- Endpoint 0 with its pool of capacity 1 (its buffer armed), the receive
interrupt pending and unmasked, and one arrival of 2 bytes in the FIFO. -/
def ep0_arrival_start : Sys :=
  let r := zeroRegs
  let r := { r with GINTSTS := USB_OTG_GINTSTS_RXFLVL, GINTMSK := USB_OTG_GINTSTS_RXFLVL }
  { zeroSys with
    d := { zeroDriver with regs := r },
    rx_fifo := [rx_status_word 2 2 0, 0x0000BBAA],
    m_ep0_buffer := fun j => if j = 0 then armedEpPool 7 else emptyEpPool 4 }

/-- The state `poll` leaves after the first of the two arrivals of
`two_arrivals_start`. -/
def two_arrivals_mid : Sys := (poll 8 two_arrivals_start).getD two_arrivals_start

/-! ## Transmit scenarios -/

/-- The words `ep_write` packs from the bytes of a buffer: `(size + 3) / 4`
words, in FIFO order. -/
def packed_words (b : Buffer) : List Nat := ep_write_loop b.mem b.size ((b.size + 3) / 4) 0

/-- What the core does when the transfer loaded on IN endpoint `e` completes:
it clears the enable bit `EPENA` of `DIEPCTL[e]` and raises the endpoint
interrupt, `DIEPINT[e]` reading `diepint` and `DAINT` showing IN endpoint `e`. -/
def hw_transfer_complete (e diepint : Nat) (s : Sys) : Sys :=
  let r := s.d.regs
  let ctl := clear_bits (r.DIEPCTL e) USB_OTG_DIEPCTL_EPENA
  let r := { r with DIEPCTL := setReg r.DIEPCTL e ctl, DIEPINT := setReg r.DIEPINT e diepint }
  { s.setRegs r with DAINT := VAL2FLD USB_OTG_DAINT_IEPINT_Pos USB_OTG_DAINT_IEPINT_Msk (1 <<< e) }

/-- The state after `enqueue_tx_buffer(0x80 | e, A)`. -/
def tx_after_first (e : Nat) (A : Buffer) (s : Sys) : Sys :=
  (enqueue_tx_buffer (0x80 ||| e) A s).2

/-- The state after `enqueue_tx_buffer(0x80 | e, A)` followed by
`enqueue_tx_buffer(0x80 | e, B)`. -/
def tx_after_second (e : Nat) (A B : Buffer) (s : Sys) : Sys :=
  (enqueue_tx_buffer (0x80 ||| e) B (tx_after_first e A s)).2

/-- The state after the two calls of `enqueue_tx_buffer`, the completion of the
transfer on endpoint `e` and the call of `handle_iepintx` that handles it. -/
def tx_after_complete (e diepint : Nat) (A B : Buffer) (s : Sys) : Sys :=
  (handle_iepintx (hw_transfer_complete e diepint (tx_after_second e A B s))).2

/-- An idle IN endpoint 1: 16 words free in its FIFO, no loaded buffer, nothing
pending. -/
def tx_idle_start : Sys := { zeroSys with DTXFSTS := fun _ => 16 }

/-- Endpoint `e` reporting transfer complete while buffer 3 is loaded and
nothing is pending. -/
def tx_complete_start (e : Nat) : Sys :=
  let r := zeroRegs
  let r := { r with DIEPINT := fun _ => USB_OTG_DIEPINT_XFRC }
  { zeroSys with
    d := { zeroDriver with regs := r },
    DAINT := 1 <<< e,
    m_tx_buffer := fun _ => { emptyEpPool 4 with current := some { id := 3, data := [7] } } }

/-- Buffer `A` of the transmit-ordering scenario: 5 bytes. -/
def buffer_A : Buffer := { id := 1, data := [1, 2, 3, 4, 5] }

/-- Buffer `B` of the transmit-ordering scenario: 3 bytes. -/
def buffer_B : Buffer := { id := 2, data := [6, 7, 8] }

/-! ## Bus reset scenarios -/

/-- What the acknowledging stages of `poll` may change: `t` is `s` except for
`GINTSTS`, `GOTGINT` and the record of writes. -/
def ack_only (s t : Sys) : Prop :=
  ∃ g go iw, t = { s.setRegs { s.d.regs with GINTSTS := g } with GOTGINT := go, int_writes := iw }

/-- A fresh driver with a bus reset pending. -/
def reset_start : Sys :=
  { zeroSys with d := { zeroDriver with regs := { zeroRegs with GINTSTS := USB_OTG_GINTSTS_USBRST } } }

/-- A driver on which `ep_stall(0x81)` and `ep_stall(0x02)` were called, with a
bus reset pending. -/
def reset_stalled_start : Sys :=
  { zeroSys with d := ep_stall 0x02 (ep_stall 0x81 reset_start.d) }

end stm32_h7xx_otghs2

/-! ## The configuration descriptor (`Configuration_descriptor.cpp`) -/

/-- The data members of `Configuration_descriptor` that `serialize` and
`deserialize` use.  The class declaration is not among the sources:
`wTotalLength` is the 16-bit member (it is split with `get_b0` / `get_b1` and
rebuilt with `make_u16`), the others are bytes. -/
structure Configuration_descriptor where
  bLength : Nat
  bDescriptorType : Nat
  wTotalLength : Nat
  bNumInterfaces : Nat
  bConfigurationValue : Nat
  iConfiguration : Nat
  bmAttributes : Nat
  bMaxPower : Nat
  deriving DecidableEq, Repr

namespace Configuration_descriptor

/-- The method `Configuration_descriptor::serialize(out_array)`: the returned
flag and the array after the call.  The array has 9 bytes, indexed 0 to 8. -/
def serialize (self : Configuration_descriptor) (out_array : Nat → Nat) : Bool × (Nat → Nat) :=
  let a := stm32_h7xx_otghs2.setByte out_array 0 self.bLength
  let a := stm32_h7xx_otghs2.setByte a 1 self.bDescriptorType
  let a := stm32_h7xx_otghs2.setByte a 2 (stm32_h7xx_otghs2.get_b0 self.wTotalLength)
  let a := stm32_h7xx_otghs2.setByte a 3 (stm32_h7xx_otghs2.get_b1 self.wTotalLength)
  let a := stm32_h7xx_otghs2.setByte a 4 self.bNumInterfaces
  let a := stm32_h7xx_otghs2.setByte a 5 self.bConfigurationValue
  let a := stm32_h7xx_otghs2.setByte a 6 self.iConfiguration
  let a := stm32_h7xx_otghs2.setByte a 7 self.bmAttributes
  let a := stm32_h7xx_otghs2.setByte a 8 self.bMaxPower
  (true, a)

/-- The method `Configuration_descriptor::deserialize(array)`: the returned flag
and the object after the call. -/
def deserialize (self : Configuration_descriptor) (array : Nat → Nat) :
    Bool × Configuration_descriptor :=
  if self.bLength ≠ array 0 then
    (false, self)
  else if self.bDescriptorType ≠ array 1 then
    (false, self)
  else
    (true,
      { self with
        wTotalLength := stm32_h7xx_otghs2.make_u16 (array 3) (array 2),
        bNumInterfaces := array 4,
        bConfigurationValue := array 5,
        iConfiguration := array 6,
        bmAttributes := array 7,
        bMaxPower := array 8 })

/-- A configuration descriptor as a device reports it: 9 bytes long, type 2,
total length 0x0143. -/
def sample : Configuration_descriptor :=
  { bLength := 9, bDescriptorType := 2, wTotalLength := 0x0143, bNumInterfaces := 2,
    bConfigurationValue := 1, iConfiguration := 0, bmAttributes := 0x80, bMaxPower := 50 }

end Configuration_descriptor

namespace stm32_h7xx_otghs2

/-- A driver whose receive table records OUT endpoint 1 as a 64-byte BULK
endpoint while the transmit table is as the constructor leaves it. -/
def rx_recorded_driver : Driver :=
  { zeroDriver with
    m_rx_ep_cfg := fun i =>
      if i = 0 then { num := 1, size := 64, type := EP_TYPE.BULK }
      else { num := i, size := 0, type := EP_TYPE.UNCONF } }

/-- A driver with a bus reset pending together with enumeration done, both
suspend conditions, both endpoint interrupt classes and a non-empty receive
FIFO holding an `OUT_RECEIVED` word for endpoint 2. -/
def reset_busy_start : Sys :=
  let g := USB_OTG_GINTSTS_USBRST ||| USB_OTG_GINTSTS_ENUMDNE ||| USB_OTG_GINTSTS_ESUSP |||
    USB_OTG_GINTSTS_USBSUSP ||| USB_OTG_GINTSTS_IEPINT ||| USB_OTG_GINTSTS_OEPINT |||
    USB_OTG_GINTSTS_RXFLVL
  { zeroSys with
    d := { zeroDriver with regs := { zeroRegs with GINTSTS := g } },
    DAINT := 0x00010001,
    rx_fifo := two_arrivals_fifo,
    m_rx_buffer := fun j => if j = 2 then armedEpPool 1 else emptyEpPool 4 }

/-- OUT endpoint `e` flagged in `DAINT` with `DOEPINT[e]` reading `doepint`. -/
def out_irq_start (e doepint : Nat) : Sys :=
  { zeroSys with
    d := { zeroDriver with regs := { zeroRegs with DOEPINT := fun _ => doepint } },
    DAINT := VAL2FLD USB_OTG_DAINT_OEPINT_Pos USB_OTG_DAINT_OEPINT_Msk (1 <<< e) }

/-! ## What an invocation adds to the records -/

/-- The value `v` is a single bit, and that bit is set in `g`. -/
def single_bit_of (g v : Nat) : Prop := ∃ i, v = 2 ^ i ∧ g.testBit i = true

/-- The records of `t` are those of `s` followed by interrupt-status writes that
all satisfy `P` and by callback calls that all satisfy `Q`. -/
def adds (P : IntReg × Nat → Prop) (Q : USB_EVENTS × Nat → Prop) (s t : Sys) : Prop :=
  (∃ nw, t.int_writes = s.int_writes ++ nw ∧ ∀ w ∈ nw, P w) ∧
  (∃ ne, t.events = s.events ++ ne ∧ ∀ x ∈ ne, Q x)

/-- The number of words an invocation of `poll` takes out of the receive FIFO,
by the status read on entry and the word at the head of the FIFO: none unless
`RXFLVL` is set with `SOF` and `USBRST` clear; otherwise the status word, and
for `OUT_RECEIVED` (2) or `SETUP_RECEIVED` (6) with a non-zero byte count also
the `ceil(BCNT / 4)` data words of the packet. -/
def rx_words_taken (s : Sys) : Nat :=
  let g := s.d.regs.GINTSTS
  let w := s.rx_fifo.headD 0
  let PKTSTS := FLD2VAL USB_OTG_GRXSTSP_PKTSTS_Pos USB_OTG_GRXSTSP_PKTSTS_Msk w
  let BCNT := FLD2VAL USB_OTG_GRXSTSP_BCNT_Pos USB_OTG_GRXSTSP_BCNT_Msk w
  if (g &&& USB_OTG_GINTSTS_SOF) ≠ 0 ∨ (g &&& USB_OTG_GINTSTS_USBRST) ≠ 0 ∨
      (g &&& USB_OTG_GINTSTS_RXFLVL) = 0 then 0
  else if (PKTSTS = 2 ∨ PKTSTS = 6) ∧ BCNT ≠ 0 then 1 + (BCNT + 3) / 4
  else 1

/-- A driver with start-of-frame pending together with bus reset, enumeration
done, both endpoint interrupt classes and receive data. -/
def sof_busy_start : Sys :=
  let g := USB_OTG_GINTSTS_SOF ||| USB_OTG_GINTSTS_USBRST ||| USB_OTG_GINTSTS_ENUMDNE |||
    USB_OTG_GINTSTS_IEPINT ||| USB_OTG_GINTSTS_OEPINT ||| USB_OTG_GINTSTS_RXFLVL
  { zeroSys with
    d := { zeroDriver with regs := { zeroRegs with GINTSTS := g } },
    DAINT := 0x00010001,
    rx_fifo := two_arrivals_fifo }

/-- A driver with mode mismatch, enumeration done, both suspend conditions and
an OUT endpoint interrupt pending: endpoint 0 reports status phase, setup done
and transfer complete (`DOEPINT0 = 0x29`). -/
def enum_busy_start : Sys :=
  let g := USB_OTG_GINTSTS_MMIS ||| USB_OTG_GINTSTS_ENUMDNE ||| USB_OTG_GINTSTS_ESUSP |||
    USB_OTG_GINTSTS_USBSUSP ||| USB_OTG_GINTSTS_OEPINT
  { zeroSys with
    d := { zeroDriver with regs := { zeroRegs with GINTSTS := g, DOEPINT := fun _ => 0x29 } },
    DAINT := 0x00010000 }

/-- A driver with the receive FIFO flagged non-empty and a `GLOBAL_NAK` status
word (code 1) at its head, followed by another word. -/
def global_nak_start : Sys :=
  { zeroSys with
    d := { zeroDriver with regs := { zeroRegs with GINTSTS := USB_OTG_GINTSTS_RXFLVL } },
    rx_fifo := [rx_status_word 1 0 0, 0x11223344] }

/-! ## Endpoints other than the serviced one -/

/-- The state `s` with the interrupt register, the control register and the
transmit-pool part (loaded-buffer slot included) of IN endpoint `j`
replaced. -/
def with_in_endpoint (j diepint diepctl : Nat) (p : EpPool) (s : Sys) : Sys :=
  let r := s.d.regs
  let r := { r with DIEPINT := setReg r.DIEPINT j diepint, DIEPCTL := setReg r.DIEPCTL j diepctl }
  { s.setRegs r with m_tx_buffer := setPool s.m_tx_buffer j p }

/-- The state `s` with the interrupt register, the control register and the
receive-pool parts (armed-buffer slot included) of OUT endpoint `j`
replaced. -/
def with_out_endpoint (j doepint doepctl : Nat) (p p0 : EpPool) (s : Sys) : Sys :=
  let r := s.d.regs
  let r := { r with DOEPINT := setReg r.DOEPINT j doepint, DOEPCTL := setReg r.DOEPCTL j doepctl }
  { s.setRegs r with
    m_rx_buffer := setPool s.m_rx_buffer j p, m_ep0_buffer := setPool s.m_ep0_buffer j p0 }

/-- IN endpoints 1 and 3 and OUT endpoints 1 and 3 flagged in `DAINT` at once,
every `DIEPINT` reading `NAK | XFRC`, every `DOEPINT` reading
`OTEPSPR | STUP | XFRC`, and on every IN endpoint buffer 3 loaded with buffer
`B` pending. -/
def two_irq_start : Sys :=
  let r := { zeroRegs with DIEPINT := fun _ => 0x2001, DOEPINT := fun _ => 0x29 }
  { zeroSys with
    d := { zeroDriver with regs := r },
    DAINT := 0x000A000A,
    DTXFSTS := fun _ => 16,
    m_tx_buffer := fun _ =>
      { emptyEpPool 4 with current := some { id := 3, data := [7] }, queue := [buffer_B] } }

/-! ## What servicing an endpoint writes -/

/-- The acknowledgement of condition `bit` of interrupt register `r` read as
`v`: the bit alone, written to `r`, when it is set in `v`; nothing otherwise. -/
def ack_of (r : IntReg) (v bit : Nat) : List (IntReg × Nat) :=
  if (v &&& bit) ≠ 0 then [(r, bit)] else []

/-- The writes to `DIEPINT[e]` that acknowledge the conditions set in the value
`D` read from it, in the order `handle_iepintx` tests them. -/
def iepint_ack_list (e D : Nat) : List (IntReg × Nat) :=
  ack_of (IntReg.DIEPINT e) D USB_OTG_DIEPINT_NAK ++
  ack_of (IntReg.DIEPINT e) D USB_OTG_DIEPINT_PKTDRPSTS ++
  ack_of (IntReg.DIEPINT e) D USB_OTG_DIEPINT_TXFIFOUDRN ++
  ack_of (IntReg.DIEPINT e) D (1 <<< 5) ++
  ack_of (IntReg.DIEPINT e) D USB_OTG_DIEPINT_ITTXFE ++
  ack_of (IntReg.DIEPINT e) D USB_OTG_DIEPINT_TOC ++
  ack_of (IntReg.DIEPINT e) D (1 <<< 2) ++
  ack_of (IntReg.DIEPINT e) D USB_OTG_DIEPINT_EPDISD ++
  ack_of (IntReg.DIEPINT e) D USB_OTG_DIEPINT_XFRC

/-- The writes to `DOEPINT[e]` that acknowledge the conditions set in the value
`D` read from it, in the order `handle_oepintx` tests them. -/
def oepint_ack_list (e D : Nat) : List (IntReg × Nat) :=
  ack_of (IntReg.DOEPINT e) D (1 <<< 15) ++
  ack_of (IntReg.DOEPINT e) D USB_OTG_DOEPINT_NYET ++
  ack_of (IntReg.DOEPINT e) D (1 <<< 13) ++
  ack_of (IntReg.DOEPINT e) D (1 <<< 12) ++
  ack_of (IntReg.DOEPINT e) D (1 <<< 8) ++
  ack_of (IntReg.DOEPINT e) D USB_OTG_DOEPINT_B2BSTUP ++
  ack_of (IntReg.DOEPINT e) D USB_OTG_DOEPINT_OTEPSPR ++
  ack_of (IntReg.DOEPINT e) D USB_OTG_DOEPINT_OTEPDIS ++
  ack_of (IntReg.DOEPINT e) D USB_OTG_DOEPINT_STUP ++
  ack_of (IntReg.DOEPINT e) D (1 <<< 2) ++
  ack_of (IntReg.DOEPINT e) D USB_OTG_DOEPINT_EPDISD ++
  ack_of (IntReg.DOEPINT e) D USB_OTG_DOEPINT_XFRC

/-! ## Bit-field arithmetic -/

theorem testBit_mask_hi16 (j : Nat) :
    Nat.testBit 0xFFFF0000 j = (decide (16 ≤ j) && decide (j < 32)) := by
  have h : (0xFFFF0000 : Nat) = (2 ^ 16 - 1) <<< 16 := by decide
  rw [h, Nat.testBit_shiftLeft, Nat.testBit_two_pow_sub_one]
  by_cases h1 : 16 ≤ j <;> by_cases h2 : j < 32 <;> simp [h1, h2] <;> omega

theorem and_lo16_shr (x : Nat) : (x &&& 0x0000FFFF) >>> 0 = x % 65536 := by
  have h : (0x0000FFFF : Nat) = 2 ^ 16 - 1 := by decide
  rw [Nat.shiftRight_zero, h, Nat.and_pow_two_sub_one_eq_mod]

theorem and_hi16_shr (x : Nat) : (x &&& 0xFFFF0000) >>> 16 = x / 65536 % 65536 := by
  apply Nat.eq_of_testBit_eq
  intro j
  have h : (65536 : Nat) = 2 ^ 16 := by decide
  rw [h, Nat.testBit_mod_two_pow, ← Nat.shiftRight_eq_div_pow, Nat.testBit_shiftRight,
    Nat.testBit_shiftRight, Nat.testBit_and, testBit_mask_hi16]
  by_cases h1 : j < 16 <;> simp [h1]
  · omega
  · intro _; omega

theorem shl_and_hi16 (a : Nat) : (a <<< 16) &&& 0xFFFF0000 = (a % 65536) * 65536 := by
  apply Nat.eq_of_testBit_eq
  intro j
  have h : (65536 : Nat) = 2 ^ 16 := by decide
  rw [Nat.testBit_and, testBit_mask_hi16, h, ← Nat.shiftLeft_eq, Nat.testBit_shiftLeft,
    Nat.testBit_shiftLeft, Nat.testBit_mod_two_pow]
  by_cases h1 : 16 ≤ j <;> by_cases h2 : j < 32 <;> simp [h1, h2]
  · omega
  · intro h3; omega

theorem or_hi16_lo16 (a b : Nat) :
    ((a <<< 16) &&& 0xFFFF0000) ||| ((b <<< 0) &&& 0x0000FFFF) =
      (a % 65536) * 65536 + b % 65536 := by
  have h : (0x0000FFFF : Nat) = 2 ^ 16 - 1 := by decide
  rw [shl_and_hi16, Nat.shiftLeft_zero, h, Nat.and_pow_two_sub_one_eq_mod]
  have hb : b % 2 ^ 16 < 2 ^ 16 := Nat.mod_lt _ (by decide)
  have key := Nat.mul_add_lt_is_or hb (a % 65536)
  rw [Nat.mul_comm] at key
  have h2 : (65536 : Nat) = 2 ^ 16 := by decide
  rw [h2] at *
  exact key.symm

/-- Reading the start field of a window register. -/
theorem FLD2VAL_start (x : Nat) :
    FLD2VAL USB_OTG_DIEPTXF_INEPTXSA_Pos USB_OTG_DIEPTXF_INEPTXSA_Msk x = x % 65536 :=
  and_lo16_shr x

/-- Reading the depth field of a window register. -/
theorem FLD2VAL_depth (x : Nat) :
    FLD2VAL USB_OTG_DIEPTXF_INEPTXFD_Pos USB_OTG_DIEPTXF_INEPTXFD_Msk x = x / 65536 % 65536 :=
  and_hi16_shr x

/-- The word built for a window register from a depth and a start. -/
theorem VAL2FLD_window (fd fsa : Nat) :
    VAL2FLD USB_OTG_DIEPTXF_INEPTXFD_Pos USB_OTG_DIEPTXF_INEPTXFD_Msk fd |||
      VAL2FLD USB_OTG_DIEPTXF_INEPTXSA_Pos USB_OTG_DIEPTXF_INEPTXSA_Msk fsa =
      (fd % 65536) * 65536 + fsa % 65536 :=
  or_hi16_lo16 fd fsa

theorem window_start_eq (r : Regs) (i : Nat) : window_start r i = window_reg r i % 65536 :=
  and_lo16_shr _

theorem window_depth_eq (r : Regs) (i : Nat) :
    window_depth r i = window_reg r i / 65536 % 65536 :=
  and_hi16_shr _

/-! ## The allocator loop in closed form -/

/-- The loop walks to iteration `ep`; the offset it arrives with is the one it
was entered with when `i = ep`, and otherwise the end of the window recorded in
`DIEPTXF[ep-2]`, the last register read. -/
theorem config_ep_tx_fifo_loop_eq (MAX_FIFO_LEN_U8 ep fifo_len : Nat) (r : Regs) :
    ∀ n i fsa, i ≤ ep → n + i = ep + 1 →
      config_ep_tx_fifo_loop MAX_FIFO_LEN_U8 ep fifo_len n i fsa r =
        place_window MAX_FIFO_LEN_U8 ep fifo_len
          (if i = ep then fsa
           else FLD2VAL USB_OTG_DIEPTXF_INEPTXFD_Pos USB_OTG_DIEPTXF_INEPTXFD_Msk
                  (r.DIEPTXF (ep - 2)) +
                FLD2VAL USB_OTG_DIEPTXF_INEPTXSA_Pos USB_OTG_DIEPTXF_INEPTXSA_Msk
                  (r.DIEPTXF (ep - 2))) r := by
  intro n
  induction n with
  | zero => intro i fsa h1 h2; omega
  | succ n ih =>
    intro i fsa h1 h2
    by_cases hi : i = ep
    · have hn : n = 0 := by omega
      subst hn
      subst hi
      simp only [config_ep_tx_fifo_loop, place_window, window_word, align4, if_true]
    · have hstep : config_ep_tx_fifo_loop MAX_FIFO_LEN_U8 ep fifo_len (n + 1) i fsa r =
          config_ep_tx_fifo_loop MAX_FIFO_LEN_U8 ep fifo_len n (i + 1)
            (FLD2VAL USB_OTG_DIEPTXF_INEPTXFD_Pos USB_OTG_DIEPTXF_INEPTXFD_Msk
                (r.DIEPTXF (i - 1)) +
              FLD2VAL USB_OTG_DIEPTXF_INEPTXSA_Pos USB_OTG_DIEPTXF_INEPTXSA_Msk
                (r.DIEPTXF (i - 1))) r := by
        simp only [config_ep_tx_fifo_loop, hi, if_false]
      rw [hstep, ih (i + 1) _ (by omega) (by omega)]
      by_cases hi1 : i + 1 = ep
      · have h3 : i - 1 = ep - 2 := by omega
        simp only [hi1, hi, if_true, if_false, h3]
      · simp only [hi1, hi, if_false]

theorem place_window_fst (MAX_FIFO_LEN_U8 ep fifo_len base : Nat) (r : Regs) :
    (place_window MAX_FIFO_LEN_U8 ep fifo_len base r).1 = true ↔
      align4 base + (fifo_len + 3) / 4 * 4 ≤ MAX_FIFO_LEN_U8 := by
  by_cases hc : align4 base + (fifo_len + 3) / 4 * 4 > MAX_FIFO_LEN_U8
  · simp only [place_window, hc, if_true, Bool.false_eq_true, false_iff]; omega
  · simp only [place_window, hc, if_false, true_iff]; omega

theorem place_window_snd (MAX_FIFO_LEN_U8 ep fifo_len base : Nat) (r : Regs)
    (h : (place_window MAX_FIFO_LEN_U8 ep fifo_len base r).1 = true) :
    (place_window MAX_FIFO_LEN_U8 ep fifo_len base r).2 =
      { r with DIEPTXF := setReg r.DIEPTXF (ep - 1)
                            (window_word ((fifo_len + 3) / 4) (align4 base)) } := by
  by_cases hc : align4 base + (fifo_len + 3) / 4 * 4 > MAX_FIFO_LEN_U8
  · simp [place_window, hc] at h
  · simp only [place_window, hc, if_false]

theorem place_window_fail (MAX_FIFO_LEN_U8 ep fifo_len base : Nat) (r : Regs)
    (h : (place_window MAX_FIFO_LEN_U8 ep fifo_len base r).1 = false) :
    (place_window MAX_FIFO_LEN_U8 ep fifo_len base r).2 = r := by
  by_cases hc : align4 base + (fifo_len + 3) / 4 * 4 > MAX_FIFO_LEN_U8
  · simp only [place_window, hc, if_true]
  · simp [place_window, hc] at h

theorem align4_eq (x : Nat) : align4 x = (x + 3) / 4 * 4 := by
  unfold align4; split <;> omega

/-- For a non-zero endpoint within range and a size of at most 2048 the call
places the window right after the window recorded for the previous endpoint. -/
theorem config_ep_tx_fifo_nonzero (MAX_NUM_EP RX_FIFO_SIZE MAX_FIFO_LEN_U8 ep len : Nat)
    (r : Regs) (h0 : ep ≠ 0) (h1 : ep ≤ MAX_NUM_EP) (h2 : len ≤ 2048) :
    config_ep_tx_fifo MAX_NUM_EP RX_FIFO_SIZE MAX_FIFO_LEN_U8 ep len r =
      place_window MAX_FIFO_LEN_U8 ep (if len < 64 then 64 else len)
        (window_start r (ep - 1) + window_depth r (ep - 1)) r := by
  have h1' : ¬ ep > MAX_NUM_EP := by omega
  have h2' : ¬ len > 2048 := by omega
  unfold config_ep_tx_fifo
  simp only [h0, h1', h2', ne_eq, not_false_eq_true, if_true, if_false]
  rw [config_ep_tx_fifo_loop_eq MAX_FIFO_LEN_U8 ep _ r ep 1 _ (by omega) (by omega)]
  congr 1
  by_cases he : ep = 1
  · subst he
    simp only [window_start, window_depth, window_reg, if_true]
    rfl
  · have he' : ¬ (1 = ep) := fun h => he h.symm
    have he2 : ep - 1 ≠ 0 := by omega
    have he3 : ep - 1 - 1 = ep - 2 := by omega
    simp only [he', if_false, window_start, window_depth, window_reg, he2, he3]
    exact Nat.add_comm _ _

/-- A call for a non-zero endpoint that returns `true` was within range. -/
theorem config_ep_tx_fifo_nonzero_ok (MAX_NUM_EP RX_FIFO_SIZE MAX_FIFO_LEN_U8 ep len : Nat)
    (r : Regs) (h0 : ep ≠ 0)
    (hok : (config_ep_tx_fifo MAX_NUM_EP RX_FIFO_SIZE MAX_FIFO_LEN_U8 ep len r).1 = true) :
    ep ≤ MAX_NUM_EP ∧ len ≤ 2048 := by
  unfold config_ep_tx_fifo at hok
  simp only [h0, ne_eq, not_false_eq_true, if_true] at hok
  by_cases h1 : ep > MAX_NUM_EP
  · simp [h1] at hok
  · by_cases h2 : len > 2048
    · simp [h1, h2] at hok
    · omega

/-- The endpoint-0 branch in closed form. -/
theorem config_ep_tx_fifo_zero (MAX_NUM_EP RX_FIFO_SIZE MAX_FIFO_LEN_U8 len : Nat) (r : Regs) :
    config_ep_tx_fifo MAX_NUM_EP RX_FIFO_SIZE MAX_FIFO_LEN_U8 0 len r =
      if len < 64 ∨ len > 1024 then (false, r)
      else if (ep0_start RX_FIFO_SIZE + (len + 3) / 4 * 4) % 2 ^ 32 > MAX_FIFO_LEN_U8 then
        (false, r)
      else
        (true, { r with DIEPTXF0_HNPTXFSIZ :=
                          window_word ((len + 3) / 4) (ep0_start RX_FIFO_SIZE) }) := by
  unfold config_ep_tx_fifo
  simp only [ne_eq, not_true_eq_false, if_false]
  rfl

/-- A failing call leaves every register as it was. -/
theorem config_ep_tx_fifo_fail (MAX_NUM_EP RX_FIFO_SIZE MAX_FIFO_LEN_U8 ep len : Nat)
    (r : Regs)
    (h : (config_ep_tx_fifo MAX_NUM_EP RX_FIFO_SIZE MAX_FIFO_LEN_U8 ep len r).1 = false) :
    (config_ep_tx_fifo MAX_NUM_EP RX_FIFO_SIZE MAX_FIFO_LEN_U8 ep len r).2 = r := by
  by_cases h0 : ep = 0
  · subst h0
    rw [config_ep_tx_fifo_zero] at h ⊢
    by_cases hc1 : len < 64 ∨ len > 1024
    · simp only [hc1, if_true]
    · by_cases hc2 : (ep0_start RX_FIFO_SIZE + (len + 3) / 4 * 4) % 2 ^ 32 > MAX_FIFO_LEN_U8
      · rw [if_neg hc1, if_pos hc2]
      · rw [if_neg hc1, if_neg hc2] at h
        exact absurd h (by simp)
  · by_cases h1 : ep > MAX_NUM_EP
    · unfold config_ep_tx_fifo; simp [h0, h1]
    · by_cases h2 : len > 2048
      · unfold config_ep_tx_fifo; simp [h0, h1, h2]
      · rw [config_ep_tx_fifo_nonzero _ _ _ _ _ _ h0 (by omega) (by omega)] at h ⊢
        exact place_window_fail _ _ _ _ _ h

/-- A successful call for a non-zero endpoint changes `DIEPTXF[ep-1]` only. -/
theorem config_ep_tx_fifo_nonzero_snd (MAX_NUM_EP RX_FIFO_SIZE MAX_FIFO_LEN_U8 ep len : Nat)
    (r : Regs) (h0 : ep ≠ 0)
    (hok : (config_ep_tx_fifo MAX_NUM_EP RX_FIFO_SIZE MAX_FIFO_LEN_U8 ep len r).1 = true) :
    ∃ v, (config_ep_tx_fifo MAX_NUM_EP RX_FIFO_SIZE MAX_FIFO_LEN_U8 ep len r).2 =
      { r with DIEPTXF := setReg r.DIEPTXF (ep - 1) v } := by
  obtain ⟨h1, h2⟩ := config_ep_tx_fifo_nonzero_ok _ _ _ _ _ _ h0 hok
  rw [config_ep_tx_fifo_nonzero _ _ _ _ _ _ h0 h1 h2] at hok ⊢
  exact ⟨_, place_window_snd _ _ _ _ _ hok⟩

theorem window_word_eq (fd fsa : Nat) :
    window_word fd fsa = (fd % 65536) * 65536 + fsa % 65536 :=
  or_hi16_lo16 fd fsa

/-- What a successful call for a non-zero endpoint `ep` leaves in the window
registers: every other window as it was, and the window of `ep` with the
requested depth, right after the previous window, below the capacity bound the
code checks. -/
theorem config_ep_tx_fifo_nonzero_windows
    (MAX_NUM_EP RX_FIFO_SIZE MAX_FIFO_LEN_U8 ep len : Nat) (r : Regs)
    (hMAX : MAX_FIFO_LEN_U8 < 65536) (h0 : ep ≠ 0)
    (hok : (config_ep_tx_fifo MAX_NUM_EP RX_FIFO_SIZE MAX_FIFO_LEN_U8 ep len r).1 = true) :
    (∀ i, i ≠ ep →
      window_reg (config_ep_tx_fifo MAX_NUM_EP RX_FIFO_SIZE MAX_FIFO_LEN_U8 ep len r).2 i =
        window_reg r i) ∧
    window_depth (config_ep_tx_fifo MAX_NUM_EP RX_FIFO_SIZE MAX_FIFO_LEN_U8 ep len r).2 ep =
      ((if len < 64 then 64 else len) + 3) / 4 ∧
    window_start (config_ep_tx_fifo MAX_NUM_EP RX_FIFO_SIZE MAX_FIFO_LEN_U8 ep len r).2 ep =
      align4 (window_start r (ep - 1) + window_depth r (ep - 1)) ∧
    align4 (window_start r (ep - 1) + window_depth r (ep - 1)) +
      ((if len < 64 then 64 else len) + 3) / 4 * 4 ≤ MAX_FIFO_LEN_U8 := by
  obtain ⟨h1, h2⟩ := config_ep_tx_fifo_nonzero_ok _ _ _ _ _ _ h0 hok
  rw [config_ep_tx_fifo_nonzero _ _ _ _ _ _ h0 h1 h2] at hok ⊢
  have hcap := (place_window_fst _ _ _ _ _).1 hok
  rw [place_window_snd _ _ _ _ _ hok]
  have hfl : ((if len < 64 then 64 else len) + 3) / 4 ≤ 512 := by split <;> omega
  refine ⟨?_, ?_, ?_, hcap⟩
  · intro i hi
    unfold window_reg
    by_cases hi0 : i = 0
    · simp only [hi0, if_true]
    · have : i - 1 ≠ ep - 1 := by omega
      simp only [hi0, if_false, setReg, this]
  · rw [window_depth_eq]
    simp only [window_reg, h0, if_false, setReg, if_true, window_word_eq]
    omega
  · rw [window_start_eq]
    simp only [window_reg, h0, if_false, setReg, if_true, window_word_eq]
    omega

/-- What a successful call for endpoint 0 leaves in the window registers. -/
theorem config_ep_tx_fifo_zero_windows
    (MAX_NUM_EP RX_FIFO_SIZE MAX_FIFO_LEN_U8 len : Nat) (r : Regs)
    (hMAX : MAX_FIFO_LEN_U8 < 65536) (hRX : RX_FIFO_SIZE ≤ MAX_FIFO_LEN_U8)
    (hok : (config_ep_tx_fifo MAX_NUM_EP RX_FIFO_SIZE MAX_FIFO_LEN_U8 0 len r).1 = true) :
    RX_FIFO_SIZE ≤
      window_start (config_ep_tx_fifo MAX_NUM_EP RX_FIFO_SIZE MAX_FIFO_LEN_U8 0 len r).2 0 ∧
    window_start (config_ep_tx_fifo MAX_NUM_EP RX_FIFO_SIZE MAX_FIFO_LEN_U8 0 len r).2 0 +
      4 * window_depth (config_ep_tx_fifo MAX_NUM_EP RX_FIFO_SIZE MAX_FIFO_LEN_U8 0 len r).2 0
        ≤ MAX_FIFO_LEN_U8 := by
  rw [config_ep_tx_fifo_zero] at hok ⊢
  by_cases hc1 : len < 64 ∨ len > 1024
  · rw [if_pos hc1] at hok; exact absurd hok (by simp)
  · by_cases hc2 : (ep0_start RX_FIFO_SIZE + (len + 3) / 4 * 4) % 2 ^ 32 > MAX_FIFO_LEN_U8
    · rw [if_neg hc1, if_pos hc2] at hok; exact absurd hok (by simp)
    · rw [if_neg hc1, if_neg hc2]
      have hs : RX_FIFO_SIZE ≤ ep0_start RX_FIFO_SIZE ∧ ep0_start RX_FIFO_SIZE < 65540 := by
        unfold ep0_start; split <;> omega
      rw [window_start_eq, window_depth_eq]
      simp only [window_reg, if_true, window_word_eq]
      omega

/-- After a successful in-order configuration of endpoints `0..k`, window 0
starts at or after the receive region and each window ends at or before the
start of the next. -/
theorem config_in_order_chain (MAX_NUM_EP RX_FIFO_SIZE MAX_FIFO_LEN_U8 : Nat) (len : Nat → Nat)
    (hMAX : MAX_FIFO_LEN_U8 < 65536) (hRX : RX_FIFO_SIZE ≤ MAX_FIFO_LEN_U8) (r : Regs) :
    ∀ k, (config_in_order MAX_NUM_EP RX_FIFO_SIZE MAX_FIFO_LEN_U8 len k r).1 = true →
      RX_FIFO_SIZE ≤
        window_start (config_in_order MAX_NUM_EP RX_FIFO_SIZE MAX_FIFO_LEN_U8 len k r).2 0 ∧
      ∀ i, i < k →
        window_start (config_in_order MAX_NUM_EP RX_FIFO_SIZE MAX_FIFO_LEN_U8 len k r).2 i +
          window_depth (config_in_order MAX_NUM_EP RX_FIFO_SIZE MAX_FIFO_LEN_U8 len k r).2 i ≤
        window_start (config_in_order MAX_NUM_EP RX_FIFO_SIZE MAX_FIFO_LEN_U8 len k r).2
          (i + 1) := by
  intro k
  induction k with
  | zero =>
    intro hok
    refine ⟨(config_ep_tx_fifo_zero_windows _ _ _ _ _ hMAX hRX hok).1, ?_⟩
    intro i hi; omega
  | succ k ih =>
    intro hok
    have hprev : (config_in_order MAX_NUM_EP RX_FIFO_SIZE MAX_FIFO_LEN_U8 len k r).1 = true := by
      by_cases hp : (config_in_order MAX_NUM_EP RX_FIFO_SIZE MAX_FIFO_LEN_U8 len k r).1 = true
      · exact hp
      · simp only [config_in_order, hp] at hok
        exact absurd hok hp
    simp only [config_in_order, hprev, if_true] at hok ⊢
    obtain ⟨ih0, ihc⟩ := ih hprev
    obtain ⟨hsame, _, hstart, _⟩ :=
      config_ep_tx_fifo_nonzero_windows MAX_NUM_EP RX_FIFO_SIZE MAX_FIFO_LEN_U8 (k + 1)
        (len (k + 1)) _ hMAX (by omega) hok
    have hws : ∀ i, i ≠ k + 1 →
        window_start (config_ep_tx_fifo MAX_NUM_EP RX_FIFO_SIZE MAX_FIFO_LEN_U8 (k + 1)
          (len (k + 1)) (config_in_order MAX_NUM_EP RX_FIFO_SIZE MAX_FIFO_LEN_U8 len k r).2).2 i =
        window_start (config_in_order MAX_NUM_EP RX_FIFO_SIZE MAX_FIFO_LEN_U8 len k r).2 i := by
      intro i hi; unfold window_start; rw [hsame i hi]
    have hwd : ∀ i, i ≠ k + 1 →
        window_depth (config_ep_tx_fifo MAX_NUM_EP RX_FIFO_SIZE MAX_FIFO_LEN_U8 (k + 1)
          (len (k + 1)) (config_in_order MAX_NUM_EP RX_FIFO_SIZE MAX_FIFO_LEN_U8 len k r).2).2 i =
        window_depth (config_in_order MAX_NUM_EP RX_FIFO_SIZE MAX_FIFO_LEN_U8 len k r).2 i := by
      intro i hi; unfold window_depth; rw [hsame i hi]
    refine ⟨by rw [hws 0 (by omega)]; exact ih0, ?_⟩
    intro i hi
    by_cases hik : i = k
    · subst hik
      rw [hws i (by omega), hwd i (by omega), hstart, align4_eq]
      simp only [Nat.add_sub_cancel]
      omega
    · rw [hws i (by omega), hwd i (by omega), hws (i + 1) (by omega)]
      exact ihc i (by omega)

/-- In a chain of windows each ending at or before the start of the next, any
earlier window ends at or before the start of any later one. -/
theorem chain_pairwise (start depth : Nat → Nat) (k : Nat)
    (h : ∀ i, i < k → start i + depth i ≤ start (i + 1)) :
    ∀ j, j ≤ k → ∀ i, i < j → start i + depth i ≤ start j := by
  intro j
  induction j with
  | zero => intro _ i hi; omega
  | succ j ih =>
    intro hj i hi
    by_cases hij : i = j
    · subst hij; exact h i (by omega)
    · have h1 := ih (by omega) i (by omega)
      have h2 := h j (by omega)
      omega

/-- C1: when `config_ep_tx_fifo` succeeds for endpoint 0 and then for endpoints
1, ..., k in increasing order (any start state, any requested sizes), the windows
read back from the window registers satisfy: window 0 starts at or after
`RX_FIFO_SIZE`, `start_i + depth_i <= start_(i+1)` for every `i < k`, and hence
any two windows `i < j <= k` do not overlap.  The absent class constants are
parameters with `RX_FIFO_SIZE <= MAX_FIFO_LEN_U8 < 2^16` (the start field of a
window register is 16 bits wide). -/
theorem C1_windows_sorted_disjoint (MAX_NUM_EP RX_FIFO_SIZE MAX_FIFO_LEN_U8 : Nat)
    (len : Nat → Nat) (k : Nat) (r : Regs)
    (hMAX : MAX_FIFO_LEN_U8 < 65536) (hRX : RX_FIFO_SIZE ≤ MAX_FIFO_LEN_U8)
    (hok : (config_in_order MAX_NUM_EP RX_FIFO_SIZE MAX_FIFO_LEN_U8 len k r).1 = true) :
    RX_FIFO_SIZE ≤
      window_start (config_in_order MAX_NUM_EP RX_FIFO_SIZE MAX_FIFO_LEN_U8 len k r).2 0 ∧
    (∀ i, i < k →
      window_start (config_in_order MAX_NUM_EP RX_FIFO_SIZE MAX_FIFO_LEN_U8 len k r).2 i +
        window_depth (config_in_order MAX_NUM_EP RX_FIFO_SIZE MAX_FIFO_LEN_U8 len k r).2 i ≤
      window_start (config_in_order MAX_NUM_EP RX_FIFO_SIZE MAX_FIFO_LEN_U8 len k r).2 (i + 1)) ∧
    (∀ i j, i < j → j ≤ k →
      window_start (config_in_order MAX_NUM_EP RX_FIFO_SIZE MAX_FIFO_LEN_U8 len k r).2 i +
        window_depth (config_in_order MAX_NUM_EP RX_FIFO_SIZE MAX_FIFO_LEN_U8 len k r).2 i ≤
      window_start (config_in_order MAX_NUM_EP RX_FIFO_SIZE MAX_FIFO_LEN_U8 len k r).2 j) := by
  obtain ⟨h0, hc⟩ :=
    config_in_order_chain MAX_NUM_EP RX_FIFO_SIZE MAX_FIFO_LEN_U8 len hMAX hRX r k hok
  exact ⟨h0, hc, fun i j hij hj => chain_pairwise _ _ k hc j hj i hij⟩

/-- C1 at `MAX_NUM_EP = 8`, `RX_FIFO_SIZE = 512`, `MAX_FIFO_LEN_U8 = 4096`:
endpoints 0, 1, 2 configured in order with sizes 64, 100, 200 from the all-zero
register bank. -/
theorem C1_windows_sorted_disjoint_witness :
    (config_in_order 8 512 4096 (fun i => if i = 0 then 64 else 100 * i) 2 zeroRegs).1 = true ∧
    512 ≤ window_start
      (config_in_order 8 512 4096 (fun i => if i = 0 then 64 else 100 * i) 2 zeroRegs).2 0 ∧
    (∀ i, i < 2 →
      window_start
          (config_in_order 8 512 4096 (fun i => if i = 0 then 64 else 100 * i) 2 zeroRegs).2 i +
        window_depth
          (config_in_order 8 512 4096 (fun i => if i = 0 then 64 else 100 * i) 2 zeroRegs).2 i ≤
      window_start
        (config_in_order 8 512 4096 (fun i => if i = 0 then 64 else 100 * i) 2 zeroRegs).2
        (i + 1)) ∧
    (∀ i j, i < j → j ≤ 2 →
      window_start
          (config_in_order 8 512 4096 (fun i => if i = 0 then 64 else 100 * i) 2 zeroRegs).2 i +
        window_depth
          (config_in_order 8 512 4096 (fun i => if i = 0 then 64 else 100 * i) 2 zeroRegs).2 i ≤
      window_start
        (config_in_order 8 512 4096 (fun i => if i = 0 then 64 else 100 * i) 2 zeroRegs).2 j) :=
  ⟨by decide,
   C1_windows_sorted_disjoint 8 512 4096 (fun i => if i = 0 then 64 else 100 * i) 2 zeroRegs
     (by decide) (by decide) (by decide)⟩

/-- C2: `config_ep_tx_fifo(0, x)` with `x < 64` or `x > 1024`, and
`config_ep_tx_fifo(k, x)` with `k != 0` and `x > 2048`, return `false` and leave
`DIEPTXF0_HNPTXFSIZ` and every `DIEPTXF[i]` as they were. -/
theorem C2_config_ep_tx_fifo_rejects (MAX_NUM_EP RX_FIFO_SIZE MAX_FIFO_LEN_U8 k x : Nat)
    (r : Regs) (h : (k = 0 ∧ (x < 64 ∨ 1024 < x)) ∨ (k ≠ 0 ∧ 2048 < x)) :
    (config_ep_tx_fifo MAX_NUM_EP RX_FIFO_SIZE MAX_FIFO_LEN_U8 k x r).1 = false ∧
    (config_ep_tx_fifo MAX_NUM_EP RX_FIFO_SIZE MAX_FIFO_LEN_U8 k x r).2.DIEPTXF0_HNPTXFSIZ =
      r.DIEPTXF0_HNPTXFSIZ ∧
    ∀ i, (config_ep_tx_fifo MAX_NUM_EP RX_FIFO_SIZE MAX_FIFO_LEN_U8 k x r).2.DIEPTXF i =
      r.DIEPTXF i := by
  have hf : (config_ep_tx_fifo MAX_NUM_EP RX_FIFO_SIZE MAX_FIFO_LEN_U8 k x r).1 = false := by
    rcases h with ⟨hk, hx⟩ | ⟨hk, hx⟩
    · subst hk
      have hx' : x < 64 ∨ x > 1024 := hx
      rw [config_ep_tx_fifo_zero, if_pos hx']
    · unfold config_ep_tx_fifo
      have hx' : x > 2048 := hx
      by_cases h1 : k > MAX_NUM_EP
      · simp [hk, h1]
      · simp [hk, h1, hx']
  have hs := config_ep_tx_fifo_fail _ _ _ _ _ _ hf
  refine ⟨hf, by rw [hs], fun i => by rw [hs]⟩

/-- C2 at endpoint 0 with sizes 63 and 1025 and endpoint 3 with size 2049. -/
theorem C2_config_ep_tx_fifo_rejects_witness :
    ((config_ep_tx_fifo 8 512 4096 0 63 zeroRegs).1 = false ∧
      (config_ep_tx_fifo 8 512 4096 0 63 zeroRegs).2.DIEPTXF0_HNPTXFSIZ =
        zeroRegs.DIEPTXF0_HNPTXFSIZ ∧
      ∀ i, (config_ep_tx_fifo 8 512 4096 0 63 zeroRegs).2.DIEPTXF i = zeroRegs.DIEPTXF i) ∧
    ((config_ep_tx_fifo 8 512 4096 0 1025 zeroRegs).1 = false ∧
      (config_ep_tx_fifo 8 512 4096 0 1025 zeroRegs).2.DIEPTXF0_HNPTXFSIZ =
        zeroRegs.DIEPTXF0_HNPTXFSIZ ∧
      ∀ i, (config_ep_tx_fifo 8 512 4096 0 1025 zeroRegs).2.DIEPTXF i = zeroRegs.DIEPTXF i) ∧
    ((config_ep_tx_fifo 8 512 4096 3 2049 zeroRegs).1 = false ∧
      (config_ep_tx_fifo 8 512 4096 3 2049 zeroRegs).2.DIEPTXF0_HNPTXFSIZ =
        zeroRegs.DIEPTXF0_HNPTXFSIZ ∧
      ∀ i, (config_ep_tx_fifo 8 512 4096 3 2049 zeroRegs).2.DIEPTXF i = zeroRegs.DIEPTXF i) :=
  ⟨C2_config_ep_tx_fifo_rejects 8 512 4096 0 63 zeroRegs (by decide),
   C2_config_ep_tx_fifo_rejects 8 512 4096 0 1025 zeroRegs (by decide),
   C2_config_ep_tx_fifo_rejects 8 512 4096 3 2049 zeroRegs (by decide)⟩

/-- C3: for an endpoint `1 <= k <= MAX_NUM_EP` and a size `len <= 2048`, a call
that returns `true` leaves in the window register of `k` the depth
`ceil(max(len, 64) / 4)` and the start `start + depth` of the window recorded
for endpoint `k - 1` (endpoint 0's register when `k = 1`) rounded up to a
multiple of 4; and a call with `len < 64` is the same call as with `len = 64`
(same flag, same registers).  `MAX_FIFO_LEN_U8`, absent from the sources, is a
parameter below `2^16`, the width of the start field. -/
theorem C3_nonzero_window_placement (MAX_NUM_EP RX_FIFO_SIZE MAX_FIFO_LEN_U8 k len : Nat)
    (r : Regs) (hMAX : MAX_FIFO_LEN_U8 < 65536) (hk1 : 1 ≤ k) (hk : k ≤ MAX_NUM_EP)
    (hlen : len ≤ 2048)
    (hok : (config_ep_tx_fifo MAX_NUM_EP RX_FIFO_SIZE MAX_FIFO_LEN_U8 k len r).1 = true) :
    window_depth (config_ep_tx_fifo MAX_NUM_EP RX_FIFO_SIZE MAX_FIFO_LEN_U8 k len r).2 k =
      (max len 64 + 3) / 4 ∧
    window_start (config_ep_tx_fifo MAX_NUM_EP RX_FIFO_SIZE MAX_FIFO_LEN_U8 k len r).2 k =
      (window_start r (k - 1) + window_depth r (k - 1) + 3) / 4 * 4 ∧
    (len < 64 →
      config_ep_tx_fifo MAX_NUM_EP RX_FIFO_SIZE MAX_FIFO_LEN_U8 k len r =
        config_ep_tx_fifo MAX_NUM_EP RX_FIFO_SIZE MAX_FIFO_LEN_U8 k 64 r) := by
  obtain ⟨_, hd, hs, _⟩ :=
    config_ep_tx_fifo_nonzero_windows MAX_NUM_EP RX_FIFO_SIZE MAX_FIFO_LEN_U8 k len r hMAX
      (by omega) hok
  refine ⟨?_, ?_, ?_⟩
  · rw [hd]; split <;> rw [Nat.max_def] <;> split <;> omega
  · rw [hs, align4_eq]
  · intro hlt
    rw [config_ep_tx_fifo_nonzero _ _ _ _ _ _ (by omega) hk hlen,
      config_ep_tx_fifo_nonzero _ _ _ _ _ _ (by omega) hk (by omega)]
    simp only [hlt, if_true, Nat.lt_irrefl, if_false]

/-- C3 at `MAX_NUM_EP = 8`, `MAX_FIFO_LEN_U8 = 4096`: endpoint 2 with a request
of 10 bytes, after endpoint 1 holds the window `(start 0x210, depth 0x11)`: the
call succeeds and programs depth 16 at start 0x224, as a request of 64 does. -/
theorem C3_nonzero_window_placement_witness :
    (config_ep_tx_fifo 8 512 4096 2 10 { zeroRegs with DIEPTXF := fun _ => 0x00110210 }).1 =
      true ∧
    window_depth
        (config_ep_tx_fifo 8 512 4096 2 10 { zeroRegs with DIEPTXF := fun _ => 0x00110210 }).2 2 =
      (max 10 64 + 3) / 4 ∧
    window_start
        (config_ep_tx_fifo 8 512 4096 2 10 { zeroRegs with DIEPTXF := fun _ => 0x00110210 }).2 2 =
      (window_start { zeroRegs with DIEPTXF := fun _ => 0x00110210 } (2 - 1) +
        window_depth { zeroRegs with DIEPTXF := fun _ => 0x00110210 } (2 - 1) + 3) / 4 * 4 ∧
    config_ep_tx_fifo 8 512 4096 2 10 { zeroRegs with DIEPTXF := fun _ => 0x00110210 } =
      config_ep_tx_fifo 8 512 4096 2 64 { zeroRegs with DIEPTXF := fun _ => 0x00110210 } :=
  ⟨by decide,
   (C3_nonzero_window_placement 8 512 4096 2 10
      { zeroRegs with DIEPTXF := fun _ => 0x00110210 }
      (by decide) (by decide) (by decide) (by decide) (by decide)).1,
   (C3_nonzero_window_placement 8 512 4096 2 10
      { zeroRegs with DIEPTXF := fun _ => 0x00110210 }
      (by decide) (by decide) (by decide) (by decide) (by decide)).2.1,
   (C3_nonzero_window_placement 8 512 4096 2 10
      { zeroRegs with DIEPTXF := fun _ => 0x00110210 }
      (by decide) (by decide) (by decide) (by decide) (by decide)).2.2 (by decide)⟩

/-- C4 (the code breaks it): for every FIFO size `128 <= MAX_FIFO_LEN_U8 < 2^16`
there is a register state from which `config_ep_tx_fifo(1, 64)` returns `true`
and programs a window whose end `start + depth`, in words, lies beyond the
physical FIFO of `MAX_FIFO_LEN_U8 / 4` words: the capacity check adds the start
offset in words to the depth in bytes. -/
theorem C4_window_beyond_fifo (MAX_NUM_EP RX_FIFO_SIZE MAX_FIFO_LEN_U8 : Nat)
    (hEP : 1 ≤ MAX_NUM_EP) (hlo : 128 ≤ MAX_FIFO_LEN_U8) (hMAX : MAX_FIFO_LEN_U8 < 65536) :
    (config_ep_tx_fifo MAX_NUM_EP RX_FIFO_SIZE MAX_FIFO_LEN_U8 1 64
      { zeroRegs with DIEPTXF0_HNPTXFSIZ := (MAX_FIFO_LEN_U8 - 64) / 4 * 4 }).1 = true ∧
    MAX_FIFO_LEN_U8 / 4 <
      window_start (config_ep_tx_fifo MAX_NUM_EP RX_FIFO_SIZE MAX_FIFO_LEN_U8 1 64
        { zeroRegs with DIEPTXF0_HNPTXFSIZ := (MAX_FIFO_LEN_U8 - 64) / 4 * 4 }).2 1 +
      window_depth (config_ep_tx_fifo MAX_NUM_EP RX_FIFO_SIZE MAX_FIFO_LEN_U8 1 64
        { zeroRegs with DIEPTXF0_HNPTXFSIZ := (MAX_FIFO_LEN_U8 - 64) / 4 * 4 }).2 1 := by
  have hbase : window_start
        { zeroRegs with DIEPTXF0_HNPTXFSIZ := (MAX_FIFO_LEN_U8 - 64) / 4 * 4 } (1 - 1) +
      window_depth
        { zeroRegs with DIEPTXF0_HNPTXFSIZ := (MAX_FIFO_LEN_U8 - 64) / 4 * 4 } (1 - 1) =
      (MAX_FIFO_LEN_U8 - 64) / 4 * 4 := by
    rw [window_start_eq, window_depth_eq]
    simp only [window_reg, Nat.sub_self, if_true]
    omega
  have hok : (config_ep_tx_fifo MAX_NUM_EP RX_FIFO_SIZE MAX_FIFO_LEN_U8 1 64
      { zeroRegs with DIEPTXF0_HNPTXFSIZ := (MAX_FIFO_LEN_U8 - 64) / 4 * 4 }).1 = true := by
    rw [config_ep_tx_fifo_nonzero _ _ _ _ _ _ (by omega) hEP (by omega), place_window_fst,
      hbase, align4_eq]
    simp only [Nat.lt_irrefl, if_false]
    omega
  obtain ⟨_, hd, hs, _⟩ :=
    config_ep_tx_fifo_nonzero_windows MAX_NUM_EP RX_FIFO_SIZE MAX_FIFO_LEN_U8 1 64 _ hMAX
      (by omega) hok
  refine ⟨hok, ?_⟩
  rw [hd, hs, hbase, align4_eq]
  simp only [Nat.lt_irrefl, if_false]
  omega

/-- C4 at `MAX_NUM_EP = 8`, `RX_FIFO_SIZE = 512`, `MAX_FIFO_LEN_U8 = 4096`: from
endpoint 0's window at word 4032 the call for endpoint 1 succeeds and the window
ends at word 4048, beyond the 1024 words of the FIFO. -/
theorem C4_window_beyond_fifo_witness :
    (config_ep_tx_fifo 8 512 4096 1 64
      { zeroRegs with DIEPTXF0_HNPTXFSIZ := (4096 - 64) / 4 * 4 }).1 = true ∧
    4096 / 4 <
      window_start (config_ep_tx_fifo 8 512 4096 1 64
        { zeroRegs with DIEPTXF0_HNPTXFSIZ := (4096 - 64) / 4 * 4 }).2 1 +
      window_depth (config_ep_tx_fifo 8 512 4096 1 64
        { zeroRegs with DIEPTXF0_HNPTXFSIZ := (4096 - 64) / 4 * 4 }).2 1 :=
  C4_window_beyond_fifo 8 512 4096 (by decide) (by decide) (by decide)

/-- An in-order run whose second window ends beyond the FIFO: with
`RX_FIFO_SIZE = 512` and `MAX_FIFO_LEN_U8 = 4096`, endpoint 0 configured with
1024 bytes and then endpoint 1 with 2048 bytes both succeed, and window 1 is
`(start 768, depth 512)`, ending at word 1280 of a FIFO of 1024 words. -/
theorem in_order_window_beyond_fifo :
    (config_in_order 8 512 4096 (fun i => if i = 0 then 1024 else 2048) 1 zeroRegs).1 = true ∧
    window_start
      (config_in_order 8 512 4096 (fun i => if i = 0 then 1024 else 2048) 1 zeroRegs).2 1 = 768 ∧
    window_depth
      (config_in_order 8 512 4096 (fun i => if i = 0 then 1024 else 2048) 1 zeroRegs).2 1 = 512 ∧
    4096 / 4 < 768 + 512 := by
  decide

/-! ## Endpoint configuration -/

theorem ep0_tier_smallest (s : Nat) : smallest_tier_ge s (ep0_tier s).1 := by
  unfold smallest_tier_ge ep0_tier EP0_TIERS
  by_cases h1 : s ≤ 8
  · simp [h1]; omega
  · by_cases h2 : s ≤ 16
    · simp [h1, h2]; omega
    · by_cases h3 : s ≤ 32
      · simp [h1, h2, h3]; omega
      · simp [h1, h2, h3]

/-- On endpoint address 0 with type CONTROL the call returns `true` and records
the request with the size replaced by its tier. -/
theorem ep_config_ep0_control (MAX_NUM_EP RX_FIFO_SIZE MAX_FIFO_LEN_U8 : Nat) (ep : ep_cfg)
    (d : Driver) (h0 : get_ep_addr ep.num = 0) (ht : ep.type = EP_TYPE.CONTROL) :
    (ep_config MAX_NUM_EP RX_FIFO_SIZE MAX_FIFO_LEN_U8 ep d).1 = true ∧
    (ep_config MAX_NUM_EP RX_FIFO_SIZE MAX_FIFO_LEN_U8 ep d).2.m_ep0_cfg =
      { ep with size := (ep0_tier ep.size).1 } := by
  unfold ep_config
  simp only [h0, ht, ne_eq, not_true_eq_false, if_true, if_false, and_self]

/-- On endpoint address 0 with a type other than CONTROL the call returns
`false` and the driver is as it was. -/
theorem ep_config_ep0_other (MAX_NUM_EP RX_FIFO_SIZE MAX_FIFO_LEN_U8 : Nat) (ep : ep_cfg)
    (d : Driver) (h0 : get_ep_addr ep.num = 0) (ht : ep.type ≠ EP_TYPE.CONTROL) :
    ep_config MAX_NUM_EP RX_FIFO_SIZE MAX_FIFO_LEN_U8 ep d = (false, d) := by
  unfold ep_config
  simp only [h0, ht, ne_eq, not_false_eq_true, if_true]

/-- C5 as stated fails: a request of 9 bytes on control endpoint 0 records the
size 16, which is not the largest tier that is at most 9 (that tier is 8). -/
theorem C5_counterexample :
    (ep_config 8 512 4096 { num := 0, size := 9, type := EP_TYPE.CONTROL }
      zeroDriver).2.m_ep0_cfg.size = 16 ∧
    ¬ largest_tier_le 9
      (ep_config 8 512 4096 { num := 0, size := 9, type := EP_TYPE.CONTROL }
        zeroDriver).2.m_ep0_cfg.size := by
  have h : (ep_config 8 512 4096 { num := 0, size := 9, type := EP_TYPE.CONTROL }
      zeroDriver).2.m_ep0_cfg.size = 16 := by decide
  refine ⟨h, ?_⟩
  rw [h]
  intro hc
  have := hc.2.1
  omega

/-- C5, amended: for every `ep_config` call on control endpoint 0 with type
CONTROL and requested size `s`, the size recorded in `m_ep0_cfg` is the smallest
value in {8, 16, 32, 64} that is at least `s`, and 64 when `s > 64`. -/
theorem C5_ep0_size_tier (MAX_NUM_EP RX_FIFO_SIZE MAX_FIFO_LEN_U8 : Nat) (ep : ep_cfg)
    (d : Driver) (h0 : get_ep_addr ep.num = 0) (ht : ep.type = EP_TYPE.CONTROL) :
    smallest_tier_ge ep.size
      (ep_config MAX_NUM_EP RX_FIFO_SIZE MAX_FIFO_LEN_U8 ep d).2.m_ep0_cfg.size := by
  rw [(ep_config_ep0_control MAX_NUM_EP RX_FIFO_SIZE MAX_FIFO_LEN_U8 ep d h0 ht).2]
  exact ep0_tier_smallest ep.size

/-- C5 (amended) at a request of 9 bytes. -/
theorem C5_ep0_size_tier_witness :
    smallest_tier_ge 9
      (ep_config 8 512 4096 { num := 0, size := 9, type := EP_TYPE.CONTROL }
        zeroDriver).2.m_ep0_cfg.size :=
  C5_ep0_size_tier 8 512 4096 { num := 0, size := 9, type := EP_TYPE.CONTROL } zeroDriver
    (by decide) (by decide)

/-- C6: `ep_config` on endpoint address 0 returns `true` if and only if the
requested type is CONTROL, whatever the size; when it returns `false` the
driver (recorded configurations and all registers) is unchanged. -/
theorem C6_ep0_control_only (MAX_NUM_EP RX_FIFO_SIZE MAX_FIFO_LEN_U8 : Nat) (ep : ep_cfg)
    (d : Driver) (h0 : get_ep_addr ep.num = 0) :
    ((ep_config MAX_NUM_EP RX_FIFO_SIZE MAX_FIFO_LEN_U8 ep d).1 = true ↔
      ep.type = EP_TYPE.CONTROL) ∧
    ((ep_config MAX_NUM_EP RX_FIFO_SIZE MAX_FIFO_LEN_U8 ep d).1 = false →
      (ep_config MAX_NUM_EP RX_FIFO_SIZE MAX_FIFO_LEN_U8 ep d).2 = d) := by
  by_cases ht : ep.type = EP_TYPE.CONTROL
  · have h := (ep_config_ep0_control MAX_NUM_EP RX_FIFO_SIZE MAX_FIFO_LEN_U8 ep d h0 ht).1
    refine ⟨⟨fun _ => ht, fun _ => h⟩, fun hf => ?_⟩
    rw [h] at hf
    exact absurd hf (by simp)
  · have h := ep_config_ep0_other MAX_NUM_EP RX_FIFO_SIZE MAX_FIFO_LEN_U8 ep d h0 ht
    rw [h]
    exact ⟨⟨fun hc => absurd hc (by simp), fun hc => absurd hc ht⟩, fun _ => rfl⟩

/-- C6 on endpoint address 0 with type BULK (rejected, the driver is
unchanged) and with type CONTROL through the IN alias 0x80 (accepted). -/
theorem C6_ep0_control_only_witness :
    (ep_config 8 512 4096 { num := 0, size := 64, type := EP_TYPE.BULK } zeroDriver).1 = false ∧
    (ep_config 8 512 4096 { num := 0, size := 64, type := EP_TYPE.BULK } zeroDriver).2 =
      zeroDriver ∧
    (ep_config 8 512 4096 { num := 0x80, size := 64, type := EP_TYPE.CONTROL } zeroDriver).1 =
      true :=
  ⟨by decide,
   (C6_ep0_control_only 8 512 4096 { num := 0, size := 64, type := EP_TYPE.BULK } zeroDriver
     (by decide)).2 (by decide),
   (C6_ep0_control_only 8 512 4096 { num := 0x80, size := 64, type := EP_TYPE.CONTROL }
     zeroDriver (by decide)).1.2 rfl⟩

/-- The bit `ep_config` ORs into `DAINTMSK` for IN endpoint `n <= 15` is bit `n`. -/
theorem iepm_testBit (n : Nat) (hn : n ≤ 15) :
    (VAL2FLD USB_OTG_DAINTMSK_IEPM_Pos USB_OTG_DAINTMSK_IEPM_Msk (0x0001 <<< n)).testBit n
      = true := by
  have hm : USB_OTG_DAINTMSK_IEPM_Msk = 2 ^ 16 - 1 := by decide
  unfold VAL2FLD USB_OTG_DAINTMSK_IEPM_Pos
  rw [hm, Nat.shiftLeft_zero, Nat.testBit_and, Nat.testBit_two_pow_sub_one, Nat.one_shiftLeft,
    Nat.testBit_two_pow_self]
  simp only [Bool.true_and, decide_eq_true_eq]
  omega

/-- The `switch(ep.type)` writes a control register exactly for the types
ISOCHRONUS, INTERRUPT and BULK. -/
theorem diepctl_value_none (ep_addr : Nat) (ep : ep_cfg) :
    diepctl_value ep_addr ep = none ↔
      (ep.type ≠ EP_TYPE.ISOCHRONUS ∧ ep.type ≠ EP_TYPE.INTERRUPT ∧ ep.type ≠ EP_TYPE.BULK) := by
  unfold diepctl_value
  cases ep.type <;> simp

theorem doepctl_value_none (ep : ep_cfg) :
    doepctl_value ep = none ↔
      (ep.type ≠ EP_TYPE.ISOCHRONUS ∧ ep.type ≠ EP_TYPE.INTERRUPT ∧ ep.type ≠ EP_TYPE.BULK) := by
  unfold doepctl_value
  cases ep.type <;> simp

/-- The IN branch of `ep_config` (non-zero address). -/
theorem ep_config_in (MAX_NUM_EP RX_FIFO_SIZE MAX_FIFO_LEN_U8 : Nat) (ep : ep_cfg) (d : Driver)
    (h0 : get_ep_addr ep.num ≠ 0) (hin : is_in_ep ep.num = true) :
    ep_config MAX_NUM_EP RX_FIFO_SIZE MAX_FIFO_LEN_U8 ep d =
      if (config_ep_tx_fifo MAX_NUM_EP RX_FIFO_SIZE MAX_FIFO_LEN_U8 (get_ep_addr ep.num) ep.size
            d.regs).1 = false then
        (false, { d with regs := (config_ep_tx_fifo MAX_NUM_EP RX_FIFO_SIZE MAX_FIFO_LEN_U8
                                    (get_ep_addr ep.num) ep.size d.regs).2 })
      else
        match diepctl_value (get_ep_addr ep.num) ep with
        | none => (false, { d with regs := (config_ep_tx_fifo MAX_NUM_EP RX_FIFO_SIZE
                                              MAX_FIFO_LEN_U8 (get_ep_addr ep.num) ep.size
                                              d.regs).2 })
        | some v =>
          (true, { d with regs :=
            { (config_ep_tx_fifo MAX_NUM_EP RX_FIFO_SIZE MAX_FIFO_LEN_U8 (get_ep_addr ep.num)
                  ep.size d.regs).2 with
              DIEPCTL := setReg (config_ep_tx_fifo MAX_NUM_EP RX_FIFO_SIZE MAX_FIFO_LEN_U8
                                  (get_ep_addr ep.num) ep.size d.regs).2.DIEPCTL
                                (get_ep_addr ep.num) v,
              DAINTMSK := (config_ep_tx_fifo MAX_NUM_EP RX_FIFO_SIZE MAX_FIFO_LEN_U8
                                  (get_ep_addr ep.num) ep.size d.regs).2.DAINTMSK |||
                            VAL2FLD USB_OTG_DAINTMSK_IEPM_Pos USB_OTG_DAINTMSK_IEPM_Msk
                              (0x0001 <<< get_ep_addr ep.num) } }) := by
  unfold ep_config
  simp only [h0, hin, if_true, if_false]
  cases (config_ep_tx_fifo MAX_NUM_EP RX_FIFO_SIZE MAX_FIFO_LEN_U8 (get_ep_addr ep.num) ep.size
    d.regs).1
  · simp
  · simp only [Bool.not_true, Bool.false_eq_true, if_false]
    cases diepctl_value (get_ep_addr ep.num) ep <;> rfl

/-- The OUT branch of `ep_config` (non-zero address). -/
theorem ep_config_out (MAX_NUM_EP RX_FIFO_SIZE MAX_FIFO_LEN_U8 : Nat) (ep : ep_cfg) (d : Driver)
    (h0 : get_ep_addr ep.num ≠ 0) (hin : is_in_ep ep.num = false) :
    ep_config MAX_NUM_EP RX_FIFO_SIZE MAX_FIFO_LEN_U8 ep d =
      match doepctl_value ep with
      | none => (false, d)
      | some v =>
        (true, { d with regs :=
          { d.regs with DOEPCTL := setReg d.regs.DOEPCTL (get_ep_addr ep.num) v } }) := by
  unfold ep_config
  simp only [h0, hin, if_false, Bool.false_eq_true]

/-- `config_ep_tx_fifo` writes window registers only. -/
theorem config_ep_tx_fifo_frame (MAX_NUM_EP RX_FIFO_SIZE MAX_FIFO_LEN_U8 ep len : Nat)
    (r : Regs) (h0 : ep ≠ 0) :
    (config_ep_tx_fifo MAX_NUM_EP RX_FIFO_SIZE MAX_FIFO_LEN_U8 ep len r).2.DIEPCTL = r.DIEPCTL ∧
    (config_ep_tx_fifo MAX_NUM_EP RX_FIFO_SIZE MAX_FIFO_LEN_U8 ep len r).2.DOEPCTL = r.DOEPCTL ∧
    (config_ep_tx_fifo MAX_NUM_EP RX_FIFO_SIZE MAX_FIFO_LEN_U8 ep len r).2.DAINTMSK =
      r.DAINTMSK := by
  cases hf : (config_ep_tx_fifo MAX_NUM_EP RX_FIFO_SIZE MAX_FIFO_LEN_U8 ep len r).1
  · rw [config_ep_tx_fifo_fail _ _ _ _ _ _ hf]
    exact ⟨rfl, rfl, rfl⟩
  · obtain ⟨v, hv⟩ := config_ep_tx_fifo_nonzero_snd _ _ _ _ _ _ h0 hf
    rw [hv]
    exact ⟨rfl, rfl, rfl⟩

/-- C7 as stated fails: configuring OUT endpoint 1 as BULK returns `true` and
leaves bit 16+1 of `DAINTMSK` clear. -/
theorem C7_counterexample :
    (ep_config 8 512 4096 { num := 0x01, size := 64, type := EP_TYPE.BULK } zeroDriver).1 = true ∧
    (ep_config 8 512 4096 { num := 0x01, size := 64, type := EP_TYPE.BULK }
      zeroDriver).2.regs.DAINTMSK.testBit (16 + 1) = false := by
  decide

/-- C7, amended: for every `ep_config` call on an endpoint `n` with
`0 < n <= MAX_NUM_EP` that returns `true`: if the endpoint is IN, bit `n` of
`DAINTMSK` is set afterwards; if it is OUT, `DAINTMSK` is left as it was (the
call does not enable the OUT interrupt line).  `MAX_NUM_EP`, absent from the
sources, is a parameter of at most 15, the width of the IN half of `DAINTMSK`. -/
theorem C7_interrupt_line (MAX_NUM_EP RX_FIFO_SIZE MAX_FIFO_LEN_U8 : Nat) (ep : ep_cfg)
    (d : Driver) (hEP : MAX_NUM_EP ≤ 15) (h0 : get_ep_addr ep.num ≠ 0)
    (hn : get_ep_addr ep.num ≤ MAX_NUM_EP)
    (hok : (ep_config MAX_NUM_EP RX_FIFO_SIZE MAX_FIFO_LEN_U8 ep d).1 = true) :
    (is_in_ep ep.num = true →
      (ep_config MAX_NUM_EP RX_FIFO_SIZE MAX_FIFO_LEN_U8 ep d).2.regs.DAINTMSK.testBit
        (get_ep_addr ep.num) = true) ∧
    (is_in_ep ep.num = false →
      (ep_config MAX_NUM_EP RX_FIFO_SIZE MAX_FIFO_LEN_U8 ep d).2.regs.DAINTMSK =
        d.regs.DAINTMSK) := by
  constructor
  · intro hin
    rw [ep_config_in _ _ _ _ _ h0 hin] at hok ⊢
    by_cases hf : (config_ep_tx_fifo MAX_NUM_EP RX_FIFO_SIZE MAX_FIFO_LEN_U8
        (get_ep_addr ep.num) ep.size d.regs).1 = false
    · rw [if_pos hf] at hok; exact absurd hok (by simp)
    · rw [if_neg hf] at hok ⊢
      cases hv : diepctl_value (get_ep_addr ep.num) ep with
      | none => rw [hv] at hok; exact absurd hok (by simp)
      | some v =>
        simp only [Nat.testBit_or, iepm_testBit _ (Nat.le_trans hn hEP), Bool.or_true]
  · intro hin
    rw [ep_config_out _ _ _ _ _ h0 hin] at hok ⊢
    cases hv : doepctl_value ep with
    | none => simp [hv] at hok
    | some v => rfl

/-- C7 (amended) at IN endpoint 1 (0x81) and at OUT endpoint 1 (0x01), each
configured as BULK with 64 bytes over the all-zero registers. -/
theorem C7_interrupt_line_witness :
    (ep_config 8 512 4096 { num := 0x81, size := 64, type := EP_TYPE.BULK } zeroDriver).1 = true ∧
    (ep_config 8 512 4096 { num := 0x81, size := 64, type := EP_TYPE.BULK }
      zeroDriver).2.regs.DAINTMSK.testBit (get_ep_addr 0x81) = true ∧
    (ep_config 8 512 4096 { num := 0x01, size := 64, type := EP_TYPE.BULK } zeroDriver).1 = true ∧
    (ep_config 8 512 4096 { num := 0x01, size := 64, type := EP_TYPE.BULK }
      zeroDriver).2.regs.DAINTMSK = zeroDriver.regs.DAINTMSK :=
  ⟨by decide,
   (C7_interrupt_line 8 512 4096 { num := 0x81, size := 64, type := EP_TYPE.BULK } zeroDriver
     (by decide) (by decide) (by decide) (by decide)).1 (by decide),
   by decide,
   (C7_interrupt_line 8 512 4096 { num := 0x01, size := 64, type := EP_TYPE.BULK } zeroDriver
     (by decide) (by decide) (by decide) (by decide)).2 (by decide)⟩

/-- C8: on an endpoint `n != 0`, `ep_config` returns `false` when the endpoint
is IN and `config_ep_tx_fifo` fails, and, in either direction, when the type is
none of ISOCHRONUS, INTERRUPT, BULK; and whenever it returns `false` every
`DIEPCTL`, every `DOEPCTL` and `DAINTMSK` are as they were. -/
theorem C8_nonzero_failures (MAX_NUM_EP RX_FIFO_SIZE MAX_FIFO_LEN_U8 : Nat) (ep : ep_cfg)
    (d : Driver) (h0 : get_ep_addr ep.num ≠ 0) :
    (is_in_ep ep.num = true →
      (config_ep_tx_fifo MAX_NUM_EP RX_FIFO_SIZE MAX_FIFO_LEN_U8 (get_ep_addr ep.num) ep.size
        d.regs).1 = false →
      (ep_config MAX_NUM_EP RX_FIFO_SIZE MAX_FIFO_LEN_U8 ep d).1 = false) ∧
    (ep.type ≠ EP_TYPE.ISOCHRONUS → ep.type ≠ EP_TYPE.INTERRUPT → ep.type ≠ EP_TYPE.BULK →
      (ep_config MAX_NUM_EP RX_FIFO_SIZE MAX_FIFO_LEN_U8 ep d).1 = false) ∧
    ((ep_config MAX_NUM_EP RX_FIFO_SIZE MAX_FIFO_LEN_U8 ep d).1 = false →
      (ep_config MAX_NUM_EP RX_FIFO_SIZE MAX_FIFO_LEN_U8 ep d).2.regs.DIEPCTL = d.regs.DIEPCTL ∧
      (ep_config MAX_NUM_EP RX_FIFO_SIZE MAX_FIFO_LEN_U8 ep d).2.regs.DOEPCTL = d.regs.DOEPCTL ∧
      (ep_config MAX_NUM_EP RX_FIFO_SIZE MAX_FIFO_LEN_U8 ep d).2.regs.DAINTMSK =
        d.regs.DAINTMSK) := by
  have hframe := config_ep_tx_fifo_frame MAX_NUM_EP RX_FIFO_SIZE MAX_FIFO_LEN_U8
    (get_ep_addr ep.num) ep.size d.regs h0
  cases hin : is_in_ep ep.num
  · rw [ep_config_out _ _ _ _ _ h0 hin]
    refine ⟨fun hc => absurd hc (by simp), ?_, ?_⟩
    · intro h1 h2 h3
      rw [(doepctl_value_none ep).2 ⟨h1, h2, h3⟩]
    · intro hf
      cases hv : doepctl_value ep with
      | none => exact ⟨rfl, rfl, rfl⟩
      | some v => rw [hv] at hf; exact absurd hf (by simp)
  · rw [ep_config_in _ _ _ _ _ h0 hin]
    by_cases hf : (config_ep_tx_fifo MAX_NUM_EP RX_FIFO_SIZE MAX_FIFO_LEN_U8
        (get_ep_addr ep.num) ep.size d.regs).1 = false
    · rw [if_pos hf]
      exact ⟨fun _ _ => rfl, fun _ _ _ => rfl, fun _ => hframe⟩
    · rw [if_neg hf]
      refine ⟨fun _ hc => absurd hc hf, ?_, ?_⟩
      · intro h1 h2 h3
        rw [(diepctl_value_none _ ep).2 ⟨h1, h2, h3⟩]
      · intro hres
        cases hv : diepctl_value (get_ep_addr ep.num) ep with
        | none => exact hframe
        | some v => rw [hv] at hres; exact absurd hres (by simp)

/-- C8 at IN endpoint 1 with an oversized request (the allocator fails), and at
OUT endpoint 2 with type CONTROL (unsupported type). -/
theorem C8_nonzero_failures_witness :
    (ep_config 8 512 4096 { num := 0x81, size := 4000, type := EP_TYPE.BULK } zeroDriver).1 = false ∧
    (ep_config 8 512 4096 { num := 0x02, size := 64, type := EP_TYPE.CONTROL } zeroDriver).1 = false ∧
    ((ep_config 8 512 4096 { num := 0x02, size := 64, type := EP_TYPE.CONTROL }
        zeroDriver).2.regs.DIEPCTL = zeroDriver.regs.DIEPCTL ∧
      (ep_config 8 512 4096 { num := 0x02, size := 64, type := EP_TYPE.CONTROL }
        zeroDriver).2.regs.DOEPCTL = zeroDriver.regs.DOEPCTL ∧
      (ep_config 8 512 4096 { num := 0x02, size := 64, type := EP_TYPE.CONTROL }
        zeroDriver).2.regs.DAINTMSK = zeroDriver.regs.DAINTMSK) :=
  ⟨(C8_nonzero_failures 8 512 4096 { num := 0x81, size := 4000, type := EP_TYPE.BULK } zeroDriver
      (by decide)).1 (by decide) (by decide),
   (C8_nonzero_failures 8 512 4096 { num := 0x02, size := 64, type := EP_TYPE.CONTROL } zeroDriver
      (by decide)).2.1 (by decide) (by decide) (by decide),
   (C8_nonzero_failures 8 512 4096 { num := 0x02, size := 64, type := EP_TYPE.CONTROL } zeroDriver
      (by decide)).2.2 (by decide)⟩

/-! ## Unconfiguring an endpoint -/

/-- The window registers after `ep_unconfig`: `DIEPTXF0_HNPTXFSIZ` is never
written, and `DIEPTXF[ep_addr-1]` is written exactly when `ep_addr != 0`. -/
theorem ep_unconfig_windows (ep : Nat) (d : Driver) :
    (ep_unconfig ep d).regs.DIEPTXF0_HNPTXFSIZ = d.regs.DIEPTXF0_HNPTXFSIZ ∧
    (ep_unconfig ep d).regs.DIEPTXF =
      if get_ep_addr ep ≠ 0 then
        setReg d.regs.DIEPTXF (get_ep_addr ep - 1)
          (window_word 0x0200 (0x0200 + 0x0200 * get_ep_addr ep))
      else d.regs.DIEPTXF := by
  unfold ep_unconfig
  simp only [flush_tx, window_word]
  split_ifs <;> exact ⟨rfl, rfl⟩

/-- C9 as stated fails: `ep_unconfig(0)` leaves the control window
`DIEPTXF0_HNPTXFSIZ` as it finds it (shown for two different contents), while
`ep_unconfig(1)` rewrites the window register `DIEPTXF[0]` of endpoint 1. -/
theorem C9_counterexample :
    (ep_unconfig 0 { zeroDriver with regs :=
        { zeroRegs with DIEPTXF0_HNPTXFSIZ := 0x00390200 } }).regs.DIEPTXF0_HNPTXFSIZ
      = 0x00390200 ∧
    (ep_unconfig 0 zeroDriver).regs.DIEPTXF0_HNPTXFSIZ = 0 ∧
    zeroDriver.regs.DIEPTXF 0 = 0 ∧
    (ep_unconfig 1 zeroDriver).regs.DIEPTXF 0 = 0x02000400 := by
  decide

/-- C9, amended: `ep_unconfig` resets a transmit-window allocation slot exactly
when it is called for an endpoint `k != 0`, and the slot it then resets is that
endpoint's own window `DIEPTXF[k-1]` (to depth 0x200, start 0x200 + 0x200 * k);
every other `DIEPTXF[i]` is unchanged.  For endpoint 0 the call leaves every
window allocation register unchanged, and `DIEPTXF0_HNPTXFSIZ` is never
written. -/
theorem C9_unconfig_window_slot (ep : Nat) (d : Driver) :
    (ep_unconfig ep d).regs.DIEPTXF0_HNPTXFSIZ = d.regs.DIEPTXF0_HNPTXFSIZ ∧
    (get_ep_addr ep = 0 → ∀ i, (ep_unconfig ep d).regs.DIEPTXF i = d.regs.DIEPTXF i) ∧
    (get_ep_addr ep ≠ 0 →
      window_depth (ep_unconfig ep d).regs (get_ep_addr ep) = 0x0200 ∧
      window_start (ep_unconfig ep d).regs (get_ep_addr ep) =
        (0x0200 + 0x0200 * get_ep_addr ep) % 65536 ∧
      ∀ i, i ≠ get_ep_addr ep - 1 → (ep_unconfig ep d).regs.DIEPTXF i = d.regs.DIEPTXF i) := by
  obtain ⟨h0, h1⟩ := ep_unconfig_windows ep d
  refine ⟨h0, ?_, ?_⟩
  · intro hk i
    rw [h1]
    simp only [hk, ne_eq, not_true_eq_false, if_false]
  · intro hk
    have hreg : window_reg (ep_unconfig ep d).regs (get_ep_addr ep) =
        window_word 0x0200 (0x0200 + 0x0200 * get_ep_addr ep) := by
      unfold window_reg
      rw [h1]
      simp only [hk, ne_eq, not_false_eq_true, if_true, if_false, setReg]
    refine ⟨?_, ?_, ?_⟩
    · rw [window_depth_eq, hreg, window_word_eq]; omega
    · rw [window_start_eq, hreg, window_word_eq]; omega
    · intro i hi
      rw [h1]
      simp only [hk, ne_eq, not_false_eq_true, if_true, setReg, hi, if_false]

/-- C9 (amended) at endpoint 0 and at endpoint 2 over the all-zero registers. -/
theorem C9_unconfig_window_slot_witness :
    (∀ i, (ep_unconfig 0 zeroDriver).regs.DIEPTXF i = zeroDriver.regs.DIEPTXF i) ∧
    (window_depth (ep_unconfig 2 zeroDriver).regs (get_ep_addr 2) = 0x0200 ∧
      window_start (ep_unconfig 2 zeroDriver).regs (get_ep_addr 2) =
        (0x0200 + 0x0200 * get_ep_addr 2) % 65536 ∧
      ∀ i, i ≠ get_ep_addr 2 - 1 →
        (ep_unconfig 2 zeroDriver).regs.DIEPTXF i = zeroDriver.regs.DIEPTXF i) :=
  ⟨(C9_unconfig_window_slot 0 zeroDriver).2.1 (by decide),
   (C9_unconfig_window_slot 2 zeroDriver).2.2 (by decide)⟩

/-! ## Stall handling -/

theorem and_two_pow_bne_zero (x i : Nat) : ((x &&& 2 ^ i) != 0) = x.testBit i := by
  cases hb : x.testBit i
  · rw [bne_eq_false_iff_eq]
    apply Nat.eq_of_testBit_eq
    intro j
    rw [Nat.testBit_and, Nat.testBit_two_pow, Nat.zero_testBit]
    by_cases hij : i = j
    · subst hij; simp [hb]
    · simp [hij]
  · rw [bne_iff_ne]
    intro h0
    have h1 : (x &&& 2 ^ i).testBit i = true := by
      rw [Nat.testBit_and, hb, Nat.testBit_two_pow_self]; rfl
    rw [h0, Nat.zero_testBit] at h1
    exact absurd h1 (by simp)

/-- The `STALL` test `reg & 0x00200000` looks at bit 21. -/
theorem stall_test (x : Nat) : ((x &&& 0x00200000) != 0) = x.testBit 21 := by
  have h : (0x00200000 : Nat) = 2 ^ 21 := by decide
  rw [h, and_two_pow_bne_zero]

theorem stall_after_set (x : Nat) :
    ((set_bits x (0x10000000 ||| 0x00200000) &&& 0x00200000) != 0) = true := by
  rw [stall_test, set_bits, Nat.testBit_or]
  have h : Nat.testBit (0x10000000 ||| 0x00200000) 21 = true := by decide
  rw [h, Bool.or_true]

theorem stall_after_clear (x : Nat) :
    ((clear_bits x 0x00200000 &&& 0x00200000) != 0) = false := by
  rw [stall_test, clear_bits, Nat.testBit_and]
  have h : Nat.testBit (not32 0x00200000) 21 = false := by decide
  rw [h, Bool.and_false]

theorem stall_after_set_sd0pid (x : Nat) :
    ((set_bits x 0x10000000 &&& 0x00200000) != 0) = ((x &&& 0x00200000) != 0) := by
  rw [stall_test, stall_test, set_bits, Nat.testBit_or]
  have h : Nat.testBit 0x10000000 21 = false := by decide
  rw [h, Bool.or_false]

theorem read_EPCTL_block (r : Regs) (b : Nat) :
    read_EPCTL r (0x900 + 0x20 * b) = if b < 16 then r.DIEPCTL b else r.DOEPCTL (b - 16) := by
  unfold read_EPCTL USB_OTG_OUT_ENDPOINT_BASE USB_OTG_IN_ENDPOINT_BASE USB_OTG_EP_REG_SIZE
  by_cases hb : b < 16
  · have h1 : 0x900 + 0x20 * b < 0xB00 := by omega
    have i1 : (0x900 + 0x20 * b - 0x900) / 0x20 = b := by omega
    simp only [if_pos h1, if_pos hb, i1]
  · have h1 : ¬ 0x900 + 0x20 * b < 0xB00 := by omega
    have i1 : (0x900 + 0x20 * b - 0xB00) / 0x20 = b - 16 := by omega
    simp only [if_neg h1, if_neg hb, i1]

theorem write_EPCTL_block (r : Regs) (b v : Nat) :
    write_EPCTL r (0x900 + 0x20 * b) v =
      if b < 16 then { r with DIEPCTL := setReg r.DIEPCTL b v }
      else { r with DOEPCTL := setReg r.DOEPCTL (b - 16) v } := by
  unfold write_EPCTL USB_OTG_OUT_ENDPOINT_BASE USB_OTG_IN_ENDPOINT_BASE USB_OTG_EP_REG_SIZE
  by_cases hb : b < 16
  · have h1 : 0x900 + 0x20 * b < 0xB00 := by omega
    have i1 : (0x900 + 0x20 * b - 0x900) / 0x20 = b := by omega
    simp only [if_pos h1, if_pos hb, i1]
  · have h1 : ¬ 0x900 + 0x20 * b < 0xB00 := by omega
    have i1 : (0x900 + 0x20 * b - 0xB00) / 0x20 = b - 16 := by omega
    simp only [if_neg h1, if_neg hb, i1]

/-- A read of the control register of block `b'` after a write to the one of
block `b`, blocks counted from the first IN block. -/
theorem EPCTL_read_write (r : Regs) (b b' v : Nat) :
    read_EPCTL (write_EPCTL r (0x900 + 0x20 * b) v) (0x900 + 0x20 * b') =
      if b' = b then v else read_EPCTL r (0x900 + 0x20 * b') := by
  rw [read_EPCTL_block, read_EPCTL_block, write_EPCTL_block]
  by_cases hb : b < 16 <;> by_cases hb' : b' < 16
  · simp only [if_pos hb, if_pos hb']
    rfl
  · have hne : ¬ b' = b := by omega
    simp only [if_pos hb, if_neg hb', if_neg hne]
  · have hne : ¬ b' = b := by omega
    simp only [if_neg hb, if_pos hb', if_neg hne]
  · simp only [if_neg hb, if_neg hb']
    show setReg r.DOEPCTL (b - 16) v (b' - 16) = _
    unfold setReg
    by_cases h : b' = b
    · have h2 : b' - 16 = b - 16 := by omega
      simp only [if_pos h, if_pos h2]
    · have h2 : ¬ b' - 16 = b - 16 := by omega
      simp only [if_neg h, if_neg h2]

/-- The control register of `ep` as a block number counted from the first IN
block: the address for an IN endpoint, the address plus 16 for an OUT
endpoint. -/
theorem stall_reg_block (ep : Nat) :
    stall_reg ep = 0x900 + 0x20 * (if is_in_ep ep then get_ep_addr ep else get_ep_addr ep + 16) := by
  unfold stall_reg get_ep_in get_ep_out USB_OTG_OUT_ENDPOINT_BASE USB_OTG_IN_ENDPOINT_BASE
    USB_OTG_EP_REG_SIZE
  cases is_in_ep ep
  · simp only [Bool.false_eq_true, if_false]; omega
  · simp only [if_true]; omega

theorem ep_is_stalled_eq (ep : Nat) (d : Driver) :
    ep_is_stalled ep d = ((read_EPCTL d.regs (stall_reg ep) &&& 0x00200000) != 0) := by
  unfold ep_is_stalled stall_reg
  cases is_in_ep ep <;> rfl

theorem ep_stall_regs (ep : Nat) (d : Driver) :
    (ep_stall ep d).regs = write_EPCTL d.regs (stall_reg ep)
      (set_bits (read_EPCTL d.regs (stall_reg ep)) (0x10000000 ||| 0x00200000)) := by
  unfold ep_stall stall_reg
  cases is_in_ep ep <;> rfl

theorem ep_unstall_regs (MAX_NUM_EP : Nat) (cfg0 : ep_cfg) (ep : Nat) (d : Driver) :
    (ep_unstall MAX_NUM_EP cfg0 ep d).regs =
        write_EPCTL d.regs (stall_reg ep)
          (clear_bits (read_EPCTL d.regs (stall_reg ep)) 0x00200000) ∨
    (ep_unstall MAX_NUM_EP cfg0 ep d).regs =
        write_EPCTL
          (write_EPCTL d.regs (stall_reg ep)
            (clear_bits (read_EPCTL d.regs (stall_reg ep)) 0x00200000))
          (stall_reg ep)
          (set_bits
            (read_EPCTL
              (write_EPCTL d.regs (stall_reg ep)
                (clear_bits (read_EPCTL d.regs (stall_reg ep)) 0x00200000))
              (stall_reg ep)) 0x10000000) := by
  unfold ep_unstall stall_reg
  cases hin : is_in_ep ep
  · simp only [Bool.false_eq_true, if_false]
    split_ifs <;> first | exact Or.inl rfl | exact Or.inr rfl
  · simp only [if_true]
    split_ifs <;> first | exact Or.inl rfl | exact Or.inr rfl

/-- What a read of the control register of block `b'` gives after
`ep_stall(ep)`, with `b` the block of `ep`. -/
theorem ep_stall_read (ep : Nat) (d : Driver) (b b' : Nat) (hb : stall_reg ep = 0x900 + 0x20 * b) :
    ((read_EPCTL (ep_stall ep d).regs (0x900 + 0x20 * b') &&& 0x00200000) != 0) =
      if b' = b then true else ((read_EPCTL d.regs (0x900 + 0x20 * b') &&& 0x00200000) != 0) := by
  rw [ep_stall_regs, hb, EPCTL_read_write]
  by_cases h : b' = b
  · rw [if_pos h, if_pos h]
    exact stall_after_set _
  · rw [if_neg h, if_neg h]

/-- What a read of the control register of block `b'` gives after
`ep_unstall(ep)`, with `b` the block of `ep`. -/
theorem ep_unstall_read (MAX_NUM_EP : Nat) (cfg0 : ep_cfg) (ep : Nat) (d : Driver) (b b' : Nat)
    (hb : stall_reg ep = 0x900 + 0x20 * b) :
    ((read_EPCTL (ep_unstall MAX_NUM_EP cfg0 ep d).regs (0x900 + 0x20 * b') &&& 0x00200000)
        != 0) =
      if b' = b then false
      else ((read_EPCTL d.regs (0x900 + 0x20 * b') &&& 0x00200000) != 0) := by
  rcases ep_unstall_regs MAX_NUM_EP cfg0 ep d with h | h
  · rw [h, hb, EPCTL_read_write]
    by_cases hbb : b' = b
    · rw [if_pos hbb, if_pos hbb]
      exact stall_after_clear _
    · rw [if_neg hbb, if_neg hbb]
  · rw [h, hb, EPCTL_read_write, EPCTL_read_write, if_pos rfl]
    by_cases hbb : b' = b
    · rw [if_pos hbb, if_pos hbb]
      exact (stall_after_set_sd0pid _).trans (stall_after_clear _)
    · rw [if_neg hbb, if_neg hbb, EPCTL_read_write, if_neg hbb]

theorem read_EPCTL_out (r : Regs) (j : Nat) : read_EPCTL r (get_ep_out j) = r.DOEPCTL j := by
  unfold read_EPCTL get_ep_out USB_OTG_OUT_ENDPOINT_BASE USB_OTG_EP_REG_SIZE
  have h1 : ¬ 0xB00 + j * 0x20 < 0xB00 := by omega
  have i1 : (0xB00 + j * 0x20 - 0xB00) / 0x20 = j := by omega
  rw [if_neg h1, i1]

theorem write_EPCTL_out (r : Regs) (j v : Nat) :
    write_EPCTL r (get_ep_out j) v = { r with DOEPCTL := setReg r.DOEPCTL j v } := by
  unfold write_EPCTL get_ep_out USB_OTG_OUT_ENDPOINT_BASE USB_OTG_EP_REG_SIZE
  have h1 : ¬ 0xB00 + j * 0x20 < 0xB00 := by omega
  have i1 : (0xB00 + j * 0x20 - 0xB00) / 0x20 = j := by omega
  rw [if_neg h1, i1]

theorem ep_is_stalled_after_stall (ep ep' : Nat) (d : Driver) :
    ep_is_stalled ep' (ep_stall ep d) =
      if (if is_in_ep ep' then get_ep_addr ep' else get_ep_addr ep' + 16) =
          (if is_in_ep ep then get_ep_addr ep else get_ep_addr ep + 16) then true
      else ep_is_stalled ep' d := by
  rw [ep_is_stalled_eq, ep_is_stalled_eq, stall_reg_block ep']
  exact ep_stall_read ep d _ _ (stall_reg_block ep)

theorem ep_is_stalled_after_unstall (MAX_NUM_EP : Nat) (cfg0 : ep_cfg) (ep ep' : Nat)
    (d : Driver) :
    ep_is_stalled ep' (ep_unstall MAX_NUM_EP cfg0 ep d) =
      if (if is_in_ep ep' then get_ep_addr ep' else get_ep_addr ep' + 16) =
          (if is_in_ep ep then get_ep_addr ep else get_ep_addr ep + 16) then false
      else ep_is_stalled ep' d := by
  rw [ep_is_stalled_eq, ep_is_stalled_eq, stall_reg_block ep']
  exact ep_unstall_read MAX_NUM_EP cfg0 ep d _ _ (stall_reg_block ep)

/-- Two endpoints have the same control register exactly when they are the same
endpoint, or one is the IN endpoint of address `a + 16` and the other the OUT
endpoint of address `a`. -/
theorem stall_block_eq_iff (ep ep' : Nat) :
    ((if is_in_ep ep' then get_ep_addr ep' else get_ep_addr ep' + 16) =
        (if is_in_ep ep then get_ep_addr ep else get_ep_addr ep + 16)) ↔
      ((get_ep_addr ep' = get_ep_addr ep ∧ is_in_ep ep' = is_in_ep ep) ∨
        (is_in_ep ep = true ∧ is_in_ep ep' = false ∧ get_ep_addr ep = get_ep_addr ep' + 16) ∨
        (is_in_ep ep' = true ∧ is_in_ep ep = false ∧ get_ep_addr ep' = get_ep_addr ep + 16)) := by
  cases is_in_ep ep <;> cases is_in_ep ep' <;> simp
  all_goals omega

/-- C10 as stated fails: `0x00` (OUT, address 0) and `0x90` (IN, address 16)
differ in address and in direction, but `get_ep_in(16)` is the address of
`get_ep_out(0)`.  On the fresh driver `ep_is_stalled(0x00)` is `false`, and
after `ep_stall(0x90)` it is `true`; with endpoint `0x00` stalled,
`ep_unstall(0x90)` makes it `false` again. -/
theorem C10_counterexample :
    (get_ep_addr 0x00 ≠ get_ep_addr 0x90 ∧ is_in_ep 0x00 ≠ is_in_ep 0x90) ∧
    get_ep_in (get_ep_addr 0x90) = get_ep_out (get_ep_addr 0x00) ∧
    ep_is_stalled 0x00 zeroDriver = false ∧
    ep_is_stalled 0x00 (ep_stall 0x90 zeroDriver) = true ∧
    ep_is_stalled 0x00 (ep_stall 0x00 zeroDriver) = true ∧
    ep_is_stalled 0x00
      (ep_unstall 8 zeroDriver.m_ep0_cfg 0x90 (ep_stall 0x00 zeroDriver)) = false := by
  decide

/-- C10, amended: over a register bank that stores what is written, for every
endpoint `ep` (any address, either direction) `ep_is_stalled(ep)` is `true`
right after `ep_stall(ep)` and `false` right after `ep_unstall(ep)`.  Neither
call changes `ep_is_stalled` of an endpoint `ep'` with another address or of
the opposite direction of the same address, unless one of the two is the IN
endpoint of address `a + 16` and the other the OUT endpoint of address `a`;
in particular not when both addresses are below 16.  In the excepted case the
two endpoints have one control register (`get_ep_in(a + 16)` is
`get_ep_out(a)`), and `ep_is_stalled(ep')` is `true` after `ep_stall(ep)` and
`false` after `ep_unstall(ep)`. -/
theorem C10_stall_roundtrip (MAX_NUM_EP : Nat) (cfg0 : ep_cfg) (ep : Nat) (d : Driver) :
    ep_is_stalled ep (ep_stall ep d) = true ∧
    ep_is_stalled ep (ep_unstall MAX_NUM_EP cfg0 ep d) = false ∧
    (∀ ep', (get_ep_addr ep' ≠ get_ep_addr ep ∨ is_in_ep ep' ≠ is_in_ep ep) →
      ¬ (is_in_ep ep = true ∧ is_in_ep ep' = false ∧ get_ep_addr ep = get_ep_addr ep' + 16) →
      ¬ (is_in_ep ep' = true ∧ is_in_ep ep = false ∧ get_ep_addr ep' = get_ep_addr ep + 16) →
      ep_is_stalled ep' (ep_stall ep d) = ep_is_stalled ep' d ∧
      ep_is_stalled ep' (ep_unstall MAX_NUM_EP cfg0 ep d) = ep_is_stalled ep' d) ∧
    (∀ ep', get_ep_addr ep < 16 → get_ep_addr ep' < 16 →
      (get_ep_addr ep' ≠ get_ep_addr ep ∨ is_in_ep ep' ≠ is_in_ep ep) →
      ep_is_stalled ep' (ep_stall ep d) = ep_is_stalled ep' d ∧
      ep_is_stalled ep' (ep_unstall MAX_NUM_EP cfg0 ep d) = ep_is_stalled ep' d) ∧
    (∀ ep',
      ((is_in_ep ep = true ∧ is_in_ep ep' = false ∧ get_ep_addr ep = get_ep_addr ep' + 16) ∨
        (is_in_ep ep' = true ∧ is_in_ep ep = false ∧ get_ep_addr ep' = get_ep_addr ep + 16)) →
      stall_reg ep' = stall_reg ep ∧
      ep_is_stalled ep' (ep_stall ep d) = true ∧
      ep_is_stalled ep' (ep_unstall MAX_NUM_EP cfg0 ep d) = false) := by
  have frame : ∀ ep',
      ¬ ((if is_in_ep ep' then get_ep_addr ep' else get_ep_addr ep' + 16) =
        (if is_in_ep ep then get_ep_addr ep else get_ep_addr ep + 16)) →
      ep_is_stalled ep' (ep_stall ep d) = ep_is_stalled ep' d ∧
      ep_is_stalled ep' (ep_unstall MAX_NUM_EP cfg0 ep d) = ep_is_stalled ep' d := by
    intro ep' hne
    rw [ep_is_stalled_after_stall, ep_is_stalled_after_unstall, if_neg hne, if_neg hne]
    exact ⟨rfl, rfl⟩
  have same : ∀ ep',
      ((if is_in_ep ep' then get_ep_addr ep' else get_ep_addr ep' + 16) =
        (if is_in_ep ep then get_ep_addr ep else get_ep_addr ep + 16)) →
      stall_reg ep' = stall_reg ep ∧
      ep_is_stalled ep' (ep_stall ep d) = true ∧
      ep_is_stalled ep' (ep_unstall MAX_NUM_EP cfg0 ep d) = false := by
    intro ep' he
    rw [ep_is_stalled_after_stall, ep_is_stalled_after_unstall, if_pos he, if_pos he,
      stall_reg_block ep', stall_reg_block ep, he]
    exact ⟨rfl, rfl, rfl⟩
  refine ⟨(same ep rfl).2.1, (same ep rfl).2.2, fun ep' h n1 n2 => frame ep' ?_,
    fun ep' h16 h16' h => frame ep' ?_, fun ep' h => same ep' ?_⟩
  · intro he
    rcases (stall_block_eq_iff ep ep').1 he with ⟨a1, a2⟩ | a | a
    · rcases h with h | h
      · exact h a1
      · exact h a2
    · exact n1 a
    · exact n2 a
  · intro he
    rcases (stall_block_eq_iff ep ep').1 he with ⟨a1, a2⟩ | a | a
    · rcases h with h | h
      · exact h a1
      · exact h a2
    · omega
    · omega
  · exact (stall_block_eq_iff ep ep').2 (Or.inr h)

/-- C10 at IN endpoint 1 (0x81), observed from OUT endpoint 1 (0x01), with
OUT endpoint 1 stalled beforehand; and at IN endpoint 16 (0x90), observed from
OUT endpoint 0 (0x00), which has the same control register. -/
theorem C10_stall_roundtrip_witness :
    (ep_is_stalled 0x01 (ep_stall 0x81 (ep_stall 0x01 zeroDriver)) =
        ep_is_stalled 0x01 (ep_stall 0x01 zeroDriver) ∧
      ep_is_stalled 0x01 (ep_unstall 8 zeroDriver.m_ep0_cfg 0x81 (ep_stall 0x01 zeroDriver)) =
        ep_is_stalled 0x01 (ep_stall 0x01 zeroDriver)) ∧
    (stall_reg 0x00 = stall_reg 0x90 ∧
      ep_is_stalled 0x00 (ep_stall 0x90 zeroDriver) = true ∧
      ep_is_stalled 0x00 (ep_unstall 8 zeroDriver.m_ep0_cfg 0x90 zeroDriver) = false) :=
  ⟨(C10_stall_roundtrip 8 zeroDriver.m_ep0_cfg 0x81 (ep_stall 0x01 zeroDriver)).2.2.2.1 0x01
      (by decide) (by decide) (Or.inr (by decide)),
    (C10_stall_roundtrip 8 zeroDriver.m_ep0_cfg 0x90 zeroDriver).2.2.2.2 0x00
      (Or.inl (by decide))⟩

/-! ## Packing and unpacking -/

theorem make_u32_eq (b3 b2 b1 b0 : Nat) :
    make_u32 b3 b2 b1 b0 =
      b0 % 256 + b1 % 256 * 256 + b2 % 256 * 65536 + b3 % 256 * 16777216 := by
  unfold make_u32
  have h0 : b0 % 256 < 2 ^ 8 := Nat.mod_lt _ (by decide)
  have h1 : b1 % 256 < 256 := Nat.mod_lt _ (by decide)
  have h2 : b2 % 256 < 256 := Nat.mod_lt _ (by decide)
  have e1 : (b1 % 256) <<< 8 ||| b0 % 256 = b1 % 256 * 256 + b0 % 256 := by
    have := Nat.mul_add_lt_is_or h0 (b1 % 256)
    rw [Nat.shiftLeft_eq, ← Nat.mul_comm (2 ^ 8), ← this]
  have h01 : b1 % 256 * 256 + b0 % 256 < 2 ^ 16 := by norm_num; omega
  have e2 : (b2 % 256) <<< 16 ||| (b1 % 256 * 256 + b0 % 256) =
      b2 % 256 * 65536 + (b1 % 256 * 256 + b0 % 256) := by
    have := Nat.mul_add_lt_is_or h01 (b2 % 256)
    rw [Nat.shiftLeft_eq, ← Nat.mul_comm (2 ^ 16), ← this]
  have h012 : b2 % 256 * 65536 + (b1 % 256 * 256 + b0 % 256) < 2 ^ 24 := by norm_num; omega
  have e3 : (b3 % 256) <<< 24 ||| (b2 % 256 * 65536 + (b1 % 256 * 256 + b0 % 256)) =
      b3 % 256 * 16777216 + (b2 % 256 * 65536 + (b1 % 256 * 256 + b0 % 256)) := by
    have := Nat.mul_add_lt_is_or h012 (b3 % 256)
    rw [Nat.shiftLeft_eq, ← Nat.mul_comm (2 ^ 24), ← this]
  rw [Nat.or_assoc, Nat.or_assoc, e1, e2, e3]
  omega

theorem get_bytes_make_u32 (b3 b2 b1 b0 : Nat) (h0 : b0 < 256) (h1 : b1 < 256) (h2 : b2 < 256)
    (h3 : b3 < 256) :
    get_b0 (make_u32 b3 b2 b1 b0) = b0 ∧ get_b1 (make_u32 b3 b2 b1 b0) = b1 ∧
    get_b2 (make_u32 b3 b2 b1 b0) = b2 ∧ get_b3 (make_u32 b3 b2 b1 b0) = b3 := by
  have hm : (0xFF : Nat) = 2 ^ 8 - 1 := by decide
  simp only [get_b0, get_b1, get_b2, get_b3, hm, Nat.and_pow_two_sub_one_eq_mod,
    Nat.shiftRight_eq_div_pow, make_u32_eq]
  norm_num
  omega

theorem ep_write_word_eq (buf : Nat → Nat) (len j : Nat) (hb : ∀ k, k < len → buf k < 256)
    (hj : 4 * j < len) : ep_write_word buf len (4 * j) = le_word buf len j := by
  have hc : len - 4 * j = 1 ∨ len - 4 * j = 2 ∨ len - 4 * j = 3 ∨ len - 4 * j ≥ 4 := by omega
  unfold ep_write_word le_word padded_byte
  rcases hc with h | h | h | h
  · have c0 : 4 * j < len := hj
    have c1 : ¬ 4 * j + 1 < len := by omega
    have c2 : ¬ 4 * j + 2 < len := by omega
    have c3 : ¬ 4 * j + 3 < len := by omega
    have := hb (4 * j) c0
    simp only [h, c0, c1, c2, c3, if_true, if_false, make_u32_eq, Nat.add_zero]
    norm_num
    omega
  · have c0 : 4 * j < len := hj
    have c1 : 4 * j + 1 < len := by omega
    have c2 : ¬ 4 * j + 2 < len := by omega
    have c3 : ¬ 4 * j + 3 < len := by omega
    have := hb (4 * j) c0
    have := hb (4 * j + 1) c1
    simp only [h, c0, c1, c2, c3, if_true, if_false, make_u32_eq, Nat.add_zero]
    norm_num
    omega
  · have c0 : 4 * j < len := hj
    have c1 : 4 * j + 1 < len := by omega
    have c2 : 4 * j + 2 < len := by omega
    have c3 : ¬ 4 * j + 3 < len := by omega
    have := hb (4 * j) c0
    have := hb (4 * j + 1) c1
    have := hb (4 * j + 2) c2
    simp only [h, c0, c1, c2, c3, if_true, if_false, make_u32_eq, Nat.add_zero]
    norm_num
    omega
  · have c0 : 4 * j < len := hj
    have c1 : 4 * j + 1 < len := by omega
    have c2 : 4 * j + 2 < len := by omega
    have c3 : 4 * j + 3 < len := by omega
    have := hb (4 * j) c0
    have := hb (4 * j + 1) c1
    have := hb (4 * j + 2) c2
    have := hb (4 * j + 3) c3
    simp only [h, c0, c1, c2, c3, if_true, if_false, make_u32_eq, Nat.add_zero, ge_iff_le]
    norm_num
    omega

theorem ep_write_loop_eq (buf : Nat → Nat) (len : Nat) (hb : ∀ k, k < len → buf k < 256) :
    ∀ n k, 4 * (k + n) < len + 4 →
      ep_write_loop buf len n (4 * k) = (List.range n).map (fun j => le_word buf len (k + j)) := by
  intro n
  induction n with
  | zero => intro k _; rfl
  | succ n ih =>
    intro k hk
    have h4 : 4 * k + 4 = 4 * (k + 1) := by omega
    rw [ep_write_loop, h4, ih (k + 1) (by omega), ep_write_word_eq buf len k hb (by omega),
      List.range_succ_eq_map, List.map_cons, List.map_map]
    congr 1
    apply List.map_congr_left
    intro j _
    simp only [Function.comp, Nat.succ_eq_add_one]
    congr 1
    omega

theorem ep_write_loop_length (buf : Nat → Nat) (len : Nat) :
    ∀ n i, (ep_write_loop buf len n i).length = n := by
  intro n
  induction n with
  | zero => intro i; rfl
  | succ n ih => intro i; simp [ep_write_loop, ih]

/-- One unpacking step applied to the word packed at the same index. -/
theorem ep_read_store_write_word (b buf : Nat → Nat) (N i : Nat)
    (hb : ∀ k, k < N → b k < 256) (hi : i < N) (j : Nat) :
    ep_read_store buf N i (ep_write_word b N i) j =
      if i ≤ j ∧ j < i + 4 ∧ j < N then b j else buf j := by
  have hc : N - i = 1 ∨ N - i = 2 ∨ N - i = 3 ∨ N - i ≥ 4 := by omega
  simp only [ep_read_store, ep_write_word, Nat.add_zero]
  rcases hc with h | h | h | h
  · obtain ⟨g0, _, _, _⟩ := get_bytes_make_u32 0 0 0 (b i) (hb i hi)
      (by decide) (by decide) (by decide)
    simp only [h, g0, setByte, ge_iff_le, Nat.reduceLeDiff, if_false]
    by_cases hj : j = i
    · subst hj
      have : j ≤ j ∧ j < j + 4 ∧ j < N := by omega
      simp only [this, and_self, if_true]
    · have : ¬ (i ≤ j ∧ j < i + 4 ∧ j < N) := by omega
      simp only [hj, this, if_false]
  · obtain ⟨g0, g1, _, _⟩ := get_bytes_make_u32 0 0 (b (i + 1)) (b i) (hb i hi)
      (hb (i + 1) (by omega)) (by decide) (by decide)
    simp only [h, g0, g1, setByte, ge_iff_le, Nat.reduceLeDiff, if_false]
    by_cases hj1 : j = i + 1
    · subst hj1
      have : i ≤ i + 1 ∧ i + 1 < i + 4 ∧ i + 1 < N := by omega
      simp only [this, and_self, if_true]
    · by_cases hj : j = i
      · subst hj
        have : j ≤ j ∧ j < j + 4 ∧ j < N := by omega
        simp only [hj1, this, and_self, if_true, if_false]
      · have : ¬ (i ≤ j ∧ j < i + 4 ∧ j < N) := by omega
        simp only [hj, hj1, this, if_false]
  · obtain ⟨g0, g1, g2, _⟩ := get_bytes_make_u32 0 (b (i + 2)) (b (i + 1)) (b i) (hb i hi)
      (hb (i + 1) (by omega)) (hb (i + 2) (by omega)) (by decide)
    simp only [h, g0, g1, g2, setByte, ge_iff_le, Nat.reduceLeDiff, if_false]
    by_cases hj2 : j = i + 2
    · subst hj2
      have : i ≤ i + 2 ∧ i + 2 < i + 4 ∧ i + 2 < N := by omega
      simp only [this, and_self, if_true]
    · by_cases hj1 : j = i + 1
      · subst hj1
        have : i ≤ i + 1 ∧ i + 1 < i + 4 ∧ i + 1 < N := by omega
        simp only [hj2, this, and_self, if_true, if_false]
      · by_cases hj : j = i
        · subst hj
          have : j ≤ j ∧ j < j + 4 ∧ j < N := by omega
          simp only [hj1, hj2, this, and_self, if_true, if_false]
        · have : ¬ (i ≤ j ∧ j < i + 4 ∧ j < N) := by omega
          simp only [hj, hj1, hj2, this, if_false]
  · obtain ⟨g0, g1, g2, g3⟩ := get_bytes_make_u32 (b (i + 3)) (b (i + 2)) (b (i + 1)) (b i)
      (hb i hi) (hb (i + 1) (by omega)) (hb (i + 2) (by omega)) (hb (i + 3) (by omega))
    have h' : 4 ≤ N - i := h
    simp only [h', g0, g1, g2, g3, setByte, ge_iff_le, if_true]
    by_cases hj3 : j = i + 3
    · subst hj3
      have : i ≤ i + 3 ∧ i + 3 < i + 4 ∧ i + 3 < N := by omega
      simp only [this, and_self, if_true]
    · by_cases hj2 : j = i + 2
      · subst hj2
        have : i ≤ i + 2 ∧ i + 2 < i + 4 ∧ i + 2 < N := by omega
        simp only [hj3, this, and_self, if_true, if_false]
      · by_cases hj1 : j = i + 1
        · subst hj1
          have : i ≤ i + 1 ∧ i + 1 < i + 4 ∧ i + 1 < N := by omega
          simp only [hj2, hj3, this, and_self, if_true, if_false]
        · by_cases hj : j = i
          · subst hj
            have : j ≤ j ∧ j < j + 4 ∧ j < N := by omega
            simp only [hj1, hj2, hj3, this, and_self, if_true, if_false]
          · have : ¬ (i ≤ j ∧ j < i + 4 ∧ j < N) := by omega
            simp only [hj, hj1, hj2, hj3, this, if_false]

theorem ep_read_loop_write_loop (b : Nat → Nat) (N : Nat) (hb : ∀ k, k < N → b k < 256)
    (rest : List Nat) :
    ∀ n i buf, n = (N - i + 3) / 4 →
      ep_read_loop N n i buf (ep_write_loop b N n i ++ rest) =
        (fun j => if i ≤ j ∧ j < N then b j else buf j, rest) := by
  intro n
  induction n with
  | zero =>
    intro i buf hn
    have hle : N ≤ i := by omega
    simp only [ep_read_loop, ep_write_loop, List.nil_append]
    congr 1
    funext j
    have : ¬ (i ≤ j ∧ j < N) := by omega
    simp only [this, if_false]
  | succ n ih =>
    intro i buf hn
    have hi : i < N := by omega
    simp only [ep_read_loop, ep_write_loop, List.cons_append, List.headD_cons, List.tail_cons]
    rw [ih (i + 4) _ (by omega)]
    congr 1
    funext j
    rw [ep_read_store_write_word b buf N i hb hi j]
    by_cases h1 : i + 4 ≤ j ∧ j < N
    · have h2 : i ≤ j ∧ j < N := by omega
      rw [if_pos h1, if_pos h2]
    · by_cases h2 : i ≤ j ∧ j < N
      · have h3 : i ≤ j ∧ j < i + 4 ∧ j < N := by omega
        rw [if_neg h1, if_pos h3, if_pos h2]
      · have h3 : ¬ (i ≤ j ∧ j < i + 4 ∧ j < N) := by omega
        rw [if_neg h1, if_neg h3, if_neg h2]

theorem neg_one_ne_cast (n : Nat) : (-1 : Int) ≠ (n : Int) := by omega

/-- `ep_write` either goes through, returning `len`, or returns -1 and changes
nothing. -/
theorem ep_write_eq (ep : Nat) (buf : Nat → Nat) (len : Nat) (s : Sys) :
    (ep_write_accepts ep len s → ep_write ep buf len s = ((len : Int), ep_write_done ep buf len s)) ∧
    (¬ ep_write_accepts ep len s → ep_write ep buf len s = (-1, s)) := by
  unfold ep_write_accepts
  cases hin : is_in_ep ep
  · refine ⟨fun h => absurd h.1 (by simp), fun _ => ?_⟩
    simp only [ep_write, hin, Bool.not_false, if_true]
  · by_cases hsp : FLD2VAL USB_OTG_DTXFSTS_INEPTFSAV_Pos USB_OTG_DTXFSTS_INEPTFSAV_Msk
        (s.DTXFSTS (get_ep_addr ep)) < (len + 3) / 4
    · refine ⟨fun h => absurd hsp h.2.1, fun _ => ?_⟩
      simp only [ep_write, hin, Bool.not_true, Bool.false_eq_true, if_false, hsp, if_true]
    · by_cases h0 : get_ep_addr ep = 0
      · refine ⟨fun _ => ?_, fun h => absurd ⟨rfl, hsp, Or.inl h0⟩ h⟩
        simp only [ep_write, hin, Bool.not_true, Bool.false_eq_true, if_false, hsp,
          ep_write_done, ep_write_regs]
        rw [if_pos h0, if_pos h0]
        rfl
      · by_cases hena : (s.d.regs.DIEPCTL (get_ep_addr ep) &&& USB_OTG_DOEPCTL_EPENA) ≠ 0
        · refine ⟨fun h => ?_, fun _ => ?_⟩
          · rcases h.2.2 with h | h
            · exact absurd h h0
            · exact absurd h hena
          · simp only [ep_write, hin, Bool.not_true, Bool.false_eq_true, if_false, hsp]
            rw [if_neg h0, if_pos hena]
        · refine ⟨fun _ => ?_, fun h => absurd ⟨rfl, hsp, Or.inr (not_not.1 hena)⟩ h⟩
          simp only [ep_write, hin, Bool.not_true, Bool.false_eq_true, if_false, hsp,
            ep_write_done, ep_write_regs]
          rw [if_neg h0, if_neg hena, if_neg h0]
          rfl

theorem ep_write_ok_iff (ep : Nat) (buf : Nat → Nat) (len : Nat) (s : Sys) :
    (ep_write ep buf len s).1 = (len : Int) ↔ ep_write_accepts ep len s := by
  by_cases h : ep_write_accepts ep len s
  · rw [(ep_write_eq ep buf len s).1 h]; exact ⟨fun _ => h, fun _ => rfl⟩
  · rw [(ep_write_eq ep buf len s).2 h]
    exact ⟨fun hc => absurd hc (neg_one_ne_cast len), fun hc => absurd hc h⟩

theorem pushed_words_ok (ep : Nat) (buf : Nat → Nat) (len : Nat) (s : Sys)
    (hok : (ep_write ep buf len s).1 = (len : Int)) :
    pushed_words ep buf len s = ep_write_loop buf len ((len + 3) / 4) 0 := by
  unfold pushed_words
  rw [(ep_write_eq ep buf len s).1 ((ep_write_ok_iff ep buf len s).1 hok)]
  simp only [ep_write_done, if_true, List.drop_left]

/-- C13: a successful `ep_write` of `len` bytes (it returns `len`) appends to
the FIFO of its endpoint exactly `ceil(len / 4)` words, in order, word `j` being
the little-endian value of bytes `buf[4j .. 4j+3]` with bytes at index `>= len`
counted as 0; the FIFOs of the other endpoints are as they were. -/
theorem C13_ep_write_packs_little_endian (ep : Nat) (buf : Nat → Nat) (len : Nat) (s : Sys)
    (hb : ∀ k, k < len → buf k < 256)
    (hok : (ep_write ep buf len s).1 = (len : Int)) :
    (ep_write ep buf len s).2.tx_fifo (get_ep_addr ep) =
      s.tx_fifo (get_ep_addr ep) ++ (List.range ((len + 3) / 4)).map (le_word buf len) ∧
    ((List.range ((len + 3) / 4)).map (le_word buf len)).length = (len + 3) / 4 ∧
    ∀ j, j ≠ get_ep_addr ep → (ep_write ep buf len s).2.tx_fifo j = s.tx_fifo j := by
  rw [(ep_write_eq ep buf len s).1 ((ep_write_ok_iff ep buf len s).1 hok)]
  have hl := ep_write_loop_eq buf len hb ((len + 3) / 4) 0 (by omega)
  simp only [Nat.mul_zero, Nat.zero_add] at hl
  refine ⟨?_, by simp, ?_⟩
  · simp only [ep_write_done, if_true, hl]
  · intro j hj
    simp only [ep_write_done, hj, if_false]

/-- C13 at 5 bytes `1, 2, 3, 4, 5` written to IN endpoint 1 (0x81) with 16 free
words: the two words 0x04030201 and 0x00000005 are appended. -/
theorem C13_ep_write_packs_little_endian_witness :
    (ep_write 0x81 (fun k => k + 1) 5 { zeroSys with DTXFSTS := fun _ => 16 }).2.tx_fifo
        (get_ep_addr 0x81) =
      [] ++ [0x04030201, 0x00000005] ∧
    ((List.range ((5 + 3) / 4)).map (le_word (fun k => k + 1) 5)).length = (5 + 3) / 4 ∧
    ∀ j, j ≠ get_ep_addr 0x81 →
      (ep_write 0x81 (fun k => k + 1) 5 { zeroSys with DTXFSTS := fun _ => 16 }).2.tx_fifo j =
        ({ zeroSys with DTXFSTS := fun _ => 16 } : Sys).tx_fifo j :=
  C13_ep_write_packs_little_endian 0x81 (fun k => k + 1) 5 { zeroSys with DTXFSTS := fun _ => 16 }
    (fun k hk => by show k + 1 < 256; omega) (by decide)

/-- C12: packing then unpacking is the identity.  When `ep_write(ep, b, N)`
succeeds and the words it pushed are the next words of the receive FIFO, then
`ep_read` with `max_len = N` into a non-null buffer returns `N`, leaves
`b[0..N-1]` in `buf[0..N-1]`, leaves every byte at an index `>= N` as it was,
and has popped exactly those words.  For `N > 0` the receive FIFO is flagged
non-empty (`RXFLVL`), as it is when it holds words to pop. -/
theorem C12_pack_unpack_roundtrip (ep ep' : Nat) (b buf : Nat → Nat) (N : Nat) (s t : Sys)
    (rest : List Nat) (hb : ∀ k, k < N → b k < 256)
    (hok : (ep_write ep b N s).1 = (N : Int))
    (hfifo : t.rx_fifo = pushed_words ep b N s ++ rest)
    (hrx : N = 0 ∨ (t.d.regs.GINTSTS &&& USB_OTG_GINTSTS_RXFLVL) ≠ 0) :
    (ep_read ep' (some buf) N t).1 = (N : Int) ∧
    (∃ buf', (ep_read ep' (some buf) N t).2.1 = some buf' ∧
      (∀ j, j < N → buf' j = b j) ∧ (∀ j, N ≤ j → buf' j = buf j)) ∧
    (ep_read ep' (some buf) N t).2.2.rx_fifo = rest := by
  rw [pushed_words_ok ep b N s hok] at hfifo
  by_cases hflag : (t.d.regs.GINTSTS &&& USB_OTG_GINTSTS_RXFLVL) = 0
  · have hN : N = 0 := by
      rcases hrx with h | h
      · exact h
      · exact absurd hflag h
    subst hN
    simp only [ep_read, hflag, if_true]
    refine ⟨rfl, ⟨buf, rfl, fun j hj => absurd hj (by omega), fun _ _ => rfl⟩, ?_⟩
    rw [hfifo]; rfl
  · have hloop := ep_read_loop_write_loop b N hb rest ((N + 3) / 4) 0 buf (by omega)
    have hread : ep_read ep' (some buf) N t =
        ((N : Int), some (fun j => if 0 ≤ j ∧ j < N then b j else buf j),
          { t with rx_fifo := rest }) := by
      simp only [ep_read, hflag, if_false, hfifo, hloop]
    rw [hread]
    refine ⟨rfl, ⟨_, rfl, fun j hj => ?_, fun j hj => ?_⟩, rfl⟩
    · have : 0 ≤ j ∧ j < N := by omega
      simp only [this, and_self, if_true]
    · have : ¬ (0 ≤ j ∧ j < N) := by omega
      simp only [this, if_false]

/-- C12 at `N = 5` (not a multiple of 4): bytes `1, 2, 3, 4, 5` written to IN
endpoint 1 and read back into a buffer filled with 0xEE. -/
theorem C12_pack_unpack_roundtrip_witness :
    (ep_read 0x01 (some (fun _ => 0xEE)) 5
      { zeroSys with
        d := { zeroDriver with regs := { zeroRegs with GINTSTS := USB_OTG_GINTSTS_RXFLVL } },
        rx_fifo := [0x04030201, 0x00000005] ++ [0xDEADBEEF] }).1 = (5 : Int) ∧
    (∃ buf', (ep_read 0x01 (some (fun _ => 0xEE)) 5
      { zeroSys with
        d := { zeroDriver with regs := { zeroRegs with GINTSTS := USB_OTG_GINTSTS_RXFLVL } },
        rx_fifo := [0x04030201, 0x00000005] ++ [0xDEADBEEF] }).2.1 = some buf' ∧
      (∀ j, j < 5 → buf' j = (fun k => k + 1) j) ∧ (∀ j, 5 ≤ j → buf' j = (fun _ => 0xEE) j)) ∧
    (ep_read 0x01 (some (fun _ => 0xEE)) 5
      { zeroSys with
        d := { zeroDriver with regs := { zeroRegs with GINTSTS := USB_OTG_GINTSTS_RXFLVL } },
        rx_fifo := [0x04030201, 0x00000005] ++ [0xDEADBEEF] }).2.2.rx_fifo = [0xDEADBEEF] :=
  C12_pack_unpack_roundtrip 0x81 0x01 (fun k => k + 1) (fun _ => 0xEE) 5
    { zeroSys with DTXFSTS := fun _ => 16 }
    { zeroSys with
      d := { zeroDriver with regs := { zeroRegs with GINTSTS := USB_OTG_GINTSTS_RXFLVL } },
      rx_fifo := [0x04030201, 0x00000005] ++ [0xDEADBEEF] }
    [0xDEADBEEF] (fun k hk => by show k + 1 < 256; omega) (by decide) (by decide) (Or.inr (by decide))

/-! ## Unstall and the recorded endpoint type -/

/-- An endpoint number below 0x80 is an OUT endpoint and is its own address. -/
theorem out_ep_num (n : Nat) (hn : n < 128) : get_ep_addr n = n ∧ is_in_ep n = false := by
  constructor
  · have h : (0x7F : Nat) = 2 ^ 7 - 1 := by decide
    unfold get_ep_addr
    rw [h, Nat.and_pow_two_sub_one_eq_mod]
    exact Nat.mod_eq_of_lt hn
  · have h : (0x80 : Nat) = 2 ^ 7 := by decide
    unfold is_in_ep
    rw [h, and_two_pow_bne_zero]
    exact Nat.testBit_lt_two_pow hn

/-- `ep_config` records a configuration for endpoint 0 only: the tables
`m_rx_ep_cfg` and `m_tx_ep_cfg` are never written. -/
theorem ep_config_tables (MAX_NUM_EP RX_FIFO_SIZE MAX_FIFO_LEN_U8 : Nat) (ep : ep_cfg)
    (d : Driver) :
    (ep_config MAX_NUM_EP RX_FIFO_SIZE MAX_FIFO_LEN_U8 ep d).2.m_tx_ep_cfg = d.m_tx_ep_cfg ∧
    (ep_config MAX_NUM_EP RX_FIFO_SIZE MAX_FIFO_LEN_U8 ep d).2.m_rx_ep_cfg = d.m_rx_ep_cfg := by
  by_cases h0 : get_ep_addr ep.num = 0
  · by_cases ht : ep.type = EP_TYPE.CONTROL
    · unfold ep_config
      simp only [h0, ht, ne_eq, not_true_eq_false, if_true, if_false, and_self]
    · rw [ep_config_ep0_other _ _ _ ep d h0 ht]
      exact ⟨rfl, rfl⟩
  · cases hin : is_in_ep ep.num
    · rw [ep_config_out _ _ _ ep d h0 hin]
      cases doepctl_value ep <;> exact ⟨rfl, rfl⟩
    · rw [ep_config_in _ _ _ ep d h0 hin]
      split_ifs
      · exact ⟨rfl, rfl⟩
      · cases diepctl_value (get_ep_addr ep.num) ep <;> exact ⟨rfl, rfl⟩

/-- `ep_unstall` on an OUT endpoint `n` takes the type from `m_tx_ep_cfg[n-1]`;
when that entry is neither BULK nor INTERRUPT the only write is the one that
clears `STALL`. -/
theorem ep_unstall_out_no_data0 (MAX_NUM_EP : Nat) (cfg0 : ep_cfg) (n : Nat) (d : Driver)
    (h0 : n ≠ 0) (hn : n ≤ MAX_NUM_EP) (h128 : n < 128)
    (ht : (d.m_tx_ep_cfg (n - 1)).type ≠ EP_TYPE.BULK ∧
      (d.m_tx_ep_cfg (n - 1)).type ≠ EP_TYPE.INTERRUPT) :
    (ep_unstall MAX_NUM_EP cfg0 n d).regs.DOEPCTL n =
      clear_bits (d.regs.DOEPCTL n) USB_OTG_DOEPCTL_STALL := by
  obtain ⟨ha, hin⟩ := out_ep_num n h128
  have hidx : (n + 2 ^ 32 - 1) % 2 ^ 32 = n - 1 := by omega
  have hgt : ¬ n > MAX_NUM_EP := by omega
  simp only [ep_unstall, hin, ha, h0, get_rx_ep_config, hgt, hidx, if_false, Bool.false_eq_true,
    ne_eq, not_false_eq_true, true_and, ht.1, ht.2, or_self, read_EPCTL_out, write_EPCTL_out,
    setReg, if_true]

theorem testBit_clear_bits (x m i : Nat) (hi : i < 32) :
    (clear_bits x m).testBit i = (x.testBit i && !m.testBit i) := by
  have h : (0xFFFFFFFF : Nat) = 2 ^ 32 - 1 := by decide
  unfold clear_bits not32
  rw [Nat.testBit_and, Nat.testBit_xor, h, Nat.testBit_two_pow_sub_one, Nat.testBit_mod_two_pow]
  simp [hi]

/-- C11 (the code breaks it): on a driver whose table entry for OUT endpoint
`n` is still UNCONF, as the constructor leaves it, `ep_config` of `n` as BULK
or INTERRUPT returns `true`, and whatever the registers hold afterwards,
`ep_unstall(n)` only clears `STALL` in `DOEPCTL[n]`: the data-toggle bit
`SD0PID` (bit 28) is left as it was, not set. -/
theorem C11_unstall_ignores_configured_type (MAX_NUM_EP RX_FIFO_SIZE MAX_FIFO_LEN_U8 : Nat)
    (cfg0 ep : ep_cfg) (d : Driver) (r : Regs)
    (h0 : ep.num ≠ 0) (hn : ep.num ≤ MAX_NUM_EP) (h128 : ep.num < 128)
    (htype : ep.type = EP_TYPE.BULK ∨ ep.type = EP_TYPE.INTERRUPT)
    (hfresh : (d.m_tx_ep_cfg (ep.num - 1)).type = EP_TYPE.UNCONF) :
    (ep_config MAX_NUM_EP RX_FIFO_SIZE MAX_FIFO_LEN_U8 ep d).1 = true ∧
    (ep_unstall MAX_NUM_EP cfg0 ep.num
        { (ep_config MAX_NUM_EP RX_FIFO_SIZE MAX_FIFO_LEN_U8 ep d).2 with regs := r }).regs.DOEPCTL
        ep.num = clear_bits (r.DOEPCTL ep.num) USB_OTG_DOEPCTL_STALL ∧
    ((ep_unstall MAX_NUM_EP cfg0 ep.num
        { (ep_config MAX_NUM_EP RX_FIFO_SIZE MAX_FIFO_LEN_U8 ep d).2 with regs := r }).regs.DOEPCTL
        ep.num).testBit 28 = (r.DOEPCTL ep.num).testBit 28 := by
  obtain ⟨ha, hin⟩ := out_ep_num ep.num h128
  have hcfg : (ep_config MAX_NUM_EP RX_FIFO_SIZE MAX_FIFO_LEN_U8 ep d).1 = true := by
    rw [ep_config_out _ _ _ ep d (by rw [ha]; exact h0) hin]
    rcases htype with h | h <;> simp [doepctl_value, h]
  have htab := (ep_config_tables MAX_NUM_EP RX_FIFO_SIZE MAX_FIFO_LEN_U8 ep d).1
  have hun := ep_unstall_out_no_data0 MAX_NUM_EP cfg0 ep.num
    { (ep_config MAX_NUM_EP RX_FIFO_SIZE MAX_FIFO_LEN_U8 ep d).2 with regs := r } h0 hn h128
    (by
      show ((ep_config MAX_NUM_EP RX_FIFO_SIZE MAX_FIFO_LEN_U8 ep d).2.m_tx_ep_cfg
          (ep.num - 1)).type ≠ EP_TYPE.BULK ∧
        ((ep_config MAX_NUM_EP RX_FIFO_SIZE MAX_FIFO_LEN_U8 ep d).2.m_tx_ep_cfg
          (ep.num - 1)).type ≠ EP_TYPE.INTERRUPT
      rw [htab, hfresh]
      exact ⟨by decide, by decide⟩)
  refine ⟨hcfg, hun, ?_⟩
  rw [hun, testBit_clear_bits _ _ _ (by decide)]
  have : Nat.testBit USB_OTG_DOEPCTL_STALL 28 = false := by decide
  rw [this]
  simp

/-- C11 at the failing input: the freshly constructed driver, OUT endpoint 1
configured as BULK, later `ep_unstall(1)` with `DOEPCTL[1]` holding `STALL` and
the data-toggle bit clear: the register ends up 0, bit 28 is not set. -/
theorem C11_unstall_ignores_configured_type_witness :
    (ep_config 8 512 4096 { num := 1, size := 64, type := EP_TYPE.BULK } zeroDriver).1 = true ∧
    (ep_unstall 8 zeroDriver.m_ep0_cfg 1
        { (ep_config 8 512 4096 { num := 1, size := 64, type := EP_TYPE.BULK } zeroDriver).2 with
          regs := { zeroRegs with DOEPCTL := fun _ => 0x00200000 } }).regs.DOEPCTL 1 = 0 ∧
    ((ep_unstall 8 zeroDriver.m_ep0_cfg 1
        { (ep_config 8 512 4096 { num := 1, size := 64, type := EP_TYPE.BULK } zeroDriver).2 with
          regs := { zeroRegs with DOEPCTL := fun _ => 0x00200000 } }).regs.DOEPCTL 1).testBit 28
      = false :=
  C11_unstall_ignores_configured_type 8 512 4096 zeroDriver.m_ep0_cfg
    { num := 1, size := 64, type := EP_TYPE.BULK } zeroDriver
    { zeroRegs with DOEPCTL := fun _ => 0x00200000 }
    (by decide) (by decide) (by decide) (Or.inl rfl) rfl

/-! ## The stages of `poll` -/

/-- `poll` with the start-of-frame bit set only acknowledges it. -/
theorem poll_sof (MAX_NUM_EP : Nat) (s : Sys)
    (hsof : (s.d.regs.GINTSTS &&& USB_OTG_GINTSTS_SOF) ≠ 0) :
    poll MAX_NUM_EP s = some (write_GINTSTS USB_OTG_GINTSTS_SOF s) := by
  unfold poll
  simp only [hsof, ne_eq, not_false_eq_true, if_true]

/-- `poll` on a bus reset. -/
theorem poll_reset (MAX_NUM_EP : Nat) (s : Sys)
    (hsof : (s.d.regs.GINTSTS &&& USB_OTG_GINTSTS_SOF) = 0)
    (hrst : (s.d.regs.GINTSTS &&& USB_OTG_GINTSTS_USBRST) ≠ 0) :
    poll MAX_NUM_EP s =
      some ((handle_reset_done MAX_NUM_EP
        (write_GINTSTS USB_OTG_GINTSTS_USBRST (poll_head s))).emit USB_EVENTS.RESET 0) := by
  unfold poll poll_head
  simp only [hsof, hrst, ne_eq, not_true_eq_false, not_false_eq_true, if_true, if_false]

/-- `poll` outside start-of-frame and bus reset. -/
theorem poll_other (MAX_NUM_EP : Nat) (s : Sys)
    (hsof : (s.d.regs.GINTSTS &&& USB_OTG_GINTSTS_SOF) = 0)
    (hrst : (s.d.regs.GINTSTS &&& USB_OTG_GINTSTS_USBRST) = 0) :
    poll MAX_NUM_EP s =
      if (s.d.regs.GINTSTS &&& USB_OTG_GINTSTS_RXFLVL) ≠ 0
      then poll_rxflvl (poll_body s.d.regs.GINTSTS (poll_head s))
      else some (poll_body s.d.regs.GINTSTS (poll_head s)) := by
  unfold poll poll_head poll_body
  simp only [hsof, hrst, ne_eq, not_true_eq_false, not_false_eq_true, if_true, if_false]

theorem rx_frame_refl (s : Sys) : rx_frame s s := ⟨rfl, rfl, rfl, rfl, rfl, rfl, rfl⟩

theorem rx_frame_trans {a b c : Sys} (h1 : rx_frame a b) (h2 : rx_frame b c) : rx_frame a c := by
  obtain ⟨a1, a2, a3, a4, a5, a6, a7⟩ := h1
  obtain ⟨b1, b2, b3, b4, b5, b6, b7⟩ := h2
  exact ⟨b1.trans a1, b2.trans a2, b3.trans a3, b4.trans a4, b5.trans a5, b6.trans a6,
    b7.trans a7⟩

theorem testBit_not32 (m i : Nat) (hi : i < 32) : (not32 m).testBit i = !m.testBit i := by
  have h : (0xFFFFFFFF : Nat) = 2 ^ 32 - 1 := by decide
  unfold not32
  rw [Nat.testBit_xor, h, Nat.testBit_two_pow_sub_one, Nat.testBit_mod_two_pow]
  simp [hi]

/-- Acknowledging bits other than `RXFLVL` keeps the `RXFLVL` flag. -/
theorem rx_frame_write_GINTSTS (bits : Nat) (s : Sys) (hb : bits.testBit 4 = false) :
    rx_frame s (write_GINTSTS bits s) := by
  refine ⟨rfl, rfl, rfl, rfl, rfl, rfl, ?_⟩
  show (s.d.regs.GINTSTS &&& not32 bits) &&& USB_OTG_GINTSTS_RXFLVL =
    s.d.regs.GINTSTS &&& USB_OTG_GINTSTS_RXFLVL
  apply Nat.eq_of_testBit_eq
  intro i
  have hflag : Nat.testBit USB_OTG_GINTSTS_RXFLVL i = decide (4 = i) := by
    have : USB_OTG_GINTSTS_RXFLVL = 2 ^ 4 := by decide
    rw [this, Nat.testBit_two_pow]
  simp only [Nat.testBit_and, hflag]
  by_cases hi : 4 = i
  · subst hi
    rw [testBit_not32 _ _ (by decide), hb]
    simp
  · simp [hi]

theorem rx_frame_emit (s : Sys) (e : USB_EVENTS) (a : Nat) : rx_frame s (s.emit e a) :=
  ⟨rfl, rfl, rfl, rfl, rfl, rfl, rfl⟩

theorem rx_frame_ack_GOTGINT (g bit : Nat) (s : Sys) : rx_frame s (ack_GOTGINT g bit s) := by
  unfold ack_GOTGINT
  split_ifs
  · exact ⟨rfl, rfl, rfl, rfl, rfl, rfl, rfl⟩
  · exact rx_frame_refl s

theorem rx_frame_poll_otgint (s : Sys) : rx_frame s (poll_otgint s) := by
  unfold poll_otgint
  exact rx_frame_trans (rx_frame_ack_GOTGINT _ _ _) (rx_frame_trans (rx_frame_ack_GOTGINT _ _ _)
    (rx_frame_trans (rx_frame_ack_GOTGINT _ _ _) (rx_frame_trans (rx_frame_ack_GOTGINT _ _ _)
      (rx_frame_trans (rx_frame_ack_GOTGINT _ _ _) (rx_frame_ack_GOTGINT _ _ _)))))

theorem rx_frame_poll_head (s : Sys) : rx_frame s (poll_head s) := by
  by_cases h1 : (s.d.regs.GINTSTS &&& USB_OTG_GINTSTS_MMIS) ≠ 0 <;>
    by_cases h2 : (s.d.regs.GINTSTS &&& USB_OTG_GINTSTS_OTGINT) ≠ 0
  · simp only [poll_head, if_pos h1, if_pos h2]
    exact rx_frame_trans (rx_frame_write_GINTSTS _ _ (by decide)) (rx_frame_poll_otgint _)
  · simp only [poll_head, if_pos h1, if_neg h2]
    exact rx_frame_write_GINTSTS _ _ (by decide)
  · simp only [poll_head, if_neg h1, if_pos h2]
    exact rx_frame_poll_otgint _
  · simp only [poll_head, if_neg h1, if_neg h2]
    exact rx_frame_refl s

theorem rx_frame_write_DIEPINT (ep bits : Nat) (s : Sys) : rx_frame s (write_DIEPINT ep bits s) :=
  ⟨rfl, rfl, rfl, rfl, rfl, rfl, rfl⟩

theorem rx_frame_write_DOEPINT (ep bits : Nat) (s : Sys) : rx_frame s (write_DOEPINT ep bits s) :=
  ⟨rfl, rfl, rfl, rfl, rfl, rfl, rfl⟩

theorem rx_frame_ack_DIEPINT (g ep bit : Nat) (s : Sys) : rx_frame s (ack_DIEPINT g ep bit s) := by
  unfold ack_DIEPINT
  split_ifs
  · exact rx_frame_write_DIEPINT _ _ _
  · exact rx_frame_refl s

theorem rx_frame_ack_DOEPINT (g ep bit : Nat) (s : Sys) : rx_frame s (ack_DOEPINT g ep bit s) := by
  unfold ack_DOEPINT
  split_ifs
  · exact rx_frame_write_DOEPINT _ _ _
  · exact rx_frame_refl s

theorem rx_frame_ack_emit_DOEPINT (g ep bit : Nat) (ev : USB_EVENTS) (s : Sys) :
    rx_frame s (ack_emit_DOEPINT g ep bit ev s) := by
  unfold ack_emit_DOEPINT
  split_ifs
  · exact ⟨rfl, rfl, rfl, rfl, rfl, rfl, rfl⟩
  · exact rx_frame_refl s

theorem rx_frame_iepint_acks (g ep : Nat) (s : Sys) : rx_frame s (iepint_acks g ep s) := by
  unfold iepint_acks
  exact rx_frame_trans (rx_frame_ack_DIEPINT _ _ _ _) (rx_frame_trans (rx_frame_ack_DIEPINT _ _ _ _)
    (rx_frame_trans (rx_frame_ack_DIEPINT _ _ _ _) (rx_frame_trans (rx_frame_ack_DIEPINT _ _ _ _)
    (rx_frame_trans (rx_frame_ack_DIEPINT _ _ _ _) (rx_frame_trans (rx_frame_ack_DIEPINT _ _ _ _)
    (rx_frame_trans (rx_frame_ack_DIEPINT _ _ _ _) (rx_frame_ack_DIEPINT _ _ _ _)))))))

theorem rx_frame_oepint_acks (g ep : Nat) (s : Sys) : rx_frame s (oepint_acks g ep s) := by
  unfold oepint_acks
  exact rx_frame_trans (rx_frame_ack_DOEPINT _ _ _ _) (rx_frame_trans (rx_frame_ack_DOEPINT _ _ _ _)
    (rx_frame_trans (rx_frame_ack_DOEPINT _ _ _ _) (rx_frame_trans (rx_frame_ack_DOEPINT _ _ _ _)
    (rx_frame_trans (rx_frame_ack_DOEPINT _ _ _ _) (rx_frame_trans (rx_frame_ack_DOEPINT _ _ _ _)
    (rx_frame_trans (rx_frame_ack_emit_DOEPINT _ _ _ _ _)
    (rx_frame_trans (rx_frame_ack_DOEPINT _ _ _ _)
    (rx_frame_trans (rx_frame_ack_emit_DOEPINT _ _ _ _ _)
    (rx_frame_trans (rx_frame_ack_DOEPINT _ _ _ _) (rx_frame_ack_DOEPINT _ _ _ _))))))))))

theorem rx_frame_ep_write (ep : Nat) (buf : Nat → Nat) (len : Nat) (s : Sys) :
    rx_frame s (ep_write ep buf len s).2 := by
  by_cases h : ep_write_accepts ep len s
  · rw [(ep_write_eq ep buf len s).1 h]
    unfold ep_write_done ep_write_regs
    split_ifs <;> exact ⟨rfl, rfl, rfl, rfl, rfl, rfl, rfl⟩
  · rw [(ep_write_eq ep buf len s).2 h]
    exact rx_frame_refl s

theorem rx_frame_tx_release_current (ep : Nat) (s : Sys) : rx_frame s (tx_release_current ep s) := by
  unfold tx_release_current
  split
  · exact ⟨rfl, rfl, rfl, rfl, rfl, rfl, rfl⟩
  · exact rx_frame_refl s

theorem rx_frame_tx_load_next (ep : Nat) (s : Sys) : rx_frame s (tx_load_next ep s) := by
  unfold tx_load_next
  simp only []
  split
  · refine rx_frame_trans ?_ (rx_frame_ep_write _ _ _ _)
    exact ⟨rfl, rfl, rfl, rfl, rfl, rfl, rfl⟩
  · exact ⟨rfl, rfl, rfl, rfl, rfl, rfl, rfl⟩

theorem rx_frame_iepint_xfrc (ep : Nat) (s : Sys) : rx_frame s (iepint_xfrc ep s) := by
  have h := rx_frame_trans (rx_frame_write_DIEPINT ep USB_OTG_DIEPINT_XFRC s)
    (rx_frame_trans (rx_frame_tx_release_current ep _) (rx_frame_tx_load_next ep _))
  unfold iepint_xfrc
  simp only []
  split_ifs
  · exact rx_frame_trans h ⟨rfl, rfl, rfl, rfl, rfl, rfl, rfl⟩
  · exact h

theorem rx_frame_handle_iepintx (s : Sys) : rx_frame s (handle_iepintx s).2 := by
  unfold handle_iepintx
  simp only []
  split_ifs
  · exact rx_frame_refl s
  · exact rx_frame_trans (rx_frame_iepint_acks _ _ _) (rx_frame_iepint_xfrc _ _)
  · exact rx_frame_iepint_acks _ _ _

theorem rx_frame_handle_oepintx (s : Sys) : rx_frame s (handle_oepintx s).2 := by
  unfold handle_oepintx
  simp only []
  split_ifs
  · exact rx_frame_refl s
  · exact rx_frame_trans (rx_frame_oepint_acks _ _ _)
      (rx_frame_trans (rx_frame_write_DOEPINT _ _ _) ⟨rfl, rfl, rfl, rfl, rfl, rfl, rfl⟩)
  · exact rx_frame_trans (rx_frame_oepint_acks _ _ _) (rx_frame_write_DOEPINT _ _ _)
  · exact rx_frame_oepint_acks _ _ _

theorem rx_frame_ack_event (c : Prop) [Decidable c] (bits : Nat) (ev : USB_EVENTS) (s : Sys)
    (hb : bits.testBit 4 = false) :
    rx_frame s (if c then (write_GINTSTS bits s).emit ev 0 else s) := by
  split_ifs
  · exact rx_frame_trans (rx_frame_write_GINTSTS bits s hb) (rx_frame_emit _ _ _)
  · exact rx_frame_refl s

theorem rx_frame_ite (c : Prop) [Decidable c] (s t : Sys) (h : rx_frame s t) :
    rx_frame s (if c then t else s) := by
  split_ifs
  · exact h
  · exact rx_frame_refl s

theorem rx_frame_poll_body (g : Nat) (s : Sys) : rx_frame s (poll_body g s) := by
  unfold poll_body handle_enum_done
  exact rx_frame_trans (rx_frame_ack_event _ _ _ _ (by decide))
    (rx_frame_trans (rx_frame_ack_event _ _ _ _ (by decide))
    (rx_frame_trans (rx_frame_ack_event _ _ _ _ (by decide))
    (rx_frame_trans (rx_frame_ack_event _ _ _ _ (by decide))
    (rx_frame_trans (rx_frame_ite _ _ _ (rx_frame_handle_iepintx _))
      (rx_frame_ite _ _ _ (rx_frame_handle_oepintx _))))))

/-- The stages of `poll` before the receive-FIFO branch leave the receive side
alone. -/
theorem rx_frame_poll_stages (s : Sys) :
    rx_frame s (poll_body s.d.regs.GINTSTS (poll_head s)) :=
  rx_frame_trans (rx_frame_poll_head s) (rx_frame_poll_body _ _)

/-! ## Receive path of `poll` -/

theorem ep_read_state (e : Nat) (buf : Option (Nat → Nat)) (n : Nat) (s : Sys) :
    ∃ f, (ep_read e buf n s).2.2 = { s with rx_fifo := f } := by
  unfold ep_read
  split_ifs
  · exact ⟨s.rx_fifo, rfl⟩
  · cases buf with
    | none => exact ⟨s.rx_fifo, rfl⟩
    | some m => exact ⟨_, rfl⟩

theorem alloc_after_enqueue (p : Nat → EpPool) (E : Nat) (b : Buffer)
    (h : (p E).free = []) :
    poll_allocate_buffer (poll_enqueue_buffer p E b).2 E = (none, (poll_enqueue_buffer p E b).2) := by
  unfold poll_enqueue_buffer
  split_ifs
  · simp [poll_allocate_buffer, setPool, h]
  · simp [poll_allocate_buffer, h]

/-- The `OUT_RECEIVED` case for an endpoint other than 0 whose pool has no free
buffer. -/
theorem poll_out_received_backpressure (E n : Nat) (u : Sys) (b : Buffer)
    (h1 : get_buffer u.m_rx_buffer E = some b) (h2 : (u.m_rx_buffer E).free = []) :
    ∃ t, poll_out_received E n u = some t ∧ get_buffer t.m_rx_buffer E = none ∧
      t.d.regs.DOEPCTL E = u.d.regs.DOEPCTL E ||| USB_OTG_DOEPCTL_SNAK ∧
      t.d.regs.GINTMSK = clear_bits u.d.regs.GINTMSK USB_OTG_GINTSTS_RXFLVL := by
  obtain ⟨f, hf⟩ := ep_read_state E (some ((b.reset).resize n).mem) n u
  unfold poll_out_received
  rw [h1]
  simp only [hf]
  rw [alloc_after_enqueue _ _ _ h2]
  refine ⟨_, rfl, ?_, ?_, rfl⟩
  · simp [get_buffer, set_buffer, setPool, or_DOEPCTL, Sys.setRegs]
  · simp [or_DOEPCTL, Sys.setRegs, setReg]

/-- The `OUT_RECEIVED` case for endpoint 0 whose pool has no free buffer. -/
theorem poll_out_received_ep0_backpressure (n : Nat) (u : Sys) (b : Buffer)
    (h1 : get_buffer u.m_ep0_buffer 0 = some b) (h2 : (u.m_ep0_buffer 0).free = []) :
    ∃ t, poll_out_received_ep0 n u = some t ∧ get_buffer t.m_ep0_buffer 0 = none ∧
      t.d.regs.DOEPCTL 0 = u.d.regs.DOEPCTL 0 ||| USB_OTG_DOEPCTL_SNAK ∧
      t.d.regs.GINTMSK = u.d.regs.GINTMSK := by
  obtain ⟨f, hf⟩ := ep_read_state 0 (some ((b.reset).resize n).mem) n u
  unfold poll_out_received_ep0
  rw [h1]
  simp only [hf]
  rw [alloc_after_enqueue _ _ _ h2]
  refine ⟨_, rfl, ?_, ?_, rfl⟩
  · simp [get_buffer, set_buffer, setPool, or_DOEPCTL, Sys.setRegs]
  · simp [or_DOEPCTL, Sys.setRegs, setReg]

theorem epnum_field_lt (w : Nat) :
    FLD2VAL USB_OTG_GRXSTSP_EPNUM_Pos USB_OTG_GRXSTSP_EPNUM_Msk w < 16 := by
  unfold FLD2VAL USB_OTG_GRXSTSP_EPNUM_Pos USB_OTG_GRXSTSP_EPNUM_Msk
  have h : w &&& 0xF ≤ 0xF := Nat.and_le_right
  simp only [Nat.shiftRight_zero]
  omega

/-- The receive-FIFO branch on an `OUT_RECEIVED` status word with a non-zero
byte count. -/
theorem poll_rxflvl_out (u : Sys) (w : Nat) (rest : List Nat)
    (hfifo : u.rx_fifo = w :: rest)
    (hpk : FLD2VAL USB_OTG_GRXSTSP_PKTSTS_Pos USB_OTG_GRXSTSP_PKTSTS_Msk w = 2)
    (hbc : FLD2VAL USB_OTG_GRXSTSP_BCNT_Pos USB_OTG_GRXSTSP_BCNT_Msk w ≠ 0) :
    poll_rxflvl u =
      if FLD2VAL USB_OTG_GRXSTSP_EPNUM_Pos USB_OTG_GRXSTSP_EPNUM_Msk w ≠ 0 then
        poll_out_received (FLD2VAL USB_OTG_GRXSTSP_EPNUM_Pos USB_OTG_GRXSTSP_EPNUM_Msk w)
          (FLD2VAL USB_OTG_GRXSTSP_BCNT_Pos USB_OTG_GRXSTSP_BCNT_Msk w) { u with rx_fifo := rest }
      else
        poll_out_received_ep0
          (FLD2VAL USB_OTG_GRXSTSP_BCNT_Pos USB_OTG_GRXSTSP_BCNT_Msk w) { u with rx_fifo := rest } := by
  have hlt := epnum_field_lt w
  have hmod : FLD2VAL USB_OTG_GRXSTSP_EPNUM_Pos USB_OTG_GRXSTSP_EPNUM_Msk w % 256 =
      FLD2VAL USB_OTG_GRXSTSP_EPNUM_Pos USB_OTG_GRXSTSP_EPNUM_Msk w := Nat.mod_eq_of_lt (by omega)
  unfold poll_rxflvl
  simp only [hfifo, List.headD_cons, List.tail_cons, hpk, hmod, ne_eq, hbc, not_false_eq_true,
    if_true]
/-! ## C14: backpressure when the pool is exhausted -/

/-- C14 as stated fails for control endpoint 0: `poll` processes an
`OUT_RECEIVED` word for endpoint 0 (2 bytes) with the buffer of endpoint 0 armed
and no free buffer in its pool; afterwards the slot is empty and `SNAK` is set in
`DOEPCTL0`, but `RXFLVL` is still unmasked in `GINTMSK`. -/
theorem C14_counterexample :
    get_buffer ep0_arrival_start.m_ep0_buffer 0 = some { id := 7, data := [] } ∧
    (poll_allocate_buffer ep0_arrival_start.m_ep0_buffer 0).1 = none ∧
    ep0_arrival_start.d.regs.GINTMSK = USB_OTG_GINTSTS_RXFLVL ∧
    (poll 8 ep0_arrival_start).map
        (fun t => (get_buffer t.m_ep0_buffer 0, t.d.regs.DOEPCTL 0, t.d.regs.GINTMSK)) =
      some (none, USB_OTG_DOEPCTL_SNAK, USB_OTG_GINTSTS_RXFLVL) := by
  decide

/-- C14, amended: when `poll` (no start-of-frame, no bus reset pending) processes
an `OUT_RECEIVED` status word for endpoint `E` with a non-zero byte count, `E`
has an armed receive buffer and the pool of `E` has no free buffer, then `poll`
returns, the armed-buffer slot of `E` is empty afterwards, and `DOEPCTL[E]` is
its old value with `SNAK` or-ed in (the enable bit is not written).  For
`E != 0` the interrupt `RXFLVL` is cleared in `GINTMSK`; for `E = 0` (pool
`m_ep0_buffer`) `GINTMSK` is left as it was. -/
theorem C14_backpressure_on_exhausted_pool (MAX_NUM_EP E : Nat) (s : Sys) (w : Nat)
    (rest : List Nat) (b : Buffer)
    (hsof : (s.d.regs.GINTSTS &&& USB_OTG_GINTSTS_SOF) = 0)
    (hrst : (s.d.regs.GINTSTS &&& USB_OTG_GINTSTS_USBRST) = 0)
    (hrx : (s.d.regs.GINTSTS &&& USB_OTG_GINTSTS_RXFLVL) ≠ 0)
    (hfifo : s.rx_fifo = w :: rest)
    (hpk : FLD2VAL USB_OTG_GRXSTSP_PKTSTS_Pos USB_OTG_GRXSTSP_PKTSTS_Msk w = 2)
    (hbc : FLD2VAL USB_OTG_GRXSTSP_BCNT_Pos USB_OTG_GRXSTSP_BCNT_Msk w ≠ 0)
    (hep : FLD2VAL USB_OTG_GRXSTSP_EPNUM_Pos USB_OTG_GRXSTSP_EPNUM_Msk w = E)
    (harmed : get_buffer (out_pool E s) E = some b)
    (hfree : (out_pool E s E).free = []) :
    ∃ t, poll MAX_NUM_EP s = some t ∧
      get_buffer (out_pool E t) E = none ∧
      t.d.regs.DOEPCTL E = s.d.regs.DOEPCTL E ||| USB_OTG_DOEPCTL_SNAK ∧
      t.d.regs.GINTMSK =
        if E = 0 then s.d.regs.GINTMSK
        else clear_bits s.d.regs.GINTMSK USB_OTG_GINTSTS_RXFLVL := by
  obtain ⟨f1, f2, f3, _, f5, f6, _⟩ := rx_frame_poll_stages s
  rw [poll_other MAX_NUM_EP s hsof hrst, if_pos hrx,
    poll_rxflvl_out _ w rest (f3.trans hfifo) hpk hbc, hep]
  by_cases h0 : E = 0
  · subst h0
    simp only [out_pool, if_true] at harmed hfree
    rw [if_neg (by simp)]
    obtain ⟨t, ht, a1, a2, a3⟩ := poll_out_received_ep0_backpressure
      (FLD2VAL USB_OTG_GRXSTSP_BCNT_Pos USB_OTG_GRXSTSP_BCNT_Msk w)
      { poll_body s.d.regs.GINTSTS (poll_head s) with rx_fifo := rest } b
      (by show get_buffer (poll_body s.d.regs.GINTSTS (poll_head s)).m_ep0_buffer 0 = some b
          rw [f2]; exact harmed)
      (by show ((poll_body s.d.regs.GINTSTS (poll_head s)).m_ep0_buffer 0).free = []
          rw [f2]; exact hfree)
    refine ⟨t, ht, ?_, ?_, ?_⟩
    · simpa only [out_pool, if_true] using a1
    · rw [a2]; show (poll_body s.d.regs.GINTSTS (poll_head s)).d.regs.DOEPCTL 0 ||| _ = _
      rw [f5]
    · rw [a3, if_pos rfl]; exact f6
  · simp only [out_pool, if_neg h0] at harmed hfree
    rw [if_pos h0]
    obtain ⟨t, ht, a1, a2, a3⟩ := poll_out_received_backpressure E
      (FLD2VAL USB_OTG_GRXSTSP_BCNT_Pos USB_OTG_GRXSTSP_BCNT_Msk w)
      { poll_body s.d.regs.GINTSTS (poll_head s) with rx_fifo := rest } b
      (by show get_buffer (poll_body s.d.regs.GINTSTS (poll_head s)).m_rx_buffer E = some b
          rw [f1]; exact harmed)
      (by show ((poll_body s.d.regs.GINTSTS (poll_head s)).m_rx_buffer E).free = []
          rw [f1]; exact hfree)
    refine ⟨t, ht, ?_, ?_, ?_⟩
    · simpa only [out_pool, if_neg h0] using a1
    · rw [a2]; show (poll_body s.d.regs.GINTSTS (poll_head s)).d.regs.DOEPCTL E ||| _ = _
      rw [f5]
    · rw [a3, if_neg h0]
      show clear_bits (poll_body s.d.regs.GINTSTS (poll_head s)).d.regs.GINTMSK _ = _
      rw [f6]

/-- C14 at the first arrival of `two_arrivals_start`: endpoint 2, 10 bytes, its
only buffer armed. -/
theorem C14_backpressure_on_exhausted_pool_witness :
    ∃ t, poll 8 two_arrivals_start = some t ∧
      get_buffer (out_pool 2 t) 2 = none ∧
      t.d.regs.DOEPCTL 2 = two_arrivals_start.d.regs.DOEPCTL 2 ||| USB_OTG_DOEPCTL_SNAK ∧
      t.d.regs.GINTMSK =
        if 2 = 0 then two_arrivals_start.d.regs.GINTMSK
        else clear_bits two_arrivals_start.d.regs.GINTMSK USB_OTG_GINTSTS_RXFLVL :=
  C14_backpressure_on_exhausted_pool 8 2 two_arrivals_start (rx_status_word 2 10 2)
    [0x04030201, 0x08070605, 0x00000A09, rx_status_word 2 10 2, 0x0E0D0C0B, 0x1211100F,
      0x00001413]
    { id := 1, data := [] } (by decide) (by decide) (by decide) (by decide) (by decide)
    (by decide) (by decide) (by decide) (by decide)

/-! ## C16: a second arrival while the slot is empty -/

/-- C16 fails in the code: when `poll` (no start-of-frame, no bus reset pending)
processes an `OUT_RECEIVED` status word with a non-zero byte count for an
endpoint `E` whose armed-buffer slot is empty, it calls `reset()` through the
null pointer `get_buffer` returned: the call faults (`none`).  `poll` tests the
raw `GINTSTS`, so masking `RXFLVL` in `GINTMSK` does not keep it from the
branch. -/
theorem C16_empty_slot_is_dereferenced (MAX_NUM_EP E : Nat) (s : Sys) (w : Nat)
    (rest : List Nat)
    (hsof : (s.d.regs.GINTSTS &&& USB_OTG_GINTSTS_SOF) = 0)
    (hrst : (s.d.regs.GINTSTS &&& USB_OTG_GINTSTS_USBRST) = 0)
    (hrx : (s.d.regs.GINTSTS &&& USB_OTG_GINTSTS_RXFLVL) ≠ 0)
    (hfifo : s.rx_fifo = w :: rest)
    (hpk : FLD2VAL USB_OTG_GRXSTSP_PKTSTS_Pos USB_OTG_GRXSTSP_PKTSTS_Msk w = 2)
    (hbc : FLD2VAL USB_OTG_GRXSTSP_BCNT_Pos USB_OTG_GRXSTSP_BCNT_Msk w ≠ 0)
    (hep : FLD2VAL USB_OTG_GRXSTSP_EPNUM_Pos USB_OTG_GRXSTSP_EPNUM_Msk w = E)
    (hempty : get_buffer (out_pool E s) E = none) :
    poll MAX_NUM_EP s = none := by
  obtain ⟨f1, f2, f3, _, _, _, _⟩ := rx_frame_poll_stages s
  rw [poll_other MAX_NUM_EP s hsof hrst, if_pos hrx,
    poll_rxflvl_out _ w rest (f3.trans hfifo) hpk hbc, hep]
  by_cases h0 : E = 0
  · subst h0
    simp only [out_pool, if_true] at hempty
    rw [if_neg (by simp)]
    unfold poll_out_received_ep0
    have h : get_buffer ({ poll_body s.d.regs.GINTSTS (poll_head s) with
        rx_fifo := rest } : Sys).m_ep0_buffer 0 = none := by
      show get_buffer (poll_body s.d.regs.GINTSTS (poll_head s)).m_ep0_buffer 0 = none
      rw [f2]; exact hempty
    rw [h]
  · simp only [out_pool, if_neg h0] at hempty
    rw [if_pos h0]
    unfold poll_out_received
    have h : get_buffer ({ poll_body s.d.regs.GINTSTS (poll_head s) with
        rx_fifo := rest } : Sys).m_rx_buffer E = none := by
      show get_buffer (poll_body s.d.regs.GINTSTS (poll_head s)).m_rx_buffer E = none
      rw [f1]; exact hempty
    rw [h]

/-- C16 in the scenario of the claim (pool of capacity 1 for endpoint 2, two
arrivals of 10 bytes, no release in between).  The first `poll` enqueues the
buffer with bytes 1..10, leaves the slot empty, sets `SNAK` in `DOEPCTL2` and
masks `RXFLVL`, with `RXFLVL` still pending in `GINTSTS`; the second `poll`
faults on the empty slot. -/
theorem C16_empty_slot_is_dereferenced_witness :
    (poll 8 two_arrivals_start).map
        (fun t => ((t.m_rx_buffer 2).queue, get_buffer t.m_rx_buffer 2, t.d.regs.DOEPCTL 2,
          t.d.regs.GINTMSK, t.d.regs.GINTSTS)) =
      some ([{ id := 1, data := [1, 2, 3, 4, 5, 6, 7, 8, 9, 10] }], none, USB_OTG_DOEPCTL_SNAK,
        0, USB_OTG_GINTSTS_RXFLVL) ∧
    poll 8 two_arrivals_mid = none :=
  ⟨by decide,
   C16_empty_slot_is_dereferenced 8 2 two_arrivals_mid (rx_status_word 2 10 2)
    [0x0E0D0C0B, 0x1211100F, 0x00001413] (by decide) (by decide) (by decide) (by decide)
    (by decide) (by decide) (by decide) (by decide)⟩

/-! ## C15: releasing a receive buffer -/

/-- C15: `release_rx_buffer(ep, buf)` for an OUT endpoint number `ep` (direction
bit clear) always gives `buf` back to the pool of `ep`.  If the armed-buffer
slot of `ep` held a buffer, the pool only gains `buf` as a free buffer, the slot
is unchanged and no register is written (`DOEPCTL[ep]` and `GINTMSK` included).
If the slot was empty, a buffer is allocated from the pool that now contains
`buf`: the slot holds the first free buffer (never empty), the remaining free
buffers stay free, `DOEPCTL[ep]` has `CNAK | EPENA` or-ed in and `RXFLVL` is set
in `GINTMSK`. -/
theorem C15_release_rx_buffer (ep : Nat) (buf : Buffer) (s : Sys) (hep : ep < 128) :
    (∀ c, get_buffer s.m_rx_buffer ep = some c →
      (release_rx_buffer ep buf s).m_rx_buffer = release_buffer s.m_rx_buffer ep buf ∧
      get_buffer (release_rx_buffer ep buf s).m_rx_buffer ep = some c ∧
      ((release_rx_buffer ep buf s).m_rx_buffer ep).free = (s.m_rx_buffer ep).free ++ [buf] ∧
      (release_rx_buffer ep buf s).d = s.d) ∧
    (get_buffer s.m_rx_buffer ep = none →
      get_buffer (release_rx_buffer ep buf s).m_rx_buffer ep =
        ((s.m_rx_buffer ep).free ++ [buf]).head? ∧
      get_buffer (release_rx_buffer ep buf s).m_rx_buffer ep ≠ none ∧
      ((release_rx_buffer ep buf s).m_rx_buffer ep).free =
        ((s.m_rx_buffer ep).free ++ [buf]).tail ∧
      (release_rx_buffer ep buf s).d.regs.DOEPCTL ep =
        s.d.regs.DOEPCTL ep ||| (USB_OTG_DOEPCTL_CNAK ||| USB_OTG_DOEPCTL_EPENA) ∧
      (release_rx_buffer ep buf s).d.regs.GINTMSK =
        set_bits s.d.regs.GINTMSK USB_OTG_GINTSTS_RXFLVL) := by
  have ha := (out_ep_num ep hep).1
  constructor
  · intro c hc
    have hc2 : get_buffer (release_buffer s.m_rx_buffer ep buf) ep = some c := by
      simpa [get_buffer, release_buffer, setPool] using hc
    have hrel : release_rx_buffer ep buf s =
        { s with m_rx_buffer := release_buffer s.m_rx_buffer ep buf } := by
      unfold release_rx_buffer
      simp only [ha, hc2]
    rw [hrel]
    refine ⟨rfl, hc2, ?_, rfl⟩
    simp [release_buffer, setPool]
  · intro hn
    have hn2 : get_buffer (release_buffer s.m_rx_buffer ep buf) ep = none := by
      simpa [get_buffer, release_buffer, setPool] using hn
    have hfree : (release_buffer s.m_rx_buffer ep buf ep).free = (s.m_rx_buffer ep).free ++ [buf] := by
      simp [release_buffer, setPool]
    obtain ⟨a, rest, har⟩ : ∃ a rest, (s.m_rx_buffer ep).free ++ [buf] = a :: rest := by
      cases h : (s.m_rx_buffer ep).free ++ [buf] with
      | nil => simp at h
      | cons a rest => exact ⟨a, rest, rfl⟩
    rw [har] at hfree
    have halloc : poll_allocate_buffer (release_buffer s.m_rx_buffer ep buf) ep =
        (some a, setPool (release_buffer s.m_rx_buffer ep buf) ep
          { release_buffer s.m_rx_buffer ep buf ep with free := rest }) := by
      unfold poll_allocate_buffer
      rw [hfree]
    unfold release_rx_buffer
    simp only [ha, hn2, halloc, har]
    refine ⟨?_, ?_, ?_, ?_, rfl⟩
    · simp [get_buffer, set_buffer, setPool, or_DOEPCTL, Sys.setRegs]
    · simp [get_buffer, set_buffer, setPool, or_DOEPCTL, Sys.setRegs]
    · simp [get_buffer, set_buffer, setPool, or_DOEPCTL, Sys.setRegs]
    · simp [or_DOEPCTL, Sys.setRegs, setReg]

/-- C15 on endpoint 2: releasing a buffer 9 while buffer 1 is armed
(`two_arrivals_start`) only adds buffer 9 to the free list; releasing buffer 1
in backpressure (`two_arrivals_mid`: slot empty, nothing free) arms it again. -/
theorem C15_release_rx_buffer_witness :
    ((release_rx_buffer 2 (Buffer.mk 9 []) two_arrivals_start).m_rx_buffer =
        release_buffer two_arrivals_start.m_rx_buffer 2 (Buffer.mk 9 []) ∧
      get_buffer (release_rx_buffer 2 (Buffer.mk 9 []) two_arrivals_start).m_rx_buffer 2 =
        some (Buffer.mk 1 []) ∧
      ((release_rx_buffer 2 (Buffer.mk 9 []) two_arrivals_start).m_rx_buffer 2).free =
        (two_arrivals_start.m_rx_buffer 2).free ++ [(Buffer.mk 9 [])] ∧
      (release_rx_buffer 2 (Buffer.mk 9 []) two_arrivals_start).d = two_arrivals_start.d) ∧
    (get_buffer (release_rx_buffer 2 (Buffer.mk 1 []) two_arrivals_mid).m_rx_buffer 2 =
        ((two_arrivals_mid.m_rx_buffer 2).free ++ [(Buffer.mk 1 [])]).head? ∧
      get_buffer (release_rx_buffer 2 (Buffer.mk 1 []) two_arrivals_mid).m_rx_buffer 2 ≠
        none ∧
      ((release_rx_buffer 2 (Buffer.mk 1 []) two_arrivals_mid).m_rx_buffer 2).free =
        ((two_arrivals_mid.m_rx_buffer 2).free ++ [(Buffer.mk 1 [])]).tail ∧
      (release_rx_buffer 2 (Buffer.mk 1 []) two_arrivals_mid).d.regs.DOEPCTL 2 =
        two_arrivals_mid.d.regs.DOEPCTL 2 ||| (USB_OTG_DOEPCTL_CNAK ||| USB_OTG_DOEPCTL_EPENA) ∧
      (release_rx_buffer 2 (Buffer.mk 1 []) two_arrivals_mid).d.regs.GINTMSK =
        set_bits two_arrivals_mid.d.regs.GINTMSK USB_OTG_GINTSTS_RXFLVL) :=
  ⟨(C15_release_rx_buffer 2 (Buffer.mk 9 []) two_arrivals_start (by decide)).1
      (Buffer.mk 1 []) (by decide),
   (C15_release_rx_buffer 2 (Buffer.mk 1 []) two_arrivals_mid (by decide)).2 (by decide)⟩

/-! ## Transfer complete on an IN endpoint -/

theorem write_DIEPINT_state (ep bits : Nat) (s : Sys) :
    ∃ di iw, write_DIEPINT ep bits s =
      { s.setRegs { s.d.regs with DIEPINT := di } with int_writes := iw } :=
  ⟨_, _, rfl⟩

theorem ack_DIEPINT_state (g ep bit : Nat) (s : Sys) :
    ∃ di iw, ack_DIEPINT g ep bit s =
      { s.setRegs { s.d.regs with DIEPINT := di } with int_writes := iw } := by
  unfold ack_DIEPINT
  split_ifs
  · exact write_DIEPINT_state _ _ _
  · exact ⟨s.d.regs.DIEPINT, s.int_writes, rfl⟩

theorem DIEPINT_state_trans (f : Sys → Sys) (s u : Sys)
    (h1 : ∃ di iw, u = { s.setRegs { s.d.regs with DIEPINT := di } with int_writes := iw })
    (h2 : ∀ x : Sys, ∃ di iw, f x =
      { x.setRegs { x.d.regs with DIEPINT := di } with int_writes := iw }) :
    ∃ di iw, f u = { s.setRegs { s.d.regs with DIEPINT := di } with int_writes := iw } := by
  obtain ⟨di, iw, rfl⟩ := h1
  obtain ⟨di2, iw2, h⟩ := h2 { s.setRegs { s.d.regs with DIEPINT := di } with int_writes := iw }
  exact ⟨di2, iw2, h⟩

/-- The acknowledgements of `handle_iepintx` change `DIEPINT` and the record of
writes only. -/
theorem iepint_acks_state (g ep : Nat) (s : Sys) :
    ∃ di iw, iepint_acks g ep s =
      { s.setRegs { s.d.regs with DIEPINT := di } with int_writes := iw } := by
  unfold iepint_acks
  exact DIEPINT_state_trans _ _ _ (DIEPINT_state_trans _ _ _ (DIEPINT_state_trans _ _ _
    (DIEPINT_state_trans _ _ _ (DIEPINT_state_trans _ _ _ (DIEPINT_state_trans _ _ _
    (DIEPINT_state_trans _ _ _ (ack_DIEPINT_state _ _ _ _) (ack_DIEPINT_state _ _ _))
    (ack_DIEPINT_state _ _ _)) (ack_DIEPINT_state _ _ _)) (ack_DIEPINT_state _ _ _))
    (ack_DIEPINT_state _ _ _)) (ack_DIEPINT_state _ _ _)) (ack_DIEPINT_state _ _ _)

/-- A call of `ep_write` changes registers and the transmit FIFOs only. -/
theorem ep_write_state (ep : Nat) (buf : Nat → Nat) (len : Nat) (s : Sys) :
    ∃ r f, (ep_write ep buf len s).2 = { s.setRegs r with tx_fifo := f } := by
  by_cases h : ep_write_accepts ep len s
  · rw [(ep_write_eq ep buf len s).1 h]
    exact ⟨_, _, rfl⟩
  · rw [(ep_write_eq ep buf len s).2 h]
    exact ⟨s.d.regs, s.tx_fifo, rfl⟩

theorem ep_write_keeps (ep : Nat) (buf : Nat → Nat) (len : Nat) (s : Sys) :
    (ep_write ep buf len s).2.m_tx_buffer = s.m_tx_buffer ∧
    (ep_write ep buf len s).2.events = s.events := by
  obtain ⟨r, f, h⟩ := ep_write_state ep buf len s
  rw [h]
  exact ⟨rfl, rfl⟩

theorem tx_release_current_spec (e : Nat) (u : Sys) :
    ((tx_release_current e u).m_tx_buffer e).free =
      (u.m_tx_buffer e).free ++ (get_buffer u.m_tx_buffer e).toList ∧
    ((tx_release_current e u).m_tx_buffer e).queue = (u.m_tx_buffer e).queue ∧
    (tx_release_current e u).events = u.events ∧
    (tx_release_current e u).d = u.d := by
  unfold tx_release_current
  cases h : get_buffer u.m_tx_buffer e with
  | none => simp
  | some c => simp [release_buffer, setPool]

theorem tx_load_next_spec (e : Nat) (u : Sys) :
    ((tx_load_next e u).m_tx_buffer e).free = (u.m_tx_buffer e).free ∧
    (tx_load_next e u).events = u.events ∧
    ((u.m_tx_buffer e).queue = [] →
      get_buffer (tx_load_next e u).m_tx_buffer e = none ∧
      (tx_load_next e u).d.regs.DIEPCTL e = u.d.regs.DIEPCTL e ||| USB_OTG_DOEPCTL_SNAK) := by
  unfold tx_load_next
  cases hq : (u.m_tx_buffer e).queue with
  | nil =>
    have hd : poll_dequeue_buffer u.m_tx_buffer e = (none, u.m_tx_buffer) := by
      unfold poll_dequeue_buffer; rw [hq]
    simp only [hd]
    refine ⟨?_, rfl, fun _ => ⟨?_, ?_⟩⟩
    · simp [or_DIEPCTL, Sys.setRegs, set_buffer, setPool]
    · simp [or_DIEPCTL, Sys.setRegs, set_buffer, setPool, get_buffer]
    · simp [or_DIEPCTL, Sys.setRegs, setReg]
  | cons b rest =>
    have hd : poll_dequeue_buffer u.m_tx_buffer e =
        (some b, setPool u.m_tx_buffer e { u.m_tx_buffer e with queue := rest }) := by
      unfold poll_dequeue_buffer; rw [hq]
    simp only [hd]
    rw [(ep_write_keeps _ _ _ _).1, (ep_write_keeps _ _ _ _).2]
    refine ⟨?_, rfl, fun h => absurd h (by simp)⟩
    simp [set_buffer, setPool]

/-- The transfer-complete branch of `handle_iepintx` on any state. -/
theorem iepint_xfrc_spec (e : Nat) (u : Sys) :
    ((iepint_xfrc e u).m_tx_buffer e).free =
      (u.m_tx_buffer e).free ++ (get_buffer u.m_tx_buffer e).toList ∧
    ((u.m_tx_buffer e).queue = [] →
      get_buffer (iepint_xfrc e u).m_tx_buffer e = none ∧
      (iepint_xfrc e u).d.regs.DIEPCTL e = u.d.regs.DIEPCTL e ||| USB_OTG_DOEPCTL_SNAK) ∧
    (iepint_xfrc e u).events =
      u.events ++ (if e = 0 then [(USB_EVENTS.EP_TX, 0x80)] else []) := by
  obtain ⟨r1, r2, r3, r4⟩ := tx_release_current_spec e (write_DIEPINT e USB_OTG_DIEPINT_XFRC u)
  obtain ⟨l1, l2, l3⟩ := tx_load_next_spec e
    (tx_release_current e (write_DIEPINT e USB_OTG_DIEPINT_XFRC u))
  have hfree : ((tx_load_next e (tx_release_current e
      (write_DIEPINT e USB_OTG_DIEPINT_XFRC u))).m_tx_buffer e).free =
      (u.m_tx_buffer e).free ++ (get_buffer u.m_tx_buffer e).toList := l1.trans r1
  have hev : (tx_load_next e (tx_release_current e
      (write_DIEPINT e USB_OTG_DIEPINT_XFRC u))).events = u.events := l2.trans r3
  have hq : (u.m_tx_buffer e).queue = [] →
      get_buffer (tx_load_next e (tx_release_current e
        (write_DIEPINT e USB_OTG_DIEPINT_XFRC u))).m_tx_buffer e = none ∧
      (tx_load_next e (tx_release_current e
        (write_DIEPINT e USB_OTG_DIEPINT_XFRC u))).d.regs.DIEPCTL e =
        u.d.regs.DIEPCTL e ||| USB_OTG_DOEPCTL_SNAK := by
    intro h
    obtain ⟨a, b⟩ := l3 (r2.trans h)
    refine ⟨a, ?_⟩
    rw [b, r4]
    rfl
  unfold iepint_xfrc
  by_cases h0 : e = 0
  · subst h0
    simp only [if_true]
    exact ⟨hfree, hq, by rw [Sys.emit, hev]; rfl⟩
  · simp only [if_neg h0]
    exact ⟨hfree, hq, by rw [hev, List.append_nil]⟩

theorem handle_iepintx_xfrc (s : Sys) (e : Nat)
    (hI : FLD2VAL USB_OTG_DAINT_IEPINT_Pos USB_OTG_DAINT_IEPINT_Msk s.DAINT ≠ 0)
    (he : builtin_ctz (FLD2VAL USB_OTG_DAINT_IEPINT_Pos USB_OTG_DAINT_IEPINT_Msk s.DAINT) = e)
    (hx : (s.d.regs.DIEPINT e &&& USB_OTG_DIEPINT_XFRC) ≠ 0) :
    (handle_iepintx s).2 = iepint_xfrc e (iepint_acks (s.d.regs.DIEPINT e) e s) := by
  unfold handle_iepintx
  simp only [if_neg hI, he, if_pos hx]

/-- C18: when `handle_iepintx` finds transfer complete (`XFRC`) pending on the IN
endpoint `e` it selects (the lowest endpoint flagged in `DAINT`), then: the
loaded buffer of `e`, if there is one, is released (it is appended to the free
buffers of `e`); if the pending-transmit queue of `e` is empty, the slot of `e`
is empty afterwards and `DIEPCTL[e]` has `SNAK` or-ed in; and the callback is
called with `(EP_TX, 0x80)` exactly once if `e = 0` and not called at all
otherwise. -/
theorem C18_transfer_complete (s : Sys) (e : Nat)
    (hI : FLD2VAL USB_OTG_DAINT_IEPINT_Pos USB_OTG_DAINT_IEPINT_Msk s.DAINT ≠ 0)
    (he : builtin_ctz (FLD2VAL USB_OTG_DAINT_IEPINT_Pos USB_OTG_DAINT_IEPINT_Msk s.DAINT) = e)
    (hx : (s.d.regs.DIEPINT e &&& USB_OTG_DIEPINT_XFRC) ≠ 0) :
    ((handle_iepintx s).2.m_tx_buffer e).free =
      (s.m_tx_buffer e).free ++ (get_buffer s.m_tx_buffer e).toList ∧
    ((s.m_tx_buffer e).queue = [] →
      get_buffer (handle_iepintx s).2.m_tx_buffer e = none ∧
      (handle_iepintx s).2.d.regs.DIEPCTL e = s.d.regs.DIEPCTL e ||| USB_OTG_DOEPCTL_SNAK) ∧
    (handle_iepintx s).2.events =
      s.events ++ (if e = 0 then [(USB_EVENTS.EP_TX, 0x80)] else []) := by
  rw [handle_iepintx_xfrc s e hI he hx]
  obtain ⟨di, iw, hacks⟩ := iepint_acks_state (s.d.regs.DIEPINT e) e s
  rw [hacks]
  exact iepint_xfrc_spec e _

/-- C18 on endpoint 0 and on endpoint 3, each with buffer 3 loaded and nothing
pending: the buffer is freed, the slot emptied, `SNAK` set; one `EP_TX` event
for endpoint 0, none for endpoint 3. -/
theorem C18_transfer_complete_witness :
    (((handle_iepintx (tx_complete_start 0)).2.m_tx_buffer 0).free = [Buffer.mk 3 [7]] ∧
      get_buffer (handle_iepintx (tx_complete_start 0)).2.m_tx_buffer 0 = none ∧
      (handle_iepintx (tx_complete_start 0)).2.d.regs.DIEPCTL 0 = USB_OTG_DOEPCTL_SNAK ∧
      (handle_iepintx (tx_complete_start 0)).2.events = [(USB_EVENTS.EP_TX, 0x80)]) ∧
    (((handle_iepintx (tx_complete_start 3)).2.m_tx_buffer 3).free = [Buffer.mk 3 [7]] ∧
      get_buffer (handle_iepintx (tx_complete_start 3)).2.m_tx_buffer 3 = none ∧
      (handle_iepintx (tx_complete_start 3)).2.d.regs.DIEPCTL 3 = USB_OTG_DOEPCTL_SNAK ∧
      (handle_iepintx (tx_complete_start 3)).2.events = []) := by
  have h0 := C18_transfer_complete (tx_complete_start 0) 0 (by decide) (by decide) (by decide)
  have h3 := C18_transfer_complete (tx_complete_start 3) 3 (by decide) (by decide) (by decide)
  exact ⟨⟨h0.1, (h0.2.1 (by decide)).1, (h0.2.1 (by decide)).2, h0.2.2⟩,
    ⟨h3.1, (h3.2.1 (by decide)).1, (h3.2.1 (by decide)).2, h3.2.2⟩⟩

/-! ## C17: transmit ordering -/

theorem in_ep_of_le (e : Nat) (he : e ≤ 15) :
    is_in_ep (0x80 ||| e) = true ∧ get_ep_addr (0x80 ||| e) = e ∧
    FLD2VAL USB_OTG_DAINT_IEPINT_Pos USB_OTG_DAINT_IEPINT_Msk
      (VAL2FLD USB_OTG_DAINT_IEPINT_Pos USB_OTG_DAINT_IEPINT_Msk (1 <<< e)) ≠ 0 ∧
    builtin_ctz (FLD2VAL USB_OTG_DAINT_IEPINT_Pos USB_OTG_DAINT_IEPINT_Msk
      (VAL2FLD USB_OTG_DAINT_IEPINT_Pos USB_OTG_DAINT_IEPINT_Msk (1 <<< e))) = e := by
  interval_cases e <;> decide

/-- A call of `ep_write` on an IN endpoint with room in its FIFO and, for an
endpoint other than 0, the enable bit clear, goes through. -/
theorem ep_write_goes (ep : Nat) (buf : Nat → Nat) (len : Nat) (s : Sys) (e : Nat)
    (hin : is_in_ep ep = true) (haddr : get_ep_addr ep = e) (hlen : len < 65536)
    (hsp : (len + 3) / 4 ≤
      FLD2VAL USB_OTG_DTXFSTS_INEPTFSAV_Pos USB_OTG_DTXFSTS_INEPTFSAV_Msk (s.DTXFSTS e))
    (hena : e ≠ 0 → (s.d.regs.DIEPCTL e &&& USB_OTG_DOEPCTL_EPENA) = 0) :
    (ep_write ep buf (len % 65536) s).2 = ep_write_done ep buf len s := by
  rw [Nat.mod_eq_of_lt hlen]
  have hacc : ep_write_accepts ep len s := by
    refine ⟨hin, ?_, ?_⟩
    · rw [haddr]; omega
    · rw [haddr]
      by_cases h : e = 0
      · exact Or.inl h
      · exact Or.inr (hena h)
  rw [(ep_write_eq ep buf len s).1 hacc]

theorem ep_write_done_fifo (ep : Nat) (buf : Nat → Nat) (len : Nat) (s : Sys) :
    (ep_write_done ep buf len s).tx_fifo (get_ep_addr ep) =
      s.tx_fifo (get_ep_addr ep) ++ ep_write_loop buf len ((len + 3) / 4) 0 := by
  simp [ep_write_done]

/-- `enqueue_tx_buffer` on an idle IN endpoint loads the buffer and writes its
words. -/
theorem enqueue_tx_idle (e : Nat) (A : Buffer) (s : Sys) (he : e ≤ 15)
    (hidle : get_buffer s.m_tx_buffer e = none) (hA : A.size < 65536)
    (hsA : (A.size + 3) / 4 ≤
      FLD2VAL USB_OTG_DTXFSTS_INEPTFSAV_Pos USB_OTG_DTXFSTS_INEPTFSAV_Msk (s.DTXFSTS e))
    (hena : e ≠ 0 → (s.d.regs.DIEPCTL e &&& USB_OTG_DOEPCTL_EPENA) = 0) :
    (enqueue_tx_buffer (0x80 ||| e) A s).1 = true ∧
    (enqueue_tx_buffer (0x80 ||| e) A s).2.tx_fifo e = s.tx_fifo e ++ packed_words A ∧
    (enqueue_tx_buffer (0x80 ||| e) A s).2.m_tx_buffer = set_buffer s.m_tx_buffer e (some A) ∧
    (enqueue_tx_buffer (0x80 ||| e) A s).2.DTXFSTS = s.DTXFSTS := by
  obtain ⟨hin, haddr, _, _⟩ := in_ep_of_le e he
  have h : ∀ p, (ep_write (0x80 ||| e) A.mem (A.size % 65536) { s with m_tx_buffer := p }).2 =
      ep_write_done (0x80 ||| e) A.mem A.size { s with m_tx_buffer := p } :=
    fun p => ep_write_goes _ _ _ _ e hin haddr hA hsA hena
  have hf := ep_write_done_fifo (0x80 ||| e) A.mem A.size
    { s with m_tx_buffer := set_buffer s.m_tx_buffer e (some A) }
  rw [haddr] at hf
  have h2 : enqueue_tx_buffer (0x80 ||| e) A s = (true, ep_write_done (0x80 ||| e) A.mem A.size
      { s with m_tx_buffer := set_buffer s.m_tx_buffer e (some A) }) := by
    unfold enqueue_tx_buffer
    simp only [haddr, hidle, h]
  rw [h2]
  exact ⟨rfl, hf, rfl, rfl⟩

/-- `enqueue_tx_buffer` on an endpoint with a loaded buffer and room in the
pending queue only appends to the queue. -/
theorem enqueue_tx_busy (ep e : Nat) (B c : Buffer) (s : Sys) (haddr : get_ep_addr ep = e)
    (hbusy : get_buffer s.m_tx_buffer e = some c)
    (hroom : (s.m_tx_buffer e).queue.length < (s.m_tx_buffer e).queue_cap) :
    (enqueue_tx_buffer ep B s).1 = true ∧
    (enqueue_tx_buffer ep B s).2.tx_fifo = s.tx_fifo ∧
    (enqueue_tx_buffer ep B s).2.d = s.d ∧
    (enqueue_tx_buffer ep B s).2.DTXFSTS = s.DTXFSTS ∧
    get_buffer (enqueue_tx_buffer ep B s).2.m_tx_buffer e = some c ∧
    ((enqueue_tx_buffer ep B s).2.m_tx_buffer e).queue = (s.m_tx_buffer e).queue ++ [B] ∧
    ((enqueue_tx_buffer ep B s).2.m_tx_buffer e).free = (s.m_tx_buffer e).free := by
  have hp : poll_enqueue_buffer s.m_tx_buffer e B = (true, setPool s.m_tx_buffer e
      { s.m_tx_buffer e with queue := (s.m_tx_buffer e).queue ++ [B] }) := by
    unfold poll_enqueue_buffer
    rw [if_pos hroom]
  have h : enqueue_tx_buffer ep B s =
      (true, { s with m_tx_buffer := (poll_enqueue_buffer s.m_tx_buffer e B).2 }) := by
    unfold enqueue_tx_buffer
    simp only [haddr, hbusy, hp, Bool.not_true, Bool.false_eq_true, if_false]
  rw [h, hp]
  refine ⟨rfl, rfl, rfl, rfl, ?_, ?_, ?_⟩
  · simpa [get_buffer, setPool] using hbusy
  · simp [setPool]
  · simp [setPool]

theorem iepint_acks_keeps (g ep : Nat) (s : Sys) :
    (iepint_acks g ep s).m_tx_buffer = s.m_tx_buffer ∧
    (iepint_acks g ep s).tx_fifo = s.tx_fifo ∧
    (iepint_acks g ep s).DTXFSTS = s.DTXFSTS ∧
    (iepint_acks g ep s).d.regs.DIEPCTL = s.d.regs.DIEPCTL := by
  obtain ⟨di, iw, h⟩ := iepint_acks_state g ep s
  rw [h]
  exact ⟨rfl, rfl, rfl, rfl⟩

theorem epena_cleared (x : Nat) :
    (clear_bits x USB_OTG_DIEPCTL_EPENA &&& USB_OTG_DOEPCTL_EPENA) = 0 := by
  have h := and_two_pow_bne_zero (clear_bits x USB_OTG_DIEPCTL_EPENA) 31
  rw [testBit_clear_bits _ _ _ (by decide)] at h
  have hb : Nat.testBit USB_OTG_DIEPCTL_EPENA 31 = true := by decide
  rw [hb, Bool.not_true, Bool.and_false, bne_eq_false_iff_eq] at h
  exact h

/-- Loading the next pending buffer when there is one and `ep_write` goes
through. -/
theorem tx_load_next_loaded (e : Nat) (u : Sys) (B : Buffer) (rest : List Buffer) (he : e ≤ 15)
    (hq : (u.m_tx_buffer e).queue = B :: rest) (hB : B.size < 65536)
    (hsB : (B.size + 3) / 4 ≤
      FLD2VAL USB_OTG_DTXFSTS_INEPTFSAV_Pos USB_OTG_DTXFSTS_INEPTFSAV_Msk (u.DTXFSTS e))
    (hena : e ≠ 0 → (u.d.regs.DIEPCTL e &&& USB_OTG_DOEPCTL_EPENA) = 0) :
    (tx_load_next e u).tx_fifo e = u.tx_fifo e ++ packed_words B ∧
    get_buffer (tx_load_next e u).m_tx_buffer e = some B ∧
    ((tx_load_next e u).m_tx_buffer e).queue = rest ∧
    ((tx_load_next e u).m_tx_buffer e).free = (u.m_tx_buffer e).free := by
  obtain ⟨hin, haddr, _, _⟩ := in_ep_of_le e he
  have h : ∀ p, (ep_write (0x80 ||| e) B.mem (B.size % 65536) { u with m_tx_buffer := p }).2 =
      ep_write_done (0x80 ||| e) B.mem B.size { u with m_tx_buffer := p } :=
    fun p => ep_write_goes _ _ _ _ e hin haddr hB hsB hena
  have hd : poll_dequeue_buffer u.m_tx_buffer e =
      (some B, setPool u.m_tx_buffer e { u.m_tx_buffer e with queue := rest }) := by
    unfold poll_dequeue_buffer; rw [hq]
  have hf : ∀ p, (ep_write_done (0x80 ||| e) B.mem B.size { u with m_tx_buffer := p }).tx_fifo e =
      u.tx_fifo e ++ packed_words B := by
    intro p
    have hf := ep_write_done_fifo (0x80 ||| e) B.mem B.size { u with m_tx_buffer := p }
    rw [haddr] at hf
    exact hf
  unfold tx_load_next
  simp only [hd, h, hf]
  refine ⟨trivial, ?_, ?_, ?_⟩ <;> simp [ep_write_done, Sys.setRegs, set_buffer, setPool, get_buffer]

theorem tx_release_current_loaded (e : Nat) (u : Sys) (c : Buffer)
    (hslot : get_buffer u.m_tx_buffer e = some c) :
    (tx_release_current e u).tx_fifo = u.tx_fifo ∧
    (tx_release_current e u).DTXFSTS = u.DTXFSTS ∧
    (tx_release_current e u).d = u.d ∧
    ((tx_release_current e u).m_tx_buffer e).queue = (u.m_tx_buffer e).queue ∧
    ((tx_release_current e u).m_tx_buffer e).free = (u.m_tx_buffer e).free ++ [c] := by
  have h : tx_release_current e u =
      { u with m_tx_buffer := release_buffer u.m_tx_buffer e c } := by
    unfold tx_release_current
    simp only [hslot]
  rw [h]
  refine ⟨rfl, rfl, rfl, ?_, ?_⟩ <;> simp [release_buffer, setPool]

/-- Transfer complete with a loaded buffer `c` and a pending buffer `B`. -/
theorem iepint_xfrc_next (e : Nat) (u : Sys) (c B : Buffer) (rest : List Buffer) (he : e ≤ 15)
    (hslot : get_buffer u.m_tx_buffer e = some c)
    (hq : (u.m_tx_buffer e).queue = B :: rest) (hB : B.size < 65536)
    (hsB : (B.size + 3) / 4 ≤
      FLD2VAL USB_OTG_DTXFSTS_INEPTFSAV_Pos USB_OTG_DTXFSTS_INEPTFSAV_Msk (u.DTXFSTS e))
    (hena : e ≠ 0 → (u.d.regs.DIEPCTL e &&& USB_OTG_DOEPCTL_EPENA) = 0) :
    (iepint_xfrc e u).tx_fifo e = u.tx_fifo e ++ packed_words B ∧
    get_buffer (iepint_xfrc e u).m_tx_buffer e = some B ∧
    ((iepint_xfrc e u).m_tx_buffer e).queue = rest ∧
    ((iepint_xfrc e u).m_tx_buffer e).free = (u.m_tx_buffer e).free ++ [c] := by
  obtain ⟨r1, r2, r3, r4, r5⟩ := tx_release_current_loaded e
    (write_DIEPINT e USB_OTG_DIEPINT_XFRC u) c hslot
  obtain ⟨l1, l2, l3, l4⟩ := tx_load_next_loaded e
    (tx_release_current e (write_DIEPINT e USB_OTG_DIEPINT_XFRC u)) B rest he
    (r4.trans hq) hB (by rw [r2]; exact hsB) (by rw [r3]; exact hena)
  have h : (tx_load_next e (tx_release_current e
        (write_DIEPINT e USB_OTG_DIEPINT_XFRC u))).tx_fifo e = u.tx_fifo e ++ packed_words B ∧
      get_buffer (tx_load_next e (tx_release_current e
        (write_DIEPINT e USB_OTG_DIEPINT_XFRC u))).m_tx_buffer e = some B ∧
      ((tx_load_next e (tx_release_current e
        (write_DIEPINT e USB_OTG_DIEPINT_XFRC u))).m_tx_buffer e).queue = rest ∧
      ((tx_load_next e (tx_release_current e
        (write_DIEPINT e USB_OTG_DIEPINT_XFRC u))).m_tx_buffer e).free =
        (u.m_tx_buffer e).free ++ [c] :=
    ⟨by rw [l1, r1]; rfl, l2, l3, l4.trans r5⟩
  unfold iepint_xfrc
  by_cases h0 : e = 0
  · simp only [if_pos h0]
    exact h
  · simp only [if_neg h0]
    exact h

/-- C17: on an idle IN endpoint `e` (no loaded buffer, nothing pending, room in
the pending queue, FIFO space for either buffer, not enabled if `e != 0`) and
for all buffers `A`, `B` (sizes within `uint16_t`): `enqueue_tx_buffer(A)` then
`enqueue_tx_buffer(B)` both return `true`; after the first call the FIFO of `e`
has received the packed words of `A` and `A` is loaded; the second call writes
nothing, `A` stays loaded and `B` is pending; when the core then completes the
transfer and `handle_iepintx` handles it, `A` is released to the free buffers,
`B` is loaded and the FIFO has received exactly the words of `A` followed by the
words of `B`.  At each of the three moments one buffer is loaded. -/
theorem C17_transmit_order (e diepint : Nat) (A B : Buffer) (s : Sys) (he : e ≤ 15)
    (hidle : get_buffer s.m_tx_buffer e = none)
    (hq : (s.m_tx_buffer e).queue = [])
    (hcap : 0 < (s.m_tx_buffer e).queue_cap)
    (hA : A.size < 65536) (hB : B.size < 65536)
    (hsA : (A.size + 3) / 4 ≤
      FLD2VAL USB_OTG_DTXFSTS_INEPTFSAV_Pos USB_OTG_DTXFSTS_INEPTFSAV_Msk (s.DTXFSTS e))
    (hsB : (B.size + 3) / 4 ≤
      FLD2VAL USB_OTG_DTXFSTS_INEPTFSAV_Pos USB_OTG_DTXFSTS_INEPTFSAV_Msk (s.DTXFSTS e))
    (hena : e ≠ 0 → (s.d.regs.DIEPCTL e &&& USB_OTG_DOEPCTL_EPENA) = 0)
    (hx : (diepint &&& USB_OTG_DIEPINT_XFRC) ≠ 0) :
    (enqueue_tx_buffer (0x80 ||| e) A s).1 = true ∧
    (enqueue_tx_buffer (0x80 ||| e) B (tx_after_first e A s)).1 = true ∧
    (tx_after_first e A s).tx_fifo e = s.tx_fifo e ++ packed_words A ∧
    get_buffer (tx_after_first e A s).m_tx_buffer e = some A ∧
    (tx_after_second e A B s).tx_fifo e = s.tx_fifo e ++ packed_words A ∧
    get_buffer (tx_after_second e A B s).m_tx_buffer e = some A ∧
    ((tx_after_second e A B s).m_tx_buffer e).queue = [B] ∧
    (tx_after_complete e diepint A B s).tx_fifo e =
      s.tx_fifo e ++ packed_words A ++ packed_words B ∧
    get_buffer (tx_after_complete e diepint A B s).m_tx_buffer e = some B ∧
    ((tx_after_complete e diepint A B s).m_tx_buffer e).queue = [] ∧
    ((tx_after_complete e diepint A B s).m_tx_buffer e).free = (s.m_tx_buffer e).free ++ [A] := by
  obtain ⟨hin, haddr, hI, hctz⟩ := in_ep_of_le e he
  obtain ⟨a1, a2, a3, a4⟩ := enqueue_tx_idle e A s he hidle hA hsA hena
  have hslot1 : get_buffer (tx_after_first e A s).m_tx_buffer e = some A := by
    show get_buffer (enqueue_tx_buffer (0x80 ||| e) A s).2.m_tx_buffer e = some A
    rw [a3]; simp [get_buffer, set_buffer, setPool]
  have hq1 : ((tx_after_first e A s).m_tx_buffer e).queue = [] := by
    show ((enqueue_tx_buffer (0x80 ||| e) A s).2.m_tx_buffer e).queue = []
    rw [a3]; simpa [set_buffer, setPool] using hq
  have hcap1 : ((tx_after_first e A s).m_tx_buffer e).queue_cap = (s.m_tx_buffer e).queue_cap := by
    show ((enqueue_tx_buffer (0x80 ||| e) A s).2.m_tx_buffer e).queue_cap = _
    rw [a3]; simp [set_buffer, setPool]
  have hfree1 : ((tx_after_first e A s).m_tx_buffer e).free = (s.m_tx_buffer e).free := by
    show ((enqueue_tx_buffer (0x80 ||| e) A s).2.m_tx_buffer e).free = _
    rw [a3]; simp [set_buffer, setPool]
  obtain ⟨b1, b2, b3, b4, b5, b6, b7⟩ := enqueue_tx_busy (0x80 ||| e) e B A
    (tx_after_first e A s) haddr hslot1 (by rw [hq1, hcap1]; exact hcap)
  rw [hq1, List.nil_append] at b6
  -- the state the interrupt handler finds
  have hI3 : FLD2VAL USB_OTG_DAINT_IEPINT_Pos USB_OTG_DAINT_IEPINT_Msk
      (hw_transfer_complete e diepint (tx_after_second e A B s)).DAINT ≠ 0 := hI
  have hD3 : (hw_transfer_complete e diepint (tx_after_second e A B s)).d.regs.DIEPINT e =
      diepint := by
    simp [hw_transfer_complete, Sys.setRegs, setReg]
  have hC3 : (hw_transfer_complete e diepint (tx_after_second e A B s)).d.regs.DIEPCTL e &&&
      USB_OTG_DOEPCTL_EPENA = 0 := by
    have : (hw_transfer_complete e diepint (tx_after_second e A B s)).d.regs.DIEPCTL e =
        clear_bits ((tx_after_second e A B s).d.regs.DIEPCTL e) USB_OTG_DIEPCTL_EPENA := by
      simp [hw_transfer_complete, Sys.setRegs, setReg]
    rw [this]
    exact epena_cleared _
  have h4 : tx_after_complete e diepint A B s =
      iepint_xfrc e (iepint_acks diepint e
        (hw_transfer_complete e diepint (tx_after_second e A B s))) := by
    unfold tx_after_complete
    rw [handle_iepintx_xfrc _ e hI3 hctz (by rw [hD3]; exact hx), hD3]
  obtain ⟨k1, k2, k3, k4⟩ := iepint_acks_keeps diepint e
    (hw_transfer_complete e diepint (tx_after_second e A B s))
  obtain ⟨c1, c2, c3, c4⟩ := iepint_xfrc_next e
    (iepint_acks diepint e (hw_transfer_complete e diepint (tx_after_second e A B s))) A B [] he
    (by rw [k1]; exact b5) (by rw [k1]; exact b6) hB
    (by rw [k3]
        show _ ≤ FLD2VAL _ _ ((enqueue_tx_buffer (0x80 ||| e) B (tx_after_first e A s)).2.DTXFSTS e)
        rw [b4]
        show _ ≤ FLD2VAL _ _ ((enqueue_tx_buffer (0x80 ||| e) A s).2.DTXFSTS e)
        rw [a4]; exact hsB)
    (fun _ => by rw [k4]; exact hC3)
  rw [k2] at c1
  rw [k1] at c4
  rw [← h4] at c1 c2 c3 c4
  have hfifo2 : (tx_after_second e A B s).tx_fifo e = s.tx_fifo e ++ packed_words A := by
    show (enqueue_tx_buffer (0x80 ||| e) B (tx_after_first e A s)).2.tx_fifo e = _
    rw [b2]; exact a2
  refine ⟨a1, b1, a2, hslot1, hfifo2, b5, b6, ?_, c2, c3, ?_⟩
  · rw [c1]
    show (tx_after_second e A B s).tx_fifo e ++ packed_words B = _
    rw [hfifo2]
  · rw [c4]
    show ((tx_after_second e A B s).m_tx_buffer e).free ++ [A] = _
    rw [show ((tx_after_second e A B s).m_tx_buffer e).free =
      ((tx_after_first e A s).m_tx_buffer e).free from b7, hfree1]

/-- C17 on IN endpoint 1 with `A` of 5 bytes (1..5) and `B` of 3 bytes (6..8):
the FIFO receives `04030201 00000005` at the first call, nothing at the second,
and `00080706` when the transfer-complete interrupt is handled. -/
theorem C17_transmit_order_witness :
    packed_words buffer_A = [0x04030201, 0x00000005] ∧
    packed_words buffer_B = [0x00080706] ∧
    (tx_after_first 1 buffer_A tx_idle_start).tx_fifo 1 = [0x04030201, 0x00000005] ∧
    (tx_after_second 1 buffer_A buffer_B tx_idle_start).tx_fifo 1 = [0x04030201, 0x00000005] ∧
    (tx_after_complete 1 USB_OTG_DIEPINT_XFRC buffer_A buffer_B tx_idle_start).tx_fifo 1 =
      [0x04030201, 0x00000005, 0x00080706] ∧
    ((enqueue_tx_buffer (0x80 ||| 1) buffer_A tx_idle_start).1 = true ∧
      (enqueue_tx_buffer (0x80 ||| 1) buffer_B (tx_after_first 1 buffer_A tx_idle_start)).1 =
        true ∧
      (tx_after_first 1 buffer_A tx_idle_start).tx_fifo 1 =
        tx_idle_start.tx_fifo 1 ++ packed_words buffer_A ∧
      get_buffer (tx_after_first 1 buffer_A tx_idle_start).m_tx_buffer 1 = some buffer_A ∧
      (tx_after_second 1 buffer_A buffer_B tx_idle_start).tx_fifo 1 =
        tx_idle_start.tx_fifo 1 ++ packed_words buffer_A ∧
      get_buffer (tx_after_second 1 buffer_A buffer_B tx_idle_start).m_tx_buffer 1 =
        some buffer_A ∧
      ((tx_after_second 1 buffer_A buffer_B tx_idle_start).m_tx_buffer 1).queue = [buffer_B] ∧
      (tx_after_complete 1 USB_OTG_DIEPINT_XFRC buffer_A buffer_B tx_idle_start).tx_fifo 1 =
        tx_idle_start.tx_fifo 1 ++ packed_words buffer_A ++ packed_words buffer_B ∧
      get_buffer
          (tx_after_complete 1 USB_OTG_DIEPINT_XFRC buffer_A buffer_B tx_idle_start).m_tx_buffer
          1 = some buffer_B ∧
      ((tx_after_complete 1 USB_OTG_DIEPINT_XFRC buffer_A buffer_B
        tx_idle_start).m_tx_buffer 1).queue = [] ∧
      ((tx_after_complete 1 USB_OTG_DIEPINT_XFRC buffer_A buffer_B
        tx_idle_start).m_tx_buffer 1).free = (tx_idle_start.m_tx_buffer 1).free ++ [buffer_A]) :=
  ⟨by decide, by decide, by decide, by decide, by decide,
   C17_transmit_order 1 USB_OTG_DIEPINT_XFRC buffer_A buffer_B tx_idle_start (by decide)
    (by decide) (by decide) (by decide) (by decide) (by decide) (by decide) (by decide)
    (by decide) (by decide)⟩

/-! ## Bus reset -/

theorem ack_only_refl (s : Sys) : ack_only s s :=
  ⟨s.d.regs.GINTSTS, s.GOTGINT, s.int_writes, rfl⟩

theorem ack_only_trans {a b c : Sys} (h1 : ack_only a b) (h2 : ack_only b c) : ack_only a c := by
  obtain ⟨g, go, iw, rfl⟩ := h1
  obtain ⟨g2, go2, iw2, rfl⟩ := h2
  exact ⟨g2, go2, iw2, rfl⟩

theorem ack_only_write_GINTSTS (bits : Nat) (s : Sys) : ack_only s (write_GINTSTS bits s) :=
  ⟨s.d.regs.GINTSTS &&& not32 bits, s.GOTGINT, s.int_writes ++ [(IntReg.GINTSTS, bits)], rfl⟩

theorem ack_only_ack_GOTGINT (g bit : Nat) (s : Sys) : ack_only s (ack_GOTGINT g bit s) := by
  unfold ack_GOTGINT
  split_ifs
  · exact ⟨s.d.regs.GINTSTS, bit, s.int_writes ++ [(IntReg.GOTGINT, bit)], rfl⟩
  · exact ack_only_refl s

theorem ack_only_poll_otgint (s : Sys) : ack_only s (poll_otgint s) := by
  unfold poll_otgint
  exact ack_only_trans (ack_only_ack_GOTGINT _ _ _) (ack_only_trans (ack_only_ack_GOTGINT _ _ _)
    (ack_only_trans (ack_only_ack_GOTGINT _ _ _) (ack_only_trans (ack_only_ack_GOTGINT _ _ _)
      (ack_only_trans (ack_only_ack_GOTGINT _ _ _) (ack_only_ack_GOTGINT _ _ _)))))

theorem ack_only_poll_head (s : Sys) : ack_only s (poll_head s) := by
  by_cases h1 : (s.d.regs.GINTSTS &&& USB_OTG_GINTSTS_MMIS) ≠ 0 <;>
    by_cases h2 : (s.d.regs.GINTSTS &&& USB_OTG_GINTSTS_OTGINT) ≠ 0
  · simp only [poll_head, if_pos h1, if_pos h2]
    exact ack_only_trans (ack_only_write_GINTSTS _ _) (ack_only_poll_otgint _)
  · simp only [poll_head, if_pos h1, if_neg h2]
    exact ack_only_write_GINTSTS _ _
  · simp only [poll_head, if_neg h1, if_pos h2]
    exact ack_only_poll_otgint _
  · simp only [poll_head, if_neg h1, if_neg h2]
    exact ack_only_refl s

/-- What the acknowledging stages leave alone. -/
theorem ack_only_keeps {s t : Sys} (h : ack_only s t) :
    t.d.regs.DIEPCTL = s.d.regs.DIEPCTL ∧ t.d.regs.DOEPCTL = s.d.regs.DOEPCTL ∧
    t.d.m_ep0_cfg = s.d.m_ep0_cfg ∧ t.events = s.events := by
  obtain ⟨g, go, iw, rfl⟩ := h
  exact ⟨rfl, rfl, rfl, rfl⟩

/-- The control registers after `ep_unconfig`: the IN register of the endpoint
has `USBAEP` cleared and, for an enabled endpoint other than 0, `EPDIS` set. -/
theorem ep_unconfig_DIEPCTL (ep : Nat) (d : Driver) (j : Nat) :
    (ep_unconfig ep d).regs.DIEPCTL j =
      if j = get_ep_addr ep then
        if get_ep_addr ep ≠ 0 ∧
            (clear_bits (d.regs.DIEPCTL (get_ep_addr ep)) USB_OTG_DIEPCTL_USBAEP &&&
              USB_OTG_DIEPCTL_EPENA) ≠ 0
        then set_bits (clear_bits (d.regs.DIEPCTL (get_ep_addr ep)) USB_OTG_DIEPCTL_USBAEP)
          USB_OTG_DIEPCTL_EPDIS
        else clear_bits (d.regs.DIEPCTL (get_ep_addr ep)) USB_OTG_DIEPCTL_USBAEP
      else d.regs.DIEPCTL j := by
  unfold ep_unconfig flush_tx
  simp only [setReg, if_true]
  split_ifs <;> simp_all [setReg]

/-- The OUT register of the endpoint has `USBAEP` cleared and, for an enabled
endpoint, `EPDIS` set. -/
theorem ep_unconfig_DOEPCTL (ep : Nat) (d : Driver) (j : Nat) :
    (ep_unconfig ep d).regs.DOEPCTL j =
      if j = get_ep_addr ep then
        if (clear_bits (d.regs.DOEPCTL (get_ep_addr ep)) USB_OTG_DOEPCTL_USBAEP &&&
              USB_OTG_DOEPCTL_EPENA) ≠ 0
        then set_bits (clear_bits (d.regs.DOEPCTL (get_ep_addr ep)) USB_OTG_DOEPCTL_USBAEP)
          USB_OTG_DOEPCTL_EPDIS
        else clear_bits (d.regs.DOEPCTL (get_ep_addr ep)) USB_OTG_DOEPCTL_USBAEP
      else d.regs.DOEPCTL j := by
  unfold ep_unconfig flush_tx
  simp only [setReg, if_true]
  split_ifs <;> simp_all [setReg]

theorem ep_unconfig_cfg (ep : Nat) (d : Driver) : (ep_unconfig ep d).m_ep0_cfg = d.m_ep0_cfg :=
  rfl

/-- Bits 21 (`STALL`) and 15 (`USBAEP`) of the value `ep_unconfig` writes. -/
theorem unconf_value_bits (x : Nat) (c : Prop) [Decidable c] :
    (if c then set_bits (clear_bits x 0x00008000) 0x40000000
      else clear_bits x 0x00008000).testBit 21 = x.testBit 21 ∧
    (if c then set_bits (clear_bits x 0x00008000) 0x40000000
      else clear_bits x 0x00008000).testBit 15 = false := by
  have h1 : Nat.testBit 0x00008000 21 = false := by decide
  have h2 : Nat.testBit 0x40000000 21 = false := by decide
  have h3 : Nat.testBit 0x00008000 15 = true := by decide
  have h4 : Nat.testBit 0x40000000 15 = false := by decide
  split_ifs
  · rw [set_bits, Nat.testBit_or, Nat.testBit_or, testBit_clear_bits _ _ _ (by decide),
      testBit_clear_bits _ _ _ (by decide), h1, h2, h3, h4]
    simp
  · rw [testBit_clear_bits _ _ _ (by decide), testBit_clear_bits _ _ _ (by decide), h1, h3]
    simp

theorem ep_unconfig_bits (ep : Nat) (d : Driver) (j : Nat) :
    ((ep_unconfig ep d).regs.DIEPCTL j).testBit 21 = (d.regs.DIEPCTL j).testBit 21 ∧
    ((ep_unconfig ep d).regs.DOEPCTL j).testBit 21 = (d.regs.DOEPCTL j).testBit 21 ∧
    (j = get_ep_addr ep →
      ((ep_unconfig ep d).regs.DIEPCTL j).testBit 15 = false ∧
      ((ep_unconfig ep d).regs.DOEPCTL j).testBit 15 = false) ∧
    (j ≠ get_ep_addr ep →
      (ep_unconfig ep d).regs.DIEPCTL j = d.regs.DIEPCTL j ∧
      (ep_unconfig ep d).regs.DOEPCTL j = d.regs.DOEPCTL j) := by
  rw [ep_unconfig_DIEPCTL, ep_unconfig_DOEPCTL]
  by_cases hj : j = get_ep_addr ep
  · rw [if_pos hj, if_pos hj, ← hj]
    exact ⟨(unconf_value_bits _ _).1, (unconf_value_bits _ _).1,
      fun _ => ⟨(unconf_value_bits _ _).2, (unconf_value_bits _ _).2⟩, fun h => absurd rfl h⟩
  · rw [if_neg hj, if_neg hj]
    exact ⟨rfl, rfl, fun h => absurd h hj, fun _ => ⟨rfl, rfl⟩⟩

/-- The unconfigure loop leaves every `STALL` bit as it finds it. -/
theorem unconfig_upto_stall (n : Nat) (d : Driver) (j : Nat) :
    ((unconfig_upto n d).regs.DIEPCTL j).testBit 21 = (d.regs.DIEPCTL j).testBit 21 ∧
    ((unconfig_upto n d).regs.DOEPCTL j).testBit 21 = (d.regs.DOEPCTL j).testBit 21 := by
  induction n with
  | zero => exact ⟨(ep_unconfig_bits 0 d j).1, (ep_unconfig_bits 0 d j).2.1⟩
  | succ n ih =>
    have h := ep_unconfig_bits (n + 1) (unconfig_upto n d) j
    exact ⟨h.1.trans ih.1, h.2.1.trans ih.2⟩

/-- The unconfigure loop clears `USBAEP` of every endpoint it passes. -/
theorem unconfig_upto_usbaep (n : Nat) (d : Driver) (hn : n < 128) (j : Nat) (hj : j ≤ n) :
    ((unconfig_upto n d).regs.DIEPCTL j).testBit 15 = false ∧
    ((unconfig_upto n d).regs.DOEPCTL j).testBit 15 = false := by
  induction n with
  | zero =>
    have h0 : j = get_ep_addr 0 := by
      have : j = 0 := by omega
      rw [this]; decide
    exact (ep_unconfig_bits 0 d j).2.2.1 h0
  | succ n ih =>
    have ha : get_ep_addr (n + 1) = n + 1 := (out_ep_num (n + 1) hn).1
    have h := ep_unconfig_bits (n + 1) (unconfig_upto n d) j
    by_cases hjn : j = n + 1
    · exact h.2.2.1 (by rw [ha]; exact hjn)
    · obtain ⟨e1, e2⟩ := h.2.2.2 (by rw [ha]; exact hjn)
      have := ih (by omega) (by omega)
      exact ⟨by rw [show (unconfig_upto (n + 1) d).regs.DIEPCTL j = _ from e1]; exact this.1,
        by rw [show (unconfig_upto (n + 1) d).regs.DOEPCTL j = _ from e2]; exact this.2⟩

/-- The only change of the unconfigure loop to `DIEPCTL0` is the cleared
`USBAEP`. -/
theorem unconfig_upto_DIEPCTL0 (n : Nat) (d : Driver) (hn : n < 128) :
    (unconfig_upto n d).regs.DIEPCTL 0 = clear_bits (d.regs.DIEPCTL 0) USB_OTG_DIEPCTL_USBAEP := by
  induction n with
  | zero =>
    show (ep_unconfig 0 d).regs.DIEPCTL 0 = _
    rw [ep_unconfig_DIEPCTL]
    have h0 : get_ep_addr 0 = 0 := by decide
    simp [h0]
  | succ n ih =>
    have ha : get_ep_addr (n + 1) = n + 1 := (out_ep_num (n + 1) hn).1
    show (ep_unconfig (n + 1) (unconfig_upto n d)).regs.DIEPCTL 0 = _
    rw [ep_unconfig_DIEPCTL, ha, if_neg (by omega)]
    exact ih (by omega)

theorem unconfig_upto_cfg (n : Nat) (d : Driver) : (unconfig_upto n d).m_ep0_cfg = d.m_ep0_cfg := by
  induction n with
  | zero => rfl
  | succ n ih => exact ih

/-- C19 as stated fails: on a driver (with `MAX_NUM_EP = 2`) where
`ep_stall(0x81)` and `ep_stall(0x02)` were called, `poll` handles a bus reset
(`USBRST` set, `SOF` clear) and both endpoints are still reported stalled
afterwards. -/
theorem C19_counterexample :
    (reset_stalled_start.d.regs.GINTSTS &&& USB_OTG_GINTSTS_USBRST) ≠ 0 ∧
    (reset_stalled_start.d.regs.GINTSTS &&& USB_OTG_GINTSTS_SOF) = 0 ∧
    (poll 2 reset_stalled_start).map
        (fun t => (ep_is_stalled 0x81 t.d, ep_is_stalled 0x02 t.d, ep_is_stalled 0x01 t.d)) =
      some (true, true, false) := by
  decide

/-- C19, amended: when `poll` handles a bus reset (`USBRST` set, `SOF` clear) it
returns, and `ep_is_stalled(ep)` gives afterwards what it gave before, for every
endpoint address in both directions: the reset path never writes a `STALL`
bit, so an endpoint stalled by `ep_stall` is still reported stalled. -/
theorem C19_reset_keeps_stall (MAX_NUM_EP : Nat) (s : Sys)
    (hsof : (s.d.regs.GINTSTS &&& USB_OTG_GINTSTS_SOF) = 0)
    (hrst : (s.d.regs.GINTSTS &&& USB_OTG_GINTSTS_USBRST) ≠ 0) :
    ∃ t, poll MAX_NUM_EP s = some t ∧ ∀ ep, ep_is_stalled ep t.d = ep_is_stalled ep s.d := by
  refine ⟨_, poll_reset MAX_NUM_EP s hsof hrst, fun ep => ?_⟩
  obtain ⟨k1, k2, _, _⟩ := ack_only_keeps
    (ack_only_trans (ack_only_poll_head s) (ack_only_write_GINTSTS USB_OTG_GINTSTS_USBRST _))
  rw [ep_is_stalled_eq, ep_is_stalled_eq, stall_reg_block, read_EPCTL_block, read_EPCTL_block,
    stall_test, stall_test]
  generalize (if is_in_ep ep then get_ep_addr ep else get_ep_addr ep + 16) = b
  have hu := unconfig_upto_stall MAX_NUM_EP
    (write_GINTSTS USB_OTG_GINTSTS_USBRST (poll_head s)).d b
  have hv := unconfig_upto_stall MAX_NUM_EP
    (write_GINTSTS USB_OTG_GINTSTS_USBRST (poll_head s)).d (b - 16)
  rw [k1, k2] at hu hv
  by_cases hb : b < 16
  · simp only [if_pos hb]
    exact hu.1
  · simp only [if_neg hb]
    exact hv.2

/-- C19 on the driver of the counterexample. -/
theorem C19_reset_keeps_stall_witness :
    ∃ t, poll 8 reset_stalled_start = some t ∧
      ∀ ep, ep_is_stalled ep t.d = ep_is_stalled ep reset_stalled_start.d :=
  C19_reset_keeps_stall 8 reset_stalled_start (by decide) (by decide)

/-- C20 as stated fails: on a fresh driver (with `MAX_NUM_EP = 2`) `poll`
handles a bus reset and delivers `RESET`; afterwards the active bit of
`DIEPCTL0` is clear and the recorded configuration of endpoint 0 is still
`UNCONF` with size 0, as before the call. -/
theorem C20_counterexample :
    reset_start.d.m_ep0_cfg = { num := 0, size := 0, type := EP_TYPE.UNCONF } ∧
    (poll 2 reset_start).map
        (fun t => (t.d.regs.DIEPCTL 0 &&& USB_OTG_DIEPCTL_USBAEP, t.d.m_ep0_cfg, t.events)) =
      some (0, { num := 0, size := 0, type := EP_TYPE.UNCONF }, [(USB_EVENTS.RESET, 0)]) := by
  decide

/-- C20, amended: when `poll` handles a bus reset (`USBRST` set, `SOF` clear,
`MAX_NUM_EP <= 15`) it returns after unconfiguring every endpoint
`0..MAX_NUM_EP` (the active bit `USBAEP` is clear in `DIEPCTL[i]` and
`DOEPCTL[i]`) and calling the callback once, with `(RESET, 0)`.  It does not
reconfigure endpoint 0: `DIEPCTL0` is its old value with `USBAEP` cleared, and
the recorded configuration `m_ep0_cfg` is what it was before the call. -/
theorem C20_reset_unconfigures_only (MAX_NUM_EP : Nat) (s : Sys) (hM : MAX_NUM_EP ≤ 15)
    (hsof : (s.d.regs.GINTSTS &&& USB_OTG_GINTSTS_SOF) = 0)
    (hrst : (s.d.regs.GINTSTS &&& USB_OTG_GINTSTS_USBRST) ≠ 0) :
    ∃ t, poll MAX_NUM_EP s = some t ∧
      (∀ i, i ≤ MAX_NUM_EP →
        (t.d.regs.DIEPCTL i &&& USB_OTG_DIEPCTL_USBAEP) = 0 ∧
        (t.d.regs.DOEPCTL i &&& USB_OTG_DOEPCTL_USBAEP) = 0) ∧
      t.d.regs.DIEPCTL 0 = clear_bits (s.d.regs.DIEPCTL 0) USB_OTG_DIEPCTL_USBAEP ∧
      t.d.m_ep0_cfg = s.d.m_ep0_cfg ∧
      t.events = s.events ++ [(USB_EVENTS.RESET, 0)] := by
  refine ⟨_, poll_reset MAX_NUM_EP s hsof hrst, ?_, ?_, ?_, ?_⟩
  · intro i hi
    obtain ⟨h1, h2⟩ := unconfig_upto_usbaep MAX_NUM_EP
      (write_GINTSTS USB_OTG_GINTSTS_USBRST (poll_head s)).d (by omega) i hi
    have hp : (0x00008000 : Nat) = 2 ^ 15 := by decide
    have e1 := and_two_pow_bne_zero
      ((unconfig_upto MAX_NUM_EP (write_GINTSTS USB_OTG_GINTSTS_USBRST (poll_head s)).d).regs.DIEPCTL
        i) 15
    have e2 := and_two_pow_bne_zero
      ((unconfig_upto MAX_NUM_EP (write_GINTSTS USB_OTG_GINTSTS_USBRST (poll_head s)).d).regs.DOEPCTL
        i) 15
    rw [h1, bne_eq_false_iff_eq, ← hp] at e1
    rw [h2, bne_eq_false_iff_eq, ← hp] at e2
    exact ⟨e1, e2⟩
  · obtain ⟨k1, _, _, _⟩ := ack_only_keeps
      (ack_only_trans (ack_only_poll_head s) (ack_only_write_GINTSTS USB_OTG_GINTSTS_USBRST _))
    have h := unconfig_upto_DIEPCTL0 MAX_NUM_EP
      (write_GINTSTS USB_OTG_GINTSTS_USBRST (poll_head s)).d (by omega)
    rw [k1] at h
    exact h
  · obtain ⟨_, _, k3, _⟩ := ack_only_keeps
      (ack_only_trans (ack_only_poll_head s) (ack_only_write_GINTSTS USB_OTG_GINTSTS_USBRST _))
    exact (unconfig_upto_cfg MAX_NUM_EP _).trans k3
  · obtain ⟨_, _, _, k4⟩ := ack_only_keeps
      (ack_only_trans (ack_only_poll_head s) (ack_only_write_GINTSTS USB_OTG_GINTSTS_USBRST _))
    show (handle_reset_done MAX_NUM_EP
      (write_GINTSTS USB_OTG_GINTSTS_USBRST (poll_head s))).events ++ _ = _
    show (write_GINTSTS USB_OTG_GINTSTS_USBRST (poll_head s)).events ++ _ = _
    rw [k4]

/-- C20 on the fresh driver of the counterexample. -/
theorem C20_reset_unconfigures_only_witness :
    ∃ t, poll 8 reset_start = some t ∧
      (∀ i, i ≤ 8 →
        (t.d.regs.DIEPCTL i &&& USB_OTG_DIEPCTL_USBAEP) = 0 ∧
        (t.d.regs.DOEPCTL i &&& USB_OTG_DOEPCTL_USBAEP) = 0) ∧
      t.d.regs.DIEPCTL 0 = clear_bits (reset_start.d.regs.DIEPCTL 0) USB_OTG_DIEPCTL_USBAEP ∧
      t.d.m_ep0_cfg = reset_start.d.m_ep0_cfg ∧
      t.events = reset_start.events ++ [(USB_EVENTS.RESET, 0)] :=
  C20_reset_unconfigures_only 8 reset_start (by decide) (by decide) (by decide)

/-! ## C27: the configuration lookups -/

/-- C27 (the code breaks it).  Both lookups reject only `addr > MAX_NUM_EP`:
for `addr = 0` they return `true` and copy the entry at index `0 - 1`, which as a
32-bit `size_t` is `2^32 - 1`, far outside the table.  For `addr` in
`1..MAX_NUM_EP` both return `true` with entry `addr - 1` of the transmit table
`m_tx_ep_cfg`: `get_rx_ep_config` does not read the receive table. -/
theorem C27_lookup_defects (MAX_NUM_EP : Nat) (out_ep : ep_cfg) (d : Driver) :
    get_rx_ep_config MAX_NUM_EP 0 out_ep d = (true, d.m_tx_ep_cfg (2 ^ 32 - 1)) ∧
    get_tx_ep_config MAX_NUM_EP 0 out_ep d = (true, d.m_tx_ep_cfg (2 ^ 32 - 1)) ∧
    (∀ addr, 1 ≤ addr → addr ≤ MAX_NUM_EP → addr < 256 →
      get_rx_ep_config MAX_NUM_EP addr out_ep d = (true, d.m_tx_ep_cfg (addr - 1)) ∧
      get_tx_ep_config MAX_NUM_EP addr out_ep d = (true, d.m_tx_ep_cfg (addr - 1))) ∧
    (∀ addr, MAX_NUM_EP < addr →
      get_rx_ep_config MAX_NUM_EP addr out_ep d = (false, out_ep) ∧
      get_tx_ep_config MAX_NUM_EP addr out_ep d = (false, out_ep)) := by
  refine ⟨?_, ?_, fun addr h1 h2 h3 => ?_, fun addr h => ?_⟩
  · unfold get_rx_ep_config
    rw [if_neg (by omega)]
    rfl
  · unfold get_tx_ep_config
    rw [if_neg (by omega)]
    rfl
  · have hi : (addr + 2 ^ 32 - 1) % 2 ^ 32 = addr - 1 := by omega
    unfold get_rx_ep_config get_tx_ep_config
    rw [if_neg (by omega), hi]
    exact ⟨rfl, rfl⟩
  · unfold get_rx_ep_config get_tx_ep_config
    rw [if_pos h]
    exact ⟨rfl, rfl⟩

/-- C27 at the failing inputs, with `MAX_NUM_EP = 8`: `addr = 0` is accepted by
both lookups, and `get_rx_ep_config(1)` on a driver whose receive table records
a BULK endpoint returns the UNCONF entry of the transmit table. -/
theorem C27_lookup_defects_witness :
    (get_rx_ep_config 8 0 zeroDriver.m_ep0_cfg rx_recorded_driver).1 = true ∧
    (get_tx_ep_config 8 0 zeroDriver.m_ep0_cfg rx_recorded_driver).1 = true ∧
    rx_recorded_driver.m_rx_ep_cfg 0 = { num := 1, size := 64, type := EP_TYPE.BULK } ∧
    get_rx_ep_config 8 1 zeroDriver.m_ep0_cfg rx_recorded_driver =
      (true, { num := 0, size := 0, type := EP_TYPE.UNCONF }) ∧
    (get_rx_ep_config 8 1 zeroDriver.m_ep0_cfg rx_recorded_driver =
        (true, rx_recorded_driver.m_tx_ep_cfg (1 - 1)) ∧
      get_tx_ep_config 8 1 zeroDriver.m_ep0_cfg rx_recorded_driver =
        (true, rx_recorded_driver.m_tx_ep_cfg (1 - 1))) :=
  ⟨by decide, by decide, by decide, by decide,
   (C27_lookup_defects 8 zeroDriver.m_ep0_cfg rx_recorded_driver).2.2.1 1 (by decide)
    (by decide) (by decide)⟩

/-! ## C21: the bus-reset pass -/

theorem ack_only_keeps_rx {s t : Sys} (h : ack_only s t) :
    t.d.regs.GINTMSK = s.d.regs.GINTMSK ∧ t.rx_fifo = s.rx_fifo := by
  obtain ⟨g, go, iw, rfl⟩ := h
  exact ⟨rfl, rfl⟩

theorem ep_unconfig_GINTMSK (ep : Nat) (d : Driver) :
    (ep_unconfig ep d).regs.GINTMSK = d.regs.GINTMSK := by
  unfold ep_unconfig flush_tx
  simp only []
  split_ifs <;> rfl

theorem unconfig_upto_GINTMSK (n : Nat) (d : Driver) :
    (unconfig_upto n d).regs.GINTMSK = d.regs.GINTMSK := by
  induction n with
  | zero => exact ep_unconfig_GINTMSK 0 d
  | succ n ih => exact (ep_unconfig_GINTMSK (n + 1) _).trans ih

theorem or_and_bit (x m i : Nat) (h : m.testBit i = true) : ((x ||| m) &&& 2 ^ i) ≠ 0 := by
  have h1 := and_two_pow_bne_zero (x ||| m) i
  rw [Nat.testBit_or, h, Bool.or_true, bne_iff_ne] at h1
  exact h1

/-- C21: in every `poll` invocation whose status read has `USBRST` set and `SOF`
clear, `poll` returns having called the callback exactly once, with
`(RESET, 0)`, and having popped no word of the receive FIFO, whatever other
status bits are set; afterwards the IN and OUT endpoint interrupt classes are
enabled in `GINTMSK` (`IEPINT` and `OEPINT` or-ed into its old value). -/
theorem C21_bus_reset_pass (MAX_NUM_EP : Nat) (s : Sys)
    (hsof : (s.d.regs.GINTSTS &&& USB_OTG_GINTSTS_SOF) = 0)
    (hrst : (s.d.regs.GINTSTS &&& USB_OTG_GINTSTS_USBRST) ≠ 0) :
    ∃ t, poll MAX_NUM_EP s = some t ∧
      t.events = s.events ++ [(USB_EVENTS.RESET, 0)] ∧
      t.rx_fifo = s.rx_fifo ∧
      t.d.regs.GINTMSK =
        set_bits s.d.regs.GINTMSK (USB_OTG_GINTMSK_OEPINT ||| USB_OTG_GINTMSK_IEPINT) ∧
      (t.d.regs.GINTMSK &&& USB_OTG_GINTMSK_IEPINT) ≠ 0 ∧
      (t.d.regs.GINTMSK &&& USB_OTG_GINTMSK_OEPINT) ≠ 0 := by
  have hack := ack_only_trans (ack_only_poll_head s)
    (ack_only_write_GINTSTS USB_OTG_GINTSTS_USBRST _)
  obtain ⟨_, _, _, k4⟩ := ack_only_keeps hack
  obtain ⟨k5, k6⟩ := ack_only_keeps_rx hack
  have hm : ((handle_reset_done MAX_NUM_EP
      (write_GINTSTS USB_OTG_GINTSTS_USBRST (poll_head s))).emit USB_EVENTS.RESET 0).d.regs.GINTMSK =
      set_bits s.d.regs.GINTMSK (USB_OTG_GINTMSK_OEPINT ||| USB_OTG_GINTMSK_IEPINT) := by
    show set_bits (unconfig_upto MAX_NUM_EP
      (write_GINTSTS USB_OTG_GINTSTS_USBRST (poll_head s)).d).regs.GINTMSK _ = _
    rw [unconfig_upto_GINTMSK, k5]
  refine ⟨_, poll_reset MAX_NUM_EP s hsof hrst, ?_, ?_, hm, ?_, ?_⟩
  · show (write_GINTSTS USB_OTG_GINTSTS_USBRST (poll_head s)).events ++ _ = _
    rw [k4]
  · show (write_GINTSTS USB_OTG_GINTSTS_USBRST (poll_head s)).rx_fifo = _
    exact k6
  · rw [hm]
    exact or_and_bit _ _ 18 (by decide)
  · rw [hm]
    exact or_and_bit _ _ 19 (by decide)

/-- C21 on a driver where bus reset is pending together with enumeration done,
both suspend conditions, both endpoint interrupts and receive data. -/
theorem C21_bus_reset_pass_witness :
    ∃ t, poll 8 reset_busy_start = some t ∧
      t.events = reset_busy_start.events ++ [(USB_EVENTS.RESET, 0)] ∧
      t.rx_fifo = reset_busy_start.rx_fifo ∧
      t.d.regs.GINTMSK =
        set_bits reset_busy_start.d.regs.GINTMSK
          (USB_OTG_GINTMSK_OEPINT ||| USB_OTG_GINTMSK_IEPINT) ∧
      (t.d.regs.GINTMSK &&& USB_OTG_GINTMSK_IEPINT) ≠ 0 ∧
      (t.d.regs.GINTMSK &&& USB_OTG_GINTMSK_OEPINT) ≠ 0 :=
  C21_bus_reset_pass 8 reset_busy_start (by decide) (by decide)

/-! ## C23: events of the OUT endpoint handler -/

theorem write_DOEPINT_events (ep bits : Nat) (s : Sys) :
    (write_DOEPINT ep bits s).events = s.events := rfl

theorem ack_DOEPINT_events (g ep bit : Nat) (s : Sys) :
    (ack_DOEPINT g ep bit s).events = s.events := by
  unfold ack_DOEPINT
  split_ifs <;> rfl

theorem ack_emit_DOEPINT_events (g ep bit : Nat) (ev : USB_EVENTS) (s : Sys) :
    (ack_emit_DOEPINT g ep bit ev s).events =
      s.events ++ (if (g &&& bit) ≠ 0 then [(ev, ep)] else []) := by
  unfold ack_emit_DOEPINT
  split_ifs
  · rfl
  · rw [List.append_nil]

theorem oepint_acks_events (g ep : Nat) (s : Sys) :
    (oepint_acks g ep s).events =
      s.events ++
        (if (g &&& USB_OTG_DOEPINT_OTEPSPR) ≠ 0 then [(USB_EVENTS.CTRL_DATA_PHASE_DONE, ep)]
          else []) ++
        (if (g &&& USB_OTG_DOEPINT_STUP) ≠ 0 then [(USB_EVENTS.CTRL_SETUP_PHASE_DONE, ep)]
          else []) := by
  unfold oepint_acks
  simp only [ack_DOEPINT_events, ack_emit_DOEPINT_events]

theorem handle_oepintx_zero (s : Sys)
    (h : FLD2VAL USB_OTG_DAINT_OEPINT_Pos USB_OTG_DAINT_OEPINT_Msk s.DAINT = 0) :
    handle_oepintx s = (true, s) := by
  unfold handle_oepintx
  simp only [h, if_true]

theorem handle_oepintx_eq (s : Sys) (e : Nat)
    (hO : FLD2VAL USB_OTG_DAINT_OEPINT_Pos USB_OTG_DAINT_OEPINT_Msk s.DAINT ≠ 0)
    (he : builtin_ctz (FLD2VAL USB_OTG_DAINT_OEPINT_Pos USB_OTG_DAINT_OEPINT_Msk s.DAINT) = e) :
    handle_oepintx s =
      (true,
        if (s.d.regs.DOEPINT e &&& USB_OTG_DOEPINT_XFRC) ≠ 0 then
          if e = 0 then
            (write_DOEPINT e USB_OTG_DOEPINT_XFRC
              (oepint_acks (s.d.regs.DOEPINT e) e s)).emit USB_EVENTS.EP_RX e
          else write_DOEPINT e USB_OTG_DOEPINT_XFRC (oepint_acks (s.d.regs.DOEPINT e) e s)
        else oepint_acks (s.d.regs.DOEPINT e) e s) := by
  unfold handle_oepintx
  simp only [if_neg hO, he]
  split_ifs <;> rfl

/-- C23: when `handle_oepintx` services OUT endpoint `e` (the lowest endpoint
flagged in the OUT half of `DAINT`), the calls of the callback it adds are, in
this order: `(CTRL_DATA_PHASE_DONE, e)` exactly when `OTEPSPR` is set in the
value read from `DOEPINT[e]`, `(CTRL_SETUP_PHASE_DONE, e)` exactly when `STUP`
is set, and `(EP_RX, e)` exactly when `XFRC` is set and `e = 0`; nothing
else. -/
theorem C23_out_handler_events (s : Sys) (e : Nat)
    (hO : FLD2VAL USB_OTG_DAINT_OEPINT_Pos USB_OTG_DAINT_OEPINT_Msk s.DAINT ≠ 0)
    (he : builtin_ctz (FLD2VAL USB_OTG_DAINT_OEPINT_Pos USB_OTG_DAINT_OEPINT_Msk s.DAINT) = e) :
    (handle_oepintx s).2.events =
      s.events ++
        (if (s.d.regs.DOEPINT e &&& USB_OTG_DOEPINT_OTEPSPR) ≠ 0
          then [(USB_EVENTS.CTRL_DATA_PHASE_DONE, e)] else []) ++
        (if (s.d.regs.DOEPINT e &&& USB_OTG_DOEPINT_STUP) ≠ 0
          then [(USB_EVENTS.CTRL_SETUP_PHASE_DONE, e)] else []) ++
        (if (s.d.regs.DOEPINT e &&& USB_OTG_DOEPINT_XFRC) ≠ 0 ∧ e = 0
          then [(USB_EVENTS.EP_RX, e)] else []) := by
  rw [handle_oepintx_eq s e hO he]
  by_cases hx : (s.d.regs.DOEPINT e &&& USB_OTG_DOEPINT_XFRC) ≠ 0
  · by_cases h0 : e = 0
    · have hc : (s.d.regs.DOEPINT e &&& USB_OTG_DOEPINT_XFRC) ≠ 0 ∧ e = 0 := ⟨hx, h0⟩
      simp only [if_pos hx, if_pos h0, if_pos hc]
      show (oepint_acks (s.d.regs.DOEPINT e) e s).events ++ [(USB_EVENTS.EP_RX, e)] = _
      rw [oepint_acks_events]
    · have hc : ¬ ((s.d.regs.DOEPINT e &&& USB_OTG_DOEPINT_XFRC) ≠ 0 ∧ e = 0) := fun h => h0 h.2
      simp only [if_pos hx, if_neg h0, if_neg hc, List.append_nil]
      show (oepint_acks (s.d.regs.DOEPINT e) e s).events = _
      rw [oepint_acks_events]
  · have hc : ¬ ((s.d.regs.DOEPINT e &&& USB_OTG_DOEPINT_XFRC) ≠ 0 ∧ e = 0) := fun h => hx h.1
    simp only [if_neg hx, if_neg hc, List.append_nil]
    exact oepint_acks_events _ _ _

/-- C23 on endpoint 0 with `OTEPSPR`, `STUP` and `XFRC` all pending (three
events, in order) and on endpoint 2 with the same bits (no `EP_RX`). -/
theorem C23_out_handler_events_witness :
    (handle_oepintx (out_irq_start 0 0x29)).2.events =
      [(USB_EVENTS.CTRL_DATA_PHASE_DONE, 0), (USB_EVENTS.CTRL_SETUP_PHASE_DONE, 0),
        (USB_EVENTS.EP_RX, 0)] ∧
    (handle_oepintx (out_irq_start 2 0x29)).2.events =
      [(USB_EVENTS.CTRL_DATA_PHASE_DONE, 2), (USB_EVENTS.CTRL_SETUP_PHASE_DONE, 2)] :=
  ⟨C23_out_handler_events (out_irq_start 0 0x29) 0 (by decide) (by decide),
   C23_out_handler_events (out_irq_start 2 0x29) 2 (by decide) (by decide)⟩

/-! ## The records of writes and callback calls -/

theorem adds_of_eq {P : IntReg × Nat → Prop} {Q : USB_EVENTS × Nat → Prop} {s t : Sys}
    (h1 : t.int_writes = s.int_writes) (h2 : t.events = s.events) : adds P Q s t :=
  ⟨⟨[], by rw [h1, List.append_nil], fun _ h => absurd h (List.not_mem_nil _)⟩,
   ⟨[], by rw [h2, List.append_nil], fun _ h => absurd h (List.not_mem_nil _)⟩⟩

theorem adds_refl (P : IntReg × Nat → Prop) (Q : USB_EVENTS × Nat → Prop) (s : Sys) :
    adds P Q s s := adds_of_eq rfl rfl

theorem adds_trans {P : IntReg × Nat → Prop} {Q : USB_EVENTS × Nat → Prop} {a b c : Sys}
    (h1 : adds P Q a b) (h2 : adds P Q b c) : adds P Q a c := by
  obtain ⟨⟨w1, e1, p1⟩, ⟨x1, f1, q1⟩⟩ := h1
  obtain ⟨⟨w2, e2, p2⟩, ⟨x2, f2, q2⟩⟩ := h2
  refine ⟨⟨w1 ++ w2, by rw [e2, e1, List.append_assoc], fun w hw => ?_⟩,
    ⟨x1 ++ x2, by rw [f2, f1, List.append_assoc], fun x hx => ?_⟩⟩
  · rcases List.mem_append.1 hw with h | h
    · exact p1 w h
    · exact p2 w h
  · rcases List.mem_append.1 hx with h | h
    · exact q1 x h
    · exact q2 x h

theorem adds_mono {P P' : IntReg × Nat → Prop} {Q Q' : USB_EVENTS × Nat → Prop} {s t : Sys}
    (h : adds P Q s t) (hp : ∀ w, P w → P' w) (hq : ∀ x, Q x → Q' x) : adds P' Q' s t := by
  obtain ⟨⟨w1, e1, p1⟩, ⟨x1, f1, q1⟩⟩ := h
  exact ⟨⟨w1, e1, fun w hw => hp w (p1 w hw)⟩, ⟨x1, f1, fun x hx => hq x (q1 x hx)⟩⟩

theorem adds_ite {P : IntReg × Nat → Prop} {Q : USB_EVENTS × Nat → Prop} (c : Prop)
    [Decidable c] (s t : Sys) (h : c → adds P Q s t) : adds P Q s (if c then t else s) := by
  split_ifs with hc
  · exact h hc
  · exact adds_refl P Q s

theorem adds_write (P : IntReg × Nat → Prop) (Q : USB_EVENTS × Nat → Prop) (s t : Sys)
    (w : IntReg × Nat) (hw : P w) (h1 : t.int_writes = s.int_writes ++ [w])
    (h2 : t.events = s.events) : adds P Q s t :=
  ⟨⟨[w], h1, fun x hx => by rw [List.mem_singleton.1 hx]; exact hw⟩,
   ⟨[], by rw [h2, List.append_nil], fun _ h => absurd h (List.not_mem_nil _)⟩⟩

theorem adds_emit (P : IntReg × Nat → Prop) (Q : USB_EVENTS × Nat → Prop) (s : Sys)
    (ev : USB_EVENTS) (a : Nat) (hq : Q (ev, a)) : adds P Q s (s.emit ev a) :=
  ⟨⟨[], by rw [List.append_nil]; rfl, fun _ h => absurd h (List.not_mem_nil _)⟩,
   ⟨[(ev, a)], rfl, fun x hx => by rw [List.mem_singleton.1 hx]; exact hq⟩⟩

theorem single_bit_intro (g bit i : Nat) (hb : bit = 2 ^ i) (h : (g &&& bit) ≠ 0) :
    single_bit_of g bit := by
  refine ⟨i, hb, ?_⟩
  have h1 := and_two_pow_bne_zero g i
  rw [← hb] at h1
  rw [← h1, bne_iff_ne]
  exact h

theorem adds_write_GINTSTS (P : IntReg × Nat → Prop) (Q : USB_EVENTS × Nat → Prop) (bits : Nat)
    (s : Sys) (hp : P (IntReg.GINTSTS, bits)) : adds P Q s (write_GINTSTS bits s) :=
  adds_write P Q _ _ _ hp rfl rfl

theorem adds_ack_GOTGINT (P : IntReg × Nat → Prop) (Q : USB_EVENTS × Nat → Prop) (g bit : Nat)
    (s : Sys) (hp : P (IntReg.GOTGINT, bit)) : adds P Q s (ack_GOTGINT g bit s) := by
  unfold ack_GOTGINT
  exact adds_ite _ _ _ (fun _ => adds_write P Q _ _ _ hp rfl rfl)

theorem adds_poll_otgint (P : IntReg × Nat → Prop) (Q : USB_EVENTS × Nat → Prop) (s : Sys)
    (hp : ∀ bit, P (IntReg.GOTGINT, bit)) : adds P Q s (poll_otgint s) := by
  unfold poll_otgint
  exact adds_trans (adds_ack_GOTGINT P Q _ _ _ (hp _)) (adds_trans
    (adds_ack_GOTGINT P Q _ _ _ (hp _)) (adds_trans (adds_ack_GOTGINT P Q _ _ _ (hp _))
    (adds_trans (adds_ack_GOTGINT P Q _ _ _ (hp _)) (adds_trans
    (adds_ack_GOTGINT P Q _ _ _ (hp _)) (adds_ack_GOTGINT P Q _ _ _ (hp _))))))

theorem adds_ack_DIEPINT (P : IntReg × Nat → Prop) (Q : USB_EVENTS × Nat → Prop) (g ep bit : Nat)
    (s : Sys) (hp : (g &&& bit) ≠ 0 → P (IntReg.DIEPINT ep, bit)) :
    adds P Q s (ack_DIEPINT g ep bit s) := by
  unfold ack_DIEPINT
  exact adds_ite _ _ _ (fun h => adds_write P Q _ _ _ (hp h) rfl rfl)

theorem adds_ack_DOEPINT (P : IntReg × Nat → Prop) (Q : USB_EVENTS × Nat → Prop) (g ep bit : Nat)
    (s : Sys) (hp : (g &&& bit) ≠ 0 → P (IntReg.DOEPINT ep, bit)) :
    adds P Q s (ack_DOEPINT g ep bit s) := by
  unfold ack_DOEPINT
  exact adds_ite _ _ _ (fun h => adds_write P Q _ _ _ (hp h) rfl rfl)

theorem adds_ack_emit_DOEPINT (P : IntReg × Nat → Prop) (Q : USB_EVENTS × Nat → Prop)
    (g ep bit : Nat) (ev : USB_EVENTS) (s : Sys)
    (hp : (g &&& bit) ≠ 0 → P (IntReg.DOEPINT ep, bit)) (hq : Q (ev, ep)) :
    adds P Q s (ack_emit_DOEPINT g ep bit ev s) := by
  unfold ack_emit_DOEPINT
  exact adds_ite _ _ _ (fun h =>
    adds_trans (b := write_DOEPINT ep bit s) (adds_write P Q _ _ _ (hp h) rfl rfl)
      (adds_emit P Q _ _ _ hq))

/-- The acknowledgements of `handle_iepintx` write single pending bits to
`DIEPINT[ep]`. -/
theorem adds_iepint_acks (Q : USB_EVENTS × Nat → Prop) (g ep : Nat) (s : Sys) :
    adds (fun w => w.1 = IntReg.DIEPINT ep ∧ single_bit_of g w.2) Q s (iepint_acks g ep s) := by
  unfold iepint_acks
  exact adds_trans
    (adds_ack_DIEPINT _ Q _ _ _ _ (fun h => ⟨rfl, single_bit_intro g _ 13 rfl h⟩))
    (adds_trans
    (adds_ack_DIEPINT _ Q _ _ _ _ (fun h => ⟨rfl, single_bit_intro g _ 11 rfl h⟩))
    (adds_trans
    (adds_ack_DIEPINT _ Q _ _ _ _ (fun h => ⟨rfl, single_bit_intro g _ 8 rfl h⟩))
    (adds_trans
    (adds_ack_DIEPINT _ Q _ _ _ _ (fun h => ⟨rfl, single_bit_intro g _ 5 rfl h⟩))
    (adds_trans
    (adds_ack_DIEPINT _ Q _ _ _ _ (fun h => ⟨rfl, single_bit_intro g _ 4 rfl h⟩))
    (adds_trans
    (adds_ack_DIEPINT _ Q _ _ _ _ (fun h => ⟨rfl, single_bit_intro g _ 3 rfl h⟩))
    (adds_trans
    (adds_ack_DIEPINT _ Q _ _ _ _ (fun h => ⟨rfl, single_bit_intro g _ 2 rfl h⟩))
    (adds_ack_DIEPINT _ Q _ _ _ _ (fun h => ⟨rfl, single_bit_intro g _ 1 rfl h⟩))))))))

/-- The acknowledgements of `handle_oepintx` write single pending bits to
`DOEPINT[ep]` and call the callback for the two control-phase events only. -/
theorem adds_oepint_acks (g ep : Nat) (s : Sys) :
    adds (fun w => w.1 = IntReg.DOEPINT ep ∧ single_bit_of g w.2)
      (fun x => x.1 = USB_EVENTS.CTRL_DATA_PHASE_DONE ∨ x.1 = USB_EVENTS.CTRL_SETUP_PHASE_DONE)
      s (oepint_acks g ep s) := by
  unfold oepint_acks
  exact adds_trans
    (adds_ack_DOEPINT _ _ _ _ _ _ (fun h => ⟨rfl, single_bit_intro g _ 15 rfl h⟩))
    (adds_trans
    (adds_ack_DOEPINT _ _ _ _ _ _ (fun h => ⟨rfl, single_bit_intro g _ 14 rfl h⟩))
    (adds_trans
    (adds_ack_DOEPINT _ _ _ _ _ _ (fun h => ⟨rfl, single_bit_intro g _ 13 rfl h⟩))
    (adds_trans
    (adds_ack_DOEPINT _ _ _ _ _ _ (fun h => ⟨rfl, single_bit_intro g _ 12 rfl h⟩))
    (adds_trans
    (adds_ack_DOEPINT _ _ _ _ _ _ (fun h => ⟨rfl, single_bit_intro g _ 8 rfl h⟩))
    (adds_trans
    (adds_ack_DOEPINT _ _ _ _ _ _ (fun h => ⟨rfl, single_bit_intro g _ 6 rfl h⟩))
    (adds_trans
    (adds_ack_emit_DOEPINT _ _ _ _ _ _ _
      (fun h => ⟨rfl, single_bit_intro g _ 5 rfl h⟩) (Or.inl rfl))
    (adds_trans
    (adds_ack_DOEPINT _ _ _ _ _ _ (fun h => ⟨rfl, single_bit_intro g _ 4 rfl h⟩))
    (adds_trans
    (adds_ack_emit_DOEPINT _ _ _ _ _ _ _
      (fun h => ⟨rfl, single_bit_intro g _ 3 rfl h⟩) (Or.inr rfl))
    (adds_trans
    (adds_ack_DOEPINT _ _ _ _ _ _ (fun h => ⟨rfl, single_bit_intro g _ 2 rfl h⟩))
    (adds_ack_DOEPINT _ _ _ _ _ _ (fun h => ⟨rfl, single_bit_intro g _ 1 rfl h⟩))))))))))
    )

theorem ep_write_records (ep : Nat) (buf : Nat → Nat) (len : Nat) (s : Sys) :
    (ep_write ep buf len s).2.int_writes = s.int_writes ∧
    (ep_write ep buf len s).2.events = s.events := by
  obtain ⟨r, f, h⟩ := ep_write_state ep buf len s
  rw [h]
  exact ⟨rfl, rfl⟩

theorem tx_release_current_records (e : Nat) (u : Sys) :
    (tx_release_current e u).int_writes = u.int_writes ∧
    (tx_release_current e u).events = u.events := by
  unfold tx_release_current
  split <;> exact ⟨rfl, rfl⟩

theorem tx_load_next_records (e : Nat) (u : Sys) :
    (tx_load_next e u).int_writes = u.int_writes ∧ (tx_load_next e u).events = u.events := by
  unfold tx_load_next
  simp only []
  split
  · rw [(ep_write_records _ _ _ _).1, (ep_write_records _ _ _ _).2]
    exact ⟨rfl, rfl⟩
  · exact ⟨rfl, rfl⟩

/-- The transfer-complete branch of `handle_iepintx` writes `XFRC` to
`DIEPINT[e]` and calls the callback for endpoint 0 only. -/
theorem adds_iepint_xfrc (P : IntReg × Nat → Prop) (e : Nat) (u : Sys)
    (hp : P (IntReg.DIEPINT e, USB_OTG_DIEPINT_XFRC)) :
    adds P (fun x => x = (USB_EVENTS.EP_TX, 0x80)) u (iepint_xfrc e u) := by
  have h1 : adds P (fun x => x = (USB_EVENTS.EP_TX, 0x80)) u
      (write_DIEPINT e USB_OTG_DIEPINT_XFRC u) := adds_write _ _ _ _ _ hp rfl rfl
  have h2 : adds P (fun x => x = (USB_EVENTS.EP_TX, 0x80))
      (write_DIEPINT e USB_OTG_DIEPINT_XFRC u)
      (tx_release_current e (write_DIEPINT e USB_OTG_DIEPINT_XFRC u)) :=
    adds_of_eq (tx_release_current_records _ _).1 (tx_release_current_records _ _).2
  have h3 : adds P (fun x => x = (USB_EVENTS.EP_TX, 0x80))
      (tx_release_current e (write_DIEPINT e USB_OTG_DIEPINT_XFRC u))
      (tx_load_next e (tx_release_current e (write_DIEPINT e USB_OTG_DIEPINT_XFRC u))) :=
    adds_of_eq (tx_load_next_records _ _).1 (tx_load_next_records _ _).2
  have h := adds_trans h1 (adds_trans h2 h3)
  unfold iepint_xfrc
  by_cases h0 : e = 0
  · simp only [if_pos h0]
    refine adds_trans h (adds_emit _ _ _ _ _ ?_)
    rw [h0]
    rfl
  · simp only [if_neg h0]
    exact h

theorem handle_iepintx_zero (s : Sys)
    (h : FLD2VAL USB_OTG_DAINT_IEPINT_Pos USB_OTG_DAINT_IEPINT_Msk s.DAINT = 0) :
    handle_iepintx s = (true, s) := by
  unfold handle_iepintx
  simp only [h, if_true]

theorem handle_iepintx_no_xfrc (s : Sys) (e : Nat)
    (hI : FLD2VAL USB_OTG_DAINT_IEPINT_Pos USB_OTG_DAINT_IEPINT_Msk s.DAINT ≠ 0)
    (he : builtin_ctz (FLD2VAL USB_OTG_DAINT_IEPINT_Pos USB_OTG_DAINT_IEPINT_Msk s.DAINT) = e)
    (hx : ¬ (s.d.regs.DIEPINT e &&& USB_OTG_DIEPINT_XFRC) ≠ 0) :
    (handle_iepintx s).2 = iepint_acks (s.d.regs.DIEPINT e) e s := by
  unfold handle_iepintx
  simp only [if_neg hI, he, if_neg hx]

/-- Every value `handle_iepintx` writes to an interrupt-status register goes to
`DIEPINT` of the endpoint it services and is a single bit that was set in the
value read from that register; the only callback call is `(EP_TX, 0x80)`. -/
theorem adds_handle_iepintx (s : Sys) :
    adds
      (fun w => w.1 = IntReg.DIEPINT
          (builtin_ctz (FLD2VAL USB_OTG_DAINT_IEPINT_Pos USB_OTG_DAINT_IEPINT_Msk s.DAINT)) ∧
        single_bit_of (s.d.regs.DIEPINT
          (builtin_ctz (FLD2VAL USB_OTG_DAINT_IEPINT_Pos USB_OTG_DAINT_IEPINT_Msk s.DAINT))) w.2)
      (fun x => x = (USB_EVENTS.EP_TX, 0x80)) s (handle_iepintx s).2 := by
  by_cases hI : FLD2VAL USB_OTG_DAINT_IEPINT_Pos USB_OTG_DAINT_IEPINT_Msk s.DAINT = 0
  · rw [handle_iepintx_zero s hI]
    exact adds_refl _ _ s
  · by_cases hx : (s.d.regs.DIEPINT
        (builtin_ctz (FLD2VAL USB_OTG_DAINT_IEPINT_Pos USB_OTG_DAINT_IEPINT_Msk s.DAINT)) &&&
        USB_OTG_DIEPINT_XFRC) ≠ 0
    · rw [handle_iepintx_xfrc s _ hI rfl hx]
      exact adds_trans (adds_iepint_acks _ _ _ s)
        (adds_iepint_xfrc _ _ _ ⟨rfl, single_bit_intro _ _ 0 rfl hx⟩)
    · rw [handle_iepintx_no_xfrc s _ hI rfl hx]
      exact adds_iepint_acks _ _ _ s

theorem adds_write_DOEPINT (P : IntReg × Nat → Prop) (Q : USB_EVENTS × Nat → Prop)
    (ep bits : Nat) (s : Sys) (hp : P (IntReg.DOEPINT ep, bits)) :
    adds P Q s (write_DOEPINT ep bits s) :=
  adds_write P Q _ _ _ hp rfl rfl

theorem adds_handle_oepintx_at (s : Sys) (e : Nat)
    (hO : FLD2VAL USB_OTG_DAINT_OEPINT_Pos USB_OTG_DAINT_OEPINT_Msk s.DAINT ≠ 0)
    (he : builtin_ctz (FLD2VAL USB_OTG_DAINT_OEPINT_Pos USB_OTG_DAINT_OEPINT_Msk s.DAINT) = e) :
    adds (fun w => w.1 = IntReg.DOEPINT e ∧ single_bit_of (s.d.regs.DOEPINT e) w.2)
      (fun x => x.1 = USB_EVENTS.CTRL_DATA_PHASE_DONE ∨ x.1 = USB_EVENTS.CTRL_SETUP_PHASE_DONE ∨
        x.1 = USB_EVENTS.EP_RX) s (handle_oepintx s).2 := by
  rw [handle_oepintx_eq s e hO he]
  have hacks := adds_mono (adds_oepint_acks (s.d.regs.DOEPINT e) e s) (fun _ h => h)
    (fun x (h : x.1 = USB_EVENTS.CTRL_DATA_PHASE_DONE ∨
        x.1 = USB_EVENTS.CTRL_SETUP_PHASE_DONE) =>
      (h.elim Or.inl (fun h => Or.inr (Or.inl h)) :
        x.1 = USB_EVENTS.CTRL_DATA_PHASE_DONE ∨ x.1 = USB_EVENTS.CTRL_SETUP_PHASE_DONE ∨
          x.1 = USB_EVENTS.EP_RX))
  show adds _ _ s (if _ then _ else _)
  split_ifs with hx h0
  · have hw := adds_write_DOEPINT
      (fun w => w.1 = IntReg.DOEPINT e ∧ single_bit_of (s.d.regs.DOEPINT e) w.2)
      (fun x => x.1 = USB_EVENTS.CTRL_DATA_PHASE_DONE ∨
        x.1 = USB_EVENTS.CTRL_SETUP_PHASE_DONE ∨ x.1 = USB_EVENTS.EP_RX)
      e USB_OTG_DOEPINT_XFRC (oepint_acks (s.d.regs.DOEPINT e) e s)
      ⟨rfl, single_bit_intro _ _ 0 rfl hx⟩
    exact adds_trans hacks (adds_trans hw (adds_emit _ _ _ _ _ (Or.inr (Or.inr rfl))))
  · exact adds_trans hacks (adds_write_DOEPINT _ _ _ _ _ ⟨rfl, single_bit_intro _ _ 0 rfl hx⟩)
  · exact hacks

/-- Every value `handle_oepintx` writes to an interrupt-status register goes to
`DOEPINT` of the endpoint it services and is a single bit that was set in the
value read from that register. -/
theorem adds_handle_oepintx (s : Sys) :
    adds
      (fun w => w.1 = IntReg.DOEPINT
          (builtin_ctz (FLD2VAL USB_OTG_DAINT_OEPINT_Pos USB_OTG_DAINT_OEPINT_Msk s.DAINT)) ∧
        single_bit_of (s.d.regs.DOEPINT
          (builtin_ctz (FLD2VAL USB_OTG_DAINT_OEPINT_Pos USB_OTG_DAINT_OEPINT_Msk s.DAINT))) w.2)
      (fun x => x.1 = USB_EVENTS.CTRL_DATA_PHASE_DONE ∨ x.1 = USB_EVENTS.CTRL_SETUP_PHASE_DONE ∨
        x.1 = USB_EVENTS.EP_RX) s (handle_oepintx s).2 := by
  by_cases hO : FLD2VAL USB_OTG_DAINT_OEPINT_Pos USB_OTG_DAINT_OEPINT_Msk s.DAINT = 0
  · rw [handle_oepintx_zero s hO]
    exact adds_refl _ _ s
  · exact adds_handle_oepintx_at s _ hO rfl

/-! ## The receive-FIFO branch, case by case -/

theorem tail_drop_eq (l : List Nat) (k : Nat) : l.tail.drop k = l.drop (1 + k) := by
  cases l with
  | nil => simp
  | cons a l => rw [Nat.add_comm]; rfl

theorem ep_read_loop_fifo (max_len n : Nat) :
    ∀ (i : Nat) (buf : Nat → Nat) (fifo : List Nat),
      (ep_read_loop max_len n i buf fifo).2 = fifo.drop n := by
  induction n with
  | zero => intro i buf fifo; rfl
  | succ n ih =>
    intro i buf fifo
    show (ep_read_loop max_len n (i + 4) _ fifo.tail).2 = _
    rw [ih, tail_drop_eq, Nat.add_comm]

/-- A call of `ep_read` with a buffer, while the receive FIFO is flagged
non-empty, pops `ceil(max_len / 4)` words and changes nothing else. -/
theorem ep_read_eq (e : Nat) (m : Nat → Nat) (n : Nat) (u : Sys)
    (hflag : (u.d.regs.GINTSTS &&& USB_OTG_GINTSTS_RXFLVL) ≠ 0) :
    ep_read e (some m) n u =
      ((n : Int), some (ep_read_loop n ((n + 3) / 4) 0 m u.rx_fifo).1,
        { u with rx_fifo := u.rx_fifo.drop ((n + 3) / 4) }) := by
  unfold ep_read
  rw [if_neg hflag]
  simp only [ep_read_loop_fifo]

theorem poll_out_received_some (E n : Nat) (u t : Sys)
    (hflag : (u.d.regs.GINTSTS &&& USB_OTG_GINTSTS_RXFLVL) ≠ 0)
    (h : poll_out_received E n u = some t) :
    t.rx_fifo = u.rx_fifo.drop ((n + 3) / 4) ∧ t.int_writes = u.int_writes ∧
    t.events = u.events := by
  unfold poll_out_received at h
  cases hb : get_buffer u.m_rx_buffer E with
  | none => rw [hb] at h; exact absurd h (by simp)
  | some b =>
    rw [hb] at h
    simp only [ep_read_eq _ _ _ _ hflag] at h
    split at h <;> (simp only [Option.some.injEq] at h; subst h; exact ⟨rfl, rfl, rfl⟩)

theorem poll_out_received_ep0_some (n : Nat) (u t : Sys)
    (hflag : (u.d.regs.GINTSTS &&& USB_OTG_GINTSTS_RXFLVL) ≠ 0)
    (h : poll_out_received_ep0 n u = some t) :
    t.rx_fifo = u.rx_fifo.drop ((n + 3) / 4) ∧ t.int_writes = u.int_writes ∧
    t.events = u.events := by
  unfold poll_out_received_ep0 at h
  cases hb : get_buffer u.m_ep0_buffer 0 with
  | none => rw [hb] at h; exact absurd h (by simp)
  | some b =>
    rw [hb] at h
    simp only [ep_read_eq _ _ _ _ hflag] at h
    split at h <;> (simp only [Option.some.injEq] at h; subst h; exact ⟨rfl, rfl, rfl⟩)

theorem poll_out_received_armed (E n : Nat) (u : Sys) (b : Buffer)
    (h : get_buffer u.m_rx_buffer E = some b) : ∃ t, poll_out_received E n u = some t := by
  unfold poll_out_received
  rw [h]
  simp only []
  split <;> exact ⟨_, rfl⟩

theorem poll_out_received_ep0_armed (n : Nat) (u : Sys) (b : Buffer)
    (h : get_buffer u.m_ep0_buffer 0 = some b) : ∃ t, poll_out_received_ep0 n u = some t := by
  unfold poll_out_received_ep0
  rw [h]
  simp only []
  split <;> exact ⟨_, rfl⟩

/-- The receive-FIFO branch on a status word without data to take and other
than `SETUP_COMPLETE`: only the status word is popped. -/
theorem poll_rxflvl_nodata (u : Sys)
    (h : ¬ ((FLD2VAL USB_OTG_GRXSTSP_PKTSTS_Pos USB_OTG_GRXSTSP_PKTSTS_Msk (u.rx_fifo.headD 0) = 2 ∨
        FLD2VAL USB_OTG_GRXSTSP_PKTSTS_Pos USB_OTG_GRXSTSP_PKTSTS_Msk (u.rx_fifo.headD 0) = 6) ∧
      FLD2VAL USB_OTG_GRXSTSP_BCNT_Pos USB_OTG_GRXSTSP_BCNT_Msk (u.rx_fifo.headD 0) ≠ 0))
    (h4 : FLD2VAL USB_OTG_GRXSTSP_PKTSTS_Pos USB_OTG_GRXSTSP_PKTSTS_Msk (u.rx_fifo.headD 0) ≠ 4) :
    poll_rxflvl u = some { u with rx_fifo := u.rx_fifo.tail } := by
  unfold poll_rxflvl
  simp only []
  split
  · rename_i h2
    rw [if_neg (fun hb => h ⟨Or.inl h2, hb⟩)]
  · rfl
  · rename_i h6
    rw [if_neg (fun hb => h ⟨Or.inr h6, hb⟩)]
  · rename_i h4'
    exact absurd h4' h4
  · rfl

/-- The receive-FIFO branch on `SETUP_COMPLETE` (code 4): the status word is
popped and the OUT endpoint is re-enabled. -/
theorem poll_rxflvl_setup_complete (u : Sys)
    (h4 : FLD2VAL USB_OTG_GRXSTSP_PKTSTS_Pos USB_OTG_GRXSTSP_PKTSTS_Msk (u.rx_fifo.headD 0) = 4) :
    poll_rxflvl u = some (or_DOEPCTL
      (FLD2VAL USB_OTG_GRXSTSP_EPNUM_Pos USB_OTG_GRXSTSP_EPNUM_Msk (u.rx_fifo.headD 0) % 256)
      (USB_OTG_DOEPCTL_CNAK ||| USB_OTG_DOEPCTL_EPENA) { u with rx_fifo := u.rx_fifo.tail }) := by
  unfold poll_rxflvl
  simp only [h4]

/-- The receive-FIFO branch on `SETUP_RECEIVED` (code 6) with data: the status
word and `ceil(BCNT / 4)` data words are popped into the setup packet slot. -/
theorem poll_rxflvl_setup (u : Sys)
    (hflag : (u.d.regs.GINTSTS &&& USB_OTG_GINTSTS_RXFLVL) ≠ 0)
    (h6 : FLD2VAL USB_OTG_GRXSTSP_PKTSTS_Pos USB_OTG_GRXSTSP_PKTSTS_Msk (u.rx_fifo.headD 0) = 6)
    (hb : FLD2VAL USB_OTG_GRXSTSP_BCNT_Pos USB_OTG_GRXSTSP_BCNT_Msk (u.rx_fifo.headD 0) ≠ 0) :
    ∃ t, poll_rxflvl u = some t ∧
      t.rx_fifo = u.rx_fifo.drop (1 + (FLD2VAL USB_OTG_GRXSTSP_BCNT_Pos
        USB_OTG_GRXSTSP_BCNT_Msk (u.rx_fifo.headD 0) + 3) / 4) ∧
      t.int_writes = u.int_writes ∧ t.events = u.events ∧
      t.d = u.d ∧ t.m_rx_buffer = u.m_rx_buffer ∧ t.m_ep0_buffer = u.m_ep0_buffer := by
  have hflag' : (({ u with rx_fifo := u.rx_fifo.tail } : Sys).d.regs.GINTSTS &&&
      USB_OTG_GINTSTS_RXFLVL) ≠ 0 := hflag
  unfold poll_rxflvl
  simp only [h6, hb, ne_eq, not_false_eq_true, if_true, ep_read_eq _ _ _ _ hflag']
  exact ⟨_, rfl, tail_drop_eq _ _, rfl, rfl, rfl, rfl, rfl⟩

/-- The receive-FIFO branch on `OUT_RECEIVED` (code 2) with data. -/
theorem poll_rxflvl_out_data (u : Sys)
    (h2 : FLD2VAL USB_OTG_GRXSTSP_PKTSTS_Pos USB_OTG_GRXSTSP_PKTSTS_Msk (u.rx_fifo.headD 0) = 2)
    (hb : FLD2VAL USB_OTG_GRXSTSP_BCNT_Pos USB_OTG_GRXSTSP_BCNT_Msk (u.rx_fifo.headD 0) ≠ 0) :
    poll_rxflvl u =
      if FLD2VAL USB_OTG_GRXSTSP_EPNUM_Pos USB_OTG_GRXSTSP_EPNUM_Msk (u.rx_fifo.headD 0) ≠ 0 then
        poll_out_received
          (FLD2VAL USB_OTG_GRXSTSP_EPNUM_Pos USB_OTG_GRXSTSP_EPNUM_Msk (u.rx_fifo.headD 0))
          (FLD2VAL USB_OTG_GRXSTSP_BCNT_Pos USB_OTG_GRXSTSP_BCNT_Msk (u.rx_fifo.headD 0))
          { u with rx_fifo := u.rx_fifo.tail }
      else
        poll_out_received_ep0
          (FLD2VAL USB_OTG_GRXSTSP_BCNT_Pos USB_OTG_GRXSTSP_BCNT_Msk (u.rx_fifo.headD 0))
          { u with rx_fifo := u.rx_fifo.tail } := by
  have hlt := epnum_field_lt (u.rx_fifo.headD 0)
  have hmod : FLD2VAL USB_OTG_GRXSTSP_EPNUM_Pos USB_OTG_GRXSTSP_EPNUM_Msk (u.rx_fifo.headD 0) % 256 =
      FLD2VAL USB_OTG_GRXSTSP_EPNUM_Pos USB_OTG_GRXSTSP_EPNUM_Msk (u.rx_fifo.headD 0) :=
    Nat.mod_eq_of_lt (by omega)
  unfold poll_rxflvl
  simp only [h2, hmod, ne_eq, hb, not_false_eq_true, if_true]

/-- What the receive-FIFO branch does when it returns: it pops the status word
and, for a data packet, its `ceil(BCNT / 4)` words; it writes no
interrupt-status register and does not call the callback. -/
theorem poll_rxflvl_spec (u t : Sys)
    (hflag : (u.d.regs.GINTSTS &&& USB_OTG_GINTSTS_RXFLVL) ≠ 0)
    (h : poll_rxflvl u = some t) :
    t.rx_fifo = u.rx_fifo.drop
      (if (FLD2VAL USB_OTG_GRXSTSP_PKTSTS_Pos USB_OTG_GRXSTSP_PKTSTS_Msk (u.rx_fifo.headD 0) = 2 ∨
          FLD2VAL USB_OTG_GRXSTSP_PKTSTS_Pos USB_OTG_GRXSTSP_PKTSTS_Msk (u.rx_fifo.headD 0) = 6) ∧
          FLD2VAL USB_OTG_GRXSTSP_BCNT_Pos USB_OTG_GRXSTSP_BCNT_Msk (u.rx_fifo.headD 0) ≠ 0
        then 1 + (FLD2VAL USB_OTG_GRXSTSP_BCNT_Pos USB_OTG_GRXSTSP_BCNT_Msk
          (u.rx_fifo.headD 0) + 3) / 4
        else 1) ∧
    t.int_writes = u.int_writes ∧ t.events = u.events := by
  have hflag' : (({ u with rx_fifo := u.rx_fifo.tail } : Sys).d.regs.GINTSTS &&&
      USB_OTG_GINTSTS_RXFLVL) ≠ 0 := hflag
  by_cases hd : (FLD2VAL USB_OTG_GRXSTSP_PKTSTS_Pos USB_OTG_GRXSTSP_PKTSTS_Msk
        (u.rx_fifo.headD 0) = 2 ∨
      FLD2VAL USB_OTG_GRXSTSP_PKTSTS_Pos USB_OTG_GRXSTSP_PKTSTS_Msk (u.rx_fifo.headD 0) = 6) ∧
      FLD2VAL USB_OTG_GRXSTSP_BCNT_Pos USB_OTG_GRXSTSP_BCNT_Msk (u.rx_fifo.headD 0) ≠ 0
  · rw [if_pos hd]
    obtain ⟨h2 | h6, hb⟩ := hd
    · rw [poll_rxflvl_out_data u h2 hb] at h
      split_ifs at h
      · obtain ⟨a, b, c⟩ := poll_out_received_some _ _ _ t hflag' h
        exact ⟨a.trans (tail_drop_eq _ _), b, c⟩
      · obtain ⟨a, b, c⟩ := poll_out_received_ep0_some _ _ t hflag' h
        exact ⟨a.trans (tail_drop_eq _ _), b, c⟩
    · obtain ⟨t', ht', a, b, c, _⟩ := poll_rxflvl_setup u hflag h6 hb
      rw [ht'] at h
      simp only [Option.some.injEq] at h
      subst h
      exact ⟨a, b, c⟩
  · rw [if_neg hd]
    by_cases h4 : FLD2VAL USB_OTG_GRXSTSP_PKTSTS_Pos USB_OTG_GRXSTSP_PKTSTS_Msk
        (u.rx_fifo.headD 0) = 4
    · rw [poll_rxflvl_setup_complete u h4] at h
      simp only [Option.some.injEq] at h
      subst h
      exact ⟨(List.drop_one _).symm, rfl, rfl⟩
    · rw [poll_rxflvl_nodata u hd h4] at h
      simp only [Option.some.injEq] at h
      subst h
      exact ⟨(List.drop_one _).symm, rfl, rfl⟩

/-! ## The records of a whole `poll` invocation -/

theorem adds_poll_head (Q : USB_EVENTS × Nat → Prop) (s : Sys) :
    adds (fun w => w.1 = IntReg.GINTSTS → single_bit_of s.d.regs.GINTSTS w.2) Q s
      (poll_head s) := by
  unfold poll_head
  refine adds_trans (adds_ite _ _ _ (fun h => adds_write_GINTSTS _ Q _ _
    (fun _ => single_bit_intro _ _ 1 rfl h))) (adds_ite _ _ _ (fun _ => ?_))
  exact adds_poll_otgint _ Q _ (fun bit h => by cases h)

theorem adds_ack_event (P : IntReg × Nat → Prop) (Q : USB_EVENTS × Nat → Prop) (c : Prop)
    [Decidable c] (bits : Nat) (ev : USB_EVENTS) (s : Sys)
    (hp : c → P (IntReg.GINTSTS, bits)) (hq : c → Q (ev, 0)) :
    adds P Q s (if c then (write_GINTSTS bits s).emit ev 0 else s) :=
  adds_ite _ _ _ (fun h => adds_trans (b := write_GINTSTS bits s)
    (adds_write_GINTSTS P Q _ _ (hp h)) (adds_emit P Q _ _ _ (hq h)))

/-- The stages of `poll` between the bus-reset test and the receive-FIFO test
acknowledge single bits of the status read and, when that read has `SOF`
clear, never call the callback with `SOF`. -/
theorem adds_poll_body (g : Nat) (u : Sys) (hsof : (g &&& USB_OTG_GINTSTS_SOF) = 0) :
    adds (fun w => w.1 = IntReg.GINTSTS → single_bit_of g w.2)
      (fun x => x.1 ≠ USB_EVENTS.SOF) u (poll_body g u) := by
  unfold poll_body handle_enum_done
  refine adds_trans (adds_ack_event _ _ _ _ _ _
      (fun h _ => single_bit_intro g _ 13 rfl h) (fun _ => by decide))
    (adds_trans (adds_ack_event _ _ _ _ _ _
      (fun h _ => single_bit_intro g _ 3 rfl h) (fun h => absurd hsof h))
    (adds_trans (adds_ack_event _ _ _ _ _ _
      (fun h _ => single_bit_intro g _ 10 rfl h) (fun _ => by decide))
    (adds_trans (adds_ack_event _ _ _ _ _ _
      (fun h _ => single_bit_intro g _ 11 rfl h) (fun _ => by decide))
    (adds_trans (adds_ite _ _ _ (fun _ => ?_)) (adds_ite _ _ _ (fun _ => ?_))))))
  · refine adds_mono (adds_handle_iepintx _) (fun w h hw => ?_) (fun x h => ?_)
    · rw [h.1] at hw
      cases hw
    · rw [h]
      decide
  · refine adds_mono (adds_handle_oepintx _) (fun w h hw => ?_) (fun x h => ?_)
    · rw [h.1] at hw
      cases hw
    · rcases h with h | h | h <;> rw [h] <;> decide

/-- Every invocation of `poll` that returns has written to `GINTSTS` only
single bits that were set in the value read on entry, and has not called the
callback with `SOF`. -/
theorem adds_poll (MAX_NUM_EP : Nat) (s t : Sys) (h : poll MAX_NUM_EP s = some t) :
    adds (fun w => w.1 = IntReg.GINTSTS → single_bit_of s.d.regs.GINTSTS w.2)
      (fun x => x.1 ≠ USB_EVENTS.SOF) s t := by
  by_cases hsof : (s.d.regs.GINTSTS &&& USB_OTG_GINTSTS_SOF) = 0
  · by_cases hrst : (s.d.regs.GINTSTS &&& USB_OTG_GINTSTS_USBRST) = 0
    · rw [poll_other MAX_NUM_EP s hsof hrst] at h
      have hstage := adds_trans (adds_poll_head (fun x => x.1 ≠ USB_EVENTS.SOF) s)
        (adds_poll_body s.d.regs.GINTSTS (poll_head s) hsof)
      split_ifs at h with hrx
      · have hflag : ((poll_body s.d.regs.GINTSTS (poll_head s)).d.regs.GINTSTS &&&
            USB_OTG_GINTSTS_RXFLVL) ≠ 0 := by
          rw [(rx_frame_poll_stages s).2.2.2.2.2.2]
          exact hrx
        obtain ⟨_, b, c⟩ := poll_rxflvl_spec _ t hflag h
        exact adds_trans hstage (adds_of_eq b c)
      · simp only [Option.some.injEq] at h
        subst h
        exact hstage
    · rw [poll_reset MAX_NUM_EP s hsof hrst] at h
      simp only [Option.some.injEq] at h
      subst h
      refine adds_trans (adds_poll_head _ s) (adds_trans (b := write_GINTSTS
        USB_OTG_GINTSTS_USBRST (poll_head s)) (adds_write_GINTSTS _ _ _ _
        (fun _ => single_bit_intro _ _ 12 rfl hrst)) ?_)
      refine adds_trans (b := handle_reset_done MAX_NUM_EP
        (write_GINTSTS USB_OTG_GINTSTS_USBRST (poll_head s))) (adds_of_eq rfl rfl)
        (adds_emit _ _ _ _ _ (by decide))
  · rw [poll_sof MAX_NUM_EP s hsof] at h
    simp only [Option.some.injEq] at h
    subst h
    exact adds_write_GINTSTS _ _ _ _ (fun _ => single_bit_intro _ _ 3 rfl hsof)

theorem poll_getD (MAX_NUM_EP : Nat) (s : Sys) (h : (poll MAX_NUM_EP s).isSome = true) :
    poll MAX_NUM_EP s = some ((poll MAX_NUM_EP s).getD s) := by
  cases hp : poll MAX_NUM_EP s with
  | none => rw [hp] at h; exact absurd h (by decide)
  | some t => rfl

/-! ## C22: start of frame -/

/-- C22: `poll` never delivers a start-of-frame event.  In an invocation whose
status read has `SOF` set, `poll` returns the state it found with one write to
`GINTSTS` recorded, of exactly the `SOF` bit (which clears that bit): the
callback is not called and nothing else changes.  In every invocation that
returns, none of the callback calls it adds is a `SOF` event. -/
theorem C22_sof_is_dropped (MAX_NUM_EP : Nat) (s : Sys) :
    ((s.d.regs.GINTSTS &&& USB_OTG_GINTSTS_SOF) ≠ 0 →
      poll MAX_NUM_EP s = some
        { s.setRegs { s.d.regs with GINTSTS := s.d.regs.GINTSTS &&& not32 USB_OTG_GINTSTS_SOF } with
          int_writes := s.int_writes ++ [(IntReg.GINTSTS, USB_OTG_GINTSTS_SOF)] }) ∧
    (∀ t, poll MAX_NUM_EP s = some t →
      ∃ ne, t.events = s.events ++ ne ∧ ∀ x ∈ ne, x.1 ≠ USB_EVENTS.SOF) :=
  ⟨fun h => poll_sof MAX_NUM_EP s h, fun t h => (adds_poll MAX_NUM_EP s t h).2⟩

/-- C22 on a driver with `SOF` pending next to bus reset, enumeration done,
endpoint interrupts and receive data (only the `SOF` write happens, no event),
and on a driver without `SOF` whose invocation delivers six events, none of
them `SOF`. -/
theorem C22_sof_is_dropped_witness :
    (poll 8 sof_busy_start).map (fun t => (t.int_writes, t.events, t.rx_fifo)) =
      some ([(IntReg.GINTSTS, USB_OTG_GINTSTS_SOF)], [], two_arrivals_fifo) ∧
    poll 8 sof_busy_start = some
      { sof_busy_start.setRegs { sof_busy_start.d.regs with
          GINTSTS := sof_busy_start.d.regs.GINTSTS &&& not32 USB_OTG_GINTSTS_SOF } with
        int_writes := sof_busy_start.int_writes ++ [(IntReg.GINTSTS, USB_OTG_GINTSTS_SOF)] } ∧
    ((poll 8 enum_busy_start).getD enum_busy_start).events =
      [(USB_EVENTS.ENUM_DONE, 0), (USB_EVENTS.EARLY_SUSPEND, 0), (USB_EVENTS.SUSPEND, 0),
        (USB_EVENTS.CTRL_DATA_PHASE_DONE, 0), (USB_EVENTS.CTRL_SETUP_PHASE_DONE, 0),
        (USB_EVENTS.EP_RX, 0)] ∧
    (∃ ne, ((poll 8 enum_busy_start).getD enum_busy_start).events =
      enum_busy_start.events ++ ne ∧ ∀ x ∈ ne, x.1 ≠ USB_EVENTS.SOF) :=
  ⟨by decide, (C22_sof_is_dropped 8 sof_busy_start).1 (by decide), by decide,
   (C22_sof_is_dropped 8 enum_busy_start).2 _ (poll_getD 8 enum_busy_start (by decide))⟩

/-! ## C24: acknowledgements are single bits -/

/-- C24: acknowledgement is never a blanket clear.  `poll` takes its status
from the one value of `GINTSTS` read on entry, and in an invocation that
returns every value written to `GINTSTS` is a single bit that was set in that
value.  Every value `handle_iepintx` writes to an interrupt-status register
goes to `DIEPINT` of the endpoint it services and is a single bit that was set
in the value it read from that register; the same holds for `handle_oepintx`
and `DOEPINT`. -/
theorem C24_single_bit_acknowledgement (MAX_NUM_EP : Nat) (s : Sys) :
    (∀ t, poll MAX_NUM_EP s = some t →
      ∃ nw, t.int_writes = s.int_writes ++ nw ∧
        ∀ w ∈ nw, w.1 = IntReg.GINTSTS →
          ∃ i, w.2 = 2 ^ i ∧ s.d.regs.GINTSTS.testBit i = true) ∧
    (∃ nw, (handle_iepintx s).2.int_writes = s.int_writes ++ nw ∧
      ∀ w ∈ nw,
        w.1 = IntReg.DIEPINT
          (builtin_ctz (FLD2VAL USB_OTG_DAINT_IEPINT_Pos USB_OTG_DAINT_IEPINT_Msk s.DAINT)) ∧
        ∃ i, w.2 = 2 ^ i ∧ (s.d.regs.DIEPINT
          (builtin_ctz (FLD2VAL USB_OTG_DAINT_IEPINT_Pos USB_OTG_DAINT_IEPINT_Msk
            s.DAINT))).testBit i = true) ∧
    (∃ nw, (handle_oepintx s).2.int_writes = s.int_writes ++ nw ∧
      ∀ w ∈ nw,
        w.1 = IntReg.DOEPINT
          (builtin_ctz (FLD2VAL USB_OTG_DAINT_OEPINT_Pos USB_OTG_DAINT_OEPINT_Msk s.DAINT)) ∧
        ∃ i, w.2 = 2 ^ i ∧ (s.d.regs.DOEPINT
          (builtin_ctz (FLD2VAL USB_OTG_DAINT_OEPINT_Pos USB_OTG_DAINT_OEPINT_Msk
            s.DAINT))).testBit i = true) :=
  ⟨fun t h => (adds_poll MAX_NUM_EP s t h).1, (adds_handle_iepintx s).1,
    (adds_handle_oepintx s).1⟩

/-- C24 on a driver with mode mismatch, enumeration done, both suspend
conditions and an OUT interrupt on endpoint 0 pending: `poll` writes the four
status bits one by one, then the three pending bits of `DOEPINT0`. -/
theorem C24_single_bit_acknowledgement_witness :
    ((poll 8 enum_busy_start).getD enum_busy_start).int_writes =
      [(IntReg.GINTSTS, 0x2), (IntReg.GINTSTS, 0x2000), (IntReg.GINTSTS, 0x400),
        (IntReg.GINTSTS, 0x800), (IntReg.DOEPINT 0, 0x20), (IntReg.DOEPINT 0, 0x8),
        (IntReg.DOEPINT 0, 0x1)] ∧
    (∃ nw, ((poll 8 enum_busy_start).getD enum_busy_start).int_writes =
        enum_busy_start.int_writes ++ nw ∧
      ∀ w ∈ nw, w.1 = IntReg.GINTSTS →
        ∃ i, w.2 = 2 ^ i ∧ enum_busy_start.d.regs.GINTSTS.testBit i = true) :=
  ⟨by decide,
   (C24_single_bit_acknowledgement 8 enum_busy_start).1 _
    (poll_getD 8 enum_busy_start (by decide))⟩

/-! ## C26: one packet per invocation -/

theorem poll_rx_fifo (MAX_NUM_EP : Nat) (s t : Sys) (h : poll MAX_NUM_EP s = some t) :
    t.rx_fifo = s.rx_fifo.drop (rx_words_taken s) := by
  unfold rx_words_taken
  by_cases hsof : (s.d.regs.GINTSTS &&& USB_OTG_GINTSTS_SOF) = 0
  · by_cases hrst : (s.d.regs.GINTSTS &&& USB_OTG_GINTSTS_USBRST) = 0
    · obtain ⟨_, _, f3, _, _, _, f7⟩ := rx_frame_poll_stages s
      rw [poll_other MAX_NUM_EP s hsof hrst] at h
      by_cases hrx : (s.d.regs.GINTSTS &&& USB_OTG_GINTSTS_RXFLVL) = 0
      · rw [if_neg (fun hn => hn hrx)] at h
        simp only [Option.some.injEq] at h
        subst h
        simp only [hsof, hrst, hrx, ne_eq, not_true_eq_false, or_true, if_true, List.drop_zero]
        exact f3
      · rw [if_pos hrx] at h
        obtain ⟨a, _, _⟩ := poll_rxflvl_spec _ t (by rw [f7]; exact hrx) h
        rw [f3] at a
        simp only [hsof, hrst, hrx, ne_eq, not_true_eq_false, or_self, if_false]
        rw [a]
    · rw [poll_reset MAX_NUM_EP s hsof hrst] at h
      simp only [Option.some.injEq] at h
      subst h
      simp only [hrst, ne_eq, not_false_eq_true, true_or, or_true, if_true, List.drop_zero]
      exact (ack_only_keeps_rx (ack_only_trans (ack_only_poll_head s)
        (ack_only_write_GINTSTS USB_OTG_GINTSTS_USBRST _))).2
  · rw [poll_sof MAX_NUM_EP s hsof] at h
    simp only [Option.some.injEq] at h
    subst h
    simp only [hsof, ne_eq, not_false_eq_true, true_or, if_true, List.drop_zero]
    rfl

theorem poll_returns (MAX_NUM_EP : Nat) (s : Sys)
    (harmed : (s.d.regs.GINTSTS &&& USB_OTG_GINTSTS_SOF) = 0 →
      (s.d.regs.GINTSTS &&& USB_OTG_GINTSTS_USBRST) = 0 →
      (s.d.regs.GINTSTS &&& USB_OTG_GINTSTS_RXFLVL) ≠ 0 →
      FLD2VAL USB_OTG_GRXSTSP_PKTSTS_Pos USB_OTG_GRXSTSP_PKTSTS_Msk (s.rx_fifo.headD 0) = 2 →
      FLD2VAL USB_OTG_GRXSTSP_BCNT_Pos USB_OTG_GRXSTSP_BCNT_Msk (s.rx_fifo.headD 0) ≠ 0 →
      get_buffer
        (out_pool (FLD2VAL USB_OTG_GRXSTSP_EPNUM_Pos USB_OTG_GRXSTSP_EPNUM_Msk
          (s.rx_fifo.headD 0)) s)
        (FLD2VAL USB_OTG_GRXSTSP_EPNUM_Pos USB_OTG_GRXSTSP_EPNUM_Msk (s.rx_fifo.headD 0)) ≠
        none) :
    ∃ t, poll MAX_NUM_EP s = some t := by
  by_cases hsof : (s.d.regs.GINTSTS &&& USB_OTG_GINTSTS_SOF) = 0
  · by_cases hrst : (s.d.regs.GINTSTS &&& USB_OTG_GINTSTS_USBRST) = 0
    · obtain ⟨f1, f2, f3, _, _, _, f7⟩ := rx_frame_poll_stages s
      rw [poll_other MAX_NUM_EP s hsof hrst]
      by_cases hrx : (s.d.regs.GINTSTS &&& USB_OTG_GINTSTS_RXFLVL) = 0
      · rw [if_neg (fun hn => hn hrx)]
        exact ⟨_, rfl⟩
      · rw [if_pos hrx]
        have hflag : ((poll_body s.d.regs.GINTSTS (poll_head s)).d.regs.GINTSTS &&&
            USB_OTG_GINTSTS_RXFLVL) ≠ 0 := by rw [f7]; exact hrx
        by_cases h2 : FLD2VAL USB_OTG_GRXSTSP_PKTSTS_Pos USB_OTG_GRXSTSP_PKTSTS_Msk
            (s.rx_fifo.headD 0) = 2
        · by_cases hb : FLD2VAL USB_OTG_GRXSTSP_BCNT_Pos USB_OTG_GRXSTSP_BCNT_Msk
              (s.rx_fifo.headD 0) = 0
          · rw [poll_rxflvl_nodata _ (by rw [f3]; exact fun h => h.2 hb)
              (by rw [f3, h2]; decide)]
            exact ⟨_, rfl⟩
          · have ha := harmed hsof hrst hrx h2 hb
            rw [poll_rxflvl_out_data _ (by rw [f3]; exact h2) (by rw [f3]; exact hb), f3]
            by_cases h0 : FLD2VAL USB_OTG_GRXSTSP_EPNUM_Pos USB_OTG_GRXSTSP_EPNUM_Msk
                (s.rx_fifo.headD 0) = 0
            · rw [if_neg (fun hn => hn h0)]
              rw [h0] at ha
              simp only [out_pool, if_true] at ha
              obtain ⟨b, hb'⟩ := Option.ne_none_iff_exists'.1 ha
              exact poll_out_received_ep0_armed _ _ b (by
                show get_buffer (poll_body s.d.regs.GINTSTS (poll_head s)).m_ep0_buffer 0 = some b
                rw [f2]; exact hb')
            · rw [if_pos h0]
              simp only [out_pool, if_neg h0] at ha
              obtain ⟨b, hb'⟩ := Option.ne_none_iff_exists'.1 ha
              exact poll_out_received_armed _ _ _ b (by
                show get_buffer (poll_body s.d.regs.GINTSTS (poll_head s)).m_rx_buffer _ = some b
                rw [f1]; exact hb')
        · by_cases h6 : FLD2VAL USB_OTG_GRXSTSP_PKTSTS_Pos USB_OTG_GRXSTSP_PKTSTS_Msk
              (s.rx_fifo.headD 0) = 6
          · by_cases hb : FLD2VAL USB_OTG_GRXSTSP_BCNT_Pos USB_OTG_GRXSTSP_BCNT_Msk
                (s.rx_fifo.headD 0) = 0
            · rw [poll_rxflvl_nodata _ (by rw [f3]; exact fun h => h.2 hb)
                (by rw [f3, h6]; decide)]
              exact ⟨_, rfl⟩
            · obtain ⟨t, ht, _⟩ := poll_rxflvl_setup _ hflag (by rw [f3]; exact h6)
                (by rw [f3]; exact hb)
              exact ⟨t, ht⟩
          · by_cases h4 : FLD2VAL USB_OTG_GRXSTSP_PKTSTS_Pos USB_OTG_GRXSTSP_PKTSTS_Msk
                (s.rx_fifo.headD 0) = 4
            · rw [poll_rxflvl_setup_complete _ (by rw [f3]; exact h4)]
              exact ⟨_, rfl⟩
            · rw [poll_rxflvl_nodata _ (by rw [f3]; exact fun h => h.1.elim h2 h6)
                (by rw [f3]; exact h4)]
              exact ⟨_, rfl⟩
    · exact ⟨_, poll_reset MAX_NUM_EP s hsof hrst⟩
  · exact ⟨_, poll_sof MAX_NUM_EP s hsof⟩

/-- C26: an invocation of `poll` that returns has taken `rx_words_taken` words
out of the receive FIFO: none when `RXFLVL` is clear or `SOF` or `USBRST` is
set, otherwise one status word, followed for `OUT_RECEIVED` or
`SETUP_RECEIVED` with `BCNT != 0` by the `ceil(BCNT / 4)` data words of that
packet and by nothing for every other status word.  `poll` returns whenever
the endpoint of an `OUT_RECEIVED` word with data has an armed buffer.  For
`OUT_RECEIVED` with `BCNT = 0`, `OUT_TRANSFER_DONE` (3), `GLOBAL_NAK` (1) and
unrecognised codes the receive-FIFO branch changes nothing but the FIFO: the
result is the state the earlier branches left, with the status word popped,
and the receive pools and slots, the setup packet slot and the OUT control
registers are as on entry. -/
theorem C26_one_packet_per_invocation (MAX_NUM_EP : Nat) (s : Sys) :
    (∀ t, poll MAX_NUM_EP s = some t → t.rx_fifo = s.rx_fifo.drop (rx_words_taken s)) ∧
    (((s.d.regs.GINTSTS &&& USB_OTG_GINTSTS_SOF) = 0 →
        (s.d.regs.GINTSTS &&& USB_OTG_GINTSTS_USBRST) = 0 →
        (s.d.regs.GINTSTS &&& USB_OTG_GINTSTS_RXFLVL) ≠ 0 →
        FLD2VAL USB_OTG_GRXSTSP_PKTSTS_Pos USB_OTG_GRXSTSP_PKTSTS_Msk (s.rx_fifo.headD 0) = 2 →
        FLD2VAL USB_OTG_GRXSTSP_BCNT_Pos USB_OTG_GRXSTSP_BCNT_Msk (s.rx_fifo.headD 0) ≠ 0 →
        get_buffer
          (out_pool (FLD2VAL USB_OTG_GRXSTSP_EPNUM_Pos USB_OTG_GRXSTSP_EPNUM_Msk
            (s.rx_fifo.headD 0)) s)
          (FLD2VAL USB_OTG_GRXSTSP_EPNUM_Pos USB_OTG_GRXSTSP_EPNUM_Msk (s.rx_fifo.headD 0)) ≠
          none) →
      ∃ t, poll MAX_NUM_EP s = some t) ∧
    ((s.d.regs.GINTSTS &&& USB_OTG_GINTSTS_SOF) = 0 →
      (s.d.regs.GINTSTS &&& USB_OTG_GINTSTS_USBRST) = 0 →
      (s.d.regs.GINTSTS &&& USB_OTG_GINTSTS_RXFLVL) ≠ 0 →
      ¬ ((FLD2VAL USB_OTG_GRXSTSP_PKTSTS_Pos USB_OTG_GRXSTSP_PKTSTS_Msk (s.rx_fifo.headD 0) = 2 ∨
          FLD2VAL USB_OTG_GRXSTSP_PKTSTS_Pos USB_OTG_GRXSTSP_PKTSTS_Msk (s.rx_fifo.headD 0) = 6) ∧
        FLD2VAL USB_OTG_GRXSTSP_BCNT_Pos USB_OTG_GRXSTSP_BCNT_Msk (s.rx_fifo.headD 0) ≠ 0) →
      FLD2VAL USB_OTG_GRXSTSP_PKTSTS_Pos USB_OTG_GRXSTSP_PKTSTS_Msk (s.rx_fifo.headD 0) ≠ 4 →
      ∃ t, poll MAX_NUM_EP s = some t ∧
        t = { poll_body s.d.regs.GINTSTS (poll_head s) with rx_fifo := s.rx_fifo.tail } ∧
        t.m_rx_buffer = s.m_rx_buffer ∧ t.m_ep0_buffer = s.m_ep0_buffer ∧
        t.m_last_setup_packet = s.m_last_setup_packet ∧
        t.d.regs.DOEPCTL = s.d.regs.DOEPCTL) := by
  refine ⟨poll_rx_fifo MAX_NUM_EP s, poll_returns MAX_NUM_EP s, fun hsof hrst hrx hd h4 => ?_⟩
  obtain ⟨f1, f2, f3, f4, f5, _, _⟩ := rx_frame_poll_stages s
  refine ⟨_, ?_, rfl, f1, f2, f4, f5⟩
  rw [poll_other MAX_NUM_EP s hsof hrst, if_pos hrx,
    poll_rxflvl_nodata _ (by rw [f3]; exact hd) (by rw [f3]; exact h4), f3]

/-- C26 on the first of two arrivals of 10 bytes (one status word and three
data words are taken, the second arrival stays in the FIFO) and on a
`GLOBAL_NAK` word (only the status word is taken). -/
theorem C26_one_packet_per_invocation_witness :
    rx_words_taken two_arrivals_start = 4 ∧
    two_arrivals_mid.rx_fifo = [rx_status_word 2 10 2, 0x0E0D0C0B, 0x1211100F, 0x00001413] ∧
    two_arrivals_mid.rx_fifo = two_arrivals_start.rx_fifo.drop (rx_words_taken two_arrivals_start) ∧
    (∃ t, poll 8 global_nak_start = some t ∧
      t = { poll_body global_nak_start.d.regs.GINTSTS (poll_head global_nak_start) with
            rx_fifo := global_nak_start.rx_fifo.tail } ∧
      t.m_rx_buffer = global_nak_start.m_rx_buffer ∧
      t.m_ep0_buffer = global_nak_start.m_ep0_buffer ∧
      t.m_last_setup_packet = global_nak_start.m_last_setup_packet ∧
      t.d.regs.DOEPCTL = global_nak_start.d.regs.DOEPCTL) :=
  ⟨by decide, by decide,
   (C26_one_packet_per_invocation 8 two_arrivals_start).1 two_arrivals_mid
    (poll_getD 8 two_arrivals_start (by decide)),
   (C26_one_packet_per_invocation 8 global_nak_start).2.2 (by decide) (by decide) (by decide)
    (by decide) (by decide)⟩

/-! ## C25: one endpoint per call -/

theorem setReg_comm (f : Nat → Nat) (i j a b : Nat) (h : i ≠ j) :
    setReg (setReg f i a) j b = setReg (setReg f j b) i a := by
  funext k
  unfold setReg
  by_cases h1 : k = j
  · subst h1
    rw [if_pos rfl, if_neg (fun hk : k = i => h hk.symm), if_pos rfl]
  · rw [if_neg h1]
    by_cases h2 : k = i
    · rw [if_pos h2, if_pos h2]
    · rw [if_neg h2, if_neg h2, if_neg h1]

theorem setPool_comm (f : Nat → EpPool) (i j : Nat) (a b : EpPool) (h : i ≠ j) :
    setPool (setPool f i a) j b = setPool (setPool f j b) i a := by
  funext k
  unfold setPool
  by_cases h1 : k = j
  · subst h1
    rw [if_pos rfl, if_neg (fun hk : k = i => h hk.symm), if_pos rfl]
  · rw [if_neg h1]
    by_cases h2 : k = i
    · rw [if_pos h2, if_pos h2]
    · rw [if_neg h2, if_neg h2, if_neg h1]

theorem write_DIEPINT_comm (e bit j di ctl : Nat) (p : EpPool) (s : Sys) (h : j ≠ e) :
    write_DIEPINT e bit (with_in_endpoint j di ctl p s) =
      with_in_endpoint j di ctl p (write_DIEPINT e bit s) := by
  unfold write_DIEPINT with_in_endpoint Sys.setRegs
  simp only []
  rw [setReg_comm _ _ _ _ _ h]

theorem ack_DIEPINT_comm (g e bit j di ctl : Nat) (p : EpPool) (s : Sys) (h : j ≠ e) :
    ack_DIEPINT g e bit (with_in_endpoint j di ctl p s) =
      with_in_endpoint j di ctl p (ack_DIEPINT g e bit s) := by
  unfold ack_DIEPINT
  split_ifs
  · exact write_DIEPINT_comm e bit j di ctl p s h
  · rfl

theorem iepint_acks_comm (g e j di ctl : Nat) (p : EpPool) (s : Sys) (h : j ≠ e) :
    iepint_acks g e (with_in_endpoint j di ctl p s) =
      with_in_endpoint j di ctl p (iepint_acks g e s) := by
  unfold iepint_acks
  simp only [ack_DIEPINT_comm _ _ _ _ _ _ _ _ h]

theorem setPool_other (P : Nat → EpPool) (j e : Nat) (p : EpPool) (h : j ≠ e) :
    setPool P j p e = P e := by
  unfold setPool
  rw [if_neg (fun he : e = j => h he.symm)]

theorem release_buffer_comm (P : Nat → EpPool) (j e : Nat) (p : EpPool) (c : Buffer)
    (h : j ≠ e) :
    release_buffer (setPool P j p) e c = setPool (release_buffer P e c) j p := by
  unfold release_buffer
  rw [setPool_other P j e p h, setPool_comm _ _ _ _ _ h]

theorem set_buffer_comm (P : Nat → EpPool) (j e : Nat) (p : EpPool) (b : Option Buffer)
    (h : j ≠ e) :
    set_buffer (setPool P j p) e b = setPool (set_buffer P e b) j p := by
  unfold set_buffer
  rw [setPool_other P j e p h, setPool_comm _ _ _ _ _ h]

theorem poll_dequeue_buffer_comm (P : Nat → EpPool) (j e : Nat) (p : EpPool) (h : j ≠ e) :
    poll_dequeue_buffer (setPool P j p) e =
      ((poll_dequeue_buffer P e).1, setPool (poll_dequeue_buffer P e).2 j p) := by
  unfold poll_dequeue_buffer
  rw [setPool_other P j e p h]
  cases (P e).queue with
  | nil => rfl
  | cons b rest =>
    show (some b, setPool (setPool P j p) e _) = (some b, setPool (setPool P e _) j p)
    rw [setPool_comm _ _ _ _ _ h]

theorem tx_release_current_comm (e j di ctl : Nat) (p : EpPool) (u : Sys) (h : j ≠ e) :
    tx_release_current e (with_in_endpoint j di ctl p u) =
      with_in_endpoint j di ctl p (tx_release_current e u) := by
  have hg : get_buffer (with_in_endpoint j di ctl p u).m_tx_buffer e =
      get_buffer u.m_tx_buffer e := by
    show (setPool u.m_tx_buffer j p e).current = _
    rw [setPool_other _ _ _ _ h]
    rfl
  unfold tx_release_current
  rw [hg]
  cases get_buffer u.m_tx_buffer e with
  | none => rfl
  | some c =>
    show ({ with_in_endpoint j di ctl p u with
      m_tx_buffer := release_buffer (setPool u.m_tx_buffer j p) e c } : Sys) = _
    rw [release_buffer_comm _ _ _ _ _ h]
    rfl

theorem or_DIEPCTL_comm (e bits j di ctl : Nat) (p : EpPool) (u : Sys) (h : j ≠ e) :
    or_DIEPCTL e bits (with_in_endpoint j di ctl p u) =
      with_in_endpoint j di ctl p (or_DIEPCTL e bits u) := by
  have hv : (with_in_endpoint j di ctl p u).d.regs.DIEPCTL e = u.d.regs.DIEPCTL e := by
    show setReg u.d.regs.DIEPCTL j ctl e = _
    unfold setReg
    rw [if_neg (fun he : e = j => h he.symm)]
  unfold or_DIEPCTL
  simp only [hv]
  unfold with_in_endpoint Sys.setRegs
  simp only []
  rw [setReg_comm _ _ _ _ _ h]

theorem setReg_other (f : Nat → Nat) (j e v : Nat) (h : j ≠ e) : setReg f j v e = f e := by
  unfold setReg
  rw [if_neg (fun he : e = j => h he.symm)]

theorem ep_write_regs_comm (a len j di ctl : Nat) (r : Regs) (h : j ≠ a) :
    ep_write_regs a len
        { r with DIEPINT := setReg r.DIEPINT j di, DIEPCTL := setReg r.DIEPCTL j ctl } =
      { ep_write_regs a len r with
        DIEPINT := setReg (ep_write_regs a len r).DIEPINT j di,
        DIEPCTL := setReg (ep_write_regs a len r).DIEPCTL j ctl } := by
  unfold ep_write_regs
  split_ifs
  · simp only [setReg_other _ _ _ _ h]
    rw [setReg_comm _ _ _ _ _ h]
  · simp only [setReg_other _ _ _ _ h]
    rw [setReg_comm _ _ _ _ _ h]

theorem ep_write_done_comm (ep : Nat) (buf : Nat → Nat) (len j di ctl : Nat) (p : EpPool)
    (u : Sys) (h : j ≠ get_ep_addr ep) :
    ep_write_done ep buf len (with_in_endpoint j di ctl p u) =
      with_in_endpoint j di ctl p (ep_write_done ep buf len u) := by
  unfold ep_write_done with_in_endpoint Sys.setRegs
  simp only []
  rw [ep_write_regs_comm _ _ _ _ _ _ h]

theorem ep_write_accepts_comm (ep len j di ctl : Nat) (p : EpPool) (u : Sys)
    (h : j ≠ get_ep_addr ep) :
    ep_write_accepts ep len (with_in_endpoint j di ctl p u) ↔ ep_write_accepts ep len u := by
  have hv : (with_in_endpoint j di ctl p u).d.regs.DIEPCTL (get_ep_addr ep) =
      u.d.regs.DIEPCTL (get_ep_addr ep) := setReg_other _ _ _ _ h
  unfold ep_write_accepts
  rw [hv]
  exact Iff.rfl

/-- A call of `ep_write` neither looks at nor changes the interrupt register,
control register and pool part of another endpoint. -/
theorem ep_write_comm (ep : Nat) (buf : Nat → Nat) (len j di ctl : Nat) (p : EpPool) (u : Sys)
    (h : j ≠ get_ep_addr ep) :
    ep_write ep buf len (with_in_endpoint j di ctl p u) =
      ((ep_write ep buf len u).1, with_in_endpoint j di ctl p (ep_write ep buf len u).2) := by
  by_cases hacc : ep_write_accepts ep len u
  · rw [(ep_write_eq ep buf len u).1 hacc,
      (ep_write_eq ep buf len _).1 ((ep_write_accepts_comm ep len j di ctl p u h).2 hacc),
      ep_write_done_comm ep buf len j di ctl p u h]
  · rw [(ep_write_eq ep buf len u).2 hacc,
      (ep_write_eq ep buf len _).2 (fun hn => hacc ((ep_write_accepts_comm ep len j di ctl p u h).1 hn))]

theorem with_in_endpoint_tx (j di ctl : Nat) (p : EpPool) (u : Sys) (Y : Nat → EpPool) :
    ({ with_in_endpoint j di ctl p u with m_tx_buffer := setPool Y j p } : Sys) =
      with_in_endpoint j di ctl p { u with m_tx_buffer := Y } := rfl

theorem tx_load_next_comm (e j di ctl : Nat) (p : EpPool) (u : Sys) (h : j ≠ e)
    (he : get_ep_addr (0x80 ||| e) = e) :
    tx_load_next e (with_in_endpoint j di ctl p u) =
      with_in_endpoint j di ctl p (tx_load_next e u) := by
  have hd : poll_dequeue_buffer (with_in_endpoint j di ctl p u).m_tx_buffer e =
      ((poll_dequeue_buffer u.m_tx_buffer e).1,
        setPool (poll_dequeue_buffer u.m_tx_buffer e).2 j p) :=
    poll_dequeue_buffer_comm u.m_tx_buffer j e p h
  unfold tx_load_next
  simp only [hd]
  cases (poll_dequeue_buffer u.m_tx_buffer e).1 with
  | none =>
    simp only [set_buffer_comm _ _ _ _ _ h, with_in_endpoint_tx]
    exact or_DIEPCTL_comm e _ j di ctl p _ h
  | some b =>
    simp only [set_buffer_comm _ _ _ _ _ h, with_in_endpoint_tx]
    rw [ep_write_comm _ _ _ j di ctl p _ (by rw [he]; exact h)]

theorem iepint_xfrc_comm (e j di ctl : Nat) (p : EpPool) (u : Sys) (h : j ≠ e)
    (he : get_ep_addr (0x80 ||| e) = e) :
    iepint_xfrc e (with_in_endpoint j di ctl p u) =
      with_in_endpoint j di ctl p (iepint_xfrc e u) := by
  unfold iepint_xfrc
  simp only [write_DIEPINT_comm _ _ _ _ _ _ _ h, tx_release_current_comm _ _ _ _ _ _ h,
    tx_load_next_comm _ _ _ _ _ _ h he]
  split_ifs <;> rfl

theorem find_range_spec (p : Nat → Bool) (n : Nat) :
    ((List.range n).find? p = none ∧ ∀ i, i < n → p i = false) ∨
    ∃ i, (List.range n).find? p = some i ∧ i < n ∧ p i = true ∧ ∀ j, j < i → p j = false := by
  induction n with
  | zero => exact Or.inl ⟨rfl, fun i hi => absurd hi (Nat.not_lt_zero i)⟩
  | succ n ih =>
    rw [List.range_succ, List.find?_append]
    rcases ih with ⟨h1, h2⟩ | ⟨i, h1, h2, h3, h4⟩
    · rw [h1]
      cases hp : p n
      · refine Or.inl ⟨by simp [hp], fun i hi => ?_⟩
        by_cases hin : i = n
        · rw [hin]; exact hp
        · exact h2 i (by omega)
      · exact Or.inr ⟨n, by simp [hp], Nat.lt_succ_self n, hp, h2⟩
    · exact Or.inr ⟨i, by rw [h1]; rfl, by omega, h3, h4⟩

/-- `__builtin_ctz` of a non-zero 32-bit value is the index of its least
significant set bit. -/
theorem builtin_ctz_spec (x : Nat) (hx : x ≠ 0) (hlt : x < 2 ^ 32) :
    x.testBit (builtin_ctz x) = true ∧ ∀ j, j < builtin_ctz x → x.testBit j = false := by
  rcases find_range_spec (fun i => x.testBit i) 32 with ⟨_, h2⟩ | ⟨i, h1, _, h3, h4⟩
  · exfalso
    apply hx
    apply Nat.eq_of_testBit_eq
    intro i
    rw [Nat.zero_testBit]
    by_cases hi : i < 32
    · exact h2 i hi
    · exact Nat.testBit_lt_two_pow (Nat.lt_of_lt_of_le hlt
        (Nat.pow_le_pow_right (by decide) (by omega)))
  · have hc : builtin_ctz x = i := by
      unfold builtin_ctz
      rw [h1]
      rfl
    rw [hc]
    exact ⟨h3, h4⟩

theorem builtin_ctz_lt (x : Nat) (hx : x ≠ 0) (hlt : x < 2 ^ 16) : builtin_ctz x < 16 := by
  have h := (builtin_ctz_spec x hx (by omega)).1
  by_contra hn
  rw [Nat.testBit_lt_two_pow (Nat.lt_of_lt_of_le hlt
    (Nat.pow_le_pow_right (by decide) (by omega)))] at h
  exact absurd h (by decide)

theorem iepint_field_lt (x : Nat) :
    FLD2VAL USB_OTG_DAINT_IEPINT_Pos USB_OTG_DAINT_IEPINT_Msk x < 2 ^ 16 := by
  unfold FLD2VAL USB_OTG_DAINT_IEPINT_Pos USB_OTG_DAINT_IEPINT_Msk
  have h : x &&& 0xFFFF ≤ 0xFFFF := Nat.and_le_right
  simp only [Nat.shiftRight_zero]
  omega

theorem oepint_field_lt (x : Nat) :
    FLD2VAL USB_OTG_DAINT_OEPINT_Pos USB_OTG_DAINT_OEPINT_Msk x < 2 ^ 16 := by
  unfold FLD2VAL USB_OTG_DAINT_OEPINT_Pos USB_OTG_DAINT_OEPINT_Msk
  have h : x &&& 0xFFFF0000 ≤ 0xFFFF0000 := Nat.and_le_right
  rw [Nat.shiftRight_eq_div_pow]
  omega

theorem handle_iepintx_eq (s : Sys) (e : Nat)
    (hI : FLD2VAL USB_OTG_DAINT_IEPINT_Pos USB_OTG_DAINT_IEPINT_Msk s.DAINT ≠ 0)
    (he : builtin_ctz (FLD2VAL USB_OTG_DAINT_IEPINT_Pos USB_OTG_DAINT_IEPINT_Msk s.DAINT) = e) :
    handle_iepintx s =
      (true,
        if (s.d.regs.DIEPINT e &&& USB_OTG_DIEPINT_XFRC) ≠ 0 then
          iepint_xfrc e (iepint_acks (s.d.regs.DIEPINT e) e s)
        else iepint_acks (s.d.regs.DIEPINT e) e s) := by
  unfold handle_iepintx
  simp only [if_neg hI, he]
  split_ifs <;> rfl

/-- `handle_iepintx` servicing endpoint `e` neither looks at nor changes the
interrupt register, control register and pool part of another endpoint `j`. -/
theorem handle_iepintx_comm (s : Sys) (e j di ctl : Nat) (p : EpPool)
    (hI : FLD2VAL USB_OTG_DAINT_IEPINT_Pos USB_OTG_DAINT_IEPINT_Msk s.DAINT ≠ 0)
    (he : builtin_ctz (FLD2VAL USB_OTG_DAINT_IEPINT_Pos USB_OTG_DAINT_IEPINT_Msk s.DAINT) = e)
    (h : j ≠ e) :
    handle_iepintx (with_in_endpoint j di ctl p s) =
      (true, with_in_endpoint j di ctl p (handle_iepintx s).2) := by
  have hlt : e < 16 := by
    rw [← he]
    exact builtin_ctz_lt _ hI (iepint_field_lt _)
  have ha : get_ep_addr (0x80 ||| e) = e := (in_ep_of_le e (by omega)).2.1
  have hv : (with_in_endpoint j di ctl p s).d.regs.DIEPINT e = s.d.regs.DIEPINT e :=
    setReg_other _ _ _ _ h
  rw [handle_iepintx_eq s e hI he, handle_iepintx_eq (with_in_endpoint j di ctl p s) e hI he, hv,
    iepint_acks_comm _ _ _ _ _ _ _ h, iepint_xfrc_comm _ _ _ _ _ _ h ha]
  split_ifs <;> rfl

theorem write_DOEPINT_comm (e bit j doi ctl : Nat) (p p0 : EpPool) (s : Sys) (h : j ≠ e) :
    write_DOEPINT e bit (with_out_endpoint j doi ctl p p0 s) =
      with_out_endpoint j doi ctl p p0 (write_DOEPINT e bit s) := by
  unfold write_DOEPINT with_out_endpoint Sys.setRegs
  simp only []
  rw [setReg_comm _ _ _ _ _ h]

theorem ack_DOEPINT_comm (g e bit j doi ctl : Nat) (p p0 : EpPool) (s : Sys) (h : j ≠ e) :
    ack_DOEPINT g e bit (with_out_endpoint j doi ctl p p0 s) =
      with_out_endpoint j doi ctl p p0 (ack_DOEPINT g e bit s) := by
  unfold ack_DOEPINT
  split_ifs
  · exact write_DOEPINT_comm e bit j doi ctl p p0 s h
  · rfl

theorem ack_emit_DOEPINT_comm (g e bit j doi ctl : Nat) (p p0 : EpPool) (ev : USB_EVENTS)
    (s : Sys) (h : j ≠ e) :
    ack_emit_DOEPINT g e bit ev (with_out_endpoint j doi ctl p p0 s) =
      with_out_endpoint j doi ctl p p0 (ack_emit_DOEPINT g e bit ev s) := by
  unfold ack_emit_DOEPINT
  split_ifs
  · rw [write_DOEPINT_comm e bit j doi ctl p p0 s h]
    rfl
  · rfl

theorem oepint_acks_comm (g e j doi ctl : Nat) (p p0 : EpPool) (s : Sys) (h : j ≠ e) :
    oepint_acks g e (with_out_endpoint j doi ctl p p0 s) =
      with_out_endpoint j doi ctl p p0 (oepint_acks g e s) := by
  unfold oepint_acks
  simp only [ack_DOEPINT_comm _ _ _ _ _ _ _ _ _ h, ack_emit_DOEPINT_comm _ _ _ _ _ _ _ _ _ _ h]

/-- `handle_oepintx` servicing endpoint `e` neither looks at nor changes the
interrupt register, control register and pool parts of another endpoint `j`. -/
theorem handle_oepintx_comm (s : Sys) (e j doi ctl : Nat) (p p0 : EpPool)
    (hO : FLD2VAL USB_OTG_DAINT_OEPINT_Pos USB_OTG_DAINT_OEPINT_Msk s.DAINT ≠ 0)
    (he : builtin_ctz (FLD2VAL USB_OTG_DAINT_OEPINT_Pos USB_OTG_DAINT_OEPINT_Msk s.DAINT) = e)
    (h : j ≠ e) :
    handle_oepintx (with_out_endpoint j doi ctl p p0 s) =
      (true, with_out_endpoint j doi ctl p p0 (handle_oepintx s).2) := by
  have hv : (with_out_endpoint j doi ctl p p0 s).d.regs.DOEPINT e = s.d.regs.DOEPINT e :=
    setReg_other _ _ _ _ h
  rw [handle_oepintx_eq s e hO he, handle_oepintx_eq (with_out_endpoint j doi ctl p p0 s) e hO he,
    hv, oepint_acks_comm _ _ _ _ _ _ _ _ h, write_DOEPINT_comm _ _ _ _ _ _ _ _ h]
  split_ifs <;> rfl

theorem setReg_self (f : Nat → Nat) (j : Nat) : setReg f j (f j) = f := by
  funext k
  unfold setReg
  split_ifs with hk
  · rw [hk]
  · rfl

theorem setPool_self (f : Nat → EpPool) (j : Nat) : setPool f j (f j) = f := by
  funext k
  unfold setPool
  split_ifs with hk
  · rw [hk]
  · rfl

theorem with_in_endpoint_self (j : Nat) (s : Sys) :
    with_in_endpoint j (s.d.regs.DIEPINT j) (s.d.regs.DIEPCTL j) (s.m_tx_buffer j) s = s := by
  unfold with_in_endpoint Sys.setRegs
  simp only [setReg_self, setPool_self]

theorem with_out_endpoint_self (j : Nat) (s : Sys) :
    with_out_endpoint j (s.d.regs.DOEPINT j) (s.d.regs.DOEPCTL j) (s.m_rx_buffer j)
      (s.m_ep0_buffer j) s = s := by
  unfold with_out_endpoint Sys.setRegs
  simp only [setReg_self, setPool_self]

theorem with_in_endpoint_at (j di ctl : Nat) (p : EpPool) (s : Sys) :
    (with_in_endpoint j di ctl p s).d.regs.DIEPINT j = di ∧
    (with_in_endpoint j di ctl p s).d.regs.DIEPCTL j = ctl ∧
    (with_in_endpoint j di ctl p s).m_tx_buffer j = p := by
  unfold with_in_endpoint Sys.setRegs setReg setPool
  simp only [if_true, and_self]

theorem with_out_endpoint_at (j doi ctl : Nat) (p p0 : EpPool) (s : Sys) :
    (with_out_endpoint j doi ctl p p0 s).d.regs.DOEPINT j = doi ∧
    (with_out_endpoint j doi ctl p p0 s).d.regs.DOEPCTL j = ctl ∧
    (with_out_endpoint j doi ctl p p0 s).m_rx_buffer j = p ∧
    (with_out_endpoint j doi ctl p p0 s).m_ep0_buffer j = p0 := by
  unfold with_out_endpoint Sys.setRegs setReg setPool
  simp only [if_true, and_self]
/-! ## What the handlers do for the serviced endpoint -/

theorem ack_DIEPINT_writes (g ep bit : Nat) (s : Sys) :
    (ack_DIEPINT g ep bit s).int_writes = s.int_writes ++ ack_of (IntReg.DIEPINT ep) g bit := by
  unfold ack_DIEPINT ack_of
  by_cases h : (g &&& bit) ≠ 0
  · simp only [if_pos h]
    rfl
  · simp only [if_neg h, List.append_nil]

theorem iepint_acks_writes (g ep : Nat) (s : Sys) :
    (iepint_acks g ep s).int_writes =
      s.int_writes ++
        (ack_of (IntReg.DIEPINT ep) g USB_OTG_DIEPINT_NAK ++
        ack_of (IntReg.DIEPINT ep) g USB_OTG_DIEPINT_PKTDRPSTS ++
        ack_of (IntReg.DIEPINT ep) g USB_OTG_DIEPINT_TXFIFOUDRN ++
        ack_of (IntReg.DIEPINT ep) g (1 <<< 5) ++
        ack_of (IntReg.DIEPINT ep) g USB_OTG_DIEPINT_ITTXFE ++
        ack_of (IntReg.DIEPINT ep) g USB_OTG_DIEPINT_TOC ++
        ack_of (IntReg.DIEPINT ep) g (1 <<< 2) ++
        ack_of (IntReg.DIEPINT ep) g USB_OTG_DIEPINT_EPDISD) := by
  unfold iepint_acks
  simp only [ack_DIEPINT_writes, List.append_assoc]

theorem iepint_xfrc_writes (e : Nat) (u : Sys) :
    (iepint_xfrc e u).int_writes =
      u.int_writes ++ [(IntReg.DIEPINT e, USB_OTG_DIEPINT_XFRC)] := by
  have h1 := (tx_load_next_records e
    (tx_release_current e (write_DIEPINT e USB_OTG_DIEPINT_XFRC u))).1
  have h2 := (tx_release_current_records e (write_DIEPINT e USB_OTG_DIEPINT_XFRC u)).1
  unfold iepint_xfrc
  by_cases h0 : e = 0
  · simp only [if_pos h0]
    exact h1.trans (h2.trans rfl)
  · simp only [if_neg h0]
    exact h1.trans (h2.trans rfl)

theorem handle_iepintx_writes (s : Sys) (e : Nat)
    (hI : FLD2VAL USB_OTG_DAINT_IEPINT_Pos USB_OTG_DAINT_IEPINT_Msk s.DAINT ≠ 0)
    (he : builtin_ctz (FLD2VAL USB_OTG_DAINT_IEPINT_Pos USB_OTG_DAINT_IEPINT_Msk s.DAINT) = e) :
    (handle_iepintx s).2.int_writes =
      s.int_writes ++ iepint_ack_list e (s.d.regs.DIEPINT e) := by
  rw [handle_iepintx_eq s e hI he]
  unfold iepint_ack_list
  by_cases hx : (s.d.regs.DIEPINT e &&& USB_OTG_DIEPINT_XFRC) ≠ 0
  · have hl : ack_of (IntReg.DIEPINT e) (s.d.regs.DIEPINT e) USB_OTG_DIEPINT_XFRC =
        [(IntReg.DIEPINT e, USB_OTG_DIEPINT_XFRC)] := by
      unfold ack_of
      rw [if_pos hx]
    simp only [if_pos hx]
    rw [iepint_xfrc_writes, iepint_acks_writes, hl]
    simp only [List.append_assoc]
  · have hl : ack_of (IntReg.DIEPINT e) (s.d.regs.DIEPINT e) USB_OTG_DIEPINT_XFRC = [] := by
      unfold ack_of
      rw [if_neg hx]
    simp only [if_neg hx]
    rw [iepint_acks_writes, hl, List.append_nil]

/-- Without transfer complete pending, `handle_iepintx` leaves the transmit
pools, the IN control registers, the transmit FIFOs and the callback alone. -/
theorem handle_iepintx_idle (s : Sys) (e : Nat)
    (hI : FLD2VAL USB_OTG_DAINT_IEPINT_Pos USB_OTG_DAINT_IEPINT_Msk s.DAINT ≠ 0)
    (he : builtin_ctz (FLD2VAL USB_OTG_DAINT_IEPINT_Pos USB_OTG_DAINT_IEPINT_Msk s.DAINT) = e)
    (hx : ¬ (s.d.regs.DIEPINT e &&& USB_OTG_DIEPINT_XFRC) ≠ 0) :
    (handle_iepintx s).2.m_tx_buffer = s.m_tx_buffer ∧
    (handle_iepintx s).2.d.regs.DIEPCTL = s.d.regs.DIEPCTL ∧
    (handle_iepintx s).2.tx_fifo = s.tx_fifo ∧
    (handle_iepintx s).2.events = s.events := by
  rw [handle_iepintx_no_xfrc s e hI he hx]
  obtain ⟨di, iw, h⟩ := iepint_acks_state (s.d.regs.DIEPINT e) e s
  rw [h]
  exact ⟨rfl, rfl, rfl, rfl⟩

theorem tx_load_next_slot (e : Nat) (u : Sys) (B : Buffer) (rest : List Buffer)
    (hq : (u.m_tx_buffer e).queue = B :: rest) :
    get_buffer (tx_load_next e u).m_tx_buffer e = some B ∧
    ((tx_load_next e u).m_tx_buffer e).queue = rest := by
  have hd : poll_dequeue_buffer u.m_tx_buffer e =
      (some B, setPool u.m_tx_buffer e { u.m_tx_buffer e with queue := rest }) := by
    unfold poll_dequeue_buffer; rw [hq]
  unfold tx_load_next
  simp only [hd]
  rw [(ep_write_keeps _ _ _ _).1]
  simp [set_buffer, setPool, get_buffer]

theorem iepint_xfrc_slot (e : Nat) (u : Sys) (B : Buffer) (rest : List Buffer)
    (hq : (u.m_tx_buffer e).queue = B :: rest) :
    get_buffer (iepint_xfrc e u).m_tx_buffer e = some B ∧
    ((iepint_xfrc e u).m_tx_buffer e).queue = rest := by
  have hr := (tx_release_current_spec e (write_DIEPINT e USB_OTG_DIEPINT_XFRC u)).2.1
  have h := tx_load_next_slot e (tx_release_current e (write_DIEPINT e USB_OTG_DIEPINT_XFRC u))
    B rest (hr.trans hq)
  unfold iepint_xfrc
  by_cases h0 : e = 0
  · simp only [if_pos h0]
    exact h
  · simp only [if_neg h0]
    exact h

/-- With transfer complete pending, `handle_iepintx` releases the loaded buffer
of the serviced endpoint, loads the next pending one or empties the slot and
sets `SNAK`, and calls the callback for endpoint 0. -/
theorem handle_iepintx_complete (s : Sys) (e : Nat)
    (hI : FLD2VAL USB_OTG_DAINT_IEPINT_Pos USB_OTG_DAINT_IEPINT_Msk s.DAINT ≠ 0)
    (he : builtin_ctz (FLD2VAL USB_OTG_DAINT_IEPINT_Pos USB_OTG_DAINT_IEPINT_Msk s.DAINT) = e)
    (hx : (s.d.regs.DIEPINT e &&& USB_OTG_DIEPINT_XFRC) ≠ 0) :
    ((handle_iepintx s).2.m_tx_buffer e).free =
      (s.m_tx_buffer e).free ++ (get_buffer s.m_tx_buffer e).toList ∧
    ((s.m_tx_buffer e).queue = [] →
      get_buffer (handle_iepintx s).2.m_tx_buffer e = none ∧
      (handle_iepintx s).2.d.regs.DIEPCTL e = s.d.regs.DIEPCTL e ||| USB_OTG_DOEPCTL_SNAK) ∧
    (∀ B rest, (s.m_tx_buffer e).queue = B :: rest →
      get_buffer (handle_iepintx s).2.m_tx_buffer e = some B ∧
      ((handle_iepintx s).2.m_tx_buffer e).queue = rest) ∧
    (handle_iepintx s).2.events =
      s.events ++ (if e = 0 then [(USB_EVENTS.EP_TX, 0x80)] else []) := by
  rw [handle_iepintx_xfrc s e hI he hx]
  obtain ⟨di, iw, hacks⟩ := iepint_acks_state (s.d.regs.DIEPINT e) e s
  rw [hacks]
  obtain ⟨a1, a2, a3⟩ := iepint_xfrc_spec e
    { s.setRegs { s.d.regs with DIEPINT := di } with int_writes := iw }
  exact ⟨a1, a2, fun B rest hq => iepint_xfrc_slot e _ B rest hq, a3⟩

theorem ack_DOEPINT_writes (g ep bit : Nat) (s : Sys) :
    (ack_DOEPINT g ep bit s).int_writes = s.int_writes ++ ack_of (IntReg.DOEPINT ep) g bit := by
  unfold ack_DOEPINT ack_of
  by_cases h : (g &&& bit) ≠ 0
  · simp only [if_pos h]
    rfl
  · simp only [if_neg h, List.append_nil]

theorem ack_emit_DOEPINT_writes (g ep bit : Nat) (ev : USB_EVENTS) (s : Sys) :
    (ack_emit_DOEPINT g ep bit ev s).int_writes =
      s.int_writes ++ ack_of (IntReg.DOEPINT ep) g bit := by
  unfold ack_emit_DOEPINT ack_of
  by_cases h : (g &&& bit) ≠ 0
  · simp only [if_pos h]
    rfl
  · simp only [if_neg h, List.append_nil]

theorem oepint_acks_writes (g ep : Nat) (s : Sys) :
    (oepint_acks g ep s).int_writes =
      s.int_writes ++
        (ack_of (IntReg.DOEPINT ep) g (1 <<< 15) ++
        ack_of (IntReg.DOEPINT ep) g USB_OTG_DOEPINT_NYET ++
        ack_of (IntReg.DOEPINT ep) g (1 <<< 13) ++
        ack_of (IntReg.DOEPINT ep) g (1 <<< 12) ++
        ack_of (IntReg.DOEPINT ep) g (1 <<< 8) ++
        ack_of (IntReg.DOEPINT ep) g USB_OTG_DOEPINT_B2BSTUP ++
        ack_of (IntReg.DOEPINT ep) g USB_OTG_DOEPINT_OTEPSPR ++
        ack_of (IntReg.DOEPINT ep) g USB_OTG_DOEPINT_OTEPDIS ++
        ack_of (IntReg.DOEPINT ep) g USB_OTG_DOEPINT_STUP ++
        ack_of (IntReg.DOEPINT ep) g (1 <<< 2) ++
        ack_of (IntReg.DOEPINT ep) g USB_OTG_DOEPINT_EPDISD) := by
  unfold oepint_acks
  simp only [ack_DOEPINT_writes, ack_emit_DOEPINT_writes, List.append_assoc]

theorem handle_oepintx_writes (s : Sys) (e : Nat)
    (hO : FLD2VAL USB_OTG_DAINT_OEPINT_Pos USB_OTG_DAINT_OEPINT_Msk s.DAINT ≠ 0)
    (he : builtin_ctz (FLD2VAL USB_OTG_DAINT_OEPINT_Pos USB_OTG_DAINT_OEPINT_Msk s.DAINT) = e) :
    (handle_oepintx s).2.int_writes =
      s.int_writes ++ oepint_ack_list e (s.d.regs.DOEPINT e) := by
  rw [handle_oepintx_eq s e hO he]
  unfold oepint_ack_list
  by_cases hx : (s.d.regs.DOEPINT e &&& USB_OTG_DOEPINT_XFRC) ≠ 0
  · have hl : ack_of (IntReg.DOEPINT e) (s.d.regs.DOEPINT e) USB_OTG_DOEPINT_XFRC =
        [(IntReg.DOEPINT e, USB_OTG_DOEPINT_XFRC)] := by
      unfold ack_of
      rw [if_pos hx]
    have hw : (write_DOEPINT e USB_OTG_DOEPINT_XFRC
        (oepint_acks (s.d.regs.DOEPINT e) e s)).int_writes =
        (oepint_acks (s.d.regs.DOEPINT e) e s).int_writes ++
          [(IntReg.DOEPINT e, USB_OTG_DOEPINT_XFRC)] := rfl
    by_cases h0 : e = 0
    · simp only [if_pos hx, if_pos h0]
      show (write_DOEPINT e USB_OTG_DOEPINT_XFRC
        (oepint_acks (s.d.regs.DOEPINT e) e s)).int_writes = _
      rw [hw, oepint_acks_writes, hl]
      simp only [List.append_assoc]
    · simp only [if_pos hx, if_neg h0]
      rw [hw, oepint_acks_writes, hl]
      simp only [List.append_assoc]
  · have hl : ack_of (IntReg.DOEPINT e) (s.d.regs.DOEPINT e) USB_OTG_DOEPINT_XFRC = [] := by
      unfold ack_of
      rw [if_neg hx]
    simp only [if_neg hx]
    rw [oepint_acks_writes, hl, List.append_nil]

theorem handle_oepintx_events_list (s : Sys) (e : Nat)
    (hO : FLD2VAL USB_OTG_DAINT_OEPINT_Pos USB_OTG_DAINT_OEPINT_Msk s.DAINT ≠ 0)
    (he : builtin_ctz (FLD2VAL USB_OTG_DAINT_OEPINT_Pos USB_OTG_DAINT_OEPINT_Msk s.DAINT) = e) :
    (handle_oepintx s).2.events =
      s.events ++
        (if (s.d.regs.DOEPINT e &&& USB_OTG_DOEPINT_OTEPSPR) ≠ 0
          then [(USB_EVENTS.CTRL_DATA_PHASE_DONE, e)] else []) ++
        (if (s.d.regs.DOEPINT e &&& USB_OTG_DOEPINT_STUP) ≠ 0
          then [(USB_EVENTS.CTRL_SETUP_PHASE_DONE, e)] else []) ++
        (if (s.d.regs.DOEPINT e &&& USB_OTG_DOEPINT_XFRC) ≠ 0 ∧ e = 0
          then [(USB_EVENTS.EP_RX, e)] else []) := by
  rw [handle_oepintx_eq s e hO he]
  by_cases hx : (s.d.regs.DOEPINT e &&& USB_OTG_DOEPINT_XFRC) ≠ 0
  · by_cases h0 : e = 0
    · have hc : (s.d.regs.DOEPINT e &&& USB_OTG_DOEPINT_XFRC) ≠ 0 ∧ e = 0 := ⟨hx, h0⟩
      simp only [if_pos hx, if_pos h0, if_pos hc]
      show (oepint_acks (s.d.regs.DOEPINT e) e s).events ++ [(USB_EVENTS.EP_RX, e)] = _
      rw [oepint_acks_events]
    · have hc : ¬ ((s.d.regs.DOEPINT e &&& USB_OTG_DOEPINT_XFRC) ≠ 0 ∧ e = 0) := fun h => h0 h.2
      simp only [if_pos hx, if_neg h0, if_neg hc, List.append_nil]
      show (oepint_acks (s.d.regs.DOEPINT e) e s).events = _
      rw [oepint_acks_events]
  · have hc : ¬ ((s.d.regs.DOEPINT e &&& USB_OTG_DOEPINT_XFRC) ≠ 0 ∧ e = 0) := fun h => hx h.1
    simp only [if_neg hx, if_neg hc, List.append_nil]
    exact oepint_acks_events _ _ _

/-- C25: with a zero aggregate, `handle_iepintx` and `handle_oepintx` return
`true` and change nothing.  With a non-zero aggregate the endpoint serviced is
`e = __builtin_ctz` of it, the index of its least significant set bit, whatever
other bits are set, and the call returns `true`.

Endpoint `e` is serviced.  `handle_iepintx` reads `DIEPINT[e]` and writes to
`DIEPINT[e]`, one bit at a time and in the order of the source, exactly the
conditions set in the value read.  If transfer complete is among them it
releases the loaded buffer of `e` to the free buffers of `e`, makes the next
pending buffer of `e` the loaded one, or, with nothing pending, empties the
slot of `e` and sets `SNAK` in `DIEPCTL[e]`, and calls the callback with
`(EP_TX, 0x80)` if `e = 0`; otherwise it leaves the pools, the control
registers, the FIFOs and the callback alone.  `handle_oepintx` reads
`DOEPINT[e]`, writes to `DOEPINT[e]` exactly the conditions set in the value
read, and calls the callback for status phase, setup done and (on endpoint 0)
transfer complete on `e`; it writes no control register and no buffer slot.

No other endpoint is touched.  For every endpoint `j` other than `e` the
interrupt register, the control register and the pool part with its buffer
slot are after the call what they were before, and replacing them by any other
values before the call changes nothing in what the call does (it yields the
same state with the same replacement): the handler neither reads nor writes
them. -/
theorem C25_lowest_endpoint_only (s : Sys) :
    (FLD2VAL USB_OTG_DAINT_IEPINT_Pos USB_OTG_DAINT_IEPINT_Msk s.DAINT = 0 →
      handle_iepintx s = (true, s)) ∧
    (FLD2VAL USB_OTG_DAINT_OEPINT_Pos USB_OTG_DAINT_OEPINT_Msk s.DAINT = 0 →
      handle_oepintx s = (true, s)) ∧
    (FLD2VAL USB_OTG_DAINT_IEPINT_Pos USB_OTG_DAINT_IEPINT_Msk s.DAINT ≠ 0 →
      (FLD2VAL USB_OTG_DAINT_IEPINT_Pos USB_OTG_DAINT_IEPINT_Msk s.DAINT).testBit
        (builtin_ctz (FLD2VAL USB_OTG_DAINT_IEPINT_Pos USB_OTG_DAINT_IEPINT_Msk s.DAINT)) = true ∧
      (∀ j, j < builtin_ctz (FLD2VAL USB_OTG_DAINT_IEPINT_Pos USB_OTG_DAINT_IEPINT_Msk s.DAINT) →
        (FLD2VAL USB_OTG_DAINT_IEPINT_Pos USB_OTG_DAINT_IEPINT_Msk s.DAINT).testBit j = false) ∧
      (handle_iepintx s).1 = true ∧
      (∀ j, j ≠ builtin_ctz (FLD2VAL USB_OTG_DAINT_IEPINT_Pos USB_OTG_DAINT_IEPINT_Msk s.DAINT) →
        (handle_iepintx s).2.d.regs.DIEPINT j = s.d.regs.DIEPINT j ∧
        (handle_iepintx s).2.d.regs.DIEPCTL j = s.d.regs.DIEPCTL j ∧
        (handle_iepintx s).2.m_tx_buffer j = s.m_tx_buffer j ∧
        ∀ di ctl p, handle_iepintx (with_in_endpoint j di ctl p s) =
          (true, with_in_endpoint j di ctl p (handle_iepintx s).2)) ∧
      (∀ e, e = builtin_ctz (FLD2VAL USB_OTG_DAINT_IEPINT_Pos USB_OTG_DAINT_IEPINT_Msk s.DAINT) →
        (handle_iepintx s).2.int_writes =
          s.int_writes ++ iepint_ack_list e (s.d.regs.DIEPINT e) ∧
        ((s.d.regs.DIEPINT e &&& USB_OTG_DIEPINT_XFRC) = 0 →
          (handle_iepintx s).2.m_tx_buffer = s.m_tx_buffer ∧
          (handle_iepintx s).2.d.regs.DIEPCTL = s.d.regs.DIEPCTL ∧
          (handle_iepintx s).2.tx_fifo = s.tx_fifo ∧
          (handle_iepintx s).2.events = s.events) ∧
        ((s.d.regs.DIEPINT e &&& USB_OTG_DIEPINT_XFRC) ≠ 0 →
          ((handle_iepintx s).2.m_tx_buffer e).free =
            (s.m_tx_buffer e).free ++ (get_buffer s.m_tx_buffer e).toList ∧
          ((s.m_tx_buffer e).queue = [] →
            get_buffer (handle_iepintx s).2.m_tx_buffer e = none ∧
            (handle_iepintx s).2.d.regs.DIEPCTL e =
              s.d.regs.DIEPCTL e ||| USB_OTG_DOEPCTL_SNAK) ∧
          (∀ B rest, (s.m_tx_buffer e).queue = B :: rest →
            get_buffer (handle_iepintx s).2.m_tx_buffer e = some B ∧
            ((handle_iepintx s).2.m_tx_buffer e).queue = rest) ∧
          (handle_iepintx s).2.events =
            s.events ++ (if e = 0 then [(USB_EVENTS.EP_TX, 0x80)] else [])))) ∧
    (FLD2VAL USB_OTG_DAINT_OEPINT_Pos USB_OTG_DAINT_OEPINT_Msk s.DAINT ≠ 0 →
      (FLD2VAL USB_OTG_DAINT_OEPINT_Pos USB_OTG_DAINT_OEPINT_Msk s.DAINT).testBit
        (builtin_ctz (FLD2VAL USB_OTG_DAINT_OEPINT_Pos USB_OTG_DAINT_OEPINT_Msk s.DAINT)) = true ∧
      (∀ j, j < builtin_ctz (FLD2VAL USB_OTG_DAINT_OEPINT_Pos USB_OTG_DAINT_OEPINT_Msk s.DAINT) →
        (FLD2VAL USB_OTG_DAINT_OEPINT_Pos USB_OTG_DAINT_OEPINT_Msk s.DAINT).testBit j = false) ∧
      (handle_oepintx s).1 = true ∧
      (∀ j, j ≠ builtin_ctz (FLD2VAL USB_OTG_DAINT_OEPINT_Pos USB_OTG_DAINT_OEPINT_Msk s.DAINT) →
        (handle_oepintx s).2.d.regs.DOEPINT j = s.d.regs.DOEPINT j ∧
        (handle_oepintx s).2.d.regs.DOEPCTL j = s.d.regs.DOEPCTL j ∧
        (handle_oepintx s).2.m_rx_buffer j = s.m_rx_buffer j ∧
        (handle_oepintx s).2.m_ep0_buffer j = s.m_ep0_buffer j ∧
        ∀ doi ctl p p0, handle_oepintx (with_out_endpoint j doi ctl p p0 s) =
          (true, with_out_endpoint j doi ctl p p0 (handle_oepintx s).2)) ∧
      (∀ e, e = builtin_ctz (FLD2VAL USB_OTG_DAINT_OEPINT_Pos USB_OTG_DAINT_OEPINT_Msk s.DAINT) →
        (handle_oepintx s).2.int_writes =
          s.int_writes ++ oepint_ack_list e (s.d.regs.DOEPINT e) ∧
        (handle_oepintx s).2.events =
          s.events ++
            (if (s.d.regs.DOEPINT e &&& USB_OTG_DOEPINT_OTEPSPR) ≠ 0
              then [(USB_EVENTS.CTRL_DATA_PHASE_DONE, e)] else []) ++
            (if (s.d.regs.DOEPINT e &&& USB_OTG_DOEPINT_STUP) ≠ 0
              then [(USB_EVENTS.CTRL_SETUP_PHASE_DONE, e)] else []) ++
            (if (s.d.regs.DOEPINT e &&& USB_OTG_DOEPINT_XFRC) ≠ 0 ∧ e = 0
              then [(USB_EVENTS.EP_RX, e)] else []) ∧
        (handle_oepintx s).2.d.regs.DOEPCTL = s.d.regs.DOEPCTL ∧
        (handle_oepintx s).2.m_rx_buffer = s.m_rx_buffer ∧
        (handle_oepintx s).2.m_ep0_buffer = s.m_ep0_buffer)) := by
  refine ⟨handle_iepintx_zero s, handle_oepintx_zero s, fun hI => ?_, fun hO => ?_⟩
  · obtain ⟨c1, c2⟩ := builtin_ctz_spec _ hI
      (Nat.lt_of_lt_of_le (iepint_field_lt s.DAINT) (by decide))
    refine ⟨c1, c2, by rw [handle_iepintx_eq s _ hI rfl], fun j hj => ?_, fun e he => ?_⟩
    · have hc := fun di ctl p => handle_iepintx_comm s _ j di ctl p hI rfl hj
      have hself := hc (s.d.regs.DIEPINT j) (s.d.regs.DIEPCTL j) (s.m_tx_buffer j)
      rw [with_in_endpoint_self] at hself
      have h2 : (handle_iepintx s).2 = with_in_endpoint j (s.d.regs.DIEPINT j)
          (s.d.regs.DIEPCTL j) (s.m_tx_buffer j) (handle_iepintx s).2 :=
        congrArg Prod.snd hself
      obtain ⟨a1, a2, a3⟩ := with_in_endpoint_at j (s.d.regs.DIEPINT j) (s.d.regs.DIEPCTL j)
        (s.m_tx_buffer j) (handle_iepintx s).2
      rw [← h2] at a1 a2 a3
      exact ⟨a1, a2, a3, hc⟩
    · exact ⟨handle_iepintx_writes s e hI he.symm,
        fun hx => handle_iepintx_idle s e hI he.symm (fun h => h hx),
        fun hx => handle_iepintx_complete s e hI he.symm hx⟩
  · obtain ⟨c1, c2⟩ := builtin_ctz_spec _ hO
      (Nat.lt_of_lt_of_le (oepint_field_lt s.DAINT) (by decide))
    refine ⟨c1, c2, by rw [handle_oepintx_eq s _ hO rfl], fun j hj => ?_, fun e he => ?_⟩
    · have hc := fun doi ctl p p0 => handle_oepintx_comm s _ j doi ctl p p0 hO rfl hj
      have hself := hc (s.d.regs.DOEPINT j) (s.d.regs.DOEPCTL j) (s.m_rx_buffer j)
        (s.m_ep0_buffer j)
      rw [with_out_endpoint_self] at hself
      have h2 : (handle_oepintx s).2 = with_out_endpoint j (s.d.regs.DOEPINT j)
          (s.d.regs.DOEPCTL j) (s.m_rx_buffer j) (s.m_ep0_buffer j) (handle_oepintx s).2 :=
        congrArg Prod.snd hself
      obtain ⟨a1, a2, a3, a4⟩ := with_out_endpoint_at j (s.d.regs.DOEPINT j) (s.d.regs.DOEPCTL j)
        (s.m_rx_buffer j) (s.m_ep0_buffer j) (handle_oepintx s).2
      rw [← h2] at a1 a2 a3 a4
      exact ⟨a1, a2, a3, a4, hc⟩
    · obtain ⟨f1, f2, _, _, f5, _, _⟩ := rx_frame_handle_oepintx s
      exact ⟨handle_oepintx_writes s e hO he.symm, handle_oepintx_events_list s e hO he.symm,
        f5, f1, f2⟩

/-- C25 with IN endpoints 1 and 3 and OUT endpoints 1 and 3 flagged at once.
`handle_iepintx` services IN endpoint 1: it acknowledges `NAK` and `XFRC` in
`DIEPINT[1]`, frees the loaded buffer 3 and loads the pending buffer `B`; IN
endpoint 3 is left exactly as it was.  `handle_oepintx` services OUT endpoint
1: it acknowledges `OTEPSPR`, `STUP` and `XFRC` in `DOEPINT[1]` and delivers
the two control events; OUT endpoint 3 is left exactly as it was. -/
theorem C25_lowest_endpoint_only_witness :
    (builtin_ctz (FLD2VAL USB_OTG_DAINT_IEPINT_Pos USB_OTG_DAINT_IEPINT_Msk
        two_irq_start.DAINT) = 1 ∧
      ((handle_iepintx two_irq_start).2.int_writes =
          two_irq_start.int_writes ++ iepint_ack_list 1 (two_irq_start.d.regs.DIEPINT 1) ∧
        iepint_ack_list 1 (two_irq_start.d.regs.DIEPINT 1) =
          [(IntReg.DIEPINT 1, 0x2000), (IntReg.DIEPINT 1, 0x1)]) ∧
      (((handle_iepintx two_irq_start).2.m_tx_buffer 1).free =
          (two_irq_start.m_tx_buffer 1).free ++ [Buffer.mk 3 [7]] ∧
        get_buffer (handle_iepintx two_irq_start).2.m_tx_buffer 1 = some buffer_B ∧
        ((handle_iepintx two_irq_start).2.m_tx_buffer 1).queue = []) ∧
      ((handle_iepintx two_irq_start).2.d.regs.DIEPINT 3 = two_irq_start.d.regs.DIEPINT 3 ∧
        (handle_iepintx two_irq_start).2.d.regs.DIEPCTL 3 = two_irq_start.d.regs.DIEPCTL 3 ∧
        (handle_iepintx two_irq_start).2.m_tx_buffer 3 = two_irq_start.m_tx_buffer 3 ∧
        ∀ di ctl p, handle_iepintx (with_in_endpoint 3 di ctl p two_irq_start) =
          (true, with_in_endpoint 3 di ctl p (handle_iepintx two_irq_start).2))) ∧
    (builtin_ctz (FLD2VAL USB_OTG_DAINT_OEPINT_Pos USB_OTG_DAINT_OEPINT_Msk
        two_irq_start.DAINT) = 1 ∧
      ((handle_oepintx two_irq_start).2.int_writes =
          two_irq_start.int_writes ++ oepint_ack_list 1 (two_irq_start.d.regs.DOEPINT 1) ∧
        oepint_ack_list 1 (two_irq_start.d.regs.DOEPINT 1) =
          [(IntReg.DOEPINT 1, 0x20), (IntReg.DOEPINT 1, 0x8), (IntReg.DOEPINT 1, 0x1)]) ∧
      (handle_oepintx two_irq_start).2.events =
        [(USB_EVENTS.CTRL_DATA_PHASE_DONE, 1), (USB_EVENTS.CTRL_SETUP_PHASE_DONE, 1)] ∧
      ((handle_oepintx two_irq_start).2.d.regs.DOEPINT 3 = two_irq_start.d.regs.DOEPINT 3 ∧
        (handle_oepintx two_irq_start).2.d.regs.DOEPCTL 3 = two_irq_start.d.regs.DOEPCTL 3 ∧
        (handle_oepintx two_irq_start).2.m_rx_buffer 3 = two_irq_start.m_rx_buffer 3 ∧
        (handle_oepintx two_irq_start).2.m_ep0_buffer 3 = two_irq_start.m_ep0_buffer 3 ∧
        ∀ doi ctl p p0, handle_oepintx (with_out_endpoint 3 doi ctl p p0 two_irq_start) =
          (true, with_out_endpoint 3 doi ctl p p0 (handle_oepintx two_irq_start).2))) :=
  ⟨⟨by decide,
    ⟨(((C25_lowest_endpoint_only two_irq_start).2.2.1 (by decide)).2.2.2.2 1 (by decide)).1,
      by decide⟩,
    ⟨((((C25_lowest_endpoint_only two_irq_start).2.2.1 (by decide)).2.2.2.2 1
        (by decide)).2.2 (by decide)).1,
      (((((C25_lowest_endpoint_only two_irq_start).2.2.1 (by decide)).2.2.2.2 1
        (by decide)).2.2 (by decide)).2.2.1 buffer_B [] (by decide)).1,
      (((((C25_lowest_endpoint_only two_irq_start).2.2.1 (by decide)).2.2.2.2 1
        (by decide)).2.2 (by decide)).2.2.1 buffer_B [] (by decide)).2⟩,
    ((C25_lowest_endpoint_only two_irq_start).2.2.1 (by decide)).2.2.2.1 3 (by decide)⟩,
   ⟨by decide,
    ⟨(((C25_lowest_endpoint_only two_irq_start).2.2.2 (by decide)).2.2.2.2 1 (by decide)).1,
      by decide⟩,
    by decide,
    ((C25_lowest_endpoint_only two_irq_start).2.2.2 (by decide)).2.2.2.1 3 (by decide)⟩⟩

end stm32_h7xx_otghs2

namespace Configuration_descriptor

/-! ## Serialisation of the configuration descriptor -/

theorem make_u16_get (w : Nat) (hw : w < 65536) :
    stm32_h7xx_otghs2.make_u16 (stm32_h7xx_otghs2.get_b1 w) (stm32_h7xx_otghs2.get_b0 w) = w := by
  unfold stm32_h7xx_otghs2.make_u16 stm32_h7xx_otghs2.get_b1 stm32_h7xx_otghs2.get_b0
  have h1 : (0xFF : Nat) = 2 ^ 8 - 1 := by decide
  rw [h1, Nat.and_pow_two_sub_one_eq_mod, Nat.and_pow_two_sub_one_eq_mod, Nat.shiftRight_eq_div_pow,
    Nat.shiftLeft_eq]
  have h2 : w / 2 ^ 8 % 2 ^ 8 % 256 * 2 ^ 8 ||| w % 2 ^ 8 % 256 =
      w / 2 ^ 8 % 2 ^ 8 % 256 * 2 ^ 8 + w % 2 ^ 8 % 256 := by
    rw [Nat.mul_comm]
    exact (Nat.mul_add_lt_is_or (by omega) _).symm
  rw [h2]
  omega

theorem serialize_bytes (d : Configuration_descriptor) (a0 : Nat → Nat) :
    (d.serialize a0).1 = true ∧
    (d.serialize a0).2 0 = d.bLength ∧
    (d.serialize a0).2 1 = d.bDescriptorType ∧
    (d.serialize a0).2 2 = stm32_h7xx_otghs2.get_b0 d.wTotalLength ∧
    (d.serialize a0).2 3 = stm32_h7xx_otghs2.get_b1 d.wTotalLength ∧
    (d.serialize a0).2 4 = d.bNumInterfaces ∧
    (d.serialize a0).2 5 = d.bConfigurationValue ∧
    (d.serialize a0).2 6 = d.iConfiguration ∧
    (d.serialize a0).2 7 = d.bmAttributes ∧
    (d.serialize a0).2 8 = d.bMaxPower ∧
    ∀ j, 9 ≤ j → (d.serialize a0).2 j = a0 j := by
  refine ⟨rfl, rfl, rfl, rfl, rfl, rfl, rfl, rfl, rfl, rfl, fun j hj => ?_⟩
  simp only [serialize, stm32_h7xx_otghs2.setByte]
  have h : ∀ k, k < 9 → j ≠ k := fun k hk => by omega
  simp only [h 0 (by decide), h 1 (by decide), h 2 (by decide), h 3 (by decide), h 4 (by decide),
    h 5 (by decide), h 6 (by decide), h 7 (by decide), h 8 (by decide), if_false]

theorem get_b0_b1_le (w : Nat) (hw : w < 65536) :
    stm32_h7xx_otghs2.get_b0 w = w % 256 ∧ stm32_h7xx_otghs2.get_b1 w = w / 256 := by
  unfold stm32_h7xx_otghs2.get_b1 stm32_h7xx_otghs2.get_b0
  have h1 : (0xFF : Nat) = 2 ^ 8 - 1 := by decide
  rw [h1, Nat.and_pow_two_sub_one_eq_mod, Nat.and_pow_two_sub_one_eq_mod,
    Nat.shiftRight_eq_div_pow]
  constructor
  · norm_num
  · have : w / 2 ^ 8 < 2 ^ 8 := by omega
    exact Nat.mod_eq_of_lt this

/-- C28: serialisation of a configuration descriptor round-trips and rejects
atomically.  For every descriptor `d` (with its 16-bit `wTotalLength`),
`serialize` returns `true` and stores `wTotalLength` little-endian in bytes 2
and 3; `deserialize` of that array, on an object `o` whose `bLength` and
`bDescriptorType` equal those of `d`, returns `true` and leaves the object
equal to `d` in every field.  On any array, `deserialize` returns `false`
exactly when `array[0]` differs from the object's `bLength` or `array[1]` from
its `bDescriptorType`, and then the object is unchanged. -/
theorem C28_descriptor_roundtrip (d o : Configuration_descriptor) (a0 array : Nat → Nat)
    (hw : d.wTotalLength < 65536) (hL : o.bLength = d.bLength)
    (hT : o.bDescriptorType = d.bDescriptorType) :
    (d.serialize a0).1 = true ∧
    (d.serialize a0).2 2 = d.wTotalLength % 256 ∧
    (d.serialize a0).2 3 = d.wTotalLength / 256 ∧
    o.deserialize (d.serialize a0).2 = (true, d) ∧
    ((o.deserialize array).1 = false ↔
      (array 0 ≠ o.bLength ∨ array 1 ≠ o.bDescriptorType)) ∧
    ((o.deserialize array).1 = false → (o.deserialize array).2 = o) := by
  obtain ⟨s0, s1, s2, s3, s4, s5, s6, s7, s8, s9, _⟩ := serialize_bytes d a0
  obtain ⟨g0, g1⟩ := get_b0_b1_le d.wTotalLength hw
  refine ⟨s0, s3.trans g0, s4.trans g1, ?_, ?_, ?_⟩
  · unfold deserialize
    rw [s1, s2, s3, s4, s5, s6, s7, s8, s9, if_neg (by rw [hL]; exact fun h => h rfl),
      if_neg (by rw [hT]; exact fun h => h rfl), make_u16_get _ hw]
    cases d
    cases o
    simp only [mk.injEq] at hL hT ⊢
    simp_all
  · unfold deserialize
    by_cases h0 : o.bLength = array 0
    · by_cases h1 : o.bDescriptorType = array 1
      · rw [if_neg (fun h => h h0), if_neg (fun h => h h1)]
        simp [h0.symm, h1.symm]
      · rw [if_neg (fun h => h h0), if_pos h1]
        exact ⟨fun _ => Or.inr (fun h => h1 h.symm), fun _ => rfl⟩
    · rw [if_pos h0]
      exact ⟨fun _ => Or.inl (fun h => h0 h.symm), fun _ => rfl⟩
  · unfold deserialize
    split_ifs <;> simp

/-- C28 on the sample descriptor (total length 0x0143: bytes 0x43, 0x01),
deserialised into an object that holds only the length and type bytes; and a
rejection of an array whose type byte is 4. -/
theorem C28_descriptor_roundtrip_witness :
    (sample.serialize (fun _ => 0)).1 = true ∧
    (sample.serialize (fun _ => 0)).2 2 = 0x43 ∧
    (sample.serialize (fun _ => 0)).2 3 = 0x01 ∧
    deserialize
        { bLength := 9, bDescriptorType := 2, wTotalLength := 0, bNumInterfaces := 0,
          bConfigurationValue := 0, iConfiguration := 0, bmAttributes := 0, bMaxPower := 0 }
        (sample.serialize (fun _ => 0)).2 = (true, sample) ∧
    (deserialize
        { bLength := 9, bDescriptorType := 2, wTotalLength := 0, bNumInterfaces := 0,
          bConfigurationValue := 0, iConfiguration := 0, bmAttributes := 0, bMaxPower := 0 }
        (fun i => if i = 0 then 9 else 4)).1 = false ∧
    (deserialize
        { bLength := 9, bDescriptorType := 2, wTotalLength := 0, bNumInterfaces := 0,
          bConfigurationValue := 0, iConfiguration := 0, bmAttributes := 0, bMaxPower := 0 }
        (fun i => if i = 0 then 9 else 4)).2 =
      { bLength := 9, bDescriptorType := 2, wTotalLength := 0, bNumInterfaces := 0,
        bConfigurationValue := 0, iConfiguration := 0, bmAttributes := 0, bMaxPower := 0 } := by
  have h := C28_descriptor_roundtrip sample
    { bLength := 9, bDescriptorType := 2, wTotalLength := 0, bNumInterfaces := 0,
      bConfigurationValue := 0, iConfiguration := 0, bmAttributes := 0, bMaxPower := 0 }
    (fun _ => 0) (fun i => if i = 0 then 9 else 4) (by decide) rfl rfl
  exact ⟨h.1, h.2.1, h.2.2.1, h.2.2.2.1, h.2.2.2.2.1.2 (Or.inr (by decide)),
    h.2.2.2.2.2 (h.2.2.2.2.1.2 (Or.inr (by decide)))⟩

end Configuration_descriptor
